import Mathlib

/-!
direct_bt: GATT server database, server-side responders and client-side procedures

A shallow embedding of

* `DBGattServer.hpp`: `DBGattDesc`, `DBGattChar`, `DBGattService`, `DBGattServer`,
  `DBGattService::setHandles` and `DBGattServer::setServicesHandles`;
* `BTGattHandler.cpp`, server side: `validateConnected`, `send`, `applyWrite`, `hasHandle`,
  `replyWriteReq`, `replyReadReq`, `replyReadByGroupTypeReq`, `replyReadByTypeReq`,
  `replyFindInfoReq` and the dispatcher `replyAttPDUReq`;
* `BTGattHandler.cpp`, client side: the MTU exchange of the constructor with
  `exchangeMTUImpl`, `disconnect`, `sendWithReply`, `writeValue`, `readValue`,
  `discoverPrimaryServices`, `discoverDescriptors` and `readDescriptorValue`. The remote
  device is a function from the request written to its reply; the loops of the client run
  on fuel, and the theorems about them give a fuel for which they end;
* `BTGattHandler.cpp`, reader thread: what `l2capReaderThreadImpl` does with one received
  PDU, with the fan-out of notifications and indications to the listeners as a trace of
  events, and the constructor of `BTGattEnv`;
* `DBGattServer.hpp`: the three `operator==`; `ATTPDUTypes.cpp`: the class chosen by
  `AttPDUMsg::getSpecialized`.

Machine integers are natural numbers; where the source computes in `uint16_t`
the result is reduced modulo `2^16` explicitly.
-/

namespace direct_bt

/-! ## Data model -/

/-- Truncation of a value to `uint16_t`. -/
def u16 (n : Nat) : Nat := n % 65536

/-- The type `jau::uuid_t` of the external jaulib: a 16, 32 or 128 bit UUID. Its `operator==`
is equality of width and value. -/
inductive uuid_t where
  | uuid16 (v : Nat)
  | uuid32 (v : Nat)
  | uuid128 (v : Nat)
deriving DecidableEq, Repr

namespace uuid_t

/-- Method `uuid_t::getTypeSizeInt()`: the width of the UUID in bytes. -/
def getTypeSizeInt : uuid_t → Nat
  | uuid16 _ => 2
  | uuid32 _ => 4
  | uuid128 _ => 16

/-- The Bluetooth base UUID `00000000-0000-1000-8000-00805F9B34FB` as a number. -/
def BT_BASE_UUID : Nat := 0x0000000000001000800000805F9B34FB

/-- Expansion of a UUID to 128 bit on the Bluetooth base UUID (`uuid_t::toUUID128`): a 16 or
32 bit value replaces the leading 32 bits of the base. -/
def toUUID128 : uuid_t → Nat
  | uuid16 v => BT_BASE_UUID + v * 2 ^ 96
  | uuid32 v => BT_BASE_UUID + v * 2 ^ 96
  | uuid128 v => v

/-- Method `uuid_t::equivalent(o)`: equality across widths after expansion to 128 bit. -/
def equivalent (a b : uuid_t) : Bool := a.toUUID128 == b.toUUID128

end uuid_t

/-- Constant `GattAttributeType::PRIMARY_SERVICE` (declared in `GattNumbers.hpp`): 0x2800. -/
def PRIMARY_SERVICE : Nat := 0x2800

/-- Constant `GattAttributeType::SECONDARY_SERVICE` (declared in `GattNumbers.hpp`): 0x2801. -/
def SECONDARY_SERVICE : Nat := 0x2801

/-- Constant `BTGattDesc::TYPE_USER_DESC` (declared in `BTGattDesc.hpp`): the 16-bit UUID
0x2901 of the Characteristic User Description descriptor. -/
def TYPE_USER_DESC : uuid_t := .uuid16 0x2901

/-- Constant `BTGattDesc::TYPE_CCC_DESC` (declared in `BTGattDesc.hpp`): the 16-bit UUID
0x2902 of the Client Characteristic Configuration descriptor. -/
def TYPE_CCC_DESC : uuid_t := .uuid16 0x2902

/-- The byte buffer `jau::POctets` of the external jaulib: `data` is the owned memory, its
length the capacity; the first `size` bytes are the value. -/
structure POctets where
  data : List Nat
  size : Nat
deriving DecidableEq, Repr

namespace POctets

/-- Capacity of the buffer, `POctets::capacity()`. -/
def capacity (p : POctets) : Nat := p.data.length

/-- The value held by the buffer: its first `size` bytes. -/
def bytes (p : POctets) : List Nat := p.data.take p.size

/-- Method `POctets::resize(newSize)`: sets the size and keeps memory and capacity. The
library throws when `newSize` exceeds the capacity; the buffer is then left as it is. -/
def resize (p : POctets) (newSize : Nat) : POctets :=
  if p.capacity < newSize then p else { p with size := newSize }

/-- Method `put_octets_nc(i, v)`: copies `v` into the memory starting at index `i`. -/
def put_octets_nc (p : POctets) (i : Nat) (v : List Nat) : POctets :=
  { p with data := p.data.take i ++ v ++ p.data.drop (i + v.length) }

/-- Method `put_uint8_nc(i, v)`: stores one byte at index `i`. -/
def put_uint8_nc (p : POctets) (i : Nat) (v : Nat) : POctets :=
  { p with data := p.data.set i (v % 256) }

/-- Method `get_uint8_nc(i)`: the byte at index `i` of the memory. -/
def get_uint8_nc (p : POctets) (i : Nat) : Nat := p.data.getD i 0

/-- Buffer invariant of `jau::POctets`: the size never exceeds the capacity. -/
def WF (p : POctets) : Prop := p.size ≤ p.capacity

instance (p : POctets) : Decidable p.WF := by unfold WF; exact inferInstance

end POctets

/-- Class `DBGattDesc`. The members `handle`, `type` and `value` are those of
`DBGattServer.hpp`; `variable_length`, which `BTGattHandler::applyWrite` reads, is modelled
from the spec (descriptor `{handle, type, value, variable_length}`). -/
structure DBGattDesc where
  handle : Nat
  type : uuid_t
  value : POctets
  variable_length : Bool
deriving DecidableEq, Repr

namespace DBGattDesc

/-- Modelled from the spec: `DBGattDesc::isUserDescription()`, called by
`BTGattHandler::applyWrite` and not declared in `DBGattServer.hpp`; whether the descriptor is
a Characteristic User Description, written like `isClientCharConfig()`. -/
def isUserDescription (d : DBGattDesc) : Bool := decide (TYPE_USER_DESC = d.type)

/-- Method `DBGattDesc::isClientCharConfig()`. -/
def isClientCharConfig (d : DBGattDesc) : Bool := decide (TYPE_CCC_DESC = d.type)

end DBGattDesc

/-- Bit `BTGattChar::PropertyBitVal::Notify` (declared in `BTGattChar.hpp`): 0x10. -/
def PropertyBitVal.Notify : Nat := 0x10

/-- Bit `BTGattChar::PropertyBitVal::Indicate` (declared in `BTGattChar.hpp`): 0x20. -/
def PropertyBitVal.Indicate : Nat := 0x20

/-- Class `DBGattChar`. The member `variable_length`, which `BTGattHandler::applyWrite` reads,
is modelled from the spec (characteristic `{.., value, variable_length, ..}`). -/
structure DBGattChar where
  handle : Nat
  end_handle : Nat
  value_handle : Nat
  value_type : uuid_t
  properties : Nat
  descriptors : List DBGattDesc
  value : POctets
  variable_length : Bool
deriving DecidableEq, Repr

namespace DBGattChar

/-- Method `DBGattChar::hasProperties(v)`: `v == ( properties & v )`. -/
def hasProperties (c : DBGattChar) (v : Nat) : Bool := v == (c.properties &&& v)

end DBGattChar

/-- Class `DBGattService`. -/
structure DBGattService where
  primary : Bool
  handle : Nat
  end_handle : Nat
  type : uuid_t
  characteristics : List DBGattChar
deriving DecidableEq, Repr

/-- Modelled from the spec: the listener interface `DBGattServer::Listener`, whose callbacks
`BTGattHandler` invokes per attribute access and whose declaration is not part of
`DBGattServer.hpp`. A read or write callback is a function of the arguments the handler passes
to it; it yields `some b` when it returns `b` and `none` when it throws. The callback
`clientCharConfigChanged` returns nothing and is only recorded in the call trace. -/
structure Listener where
  readCharValue : DBGattService → DBGattChar → Option Bool
  readDescValue : DBGattService → DBGattChar → DBGattDesc → Option Bool
  writeCharValue : DBGattService → DBGattChar → List Nat → Nat → Option Bool
  writeDescValue : DBGattService → DBGattChar → DBGattDesc → List Nat → Nat → Option Bool

/-- Class `DBGattServer`: the list of services. The listener list `listener()` and the
preferred `att_mtu`, which `BTGattHandler` reads, are modelled from the spec (database:
ordered list of services plus an attribute-MTU preference; per-listener veto callbacks). -/
structure DBGattServer where
  services : List DBGattService
  listener : List Listener
  att_mtu : Nat

/-! ## Handle assignment (`DBGattServer.hpp`) -/

/-- Inner loop of `DBGattService::setHandles`: `for d in c.descriptors: d.handle = h++`.
Returns the updated descriptors and the counter. -/
def setDescHandles : List DBGattDesc → Nat → List DBGattDesc × Nat
  | [], h => ([], h)
  | d :: ds, h =>
    let r := setDescHandles ds (u16 (h + 1))
    ({ d with handle := h } :: r.1, r.2)

/-- Loop over the characteristics in `DBGattService::setHandles`:
`c.handle = h++; c.value_handle = h++; descriptors...; c.end_handle = h-1`. -/
def setCharHandles : List DBGattChar → Nat → List DBGattChar × Nat
  | [], h => ([], h)
  | c :: cs, h =>
    let h1 := u16 (h + 1)
    let h2 := u16 (h1 + 1)
    let ds := setDescHandles c.descriptors h2
    let c1 : DBGattChar :=
      { c with handle := h, value_handle := h1, descriptors := ds.1,
               end_handle := u16 (ds.2 + 65535) }
    let r := setCharHandles cs ds.2
    (c1 :: r.1, r.2)

namespace DBGattService

/-- Method `DBGattService::setHandles(start_handle)`: the updated service and the returned
`int`, `( end_handle - handle ) + 1`. -/
def setHandles (s : DBGattService) (start_handle : Nat) : DBGattService × Int :=
  if start_handle = 0 then
    ({ s with handle := 0, end_handle := 0 }, 0)
  else
    let h1 := u16 (start_handle + 1)
    let r := setCharHandles s.characteristics h1
    ({ s with handle := start_handle, characteristics := r.1, end_handle := r.2 },
      ((r.2 : Int) - (start_handle : Int)) + 1)

end DBGattService

/-- Loop of `DBGattServer::setServicesHandles` with the counters `h` (`uint16_t`) and `c`
(`int`): `l = s.setHandles(h); c += l; h += l`. -/
def setServicesLoop : List DBGattService → Nat → Int → List DBGattService × Int
  | [], _, c => ([], c)
  | s :: ss, h, c =>
    let r := s.setHandles h
    let rest := setServicesLoop ss (((h : Int) + r.2) % 65536).toNat (c + r.2)
    (r.1 :: rest.1, rest.2)

/-- Method `DBGattServer::setServicesHandles()`: the updated database and the returned count. -/
def DBGattServer.setServicesHandles (db : DBGattServer) : DBGattServer × Int :=
  let r := setServicesLoop db.services 1 0
  ({ db with services := r.1 }, r.2)

/-! ## Attribute enumeration used to state the handle properties -/

/-- Handles of a characteristic in traversal order: declaration, value, descriptors. -/
def DBGattChar.handles (c : DBGattChar) : List Nat :=
  c.handle :: c.value_handle :: c.descriptors.map DBGattDesc.handle

/-- Handles of a list of characteristics in traversal order. -/
def charsHandles : List DBGattChar → List Nat
  | [] => []
  | c :: cs => c.handles ++ charsHandles cs

/-- Handles of a service in traversal order: service declaration, then its characteristics. -/
def DBGattService.handles (s : DBGattService) : List Nat :=
  s.handle :: charsHandles s.characteristics

/-- Handles of all attribute entities of a list of services in traversal order. -/
def servicesHandles : List DBGattService → List Nat
  | [] => []
  | s :: ss => s.handles ++ servicesHandles ss

/-- Number of attribute entities of a list of characteristics: declaration, value and
descriptors of each. -/
def charsEntityCount : List DBGattChar → Nat
  | [] => 0
  | c :: cs => 2 + c.descriptors.length + charsEntityCount cs

/-- Number of attribute entities of a service: its declaration plus those of its
characteristics. -/
def DBGattService.entityCount (s : DBGattService) : Nat :=
  1 + charsEntityCount s.characteristics

/-- Number of attribute entities of a list of services. -/
def servicesEntityCount : List DBGattService → Nat
  | [] => 0
  | s :: ss => s.entityCount + servicesEntityCount ss

/-- Number of counter steps `setServicesHandles` takes over a list of services: each service
advances the counter by its entity count plus one. -/
def handleSpan : List DBGattService → Nat
  | [] => 0
  | s :: ss => s.entityCount + 1 + handleSpan ss

/-- The handles `setServicesHandles` gives to the attribute entities of a list of services when
the counter starts at `h`: consecutive numbers within a service, and one number left out
between two services. -/
def numberedFrom : List DBGattService → Nat → List Nat
  | [], _ => []
  | s :: ss, h => List.range' h s.entityCount ++ numberedFrom ss (h + s.entityCount + 1)

/-- Nesting of one characteristic inside the half-open window `[lo, hi)`. -/
def CharNestedIn (lo hi : Nat) (c : DBGattChar) : Prop :=
  lo ≤ c.handle ∧ c.handle < c.value_handle ∧ c.value_handle ≤ c.end_handle ∧
    c.end_handle < hi ∧
    ∀ d ∈ c.descriptors, c.value_handle < d.handle ∧ d.handle ≤ c.end_handle

instance (lo hi : Nat) (c : DBGattChar) : Decidable (CharNestedIn lo hi c) := by
  unfold CharNestedIn
  exact inferInstance

/-- Nesting of the characteristics of a service inside the service range. -/
def ServiceNested (s : DBGattService) : Prop :=
  ∀ c ∈ s.characteristics,
    s.handle ≤ c.handle ∧ c.handle < c.value_handle ∧ c.value_handle ≤ c.end_handle ∧
      c.end_handle ≤ s.end_handle ∧
      ∀ d ∈ c.descriptors, c.value_handle < d.handle ∧ d.handle ≤ c.end_handle

instance (s : DBGattService) : Decidable (ServiceNested s) := by
  unfold ServiceNested
  exact inferInstance

/-! ## ATT PDUs and the session state (`BTGattHandler`) -/

/-- Enum `AttErrorRsp::ErrorCode` with the codes named in `ATTPDUTypes.cpp`, and `NO_ERROR`
for success. -/
inductive ErrorCode where
  | NO_ERROR
  | INVALID_HANDLE
  | NO_READ_PERM
  | NO_WRITE_PERM
  | INVALID_PDU
  | INSUFF_AUTHENTICATION
  | UNSUPPORTED_REQUEST
  | INVALID_OFFSET
  | INSUFF_AUTHORIZATION
  | PREPARE_QUEUE_FULL
  | ATTRIBUTE_NOT_FOUND
  | ATTRIBUTE_NOT_LONG
  | INSUFF_ENCRYPTION_KEY_SIZE
  | INVALID_ATTRIBUTE_VALUE_LEN
  | UNLIKELY_ERROR
  | INSUFF_ENCRYPTION
  | UNSUPPORTED_GROUP_TYPE
  | INSUFFICIENT_RESOURCES
  | DB_OUT_OF_SYNC
  | FORBIDDEN_VALUE
deriving DecidableEq, Repr

/-- Enum `AttPDUMsg::Opcode` with the opcodes named in `ATTPDUTypes.cpp`. -/
inductive Opcode where
  | PDU_UNDEFINED
  | ERROR_RSP
  | EXCHANGE_MTU_REQ
  | EXCHANGE_MTU_RSP
  | FIND_INFORMATION_REQ
  | FIND_INFORMATION_RSP
  | FIND_BY_TYPE_VALUE_REQ
  | FIND_BY_TYPE_VALUE_RSP
  | READ_BY_TYPE_REQ
  | READ_BY_TYPE_RSP
  | READ_REQ
  | READ_RSP
  | READ_BLOB_REQ
  | READ_BLOB_RSP
  | READ_MULTIPLE_REQ
  | READ_MULTIPLE_RSP
  | READ_BY_GROUP_TYPE_REQ
  | READ_BY_GROUP_TYPE_RSP
  | WRITE_REQ
  | WRITE_RSP
  | WRITE_CMD
  | PREPARE_WRITE_REQ
  | PREPARE_WRITE_RSP
  | EXECUTE_WRITE_REQ
  | EXECUTE_WRITE_RSP
  | READ_MULTIPLE_VARIABLE_REQ
  | READ_MULTIPLE_VARIABLE_RSP
  | MULTIPLE_HANDLE_VALUE_NTF
  | HANDLE_VALUE_NTF
  | HANDLE_VALUE_IND
  | HANDLE_VALUE_CFM
  | SIGNED_WRITE_CMD
deriving DecidableEq, Repr

/-- Modelled from the spec: class `AttPrepWrite` (declared in `ATTPDUTypes.hpp`), a
PREPARE_WRITE_REQ (`isReq`) or PREPARE_WRITE_RSP carrying handle, value offset and value. -/
structure AttPrepWrite where
  isReq : Bool
  handle : Nat
  offset : Nat
  value : List Nat
deriving DecidableEq, Repr

/-- Modelled from the spec: one element of a READ_BY_GROUP_TYPE_RSP, `{start handle, end
handle, uuid}` of a service. -/
structure GroupElem where
  handle : Nat
  end_handle : Nat
  type : uuid_t
deriving DecidableEq, Repr

/-- Modelled from the spec: one element of a FIND_INFORMATION_RSP, `{handle, uuid}` of a
descriptor. -/
structure InfoElem where
  handle : Nat
  type : uuid_t
deriving DecidableEq, Repr

/-- Modelled from the spec: one element of a READ_BY_TYPE_RSP for the characteristic type,
`{char_handle, properties(1), value_handle, value_uuid}`. -/
structure CharElem where
  handle : Nat
  properties : Nat
  value_handle : Nat
  value_type : uuid_t
deriving DecidableEq, Repr

/-- Modelled from the spec: the ATT messages (declared in `ATTPDUTypes.hpp`), as the parsed
views the handler works with: `AttErrorRsp`, `AttPrepWrite`, `AttExeWriteReq`,
`AttExeWriteRsp`, `AttWriteReq`, `AttWriteCmd`, `AttWriteRsp`, `AttReadReq`, `AttReadBlobReq`,
`AttReadNRsp` (READ_RSP or, with `blob`, READ_BLOB_RSP), `AttReadByNTypeReq` (READ_BY_TYPE_REQ
or, with `group`, READ_BY_GROUP_TYPE_REQ), `AttReadByGroupTypeRsp`, `AttExchangeMTU`
(request or response), `AttFindInfoReq`, `AttFindInfoRsp`, `AttReadByTypeRsp`,
`AttHandleValueRcv` (HANDLE_VALUE_NTF or, with `ind`, HANDLE_VALUE_IND, with the creation
timestamp `ts_creation` of the PDU) and `AttHandleValueCfm`; `other` is a PDU of any other
opcode, with its length. -/
inductive AttPDUMsg where
  | errorRsp (code : ErrorCode) (reqOpcode : Opcode) (handle : Nat)
  | prepWrite (p : AttPrepWrite)
  | exeWriteReq (flags : Nat)
  | exeWriteRsp
  | writeReq (handle : Nat) (value : List Nat)
  | writeCmd (handle : Nat) (value : List Nat)
  | writeRsp
  | other (opcode : Opcode) (length : Nat)
  | readReq (handle : Nat)
  | readBlobReq (handle : Nat) (offset : Nat)
  | readNRsp (blob : Bool) (value : List Nat)
  | readByNTypeReq (group : Bool) (startHandle endHandle : Nat) (type : uuid_t)
  | readByGroupTypeRsp (elemSize : Nat) (elems : List GroupElem)
  | exchangeMTU (isReq : Bool) (mtu : Nat)
  | findInfoReq (startHandle endHandle : Nat)
  | findInfoRsp (elemSize : Nat) (elems : List InfoElem)
  | readByTypeRsp (elemSize : Nat) (elems : List CharElem)
  | handleValueRcv (ind : Bool) (handle : Nat) (value : List Nat) (ts_creation : Nat)
  | handleValueCfm
deriving DecidableEq, Repr

namespace AttPDUMsg

/-- Method `AttPDUMsg::getOpcode()`. -/
def getOpcode : AttPDUMsg → Opcode
  | errorRsp _ _ _ => .ERROR_RSP
  | prepWrite p => if p.isReq then .PREPARE_WRITE_REQ else .PREPARE_WRITE_RSP
  | exeWriteReq _ => .EXECUTE_WRITE_REQ
  | exeWriteRsp => .EXECUTE_WRITE_RSP
  | writeReq _ _ => .WRITE_REQ
  | writeCmd _ _ => .WRITE_CMD
  | writeRsp => .WRITE_RSP
  | other opc _ => opc
  | readReq _ => .READ_REQ
  | readBlobReq _ _ => .READ_BLOB_REQ
  | readNRsp blob _ => if blob then .READ_BLOB_RSP else .READ_RSP
  | readByNTypeReq group _ _ _ => if group then .READ_BY_GROUP_TYPE_REQ else .READ_BY_TYPE_REQ
  | readByGroupTypeRsp _ _ => .READ_BY_GROUP_TYPE_RSP
  | exchangeMTU isReq _ => if isReq then .EXCHANGE_MTU_REQ else .EXCHANGE_MTU_RSP
  | findInfoReq _ _ => .FIND_INFORMATION_REQ
  | findInfoRsp _ _ => .FIND_INFORMATION_RSP
  | readByTypeRsp _ _ => .READ_BY_TYPE_RSP
  | handleValueRcv ind _ _ _ => if ind then .HANDLE_VALUE_IND else .HANDLE_VALUE_NTF
  | handleValueCfm => .HANDLE_VALUE_CFM

/-- Length in bytes of the PDU, `pdu.size()`, by the ATT wire format: one opcode byte plus the
parameters (handles and offsets two bytes each, error code, request opcode and flags one byte
each) and the value. -/
def size : AttPDUMsg → Nat
  | errorRsp _ _ _ => 5
  | prepWrite p => 5 + p.value.length
  | exeWriteReq _ => 2
  | exeWriteRsp => 1
  | writeReq _ v => 3 + v.length
  | writeCmd _ v => 3 + v.length
  | writeRsp => 1
  | other _ n => n
  | readReq _ => 3
  | readBlobReq _ _ => 5
  | readNRsp _ v => 1 + v.length
  | readByNTypeReq _ _ _ t => 5 + t.getTypeSizeInt
  | readByGroupTypeRsp esz elems => 2 + elems.length * esz
  | exchangeMTU _ _ => 3
  | findInfoReq _ _ => 5
  | findInfoRsp esz elems => 2 + elems.length * esz
  | readByTypeRsp esz elems => 2 + elems.length * esz
  | handleValueRcv _ _ v _ => 3 + v.length
  | handleValueCfm => 1

end AttPDUMsg

/-- One invocation of a `DBGattServer::Listener` callback: the position of the listener in the
listener list and the arguments identifying the call. -/
inductive ListenerCall where
  | writeCharValue (listener : Nat) (value_handle : Nat) (value : List Nat) (offset : Nat)
  | writeDescValue (listener : Nat) (handle : Nat) (value : List Nat) (offset : Nat)
  | clientCharConfigChanged (listener : Nat) (handle : Nat) (notify indicate : Bool)
  | readCharValue (listener : Nat) (value_handle : Nat)
  | readDescValue (listener : Nat) (handle : Nat)
deriving DecidableEq, Repr

/-- Exceptions thrown by `BTGattHandler::send` and by the other methods of the handler. -/
inductive Thrown where
  | IllegalStateException
  | IllegalArgumentException
  | BTException
  | IndexOutOfBoundsException
deriving DecidableEq, Repr

/-- State of a `BTGattHandler`. `device` tells whether the weak device reference can still be
locked; `l2cap_open` and `l2cap_ioerror` are `l2cap.isOpen()` and `l2cap.hasIOError()`.
Three traces record the observable actions: `sent` the PDUs passed to `send`, `wire` the PDUs
written to the L2CAP channel, `calls` the listener callbacks invoked. -/
structure BTGattHandler where
  device : Bool
  is_connected : Bool
  has_ioerror : Bool
  l2cap_open : Bool
  l2cap_ioerror : Bool
  gattServerData : Option DBGattServer
  writeDataQueue : List AttPrepWrite
  serverMTU : Nat
  usedMTU : Nat
  sent : List AttPDUMsg
  wire : List AttPDUMsg
  calls : List ListenerCall

namespace BTGattHandler

/-- Method `BTGattHandler::validateConnected()`. -/
def validateConnected (st : BTGattHandler) : BTGattHandler × Bool :=
  if st.has_ioerror || st.l2cap_ioerror then
    ({ st with has_ioerror := true }, false)
  else if !st.is_connected || !st.l2cap_open then
    (st, false)
  else
    (st, true)

/-- Method `BTGattHandler::send(msg)`: rejects the message when the session is not connected
or when the PDU is longer than `usedMTU`, and writes it to the L2CAP channel otherwise. The
channel is taken to accept the whole PDU; socket write errors are outside the model. -/
def send (st : BTGattHandler) (msg : AttPDUMsg) : BTGattHandler × Option Thrown :=
  let st0 := { st with sent := st.sent ++ [msg] }
  let v := st0.validateConnected
  if !v.2 then
    (v.1, some .IllegalStateException)
  else if msg.size > v.1.usedMTU then
    (v.1, some .IllegalArgumentException)
  else
    ({ v.1 with wire := v.1.wire ++ [msg] }, none)

end BTGattHandler

/-! ## `BTGattHandler::applyWrite` -/

/-- Result of a write attempt on one part of the database: the error code, the part after the
attempt and the listener callbacks invoked. -/
structure Applied (α : Type) where
  code : ErrorCode
  target : α
  calls : List ListenerCall

/-- The veto loop over the listeners, `allowed = l->write..(..) && allowed`, starting from
`true`; a callback that throws leaves `allowed` as it is. -/
def vetoLoop (results : List (Option Bool)) : Bool :=
  results.foldl (fun allowed r => match r with
    | some b => b && allowed
    | none => allowed) true

/-- The resize step of `applyWrite`: `if( variable_length ) { if( value.size() != n )
value.resize( n ); }`. -/
def resizeForWrite (v : POctets) (variable_length : Bool) (n : Nat) : POctets :=
  if variable_length then
    if v.size ≠ n then v.resize n else v
  else v

/-- The block of `applyWrite` entered when `handle == c.value_handle`. -/
def applyWriteChar (ls : List Listener) (s : DBGattService) (c : DBGattChar)
    (value : List Nat) (value_offset : Nat) : Applied DBGattChar :=
  if c.value.size < value_offset then
    ⟨.INVALID_OFFSET, c, []⟩
  else if (if c.variable_length then c.value.capacity < value_offset + value.length
           else c.value.size < value_offset + value.length) then
    ⟨.INVALID_ATTRIBUTE_VALUE_LEN, c, []⟩
  else
    let calls := (List.range ls.length).map
      (fun i => ListenerCall.writeCharValue i c.value_handle value value_offset)
    let allowed := vetoLoop (ls.map (fun l => l.writeCharValue s c value value_offset))
    if !allowed then
      ⟨.NO_WRITE_PERM, c, calls⟩
    else
      let v1 := resizeForWrite c.value c.variable_length (value_offset + value.length)
      ⟨.NO_ERROR, { c with value := v1.put_octets_nc value_offset value }, calls⟩

/-- The block `if( isCCCD ) { .. }` of `applyWrite`, run on the descriptor `d` as it is after
the resize step: an empty value or unchanged effective bits return at once, otherwise the new
configuration byte is stored and `clientCharConfigChanged` is called on every listener. -/
def applyCCCD (ls : List Listener) (c : DBGattChar) (d : DBGattDesc) (value : List Nat) :
    Applied DBGattDesc :=
  if value.length = 0 then
    ⟨.NO_ERROR, d, []⟩
  else
    let old_v := d.value.get_uint8_nc 0
    let oldEnableNotification := (old_v &&& 0b001) != 0
    let oldEnableIndication := (old_v &&& 0b010) != 0
    let req_v := value.getD 0 0
    let reqEnableNotification := (req_v &&& 0b001) != 0
    let reqEnableIndication := (req_v &&& 0b010) != 0
    let hasNotification := c.hasProperties PropertyBitVal.Notify
    let hasIndication := c.hasProperties PropertyBitVal.Indicate
    let enableNotification := reqEnableNotification && hasNotification
    let enableIndication := reqEnableIndication && hasIndication
    if oldEnableNotification == enableNotification &&
        oldEnableIndication == enableIndication then
      ⟨.NO_ERROR, d, []⟩
    else
      let new_v := enableNotification.toNat ||| (enableIndication.toNat <<< 1)
      ⟨.NO_ERROR, { d with value := d.value.put_uint8_nc 0 new_v },
        (List.range ls.length).map (fun i =>
          ListenerCall.clientCharConfigChanged i d.handle enableNotification enableIndication)⟩

/-- The block of `applyWrite` entered when `handle == d.handle`. -/
def applyWriteDesc (ls : List Listener) (s : DBGattService) (c : DBGattChar) (d : DBGattDesc)
    (value : List Nat) (value_offset : Nat) : Applied DBGattDesc :=
  if d.value.size < value_offset then
    ⟨.INVALID_OFFSET, d, []⟩
  else if (if d.variable_length then d.value.capacity < value_offset + value.length
           else d.value.size < value_offset + value.length) then
    ⟨.INVALID_ATTRIBUTE_VALUE_LEN, d, []⟩
  else if d.isUserDescription then
    ⟨.NO_WRITE_PERM, d, []⟩
  else if d.isClientCharConfig then
    let v1 := resizeForWrite d.value d.variable_length (value_offset + value.length)
    applyCCCD ls c { d with value := v1 } value
  else
    let calls := (List.range ls.length).map
      (fun i => ListenerCall.writeDescValue i d.handle value value_offset)
    let allowed := vetoLoop (ls.map (fun l => l.writeDescValue s c d value value_offset))
    if !allowed then
      ⟨.NO_WRITE_PERM, d, calls⟩
    else
      let v1 := resizeForWrite d.value d.variable_length (value_offset + value.length)
      ⟨.NO_ERROR, { d with value := v1.put_octets_nc value_offset value }, calls⟩

/-- The loop `for d in c.descriptors` of `applyWrite`; `none` when no descriptor has the
handle and the loop falls through. -/
def applyWriteDescs (ls : List Listener) (s : DBGattService) (c : DBGattChar) (handle : Nat)
    (value : List Nat) (value_offset : Nat) :
    List DBGattDesc → Option (Applied (List DBGattDesc))
  | [] => none
  | d :: ds =>
    if handle = d.handle then
      let r := applyWriteDesc ls s c d value value_offset
      some ⟨r.code, r.target :: ds, r.calls⟩
    else
      (applyWriteDescs ls s c handle value value_offset ds).map
        (fun r => ⟨r.code, d :: r.target, r.calls⟩)

/-- The loop `for c in s.characteristics` of `applyWrite`; `none` when it falls through. -/
def applyWriteChars (ls : List Listener) (s : DBGattService) (handle : Nat)
    (value : List Nat) (value_offset : Nat) :
    List DBGattChar → Option (Applied (List DBGattChar))
  | [] => none
  | c :: cs =>
    let next := (applyWriteChars ls s handle value value_offset cs).map
      (fun r => (⟨r.code, c :: r.target, r.calls⟩ : Applied (List DBGattChar)))
    if c.handle ≤ handle ∧ handle ≤ c.end_handle then
      if handle = c.value_handle then
        let r := applyWriteChar ls s c value value_offset
        some ⟨r.code, r.target :: cs, r.calls⟩
      else
        match applyWriteDescs ls s c handle value value_offset c.descriptors with
        | some r => some ⟨r.code, { c with descriptors := r.target } :: cs, r.calls⟩
        | none => next
    else next

/-- The loop `for s in gattServerData->services` of `applyWrite`; `none` when it falls
through. -/
def applyWriteServices (ls : List Listener) (handle : Nat) (value : List Nat)
    (value_offset : Nat) : List DBGattService → Option (Applied (List DBGattService))
  | [] => none
  | s :: ss =>
    let next := (applyWriteServices ls handle value value_offset ss).map
      (fun r => (⟨r.code, s :: r.target, r.calls⟩ : Applied (List DBGattService)))
    if s.handle ≤ handle ∧ handle ≤ s.end_handle then
      match applyWriteChars ls s handle value value_offset s.characteristics with
      | some r => some ⟨r.code, { s with characteristics := r.target } :: ss, r.calls⟩
      | none => next
    else next

namespace BTGattHandler

/-- Method `BTGattHandler::applyWrite(device, handle, value, value_offset)`: the state after
the call and the returned error code. -/
def applyWrite (st : BTGattHandler) (handle : Nat) (value : List Nat) (value_offset : Nat) :
    BTGattHandler × ErrorCode :=
  match st.gattServerData with
  | none => (st, .INVALID_HANDLE)
  | some db =>
    match applyWriteServices db.listener handle value value_offset db.services with
    | none => (st, .INVALID_HANDLE)
    | some r =>
      ({ st with gattServerData := some { db with services := r.target },
                 calls := st.calls ++ r.calls }, r.code)

end BTGattHandler

/-! ## `BTGattHandler::hasHandle` and `BTGattHandler::replyWriteReq` -/

/-- The loop over the characteristics in `hasHandle`. -/
def hasHandleChars (handle : Nat) : List DBGattChar → Bool
  | [] => false
  | c :: cs =>
    if c.handle ≤ handle ∧ handle ≤ c.end_handle then
      if handle = c.value_handle then true
      else if c.descriptors.any (fun d => handle = d.handle) then true
      else hasHandleChars handle cs
    else hasHandleChars handle cs

/-- The loop over the services in `hasHandle`. -/
def hasHandleServices (handle : Nat) : List DBGattService → Bool
  | [] => false
  | s :: ss =>
    if s.handle ≤ handle ∧ handle ≤ s.end_handle then
      if hasHandleChars handle s.characteristics then true
      else hasHandleServices handle ss
    else hasHandleServices handle ss

namespace BTGattHandler

/-- Method `BTGattHandler::hasHandle(handle)`. -/
def hasHandle (st : BTGattHandler) (handle : Nat) : Bool :=
  match st.gattServerData with
  | none => false
  | some db => hasHandleServices handle db.services

/-- The loop of the EXECUTE_WRITE_REQ branch over `writeDataQueue`, run while `res` is
`NO_ERROR`: `last_handle = p.getHandle(); res = applyWrite(..)`. -/
def executeWriteLoop : List AttPrepWrite → BTGattHandler → ErrorCode → Nat →
    BTGattHandler × ErrorCode × Nat
  | [], st, res, last_handle => (st, res, last_handle)
  | p :: ps, st, res, last_handle =>
    if res = .NO_ERROR then
      let r := st.applyWrite p.handle p.value p.offset
      executeWriteLoop ps r.1 r.2 p.handle
    else (st, res, last_handle)

/-- Method `BTGattHandler::replyWriteReq(pdu)`: the state after the call and the exception
that left it, if any. The branches are taken by opcode: PREPARE_WRITE_REQ, EXECUTE_WRITE_REQ,
WRITE_REQ, WRITE_CMD, and UNSUPPORTED_REQUEST for anything else. -/
def replyWriteReq (st : BTGattHandler) (pdu : AttPDUMsg) : BTGattHandler × Option Thrown :=
  if !st.device then
    st.send (.errorRsp .UNLIKELY_ERROR pdu.getOpcode 0)
  else
    match pdu with
    | .prepWrite req =>
      if req.isReq then
        if !st.hasHandle req.handle then
          st.send (.errorRsp .INVALID_HANDLE .PREPARE_WRITE_REQ req.handle)
        else
          let rsp : AttPrepWrite := { req with isReq := false }
          let st1 := { st with writeDataQueue := st.writeDataQueue ++ [rsp] }
          st1.send (.prepWrite rsp)
      else
        st.send (.errorRsp .UNSUPPORTED_REQUEST .PREPARE_WRITE_RSP 0)
    | .exeWriteReq flags =>
      if flags = 0x01 then
        let r := executeWriteLoop st.writeDataQueue st .NO_ERROR 0
        if r.2.1 ≠ .NO_ERROR then
          let st1 := { r.1 with writeDataQueue := [] }
          st1.send (.errorRsp r.2.1 .EXECUTE_WRITE_REQ r.2.2)
        else
          let st1 := { r.1 with writeDataQueue := [] }
          st1.send .exeWriteRsp
      else
        let st1 := { st with writeDataQueue := [] }
        st1.send .exeWriteRsp
    | .writeReq handle value =>
      let r := st.applyWrite handle value 0
      if r.2 ≠ .NO_ERROR then
        let st1 := { r.1 with writeDataQueue := [] }
        st1.send (.errorRsp r.2 .WRITE_REQ handle)
      else
        r.1.send .writeRsp
    | .writeCmd handle value =>
      let r := st.applyWrite handle value 0
      if r.2 ≠ .NO_ERROR then
        ({ r.1 with writeDataQueue := [] }, none)
      else
        (r.1, none)
    | other => st.send (.errorRsp .UNSUPPORTED_REQUEST other.getOpcode 0)

end BTGattHandler

/-! ## Attribute lookup used to state the write properties -/

/-- An attribute value located in the database: the service `s` and characteristic `c` that
hold it with the services and characteristics before and after them, and for a descriptor
value the descriptor with its neighbours. `desc = none` stands for the value of `c`. -/
structure Target where
  spre : List DBGattService
  s : DBGattService
  spost : List DBGattService
  cpre : List DBGattChar
  c : DBGattChar
  cpost : List DBGattChar
  desc : Option (List DBGattDesc × DBGattDesc × List DBGattDesc)
deriving DecidableEq

/-- First descriptor of the list with the given handle, with the descriptors around it. -/
def findDesc (handle : Nat) :
    List DBGattDesc → Option (List DBGattDesc × DBGattDesc × List DBGattDesc)
  | [] => none
  | d :: ds =>
    if handle = d.handle then some ([], d, ds)
    else (findDesc handle ds).map (fun r => (d :: r.1, r.2.1, r.2.2))

/-- The attribute an access by `handle` resolves to within a list of characteristics: in
list order, the first characteristic whose range `[handle, end_handle]` holds the handle and
which has it as value handle or as the handle of one of its descriptors. -/
def findInChars (s : DBGattService) (spre spost : List DBGattService) (handle : Nat) :
    List DBGattChar → List DBGattChar → Option Target
  | _, [] => none
  | cpre, c :: cs =>
    if c.handle ≤ handle ∧ handle ≤ c.end_handle then
      if handle = c.value_handle then some ⟨spre, s, spost, cpre, c, cs, none⟩
      else match findDesc handle c.descriptors with
        | some r => some ⟨spre, s, spost, cpre, c, cs, some r⟩
        | none => findInChars s spre spost handle (cpre ++ [c]) cs
    else findInChars s spre spost handle (cpre ++ [c]) cs

/-- The attribute an access by `handle` resolves to within a list of services: in list order,
the first service whose range holds the handle and in which `findInChars` succeeds. -/
def findInServices (handle : Nat) : List DBGattService → List DBGattService → Option Target
  | _, [] => none
  | spre, s :: ss =>
    if s.handle ≤ handle ∧ handle ≤ s.end_handle then
      match findInChars s spre ss handle [] s.characteristics with
      | some t => some t
      | none => findInServices handle (spre ++ [s]) ss
    else findInServices handle (spre ++ [s]) ss

/-- The attribute value that `handle` resolves to in the database, if any. -/
def findTarget (db : DBGattServer) (handle : Nat) : Option Target :=
  findInServices handle [] db.services

namespace Target

/-- The buffer of the located attribute value. -/
def value (t : Target) : POctets :=
  match t.desc with
  | none => t.c.value
  | some r => r.2.1.value

/-- Whether the located attribute is variable-length. -/
def variable_length (t : Target) : Bool :=
  match t.desc with
  | none => t.c.variable_length
  | some r => r.2.1.variable_length

/-- Whether the located attribute is a Characteristic User Description descriptor. -/
def isUserDescription (t : Target) : Bool :=
  match t.desc with
  | none => false
  | some r => r.2.1.isUserDescription

/-- Whether the located attribute is a Client Characteristic Configuration descriptor. -/
def isClientCharConfig (t : Target) : Bool :=
  match t.desc with
  | none => false
  | some r => r.2.1.isClientCharConfig

/-- Results of the registered write callbacks for the located attribute: `writeCharValue` for
a characteristic value, `writeDescValue` for a descriptor. -/
def writeCallbacks (t : Target) (ls : List Listener) (value : List Nat) (offset : Nat) :
    List (Option Bool) :=
  match t.desc with
  | none => ls.map (fun l => l.writeCharValue t.s t.c value offset)
  | some r => ls.map (fun l => l.writeDescValue t.s t.c r.2.1 value offset)

/-- The list of services in which the located attribute value is replaced by `v` and
everything else is as in the target. -/
def withValue (t : Target) (v : POctets) : List DBGattService :=
  let c1 : DBGattChar :=
    match t.desc with
    | none => { t.c with value := v }
    | some r => { t.c with descriptors := r.1 ++ { r.2.1 with value := v } :: r.2.2 }
  t.spre ++ { t.s with characteristics := t.cpre ++ c1 :: t.cpost } :: t.spost

end Target

/-- The checks of a write in the order of the specification: offset, length, user
description, veto of a write callback (not consulted for a CCC descriptor). -/
def writeChecks (ls : List Listener) (t : Target) (value : List Nat) (offset : Nat) :
    ErrorCode :=
  if offset > t.value.size then .INVALID_OFFSET
  else if offset + value.length >
      (if t.variable_length then t.value.capacity else t.value.size) then
    .INVALID_ATTRIBUTE_VALUE_LEN
  else if t.isUserDescription then .NO_WRITE_PERM
  else if !t.isClientCharConfig ∧ some false ∈ t.writeCallbacks ls value offset then
    .NO_WRITE_PERM
  else .NO_ERROR

/-- The result code of a write as the specification orders the checks: INVALID_HANDLE when
the handle resolves to no attribute value, else the first failing check of `writeChecks`. -/
def applyWriteSpec (db : Option DBGattServer) (handle : Nat) (value : List Nat)
    (offset : Nat) : ErrorCode :=
  match db with
  | none => .INVALID_HANDLE
  | some db =>
    match findTarget db handle with
    | none => .INVALID_HANDLE
    | some t => writeChecks db.listener t value offset

/-- The value handles and descriptor handles of a list of characteristics. -/
def charsValueHandles : List DBGattChar → List Nat
  | [] => []
  | c :: cs => (c.value_handle :: c.descriptors.map DBGattDesc.handle) ++ charsValueHandles cs

/-- The characteristic value handles and descriptor handles of a list of services. -/
def servicesValueHandles : List DBGattService → List Nat
  | [] => []
  | s :: ss => charsValueHandles s.characteristics ++ servicesValueHandles ss

/-- The prepared writes of a list applied one after the other, whatever their results. -/
def applyAll (st : BTGattHandler) : List AttPrepWrite → BTGattHandler
  | [] => st
  | p :: ps => applyAll (st.applyWrite p.handle p.value p.offset).1 ps

/-- Whether every prepared write of the list, applied in order, returns NO_ERROR. -/
def allSucceed (st : BTGattHandler) : List AttPrepWrite → Bool
  | [] => true
  | p :: ps =>
    decide ((st.applyWrite p.handle p.value p.offset).2 = .NO_ERROR) &&
      allSucceed (st.applyWrite p.handle p.value p.offset).1 ps

/-- The write blocks of `applyWrite` run on a located attribute: `applyWriteChar` for a
characteristic value, `applyWriteDesc` for a descriptor, with the result put back in place. -/
def Target.apply (ls : List Listener) (t : Target) (value : List Nat) (offset : Nat) :
    Applied (List DBGattService) :=
  match t.desc with
  | none =>
    let a := applyWriteChar ls t.s t.c value offset
    ⟨a.code, t.spre ++ { t.s with characteristics := t.cpre ++ a.target :: t.cpost } :: t.spost,
      a.calls⟩
  | some r =>
    let a := applyWriteDesc ls t.s t.c r.2.1 value offset
    ⟨a.code, t.spre ++ { t.s with characteristics :=
        t.cpre ++ { t.c with descriptors := r.1 ++ a.target :: r.2.2 } :: t.cpost } :: t.spost,
      a.calls⟩

/-- A target describes an attribute of the list of services accessed by `handle`: its parts
recompose the list, and the handle is the value handle of `c` or the handle of the
descriptor. -/
def Target.LocatedIn (t : Target) (services : List DBGattService) (handle : Nat) : Prop :=
  services = t.spre ++ t.s :: t.spost ∧
  t.s.characteristics = t.cpre ++ t.c :: t.cpost ∧
  match t.desc with
  | none => handle = t.c.value_handle
  | some r => t.c.descriptors = r.1 ++ r.2.1 :: r.2.2 ∧ handle = r.2.1.handle

instance (t : Target) (services : List DBGattService) (handle : Nat) :
    Decidable (t.LocatedIn services handle) := by
  unfold Target.LocatedIn
  cases t.desc <;> exact inferInstance

/-- The database invariant on handle ranges: every service is nested. -/
def DBGattServer.Nested (db : DBGattServer) : Prop :=
  ∀ s ∈ db.services, ServiceNested s

instance (db : DBGattServer) : Decidable db.Nested := by
  unfold DBGattServer.Nested
  exact inferInstance

/-- The notification bit a CCC write asks for and the characteristic supports: bit 0 of
`value[0]` and the Notify property. -/
def cccEnableNotification (c : DBGattChar) (value : List Nat) : Bool :=
  ((value.getD 0 0 &&& 0b001) != 0) && c.hasProperties PropertyBitVal.Notify

/-- The indication bit a CCC write asks for and the characteristic supports: bit 1 of
`value[0]` and the Indicate property. -/
def cccEnableIndication (c : DBGattChar) (value : List Nat) : Bool :=
  ((value.getD 0 0 &&& 0b010) != 0) && c.hasProperties PropertyBitVal.Indicate

/-- Bit 0 of byte 0 of a buffer: the stored notification bit of a CCC descriptor. -/
def storedNotification (p : POctets) : Bool := (p.get_uint8_nc 0 &&& 0b001) != 0

/-- Bit 1 of byte 0 of a buffer: the stored indication bit of a CCC descriptor. -/
def storedIndication (p : POctets) : Bool := (p.get_uint8_nc 0 &&& 0b010) != 0

/-- The buffer of the attribute value a handle resolves to in the session's database. -/
def BTGattHandler.valueAt (st : BTGattHandler) (handle : Nat) : Option POctets :=
  st.gattServerData.bind (fun db => (findTarget db handle).map Target.value)

/-- Whether `send` lets a message through to the L2CAP channel: the session validates as
connected and the PDU is not longer than `usedMTU`. -/
def BTGattHandler.accepts (st : BTGattHandler) (msg : AttPDUMsg) : Bool :=
  st.validateConnected.2 && decide (msg.size ≤ st.usedMTU)

/-! ## `BTGattHandler::replyReadReq` -/

/-- Subtraction in `jau::nsize_t` (an unsigned 64 bit integer here), as in
`usedMTU.load()-1`: the difference wraps around below zero. -/
def nsize_sub (a b : Nat) : Nat := (a + (18446744073709551616 - b % 18446744073709551616)) %
  18446744073709551616

/-- The outcome of a call that returns a value or is left by an exception. -/
inductive Outcome (α : Type) where
  | returned (value : α)
  | thrown (e : Thrown)
deriving DecidableEq, Repr

/-- Modelled from the spec: constructor `AttReadNRsp(blobRsp, value, value_offset)` (declared
in `ATTPDUTypes.hpp`), the READ_RSP or READ_BLOB_RSP carrying `value[value_offset ..]`. An
offset equal to the size of the value gives the empty value that ends a blob read; for an
offset beyond the value there is nothing to carry, and the constructor is taken to reject it
with IllegalArgumentException. The theorems on reads are stated for offsets within the
value. -/
def AttReadNRsp (blobRsp : Bool) (value : POctets) (value_offset : Nat) : Outcome AttPDUMsg :=
  if value_offset > value.size then .thrown .IllegalArgumentException
  else .returned (.readNRsp blobRsp (value.bytes.drop value_offset))

namespace AttPDUMsg

/-- Method `getPDUValueSize()` of a READ_RSP or READ_BLOB_RSP: the number of value bytes, all
bytes after the opcode. -/
def getPDUValueSize (msg : AttPDUMsg) : Nat := msg.size - 1

/-- The call `pdu.resize(n)` on a READ_RSP or READ_BLOB_RSP: the PDU is cut to its first `n`
bytes, the opcode and `n - 1` value bytes. -/
def resize (msg : AttPDUMsg) (n : Nat) : AttPDUMsg :=
  match msg with
  | readNRsp blob v => readNRsp blob (v.take (n - 1))
  | m => m

end AttPDUMsg

/-- What `replyReadReq` does with an attribute it has found: the PDU it hands to `send`, or
the exception that leaves it, and the listener callbacks invoked. -/
structure ReadReply where
  reply : Outcome AttPDUMsg
  calls : List ListenerCall

/-- The part of `replyReadReq` after the veto loop: `AttReadNRsp rsp(isBlobReq, value,
value_offset); if( rsp.getPDUValueSize() > rspMaxSize ) rsp.pdu.resize(usedMTU);`. -/
def readRsp (usedMTU : Nat) (isBlobReq : Bool) (value : POctets) (value_offset : Nat) :
    Outcome AttPDUMsg :=
  match AttReadNRsp isBlobReq value value_offset with
  | .thrown e => .thrown e
  | .returned rsp =>
    if rsp.getPDUValueSize > nsize_sub usedMTU 1 then .returned (rsp.resize usedMTU)
    else .returned rsp

/-- The block of `replyReadReq` entered when `handle == c.value_handle`. -/
def replyReadChar (ls : List Listener) (usedMTU : Nat) (opc : Opcode) (isBlobReq : Bool)
    (value_offset : Nat) (s : DBGattService) (c : DBGattChar) : ReadReply :=
  if isBlobReq ∧ c.value.size ≤ nsize_sub usedMTU 1 then
    ⟨.returned (.errorRsp .ATTRIBUTE_NOT_LONG opc 0), []⟩
  else
    let calls := (List.range ls.length).map
      (fun i => ListenerCall.readCharValue i c.value_handle)
    let allowed := vetoLoop (ls.map (fun l => l.readCharValue s c))
    if !allowed then
      ⟨.returned (.errorRsp .NO_READ_PERM opc 0), calls⟩
    else
      ⟨readRsp usedMTU isBlobReq c.value value_offset, calls⟩

/-- The block of `replyReadReq` entered when `handle == d.handle`. -/
def replyReadDesc (ls : List Listener) (usedMTU : Nat) (opc : Opcode) (isBlobReq : Bool)
    (value_offset : Nat) (s : DBGattService) (c : DBGattChar) (d : DBGattDesc) : ReadReply :=
  if isBlobReq ∧ d.value.size ≤ nsize_sub usedMTU 1 then
    ⟨.returned (.errorRsp .ATTRIBUTE_NOT_LONG opc 0), []⟩
  else
    let calls := (List.range ls.length).map
      (fun i => ListenerCall.readDescValue i d.handle)
    let allowed := vetoLoop (ls.map (fun l => l.readDescValue s c d))
    if !allowed then
      ⟨.returned (.errorRsp .NO_READ_PERM opc 0), calls⟩
    else
      ⟨readRsp usedMTU isBlobReq d.value value_offset, calls⟩

/-- The loop `for d in c.descriptors` of `replyReadReq`; `none` when no descriptor has the
handle and the loop falls through. -/
def replyReadDescs (ls : List Listener) (usedMTU : Nat) (opc : Opcode) (isBlobReq : Bool)
    (handle value_offset : Nat) (s : DBGattService) (c : DBGattChar) :
    List DBGattDesc → Option ReadReply
  | [] => none
  | d :: ds =>
    if handle = d.handle then
      some (replyReadDesc ls usedMTU opc isBlobReq value_offset s c d)
    else replyReadDescs ls usedMTU opc isBlobReq handle value_offset s c ds

/-- The loop `for c in s.characteristics` of `replyReadReq`; `none` when it falls through. -/
def replyReadChars (ls : List Listener) (usedMTU : Nat) (opc : Opcode) (isBlobReq : Bool)
    (handle value_offset : Nat) (s : DBGattService) : List DBGattChar → Option ReadReply
  | [] => none
  | c :: cs =>
    if c.handle ≤ handle ∧ handle ≤ c.end_handle then
      if handle = c.value_handle then
        some (replyReadChar ls usedMTU opc isBlobReq value_offset s c)
      else
        match replyReadDescs ls usedMTU opc isBlobReq handle value_offset s c c.descriptors with
        | some r => some r
        | none => replyReadChars ls usedMTU opc isBlobReq handle value_offset s cs
    else replyReadChars ls usedMTU opc isBlobReq handle value_offset s cs

/-- The loop `for s in gattServerData->services` of `replyReadReq`; `none` when it falls
through. -/
def replyReadServices (ls : List Listener) (usedMTU : Nat) (opc : Opcode) (isBlobReq : Bool)
    (handle value_offset : Nat) : List DBGattService → Option ReadReply
  | [] => none
  | s :: ss =>
    if s.handle ≤ handle ∧ handle ≤ s.end_handle then
      match replyReadChars ls usedMTU opc isBlobReq handle value_offset s s.characteristics with
      | some r => some r
      | none => replyReadServices ls usedMTU opc isBlobReq handle value_offset ss
    else replyReadServices ls usedMTU opc isBlobReq handle value_offset ss

namespace BTGattHandler

/-- The part of `replyReadReq` after the opcode has been decoded into `handle`,
`value_offset` and `isBlobReq`: the reply to handle 0, the lookup, and the reply
ATTRIBUTE_NOT_FOUND when the lookup falls through. -/
def replyRead (st : BTGattHandler) (opc : Opcode) (handle value_offset : Nat)
    (isBlobReq : Bool) : BTGattHandler × Option Thrown :=
  if handle = 0 then
    st.send (.errorRsp .INVALID_HANDLE opc 0)
  else
    let found : Option ReadReply :=
      match st.gattServerData with
      | none => none
      | some db =>
        replyReadServices db.listener st.usedMTU opc isBlobReq handle value_offset db.services
    match found with
    | some r =>
      let st1 := { st with calls := st.calls ++ r.calls }
      match r.reply with
      | .returned msg => st1.send msg
      | .thrown e => (st1, some e)
    | none => st.send (.errorRsp .ATTRIBUTE_NOT_FOUND opc 0)

/-- Method `BTGattHandler::replyReadReq(pdu)`: the state after the call and the exception
that left it, if any. -/
def replyReadReq (st : BTGattHandler) (pdu : AttPDUMsg) : BTGattHandler × Option Thrown :=
  if !st.device then
    st.send (.errorRsp .UNLIKELY_ERROR pdu.getOpcode 0)
  else
    match pdu with
    | .readReq handle => st.replyRead .READ_REQ handle 0 false
    | .readBlobReq handle value_offset => st.replyRead .READ_BLOB_REQ handle value_offset true
    | other => st.send (.errorRsp .UNSUPPORTED_REQUEST other.getOpcode 0)

end BTGattHandler

/-! ## `BTGattHandler::replyReadByGroupTypeReq` -/

/-- The loop `for s in gattServerData->services` of `replyReadByGroupTypeReq` with its local
variables `rspElemSize`, `rspSize` and the elements set so far (`rspCount` is their number):
the first component is `true` when the loop is left by the `send(rsp); return` in its body and
`false` when it runs to its end. -/
def groupTypeLoop (req_group_type start_handle end_handle rspMaxSize : Nat) :
    List DBGattService → Nat → Nat → List GroupElem → Bool × Nat × List GroupElem
  | [], rspElemSize, _, elems => (false, rspElemSize, elems)
  | s :: ss, rspElemSize, rspSize, elems =>
    if ((PRIMARY_SERVICE = req_group_type ∧ s.primary = true) ∨
        (SECONDARY_SERVICE = req_group_type ∧ s.primary = false)) ∧
        start_handle ≤ s.handle ∧ s.handle ≤ end_handle then
      let size := 2 + 2 + s.type.getTypeSizeInt
      let rspElemSize1 := if rspElemSize = 0 then size else rspElemSize
      if rspSize + size > rspMaxSize ∨ rspElemSize1 ≠ size then
        (true, rspElemSize1, elems)
      else
        groupTypeLoop req_group_type start_handle end_handle rspMaxSize ss rspElemSize1
          (rspSize + size) (elems ++ [⟨s.handle, s.end_handle, s.type⟩])
    else
      groupTypeLoop req_group_type start_handle end_handle rspMaxSize ss rspElemSize rspSize
        elems

namespace BTGattHandler

/-- Method `BTGattHandler::replyReadByGroupTypeReq(pdu)` on the request with the fields
`group`, start handle, end handle and group type: the state after the call and the exception
that left it, if any. -/
def replyReadByGroupTypeReq (st : BTGattHandler) (group : Bool)
    (startHandle endHandle : Nat) (type : uuid_t) : BTGattHandler × Option Thrown :=
  let opc := (AttPDUMsg.readByNTypeReq group startHandle endHandle type).getOpcode
  if startHandle = 0 then
    st.send (.errorRsp .INVALID_HANDLE opc 0)
  else if startHandle > endHandle then
    st.send (.errorRsp .INVALID_HANDLE opc startHandle)
  else
    let req_group_type : Nat :=
      if type.equivalent (.uuid16 PRIMARY_SERVICE) then PRIMARY_SERVICE
      else if type.equivalent (.uuid16 SECONDARY_SERVICE) then SECONDARY_SERVICE
      else 0
    if req_group_type ≠ 0 then
      let rspMaxSize := min 255 (nsize_sub st.usedMTU 2)
      match st.gattServerData with
      | some db =>
        let r := groupTypeLoop req_group_type startHandle endHandle rspMaxSize db.services 0 0 []
        if r.1 then st.send (.readByGroupTypeRsp r.2.1 r.2.2)
        else if 0 < r.2.2.length then st.send (.readByGroupTypeRsp r.2.1 r.2.2)
        else st.send (.errorRsp .ATTRIBUTE_NOT_FOUND opc 0)
      | none => st.send (.errorRsp .ATTRIBUTE_NOT_FOUND opc 0)
    else
      st.send (.errorRsp .UNSUPPORTED_GROUP_TYPE opc 0)

end BTGattHandler

/-! ## The client side: `sendWithReply`, the MTU exchange of the constructor, `writeValue`,
`readValue` and `discoverPrimaryServices` -/

/-- The remote device together with the reader thread that queues its replies, as seen by
`sendWithReply`: from its state and the request written to the channel, the state afterwards
and the PDU that `attPDURing.getBlocking(timeout)` delivers, `none` when nothing arrives within
the timeout. -/
abbrev Peer (σ : Type) := σ → AttPDUMsg → σ × Option AttPDUMsg

/-- A peer that delivers a fixed sequence of replies, whatever is asked. -/
def scriptedPeer : Peer (List AttPDUMsg) := fun replies _ => (replies.tail, replies.head?)

/-- The role `GATTRole` of the local device. -/
inductive GATTRole where
  | Client
  | Server
deriving DecidableEq, Repr

/-- Constant `Defaults::MIN_ATT_MTU`. -/
def MIN_ATT_MTU : Nat := 23

/-- Constant `Defaults::MAX_ATT_MTU`. -/
def MAX_ATT_MTU : Nat := 512 + 1

/-- Modelled from the spec: the client-side class `BTGattDesc` (declared in `BTGattDesc.hpp`)
as built by `discoverDescriptors`: type UUID, handle and the value read from the peer. -/
structure BTGattDesc where
  type : uuid_t
  handle : Nat
  value : List Nat
deriving DecidableEq, Repr

/-- Modelled from the spec: the client-side class `BTGattChar` (declared in `BTGattChar.hpp`)
as built by `discoverCharacteristics`: declaration handle, properties, value handle and value
type, then the descriptors found by `discoverDescriptors` with the positions of the Client
Characteristic Configuration and of the User Description among them (-1 when absent). -/
structure BTGattChar where
  handle : Nat
  properties : Nat
  value_handle : Nat
  value_type : uuid_t
  descriptorList : List BTGattDesc
  clientCharConfigIndex : Int
  userDescriptionIndex : Int
deriving DecidableEq, Repr

/-- The client-side class `BTGattService` as filled in by `discoverPrimaryServices`: primary
flag, start handle, end handle and type UUID, and the `characteristicList` that
`discoverCharacteristics` fills. -/
structure BTGattService where
  isPrimary : Bool
  startHandle : Nat
  endHandle : Nat
  type : uuid_t
  characteristicList : List BTGattChar
deriving DecidableEq, Repr

/-- The result of a client call: the session and the peer after it, the output parameter
(`res` of `readValue`, `result` of `discoverPrimaryServices`) and the value returned or the
exception thrown. -/
structure ClientRun (σ : Type) (α : Type) where
  st : BTGattHandler
  peer : σ
  out : α
  ret : Outcome Bool

namespace BTGattHandler

/-- Method `BTGattHandler::disconnect(disconnectDevice, ioErrorCause)`: the transport is
closed (`L2CAPComm::close` clears its open and error flags); if the session was connected it
is marked disconnected and its error flag cleared. The hand-over with the reader thread and
`device->disconnect(reason)` are outside the model. -/
def disconnect (st : BTGattHandler) (_disconnectDevice _ioErrorCause : Bool) :
    BTGattHandler × Bool :=
  let st1 := { st with l2cap_open := false, l2cap_ioerror := false }
  if !st1.is_connected then (st1, false)
  else ({ st1 with is_connected := false, has_ioerror := false }, true)

/-- Method `BTGattHandler::sendWithReply(msg, timeout)`: `send`, then the blocking read of
the reply ring; a timeout sets the error flag, disconnects and throws BTException. -/
def sendWithReply {σ : Type} (peer : Peer σ) (st : BTGattHandler) (p : σ) (msg : AttPDUMsg) :
    BTGattHandler × σ × Outcome AttPDUMsg :=
  let r := st.send msg
  match r.2 with
  | some e => (r.1, p, .thrown e)
  | none =>
    let q := peer p msg
    match q.2 with
    | none => ((({ r.1 with has_ioerror := true }).disconnect true true).1, q.1,
        .thrown .BTException)
    | some res => (r.1, q.1, .returned res)

/-- Method `BTGattHandler::exchangeMTUImpl(clientMaxMTU, timeout)`: the MTU taken from the
reply, 23 for ERROR_RSP(UNSUPPORTED_REQUEST), 0 for any other reply. -/
def exchangeMTUImpl {σ : Type} (peer : Peer σ) (st : BTGattHandler) (p : σ)
    (clientMaxMTU : Nat) : BTGattHandler × σ × Outcome Nat :=
  if clientMaxMTU > MAX_ATT_MTU then (st, p, .thrown .IllegalArgumentException)
  else
    let r := st.sendWithReply peer p (.exchangeMTU true clientMaxMTU)
    match r.2.2 with
    | .thrown e => (r.1, r.2.1, .thrown e)
    | .returned pdu =>
      match pdu with
      | .exchangeMTU false mtu => (r.1, r.2.1, .returned mtu)
      | .errorRsp code _ _ =>
        if code = .UNSUPPORTED_REQUEST then (r.1, r.2.1, .returned MIN_ATT_MTU)
        else (r.1, r.2.1, .returned 0)
      | _ => (r.1, r.2.1, .returned 0)

/-- The member initialisers of the constructor `BTGattHandler::BTGattHandler(device,
l2cap_att)`: `is_connected(l2cap.isOpen())`, `has_ioerror(false)`, the database of the
adapter for a server, and both MTUs at the minimum. -/
def initial (role : GATTRole) (l2cap_open l2cap_ioerror : Bool)
    (serverData : Option DBGattServer) : BTGattHandler :=
  { device := true, is_connected := l2cap_open, has_ioerror := false,
    l2cap_open := l2cap_open, l2cap_ioerror := l2cap_ioerror,
    gattServerData := (if role = .Server then serverData else none),
    writeDataQueue := [], serverMTU := MIN_ATT_MTU, usedMTU := MIN_ATT_MTU,
    sent := [], wire := [], calls := [] }

/-- The block `if( GATTRole::Client == getRole() ) { .. }` of the constructor: the MTU
exchange, in which an exception counts as MTU 0, then the disconnect on MTU 0 or the adoption
of the MTU. -/
def clientMTUSetup {σ : Type} (peer : Peer σ) (st : BTGattHandler) (p : σ) :
    BTGattHandler × σ :=
  let r := st.exchangeMTUImpl peer p MAX_ATT_MTU
  let mtu : Nat :=
    match r.2.2 with
    | .returned m => m
    | .thrown _ => 0
  if mtu = 0 then ((r.1.disconnect true false).1, r.2.1)
  else ({ r.1 with serverMTU := mtu, usedMTU := min MAX_ATT_MTU mtu }, r.2.1)

/-- The constructor `BTGattHandler::BTGattHandler(device, l2cap_att)` for a device of the
given role over a transport with the given open and error flags; `serverData` is the database
of the adapter. The start of the reader thread is outside the model. -/
def ctor {σ : Type} (peer : Peer σ) (p : σ) (role : GATTRole) (l2cap_open l2cap_ioerror : Bool)
    (serverData : Option DBGattServer) : BTGattHandler × σ :=
  let v := (initial role l2cap_open l2cap_ioerror serverData).validateConnected
  if !v.2 then ({ v.1 with is_connected := false }, p)
  else
    if role = .Client then v.1.clientMTUSetup peer p
    else
      let serverMTU : Nat :=
        match v.1.gattServerData with
        | some db => max (min db.att_mtu MAX_ATT_MTU) MIN_ATT_MTU
        | none => MAX_ATT_MTU
      ({ v.1 with serverMTU := serverMTU, usedMTU := MIN_ATT_MTU }, p)

/-- Method `BTGattHandler::writeValue(handle, value, withResponse)`. -/
def writeValue {σ : Type} (peer : Peer σ) (st : BTGattHandler) (p : σ) (handle : Nat)
    (value : List Nat) (withResponse : Bool) : ClientRun σ Unit :=
  if value.length ≤ 0 then ⟨st, p, (), .returned false⟩
  else if !withResponse then
    let r := st.send (.writeCmd handle value)
    match r.2 with
    | some e => ⟨r.1, p, (), .thrown e⟩
    | none => ⟨r.1, p, (), .returned true⟩
  else
    let r := st.sendWithReply peer p (.writeReq handle value)
    match r.2.2 with
    | .thrown e => ⟨r.1, r.2.1, (), .thrown e⟩
    | .returned pdu => ⟨r.1, r.2.1, (), .returned (pdu.getOpcode == .WRITE_RSP)⟩

/-- Modelled from the spec: method `AttReadNRsp::getMaxPDUValueSize(mtu)` (declared in
`ATTPDUTypes.hpp`), the `used_mtu - 1` value bytes a full response carries. -/
def getMaxPDUValueSize (mtu : Nat) : Nat := nsize_sub mtu 1

/-- The loop `while(!done)` of `BTGattHandler::readValue` with its variables `res` and
`offset`, run for at most `fuel` iterations; `none` when the fuel does not suffice. -/
def readValueLoop {σ : Type} (peer : Peer σ) (handle : Nat) (expectedLength : Int) :
    Nat → BTGattHandler → σ → List Nat → Nat → Option (ClientRun σ (List Nat))
  | 0, _, _, _, _ => none
  | fuel + 1, st, p, res, offset =>
    if 0 < expectedLength ∧ expectedLength ≤ (offset : Int) then
      some ⟨st, p, res, .returned (decide (offset > 0))⟩
    else if expectedLength = 0 ∧ 0 < offset then
      some ⟨st, p, res, .returned (decide (offset > 0))⟩
    else
      let req : AttPDUMsg :=
        if offset = 0 then .readReq handle else .readBlobReq handle (u16 offset)
      let r := st.sendWithReply peer p req
      match r.2.2 with
      | .thrown e => some ⟨r.1, r.2.1, res, .thrown e⟩
      | .returned pdu =>
        match pdu with
        | .readNRsp false v =>
          if v.length < getMaxPDUValueSize r.1.usedMTU then
            some ⟨r.1, r.2.1, res ++ v, .returned (decide (offset + v.length > 0))⟩
          else readValueLoop peer handle expectedLength fuel r.1 r.2.1 (res ++ v)
            (offset + v.length)
        | .readNRsp true v =>
          if v.length = 0 then
            some ⟨r.1, r.2.1, res, .returned (decide (offset > 0))⟩
          else if v.length < getMaxPDUValueSize r.1.usedMTU then
            some ⟨r.1, r.2.1, res ++ v, .returned (decide (offset + v.length > 0))⟩
          else readValueLoop peer handle expectedLength fuel r.1 r.2.1 (res ++ v)
            (offset + v.length)
        | _ => some ⟨r.1, r.2.1, res, .returned (decide (offset > 0))⟩

/-- Method `BTGattHandler::readValue(handle, res, expectedLength)`, the loop started at
offset 0 on the given buffer `res`. -/
def readValue {σ : Type} (peer : Peer σ) (fuel : Nat) (st : BTGattHandler) (p : σ)
    (handle : Nat) (res : List Nat) (expectedLength : Int) :
    Option (ClientRun σ (List Nat)) :=
  readValueLoop peer handle expectedLength fuel st p res 0

/-- The loop `while(!done)` of `BTGattHandler::discoverPrimaryServices` with its variables
`result` and `startHandle`, run for at most `fuel` iterations; `none` when the fuel does not
suffice. A response without elements makes `getElementEndHandle(count-1)` read outside the
PDU. -/
def discoverPrimaryServicesLoop {σ : Type} (peer : Peer σ) :
    Nat → BTGattHandler → σ → List BTGattService → Nat →
      Option (ClientRun σ (List BTGattService))
  | 0, _, _, _, _ => none
  | fuel + 1, st, p, result, startHandle =>
    let r := st.sendWithReply peer p
      (.readByNTypeReq true startHandle 0xffff (.uuid16 PRIMARY_SERVICE))
    match r.2.2 with
    | .thrown e => some ⟨r.1, r.2.1, result, .thrown e⟩
    | .returned pdu =>
      match pdu with
      | .readByGroupTypeRsp _ elems =>
        let result1 := result ++
          elems.map (fun e => (⟨true, e.handle, e.end_handle, e.type, []⟩ : BTGattService))
        match elems.getLast? with
        | none => some ⟨r.1, r.2.1, result1, .thrown .IndexOutOfBoundsException⟩
        | some e =>
          if e.end_handle < 0xffff then
            discoverPrimaryServicesLoop peer fuel r.1 r.2.1 result1 (e.end_handle + 1)
          else some ⟨r.1, r.2.1, result1, .returned (decide (result1.length > 0))⟩
      | _ => some ⟨r.1, r.2.1, result, .returned (decide (result.length > 0))⟩

/-- Method `BTGattHandler::discoverPrimaryServices(shared_this, result)`: `result` is
cleared and the loop started at handle 1. The check that `shared_this` is this handler is
outside the model. -/
def discoverPrimaryServices {σ : Type} (peer : Peer σ) (fuel : Nat) (st : BTGattHandler)
    (p : σ) : Option (ClientRun σ (List BTGattService)) :=
  discoverPrimaryServicesLoop peer fuel st p [] 0x0001

end BTGattHandler

/-! ## The server responders as the peer of a client -/

/-- The PDU a responder step has written to the channel, if any: the first one added to
`wire`. -/
def writtenBy (before after : BTGattHandler) : Option AttPDUMsg :=
  (after.wire.drop before.wire.length).head?

/-- A server session answering through `replyReadReq`, as the peer of a reading client. -/
def readResponder : Peer BTGattHandler := fun srv req =>
  ((srv.replyReadReq req).1, writtenBy srv (srv.replyReadReq req).1)

/-- A server session answering a READ_BY_GROUP_TYPE_REQ through `replyReadByGroupTypeReq`, as
the peer of a client that discovers services; any other PDU is left unanswered. -/
def groupTypeResponder : Peer BTGattHandler := fun srv req =>
  match req with
  | .readByNTypeReq true startHandle endHandle type =>
    ((srv.replyReadByGroupTypeReq true startHandle endHandle type).1,
      writtenBy srv (srv.replyReadByGroupTypeReq true startHandle endHandle type).1)
  | _ => (srv, none)

/-! ## Read access stated on the located attribute -/

namespace Target

/-- Results of the registered read callbacks for the located attribute: `readCharValue` for a
characteristic value, `readDescValue` for a descriptor. -/
def readCallbacks (t : Target) (ls : List Listener) : List (Option Bool) :=
  match t.desc with
  | none => ls.map (fun l => l.readCharValue t.s t.c)
  | some r => ls.map (fun l => l.readDescValue t.s t.c r.2.1)

/-- The read callback invocations for the located attribute, one per registered listener in
registration order. -/
def readCalls (t : Target) (ls : List Listener) : List ListenerCall :=
  match t.desc with
  | none => (List.range ls.length).map (fun i => ListenerCall.readCharValue i t.c.value_handle)
  | some r => (List.range ls.length).map (fun i => ListenerCall.readDescValue i r.2.1.handle)

/-- What `replyReadReq` does with the located attribute. -/
def readReply (t : Target) (ls : List Listener) (usedMTU : Nat) (opc : Opcode)
    (isBlobReq : Bool) (value_offset : Nat) : ReadReply :=
  match t.desc with
  | none => replyReadChar ls usedMTU opc isBlobReq value_offset t.s t.c
  | some r => replyReadDesc ls usedMTU opc isBlobReq value_offset t.s t.c r.2.1

end Target

/-- The read request for `handle`: READ_REQ, or READ_BLOB_REQ with the offset. -/
def readRequest (isBlobReq : Bool) (handle value_offset : Nat) : AttPDUMsg :=
  if isBlobReq then .readBlobReq handle value_offset else .readReq handle

/-- The session after `msg` has passed `send` and has been written to the channel. -/
def BTGattHandler.written (st : BTGattHandler) (msg : AttPDUMsg) : BTGattHandler :=
  { st with sent := st.sent ++ [msg], wire := st.wire ++ [msg] }

/-- The MTU that `exchangeMTUImpl` takes from the reply to its request: the MTU of an
EXCHANGE_MTU_RSP, the minimum for ERROR_RSP(UNSUPPORTED_REQUEST), 0 otherwise. -/
def replyMTU : AttPDUMsg → Nat
  | .exchangeMTU false mtu => mtu
  | .errorRsp code _ _ => if code = .UNSUPPORTED_REQUEST then MIN_ATT_MTU else 0
  | _ => 0

/-! ## Service groups stated on the list of matching services -/

/-- The services a READ_BY_GROUP_TYPE_REQ asks for: those, in database order, whose primary
flag is `primary` and whose handle lies in `[startHandle, endHandle]`. -/
def matchingServices (primary : Bool) (startHandle endHandle : Nat)
    (services : List DBGattService) : List DBGattService :=
  services.filter (fun s => s.primary = primary ∧ startHandle ≤ s.handle ∧ s.handle ≤ endHandle)

/-- Size of the response element of a service: two handles and the type UUID. -/
def DBGattService.elemSize (s : DBGattService) : Nat := 4 + s.type.getTypeSizeInt

/-- The response element `{handle, end_handle, uuid}` of a service. -/
def DBGattService.toElem (s : DBGattService) : GroupElem := ⟨s.handle, s.end_handle, s.type⟩

/-- The services of `ms` taken in order while the element has the size `esz` and the summed
sizes, starting from `used`, stay within `maxSize`. -/
def groupPrefix (esz maxSize : Nat) : Nat → List DBGattService → List DBGattService
  | _, [] => []
  | used, s :: ms =>
    if used + s.elemSize > maxSize ∨ esz ≠ s.elemSize then []
    else s :: groupPrefix esz maxSize (used + s.elemSize) ms

/-! ## Service discovery stated on the primary services -/

/-- The client-side service `discoverPrimaryServices` builds from the response element of a
database service. -/
def DBGattService.toClient (s : DBGattService) : BTGattService :=
  ⟨true, s.handle, s.end_handle, s.type, []⟩

/-- The primary services of a database, in database order. -/
def DBGattServer.primaryServices (db : DBGattServer) : List DBGattService :=
  db.services.filter (fun s => s.primary)

/-- The shape of a primary service discovery, read off the requests and the replies in the
order they were written: the first request asks for the range from `start` to 0xFFFF; after a
READ_BY_GROUP_TYPE_RSP whose last element ends below 0xFFFF the next request starts at that
end handle plus one; the exchange ends with an ERROR_RSP or with a response whose last element
ends at 0xFFFF. -/
def discoveryTranscript : Nat → List AttPDUMsg → List AttPDUMsg → Bool
  | start, req :: reqs, rsp :: rsps =>
    req == .readByNTypeReq true start 0xffff (.uuid16 PRIMARY_SERVICE) &&
    match rsp with
    | .readByGroupTypeRsp _ elems =>
      match elems.getLast? with
      | some e =>
        if e.end_handle < 0xffff then discoveryTranscript (e.end_handle + 1) reqs rsps
        else reqs.isEmpty && rsps.isEmpty
      | none => false
    | .errorRsp _ _ _ => reqs.isEmpty && rsps.isEmpty
    | _ => false
  | _, _, _ => false

/-! ## Concrete databases and sessions used to instantiate the theorems -/

/-- A characteristic with Read, Write, Notify and Indicate properties, a variable-length value
`0A 0B` of capacity 4, a fixed-length CCC descriptor `00 00` and a fixed-length user
description; handles not yet assigned. -/
def exampleChar : DBGattChar :=
  { handle := 0, end_handle := 0, value_handle := 0, value_type := .uuid16 0x2A37,
    properties := 0x3A,
    descriptors := [⟨0, TYPE_CCC_DESC, ⟨[0, 0], 2⟩, false⟩,
                    ⟨0, TYPE_USER_DESC, ⟨[0x48, 0x52], 2⟩, false⟩],
    value := ⟨[0x0A, 0x0B, 0, 0], 2⟩, variable_length := true }

/-- A characteristic without descriptors and with a fixed-length one-byte value. -/
def plainChar : DBGattChar :=
  { handle := 0, end_handle := 0, value_handle := 0, value_type := .uuid16 0x2A38,
    properties := 0x0A, descriptors := [], value := ⟨[7], 1⟩, variable_length := false }

/-- A listener that allows every read and vetoes the write of a value starting with `FF`. -/
def exampleListener : Listener :=
  { readCharValue := fun _ _ => some true
    readDescValue := fun _ _ _ => some true
    writeCharValue := fun _ _ v _ => some (v.head? != some 0xFF)
    writeDescValue := fun _ _ _ v _ => some (v.head? != some 0xFF) }

/-- A database of two primary services with one characteristic each and one listener; handles
not yet assigned. -/
def exampleServer : DBGattServer :=
  { services := [⟨true, 0, 0, .uuid16 0x180D, [exampleChar]⟩,
                 ⟨true, 0, 0, .uuid16 0x180A, [plainChar]⟩],
    listener := [exampleListener], att_mtu := 23 }

/-- The characteristic `exampleChar` as numbered by `setServicesHandles`. -/
def numberedChar : DBGattChar :=
  { exampleChar with
    handle := 2, value_handle := 3, end_handle := 5,
    descriptors := [⟨4, TYPE_CCC_DESC, ⟨[0, 0], 2⟩, false⟩,
                    ⟨5, TYPE_USER_DESC, ⟨[0x48, 0x52], 2⟩, false⟩] }

/-- The first service of `exampleServer` as numbered by `setServicesHandles`. -/
def numberedService1 : DBGattService := ⟨true, 1, 6, .uuid16 0x180D, [numberedChar]⟩

/-- The second service of `exampleServer` as numbered by `setServicesHandles`. -/
def numberedService2 : DBGattService :=
  ⟨true, 7, 10, .uuid16 0x180A, [{ plainChar with handle := 8, value_handle := 9,
                                                   end_handle := 9 }]⟩

/-- The database `exampleServer` after `setServicesHandles`. -/
def numberedServer : DBGattServer :=
  { exampleServer with services := [numberedService1, numberedService2] }

/-- A connected server session over `numberedServer` with an empty prepared-write queue and
the minimum MTU. -/
def exampleSession : BTGattHandler :=
  { device := true, is_connected := true, has_ioerror := false, l2cap_open := true,
    l2cap_ioerror := false, gattServerData := some numberedServer, writeDataQueue := [],
    serverMTU := 23, usedMTU := 23, sent := [], wire := [], calls := [] }

/-- The value of `numberedChar` located in `numberedServer` (handle 3). -/
def valueTarget : Target :=
  ⟨[], numberedService1, [numberedService2], [], numberedChar, [], none⟩

/-- The CCC descriptor of `numberedChar` located in `numberedServer` (handle 4). -/
def cccTarget : Target :=
  ⟨[], numberedService1, [numberedService2], [], numberedChar, [],
    some ([], ⟨4, TYPE_CCC_DESC, ⟨[0, 0], 2⟩, false⟩,
      [⟨5, TYPE_USER_DESC, ⟨[0x48, 0x52], 2⟩, false⟩])⟩

/-- The characteristic `exampleChar` with a single, variable-length CCC descriptor `00 00`
(handle 4), numbered as `setServicesHandles` does. -/
def varCccChar : DBGattChar :=
  { exampleChar with
    handle := 2, value_handle := 3, end_handle := 4,
    descriptors := [⟨4, TYPE_CCC_DESC, ⟨[0, 0], 2⟩, true⟩] }

/-- A database whose only characteristic is `varCccChar`. -/
def varCccServer : DBGattServer :=
  { services := [⟨true, 1, 5, .uuid16 0x180D, [varCccChar]⟩],
    listener := [exampleListener], att_mtu := 23 }

/-- A connected server session over `varCccServer`. -/
def varCccSession : BTGattHandler := { exampleSession with gattServerData := some varCccServer }

/-- The session `exampleSession` with two prepared writes to the value at handle 3 queued:
`01 02` at offset 0 and `03 04` at offset 2. -/
def commitSession : BTGattHandler :=
  { exampleSession with
    writeDataQueue := [⟨false, 3, 0, [1, 2]⟩, ⟨false, 3, 2, [3, 4]⟩] }

/-- The session `exampleSession` with a queue whose second entry fails: a write past the end
of the one-byte fixed-length value at handle 9. -/
def failingSession : BTGattHandler :=
  { exampleSession with
    writeDataQueue := [⟨false, 3, 0, [1, 2]⟩, ⟨false, 9, 5, [1]⟩, ⟨false, 3, 2, [3, 4]⟩] }

/-- The session `exampleSession` after its device has gone (the weak reference is expired). -/
def orphanSession : BTGattHandler := { exampleSession with device := false }

/-- A characteristic whose fixed-length value is the 85 bytes `0, 1, .., 84`, numbered as
`setServicesHandles` does (declaration 2, value 3). -/
def longChar : DBGattChar :=
  { handle := 2, end_handle := 3, value_handle := 3, value_type := .uuid16 0x2A39,
    properties := 0x02, descriptors := [], value := ⟨List.range 85, 85⟩,
    variable_length := false }

/-- The service holding `longChar`. -/
def longService : DBGattService := ⟨true, 1, 4, .uuid16 0x180F, [longChar]⟩

/-- A database whose only characteristic is `longChar`. -/
def longServer : DBGattServer :=
  { services := [longService], listener := [exampleListener], att_mtu := 23 }

/-- A connected server session over `longServer` with the minimum MTU. -/
def longSession : BTGattHandler := { exampleSession with gattServerData := some longServer }

/-- The value of `longChar` located in `longServer` (handle 3). -/
def longTarget : Target := ⟨[], longService, [], [], longChar, [], none⟩

/-- A listener that vetoes every read. -/
def vetoListener : Listener :=
  { readCharValue := fun _ _ => some false
    readDescValue := fun _ _ _ => some false
    writeCharValue := fun _ _ _ _ => some true
    writeDescValue := fun _ _ _ _ _ => some true }

/-- The session `exampleSession` with three listeners, the second of which vetoes every
read. -/
def vetoSession : BTGattHandler :=
  { exampleSession with
    gattServerData := some { numberedServer with
      listener := [exampleListener, vetoListener, exampleListener] } }

/-- A connected client session with the minimum MTU and nothing sent yet. -/
def clientSession : BTGattHandler :=
  { device := true, is_connected := true, has_ioerror := false, l2cap_open := true,
    l2cap_ioerror := false, gattServerData := none, writeDataQueue := [],
    serverMTU := 23, usedMTU := 23, sent := [], wire := [], calls := [] }

/-- A client session constructed over an open transport against a peer that answers the MTU
request with ERROR_RSP(UNSUPPORTED_REQUEST) and the next request with WRITE_RSP, together with
the replies the peer has left. -/
def fallbackClient : BTGattHandler × List AttPDUMsg :=
  BTGattHandler.ctor scriptedPeer
    [.errorRsp .UNSUPPORTED_REQUEST .EXCHANGE_MTU_REQ 0, .writeRsp] .Client true false none

/-- A database of six services without handles: primary, secondary, three more primary ones
with 16 bit UUIDs, and a primary one with a 128 bit UUID. -/
def groupServerRaw : DBGattServer :=
  { services := [⟨true, 0, 0, .uuid16 0x1800, [plainChar]⟩,
                 ⟨false, 0, 0, .uuid16 0x1801, []⟩,
                 ⟨true, 0, 0, .uuid16 0x180A, []⟩,
                 ⟨true, 0, 0, .uuid16 0x180D, [plainChar]⟩,
                 ⟨true, 0, 0, .uuid16 0x180F, []⟩,
                 ⟨true, 0, 0, .uuid128 0x12345678123456781234567812345678, []⟩],
    listener := [], att_mtu := 23 }

/-- The database `groupServerRaw` after `setServicesHandles`. -/
def groupServer : DBGattServer := groupServerRaw.setServicesHandles.1

/-- A connected server session over `groupServer` with the minimum MTU. -/
def groupSession : BTGattHandler := { exampleSession with gattServerData := some groupServer }

/-! ## `BTGattHandler::replyFindInfoReq`, `replyReadByTypeReq` and the dispatcher
`replyAttPDUReq` -/

/-- Modelled from the spec: constant `GattAttributeType::CHARACTERISTIC` (declared in
`GattNumbers.hpp`), the 16-bit UUID 0x2803 of the characteristic declaration. -/
def CHARACTERISTIC : Nat := 0x2803

/-- Modelled from the spec: constant `GattAttributeType::INCLUDE_DECLARATION` (declared in
`GattNumbers.hpp`), the 16-bit UUID 0x2802 of the include declaration. -/
def INCLUDE_DECLARATION : Nat := 0x2802

/-- The loop `for d in c.descriptors` of `replyFindInfoReq` with the local variables
`rspElemSize`, `rspSize` and the elements set so far: the first component of the result is
`true` when the loop is left by the `send(rsp); return` in its body. -/
def findInfoDescs (start_handle end_handle rspMaxSize : Nat) :
    List DBGattDesc → Nat → Nat → List InfoElem → Bool × Nat × Nat × List InfoElem
  | [], rspElemSize, rspSize, elems => (false, rspElemSize, rspSize, elems)
  | d :: ds, rspElemSize, rspSize, elems =>
    if start_handle ≤ d.handle ∧ d.handle ≤ end_handle then
      let size := 2 + d.type.getTypeSizeInt
      let rspElemSize1 := if rspElemSize = 0 then size else rspElemSize
      if rspSize + size > rspMaxSize ∨ rspElemSize1 ≠ size then
        (true, rspElemSize1, rspSize, elems)
      else
        findInfoDescs start_handle end_handle rspMaxSize ds rspElemSize1 (rspSize + size)
          (elems ++ [⟨d.handle, d.type⟩])
    else
      findInfoDescs start_handle end_handle rspMaxSize ds rspElemSize rspSize elems

/-- The loop `for c in s.characteristics` of `replyFindInfoReq`. -/
def findInfoChars (start_handle end_handle rspMaxSize : Nat) :
    List DBGattChar → Nat → Nat → List InfoElem → Bool × Nat × Nat × List InfoElem
  | [], rspElemSize, rspSize, elems => (false, rspElemSize, rspSize, elems)
  | c :: cs, rspElemSize, rspSize, elems =>
    let r := findInfoDescs start_handle end_handle rspMaxSize c.descriptors rspElemSize rspSize
      elems
    if r.1 then r
    else findInfoChars start_handle end_handle rspMaxSize cs r.2.1 r.2.2.1 r.2.2.2

/-- The loop `for s in gattServerData->services` of `replyFindInfoReq`. -/
def findInfoServices (start_handle end_handle rspMaxSize : Nat) :
    List DBGattService → Nat → Nat → List InfoElem → Bool × Nat × Nat × List InfoElem
  | [], rspElemSize, rspSize, elems => (false, rspElemSize, rspSize, elems)
  | s :: ss, rspElemSize, rspSize, elems =>
    let r := findInfoChars start_handle end_handle rspMaxSize s.characteristics rspElemSize
      rspSize elems
    if r.1 then r
    else findInfoServices start_handle end_handle rspMaxSize ss r.2.1 r.2.2.1 r.2.2.2

/-- The loop `for c in s.characteristics` of `replyReadByTypeReq` with the local variables
`rspElemSize`, `rspSize` and the elements set so far: the first component of the result is
`true` when the loop is left by the `send(rsp); return` in its body. -/
def readByTypeChars (start_handle end_handle rspMaxSize : Nat) :
    List DBGattChar → Nat → Nat → List CharElem → Bool × Nat × Nat × List CharElem
  | [], rspElemSize, rspSize, elems => (false, rspElemSize, rspSize, elems)
  | c :: cs, rspElemSize, rspSize, elems =>
    if start_handle ≤ c.handle ∧ c.handle ≤ end_handle then
      let size := 2 + 1 + 2 + c.value_type.getTypeSizeInt
      let rspElemSize1 := if rspElemSize = 0 then size else rspElemSize
      if rspSize + size > rspMaxSize ∨ rspElemSize1 ≠ size then
        (true, rspElemSize1, rspSize, elems)
      else
        readByTypeChars start_handle end_handle rspMaxSize cs rspElemSize1 (rspSize + size)
          (elems ++ [⟨c.handle, c.properties, c.value_handle, c.value_type⟩])
    else
      readByTypeChars start_handle end_handle rspMaxSize cs rspElemSize rspSize elems

/-- The loop `for s in gattServerData->services` of `replyReadByTypeReq`. -/
def readByTypeServices (start_handle end_handle rspMaxSize : Nat) :
    List DBGattService → Nat → Nat → List CharElem → Bool × Nat × Nat × List CharElem
  | [], rspElemSize, rspSize, elems => (false, rspElemSize, rspSize, elems)
  | s :: ss, rspElemSize, rspSize, elems =>
    let r := readByTypeChars start_handle end_handle rspMaxSize s.characteristics rspElemSize
      rspSize elems
    if r.1 then r
    else readByTypeServices start_handle end_handle rspMaxSize ss r.2.1 r.2.2.1 r.2.2.2

namespace BTGattHandler

/-- Method `BTGattHandler::replyFindInfoReq(pdu)` on the request with the given start and end
handle: the state after the call and the exception that left it, if any. -/
def replyFindInfoReq (st : BTGattHandler) (startHandle endHandle : Nat) :
    BTGattHandler × Option Thrown :=
  let opc := (AttPDUMsg.findInfoReq startHandle endHandle).getOpcode
  if startHandle = 0 then
    st.send (.errorRsp .INVALID_HANDLE opc 0)
  else if startHandle > endHandle then
    st.send (.errorRsp .INVALID_HANDLE opc startHandle)
  else
    let rspMaxSize := min 255 (nsize_sub st.usedMTU 2)
    match st.gattServerData with
    | some db =>
      let r := findInfoServices startHandle endHandle rspMaxSize db.services 0 0 []
      if r.1 then st.send (.findInfoRsp r.2.1 r.2.2.2)
      else if 0 < r.2.2.2.length then st.send (.findInfoRsp r.2.1 r.2.2.2)
      else st.send (.errorRsp .ATTRIBUTE_NOT_FOUND opc 0)
    | none => st.send (.errorRsp .ATTRIBUTE_NOT_FOUND opc 0)

/-- Method `BTGattHandler::replyReadByTypeReq(pdu)` on the request with the fields `group`,
start handle, end handle and attribute type: the state after the call and the exception that
left it, if any. -/
def replyReadByTypeReq (st : BTGattHandler) (group : Bool) (startHandle endHandle : Nat)
    (type : uuid_t) : BTGattHandler × Option Thrown :=
  let opc := (AttPDUMsg.readByNTypeReq group startHandle endHandle type).getOpcode
  if startHandle = 0 then
    st.send (.errorRsp .INVALID_HANDLE opc 0)
  else if startHandle > endHandle then
    st.send (.errorRsp .INVALID_HANDLE opc startHandle)
  else
    let req_type : Nat :=
      if type.equivalent (.uuid16 CHARACTERISTIC) then CHARACTERISTIC
      else if type.equivalent (.uuid16 INCLUDE_DECLARATION) then INCLUDE_DECLARATION
      else 0
    if CHARACTERISTIC = req_type then
      let rspMaxSize := min 255 (nsize_sub st.usedMTU 2)
      match st.gattServerData with
      | some db =>
        let r := readByTypeServices startHandle endHandle rspMaxSize db.services 0 0 []
        if r.1 then st.send (.readByTypeRsp r.2.1 r.2.2.2)
        else if 0 < r.2.2.2.length then st.send (.readByTypeRsp r.2.1 r.2.2.2)
        else st.send (.errorRsp .ATTRIBUTE_NOT_FOUND opc 0)
      | none => st.send (.errorRsp .ATTRIBUTE_NOT_FOUND opc 0)
    else if INCLUDE_DECLARATION = req_type then
      st.send (.errorRsp .ATTRIBUTE_NOT_FOUND opc 0)
    else
      st.send (.errorRsp .UNSUPPORTED_GROUP_TYPE opc 0)

/-- Method `BTGattHandler::replyAttPDUReq(pdu)`, the dispatch of a received request by its
opcode: the state after the call and the exception that left it, if any. A request that
arrives on a session that is not connected is dropped. -/
def replyAttPDUReq (st : BTGattHandler) (pdu : AttPDUMsg) : BTGattHandler × Option Thrown :=
  let v := st.validateConnected
  if !v.2 then (v.1, none)
  else
    match pdu with
    | .exchangeMTU true clientMTU =>
      let st1 := { v.1 with usedMTU := min v.1.serverMTU clientMTU }
      st1.send (.exchangeMTU false st1.usedMTU)
    | .readByNTypeReq false startHandle endHandle type =>
      v.1.replyReadByTypeReq false startHandle endHandle type
    | .readByNTypeReq true startHandle endHandle type =>
      v.1.replyReadByGroupTypeReq true startHandle endHandle type
    | .findInfoReq startHandle endHandle => v.1.replyFindInfoReq startHandle endHandle
    | .readReq _ => v.1.replyReadReq pdu
    | .readBlobReq _ _ => v.1.replyReadReq pdu
    | .writeReq _ _ => v.1.replyWriteReq pdu
    | .writeCmd _ _ => v.1.replyWriteReq pdu
    | .exeWriteReq _ => v.1.replyWriteReq pdu
    | .prepWrite p =>
      if p.isReq then v.1.replyWriteReq pdu
      else v.1.send (.errorRsp .FORBIDDEN_VALUE pdu.getOpcode 0)
    | _ =>
      if pdu.getOpcode = .FIND_BY_TYPE_VALUE_REQ ∨ pdu.getOpcode = .READ_MULTIPLE_REQ ∨
          pdu.getOpcode = .READ_MULTIPLE_VARIABLE_REQ ∨ pdu.getOpcode = .SIGNED_WRITE_CMD then
        v.1.send (.errorRsp .UNSUPPORTED_REQUEST pdu.getOpcode 0)
      else
        v.1.send (.errorRsp .FORBIDDEN_VALUE pdu.getOpcode 0)

end BTGattHandler

/-! ## The reader thread: notifications, indications and the dispatch of a received PDU -/

/-- Modelled from the spec: class `BTGattCharListener` (declared in `BTGattChar.hpp`), an
object with the predicate `match(characteristic)` and the callbacks
`notificationReceived(char, data, timestamp)` and
`indicationReceived(char, data, timestamp, cfmSent)`. The result `none` stands for an
exception thrown by the call. -/
structure BTGattCharListener where
  match_ : BTGattChar → Option Bool
  notificationReceived : BTGattChar → List Nat → Nat → Option Unit
  indicationReceived : BTGattChar → List Nat → Nat → Bool → Option Unit

/-- Modelled from the spec: the classification `AttPDUMsg::OpcodeType` of the opcodes
(declared in `ATTPDUTypes.hpp`). -/
inductive OpcodeType where
  | REQUEST
  | RESPONSE
  | COMMAND
  | NOTIFICATION
  | INDICATION
  | CONFIRMATION
deriving DecidableEq, Repr

/-- What the reader thread does while it handles one received PDU, in the order of time:
a PDU written to the L2CAP channel, a listener callback invoked (with the position of the
listener in `characteristicListenerList` and the arguments of the call), an exception of a
listener caught and logged, a PDU put into the reply ring. -/
inductive ReaderEvent where
  | written (msg : AttPDUMsg)
  | notificationReceived (listener : Nat) (charDecl : BTGattChar) (value : List Nat)
      (timestamp : Nat)
  | indicationReceived (listener : Nat) (charDecl : BTGattChar) (value : List Nat)
      (timestamp : Nat) (cfmSent : Bool)
  | caught (listener : Nat)
  | putBlocking (msg : AttPDUMsg)
deriving DecidableEq, Repr

/-- How the handling of one received PDU ends: it completes, an exception leaves it, or a
null `BTGattCharRef` is dereferenced (`l->match(*decl)` for a handle that
`findCharacterisicsByValueHandle` does not resolve). -/
inductive ReaderExit where
  | completed
  | thrown (e : Thrown)
  | nullDereference
deriving DecidableEq, Repr

/-- The result of handling one received PDU: the session afterwards, what was done and how
it ended. -/
structure ReaderStep where
  st : BTGattHandler
  events : List ReaderEvent
  exit : ReaderExit

/-- Method `BTGattHandler::findCharacterisicsByValueHandle(charValueHandle, service)`: the
first characteristic of the service with that value handle. -/
def findCharacterisicsByValueHandleIn (charValueHandle : Nat) :
    List BTGattChar → Option BTGattChar
  | [] => none
  | decl :: rest =>
    if charValueHandle = decl.value_handle then some decl
    else findCharacterisicsByValueHandleIn charValueHandle rest

/-- Method `BTGattHandler::findCharacterisicsByValueHandle(charValueHandle, services)`: the
first hit among the services in their order, `none` for the null reference. -/
def findCharacterisicsByValueHandle (charValueHandle : Nat) :
    List BTGattService → Option BTGattChar
  | [] => none
  | s :: rest =>
    match findCharacterisicsByValueHandleIn charValueHandle s.characteristicList with
    | some decl => some decl
    | none => findCharacterisicsByValueHandle charValueHandle rest

/-- The loop `jau::for_each_fidelity(characteristicListenerList, ..)` of the reader thread on
a HANDLE_VALUE_NTF, from the listener at position `i` on: every exception of `match` or of the
callback is caught within the iteration. -/
def notificationLoop (decl : BTGattChar) (data_view : List Nat) (timestamp : Nat) :
    Nat → List BTGattCharListener → List ReaderEvent
  | _, [] => []
  | i, l :: ls =>
    (match l.match_ decl with
      | some true =>
        ReaderEvent.notificationReceived i decl data_view timestamp ::
          (match l.notificationReceived decl data_view timestamp with
            | some _ => []
            | none => [ReaderEvent.caught i])
      | some false => []
      | none => [ReaderEvent.caught i]) ++
    notificationLoop decl data_view timestamp (i + 1) ls

/-- The loop `jau::for_each_fidelity(characteristicListenerList, ..)` of the reader thread on
a HANDLE_VALUE_IND, from the listener at position `i` on. -/
def indicationLoop (decl : BTGattChar) (data_view : List Nat) (timestamp : Nat)
    (cfmSent : Bool) : Nat → List BTGattCharListener → List ReaderEvent
  | _, [] => []
  | i, l :: ls =>
    (match l.match_ decl with
      | some true =>
        ReaderEvent.indicationReceived i decl data_view timestamp cfmSent ::
          (match l.indicationReceived decl data_view timestamp cfmSent with
            | some _ => []
            | none => [ReaderEvent.caught i])
      | some false => []
      | none => [ReaderEvent.caught i]) ++
    indicationLoop decl data_view timestamp cfmSent (i + 1) ls

/-- The PDUs a step has written to the channel, as events. -/
def writtenEvents (before after : BTGattHandler) : List ReaderEvent :=
  (after.wire.drop before.wire.length).map ReaderEvent.written

namespace BTGattHandler

/-- The branch `if( 0 < len )` of the loop of `BTGattHandler::l2capReaderThreadImpl` on the
PDU `attPDU` that `getSpecialized` has made of the received bytes. The members `services`,
`characteristicListenerList` and `sendIndicationConfirmation` of the handler and the
classification `AttPDUMsg::get_type` (declared in `ATTPDUTypes.hpp`) are parameters. -/
def l2capReaderReceived (get_type : Opcode → OpcodeType) (st : BTGattHandler)
    (services : List BTGattService) (characteristicListenerList : List BTGattCharListener)
    (sendIndicationConfirmation : Bool) (attPDU : AttPDUMsg) : ReaderStep :=
  if attPDU.getOpcode = .MULTIPLE_HANDLE_VALUE_NTF then ⟨st, [], .completed⟩
  else
    match attPDU with
    | .handleValueRcv false handle value ts_creation =>
      match findCharacterisicsByValueHandle handle services with
      | some decl =>
        ⟨st, notificationLoop decl value ts_creation 0 characteristicListenerList, .completed⟩
      | none =>
        if characteristicListenerList.isEmpty then ⟨st, [], .completed⟩
        else ⟨st, [], .nullDereference⟩
    | .handleValueRcv true handle value ts_creation =>
      let r := if sendIndicationConfirmation then st.send .handleValueCfm else (st, none)
      match r.2 with
      | some e => ⟨r.1, writtenEvents st r.1, .thrown e⟩
      | none =>
        let cfmSent := sendIndicationConfirmation
        match findCharacterisicsByValueHandle handle services with
        | some decl =>
          ⟨r.1, writtenEvents st r.1 ++
            indicationLoop decl value ts_creation cfmSent 0 characteristicListenerList,
            .completed⟩
        | none =>
          if characteristicListenerList.isEmpty then ⟨r.1, writtenEvents st r.1, .completed⟩
          else ⟨r.1, writtenEvents st r.1, .nullDereference⟩
    | _ =>
      if get_type attPDU.getOpcode = .RESPONSE then
        ⟨st, [ReaderEvent.putBlocking attPDU], .completed⟩
      else if get_type attPDU.getOpcode = .REQUEST then
        let r := st.replyAttPDUReq attPDU
        match r.2 with
        | some e => ⟨r.1, writtenEvents st r.1, .thrown e⟩
        | none => ⟨r.1, writtenEvents st r.1, .completed⟩
      else ⟨st, [], .completed⟩

end BTGattHandler

/-! ## `BTGattHandler::discoverDescriptors` and `readDescriptorValue` -/

namespace BTGattDesc

/-- Modelled from the spec: `BTGattDesc::isClientCharConfig()`, whether the descriptor is a
Client Characteristic Configuration. -/
def isClientCharConfig (d : BTGattDesc) : Bool := decide (TYPE_CCC_DESC = d.type)

/-- Modelled from the spec: `BTGattDesc::isUserDescription()`, whether the descriptor is a
Characteristic User Description. -/
def isUserDescription (d : BTGattDesc) : Bool := decide (TYPE_USER_DESC = d.type)

end BTGattDesc

/-- Modelled from the spec: `BTGattChar::clearDescriptors()`, which empties the descriptor
list and resets the two positions. -/
def BTGattChar.clearDescriptors (c : BTGattChar) : BTGattChar :=
  { c with descriptorList := [], clientCharConfigIndex := -1, userDescriptionIndex := -1 }

/-- The state of the descriptor scan of one characteristic: session and peer, the
characteristic with the descriptors added so far, the flag `done` and the exception that
left the scan, if any. -/
structure DescScan (σ : Type) where
  st : BTGattHandler
  peer : σ
  charDecl : BTGattChar
  done : Bool
  thrown : Option Thrown

namespace BTGattHandler

/-- Method `BTGattHandler::readDescriptorValue(desc, expectedLength)`: `readValue` on the
handle and the value buffer of the descriptor. -/
def readDescriptorValue {σ : Type} (peer : Peer σ) (fuel : Nat) (st : BTGattHandler) (p : σ)
    (desc : BTGattDesc) (expectedLength : Int) : Option (ClientRun σ BTGattDesc) :=
  (st.readValue peer fuel p desc.handle desc.value expectedLength).map
    (fun r => ⟨r.st, r.peer, { desc with value := r.out }, r.ret⟩)

/-- The loop `for e_iter in 0..e_count` of `discoverDescriptors` over the elements of one
FIND_INFORMATION_RSP: a handle out of range or a failed `readDescriptorValue` sets `done` and
leaves the loop, otherwise the descriptor is added to the characteristic. `fuel` bounds the
loop of `readValue`. -/
def discoverDescriptorsElems {σ : Type} (peer : Peer σ) (fuel : Nat) (cd_handle_end : Nat) :
    List InfoElem → BTGattHandler → σ → BTGattChar → Option (DescScan σ)
  | [], st, p, charDecl => some ⟨st, p, charDecl, false, none⟩
  | e :: es, st, p, charDecl =>
    if e.handle ≤ charDecl.value_handle ∨ e.handle > cd_handle_end then
      some ⟨st, p, charDecl, true, none⟩
    else
      match st.readDescriptorValue peer fuel p ⟨e.type, e.handle, []⟩ 0 with
      | none => none
      | some r =>
        match r.ret with
        | .thrown ex => some ⟨r.st, r.peer, charDecl, false, some ex⟩
        | .returned false => some ⟨r.st, r.peer, charDecl, true, none⟩
        | .returned true =>
          let cd := r.out
          let c1 : BTGattChar :=
            if cd.isClientCharConfig then
              { charDecl with clientCharConfigIndex := charDecl.descriptorList.length }
            else if cd.isUserDescription then
              { charDecl with userDescriptionIndex := charDecl.descriptorList.length }
            else charDecl
          discoverDescriptorsElems peer fuel cd_handle_end es r.st r.peer
            { c1 with descriptorList := c1.descriptorList ++ [cd] }

/-- The loop `while( !done && cd_handle_iter <= cd_handle_end )` of `discoverDescriptors`
for one characteristic, run for at most `fuel` iterations; `none` when the fuel does not
suffice. A response without elements makes `getElementHandle(e_count-1)` read outside the
PDU. -/
def discoverDescriptorsLoop {σ : Type} (peer : Peer σ) (rfuel : Nat) (cd_handle_end : Nat) :
    Nat → BTGattHandler → σ → BTGattChar → Nat → Option (DescScan σ)
  | 0, _, _, _, _ => none
  | fuel + 1, st, p, charDecl, cd_handle_iter =>
    if ¬ cd_handle_iter ≤ cd_handle_end then some ⟨st, p, charDecl, false, none⟩
    else
      let r := st.sendWithReply peer p (.findInfoReq cd_handle_iter cd_handle_end)
      match r.2.2 with
      | .thrown ex => some ⟨r.1, r.2.1, charDecl, false, some ex⟩
      | .returned pdu =>
        match pdu with
        | .findInfoRsp _ elems =>
          match discoverDescriptorsElems peer rfuel cd_handle_end elems r.1 r.2.1 charDecl with
          | none => none
          | some s =>
            if s.thrown.isSome then some s
            else
              match elems.getLast? with
              | none => some { s with thrown := some .IndexOutOfBoundsException }
              | some e =>
                if s.done then some s
                else if e.handle < cd_handle_end then
                  discoverDescriptorsLoop peer rfuel cd_handle_end fuel s.st s.peer s.charDecl
                    (e.handle + 1)
                else some { s with done := true }
        | _ => some ⟨r.1, r.2.1, charDecl, true, none⟩

/-- The body of the loop `for charIter in 0..charCount` of `discoverDescriptors` for the
characteristic `charDecl`, where `next` is the characteristic after it in the service, if
any: the descriptors are cleared and the handles from the value handle + 1 up to the handle
before the next characteristic, or to the end of the service, are scanned. -/
def discoverDescriptorsChar {σ : Type} (peer : Peer σ) (rfuel fuel : Nat)
    (st : BTGattHandler) (p : σ) (service_end_handle : Nat) (charDecl : BTGattChar)
    (next : Option BTGattChar) : Option (DescScan σ) :=
  let cd_handle_iter := u16 (charDecl.value_handle + 1)
  let cd_handle_end :=
    match next with
    | some n => u16 (n.handle + 65535)
    | none => service_end_handle
  discoverDescriptorsLoop peer rfuel cd_handle_end fuel st p charDecl.clearDescriptors
    cd_handle_iter

/-- The loop `for charIter in 0..charCount` of `discoverDescriptors`: the characteristics
scanned so far are collected in `acc`. -/
def discoverDescriptorsChars {σ : Type} (peer : Peer σ) (rfuel fuel : Nat)
    (service_end_handle : Nat) :
    List BTGattChar → BTGattHandler → σ → List BTGattChar →
      Option (ClientRun σ (List BTGattChar))
  | [], st, p, acc => some ⟨st, p, acc, .returned (decide (acc.length > 0))⟩
  | charDecl :: rest, st, p, acc =>
    match discoverDescriptorsChar peer rfuel fuel st p service_end_handle charDecl
        rest.head? with
    | none => none
    | some s =>
      match s.thrown with
      | some ex => some ⟨s.st, s.peer, acc ++ s.charDecl :: rest, .thrown ex⟩
      | none =>
        discoverDescriptorsChars peer rfuel fuel service_end_handle rest s.st s.peer
          (acc ++ [s.charDecl])

/-- Method `BTGattHandler::discoverDescriptors(service)`: the service with the descriptors
of its characteristics filled in, and whether it has a characteristic at all. -/
def discoverDescriptors {σ : Type} (peer : Peer σ) (rfuel fuel : Nat) (st : BTGattHandler)
    (p : σ) (service : BTGattService) : Option (ClientRun σ BTGattService) :=
  (discoverDescriptorsChars peer rfuel fuel service.endHandle service.characteristicList st p
      []).map
    (fun r => ⟨r.st, r.peer, { service with characteristicList := r.out }, r.ret⟩)

end BTGattHandler

/-! ## Equality of database objects, the GATT environment and `AttPDUMsg::getSpecialized` -/

/-- The function `operator==(const DBGattDesc& lhs, const DBGattDesc& rhs)`. -/
def DBGattDesc.operator_eq (lhs rhs : DBGattDesc) : Bool := lhs.handle == rhs.handle

/-- The function `operator==(const DBGattChar& lhs, const DBGattChar& rhs)`. -/
def DBGattChar.operator_eq (lhs rhs : DBGattChar) : Bool := lhs.handle == rhs.handle

/-- The function `operator==(const DBGattService& lhs, const DBGattService& rhs)`. -/
def DBGattService.operator_eq (lhs rhs : DBGattService) : Bool :=
  lhs.handle == rhs.handle && lhs.end_handle == rhs.end_handle

/-- The class `BTGattEnv`: the two command reply timeouts and the initial reply timeout in
milliseconds and the capacity of the reply ring. -/
structure BTGattEnv where
  GATT_READ_COMMAND_REPLY_TIMEOUT : Int
  GATT_WRITE_COMMAND_REPLY_TIMEOUT : Int
  GATT_INITIAL_COMMAND_REPLY_TIMEOUT : Int
  ATTPDU_RING_CAPACITY : Int
deriving DecidableEq, Repr

/-- Constant `INT32_MAX`. -/
def INT32_MAX : Int := 2147483647

/-- The constructor `BTGattEnv::BTGattEnv()`. The lookup
`jau::environment::getInt32Property(name, default_value, min_allowed, max_allowed)` of the
external jaulib is a parameter. -/
def BTGattEnv.ctor (getInt32Property : String → Int → Int → Int → Int) : BTGattEnv :=
  { GATT_READ_COMMAND_REPLY_TIMEOUT :=
      getInt32Property "direct_bt.gatt.cmd.read.timeout" 500 250 INT32_MAX
    GATT_WRITE_COMMAND_REPLY_TIMEOUT :=
      getInt32Property "direct_bt.gatt.cmd.write.timeout" 500 250 INT32_MAX
    GATT_INITIAL_COMMAND_REPLY_TIMEOUT :=
      getInt32Property "direct_bt.gatt.cmd.init.timeout" 2500 2000 INT32_MAX
    ATTPDU_RING_CAPACITY := getInt32Property "direct_bt.gatt.ringsize" 128 64 1024 }

/-- The lookup of a process in which no property is set: every property has its default
value. -/
def unconfigured : String → Int → Int → Int → Int := fun _ default_value _ _ => default_value

namespace Opcode

/-- Modelled from the spec: the numbers of the enumerators of `AttPDUMsg::Opcode` (declared
in `ATTPDUTypes.hpp`), the ATT opcodes of the Bluetooth Core Specification v5.2, Vol 3,
Part F 3.4.8; PDU_UNDEFINED is 0. -/
def number : Opcode → Nat
  | PDU_UNDEFINED => 0x00
  | ERROR_RSP => 0x01
  | EXCHANGE_MTU_REQ => 0x02
  | EXCHANGE_MTU_RSP => 0x03
  | FIND_INFORMATION_REQ => 0x04
  | FIND_INFORMATION_RSP => 0x05
  | FIND_BY_TYPE_VALUE_REQ => 0x06
  | FIND_BY_TYPE_VALUE_RSP => 0x07
  | READ_BY_TYPE_REQ => 0x08
  | READ_BY_TYPE_RSP => 0x09
  | READ_REQ => 0x0A
  | READ_RSP => 0x0B
  | READ_BLOB_REQ => 0x0C
  | READ_BLOB_RSP => 0x0D
  | READ_MULTIPLE_REQ => 0x0E
  | READ_MULTIPLE_RSP => 0x0F
  | READ_BY_GROUP_TYPE_REQ => 0x10
  | READ_BY_GROUP_TYPE_RSP => 0x11
  | WRITE_REQ => 0x12
  | WRITE_RSP => 0x13
  | WRITE_CMD => 0x52
  | PREPARE_WRITE_REQ => 0x16
  | PREPARE_WRITE_RSP => 0x17
  | EXECUTE_WRITE_REQ => 0x18
  | EXECUTE_WRITE_RSP => 0x19
  | READ_MULTIPLE_VARIABLE_REQ => 0x20
  | READ_MULTIPLE_VARIABLE_RSP => 0x21
  | MULTIPLE_HANDLE_VALUE_NTF => 0x23
  | HANDLE_VALUE_NTF => 0x1B
  | HANDLE_VALUE_IND => 0x1D
  | HANDLE_VALUE_CFM => 0x1E
  | SIGNED_WRITE_CMD => 0xD2

/-- The enumerators of `AttPDUMsg::Opcode`. -/
def all : List Opcode :=
  [PDU_UNDEFINED, ERROR_RSP, EXCHANGE_MTU_REQ, EXCHANGE_MTU_RSP, FIND_INFORMATION_REQ,
    FIND_INFORMATION_RSP, FIND_BY_TYPE_VALUE_REQ, FIND_BY_TYPE_VALUE_RSP, READ_BY_TYPE_REQ,
    READ_BY_TYPE_RSP, READ_REQ, READ_RSP, READ_BLOB_REQ, READ_BLOB_RSP, READ_MULTIPLE_REQ,
    READ_MULTIPLE_RSP, READ_BY_GROUP_TYPE_REQ, READ_BY_GROUP_TYPE_RSP, WRITE_REQ, WRITE_RSP,
    WRITE_CMD, PREPARE_WRITE_REQ, PREPARE_WRITE_RSP, EXECUTE_WRITE_REQ, EXECUTE_WRITE_RSP,
    READ_MULTIPLE_VARIABLE_REQ, READ_MULTIPLE_VARIABLE_RSP, MULTIPLE_HANDLE_VALUE_NTF,
    HANDLE_VALUE_NTF, HANDLE_VALUE_IND, HANDLE_VALUE_CFM, SIGNED_WRITE_CMD]

/-- The cast `static_cast<AttPDUMsg::Opcode>(byte)` as the `switch` sees it: the enumerator
with that number, `none` when the byte is not the number of an enumerator. -/
def ofNumber (byte : Nat) : Option Opcode := all.find? (fun opc => opc.number == byte)

end Opcode

/-- The classes of `ATTPDUTypes.hpp` that `AttPDUMsg::getSpecialized` constructs; `AttPDUMsg`
is the base class and `AttPDUUndefined` the class of the opcode PDU_UNDEFINED. -/
inductive AttClass where
  | AttPDUMsg
  | AttPDUUndefined
  | AttErrorRsp
  | AttExchangeMTU
  | AttFindInfoRsp
  | AttReadByTypeRsp
  | AttReadRsp
  | AttReadBlobRsp
  | AttReadByGroupTypeRsp
  | AttWriteRsp
  | AttHandleValueRcv
deriving DecidableEq, Repr

/-- The object `AttPDUMsg::getSpecialized` returns: the class constructed and the bytes of
its buffer `pdu`. -/
structure SpecializedPDU where
  cls : AttClass
  pdu : List Nat
deriving DecidableEq, Repr

/-- Modelled from the spec: `AttPDUMsg::getOpcode()` (declared in `ATTPDUTypes.hpp`), the
opcode the PDU is tagged with, read from the first byte of its buffer; `none` when that byte
is not the number of an enumerator. -/
def SpecializedPDU.getOpcode (p : SpecializedPDU) : Option Opcode :=
  Opcode.ofNumber (p.pdu.headD 0)

/-- The function `AttPDUMsg::getSpecialized(buffer, buffer_size)` on the received bytes: the
`switch` over the first byte chooses the class, which copies the bytes into its buffer. The
checks in the constructors of the specialised classes are outside the model. -/
def getSpecialized (buffer : List Nat) : SpecializedPDU :=
  match Opcode.ofNumber (buffer.headD 0) with
  | some .PDU_UNDEFINED => ⟨.AttPDUUndefined, buffer⟩
  | some .ERROR_RSP => ⟨.AttErrorRsp, buffer⟩
  | some .EXCHANGE_MTU_REQ => ⟨.AttExchangeMTU, buffer⟩
  | some .EXCHANGE_MTU_RSP => ⟨.AttExchangeMTU, buffer⟩
  | some .FIND_INFORMATION_REQ => ⟨.AttPDUMsg, buffer⟩
  | some .FIND_INFORMATION_RSP => ⟨.AttFindInfoRsp, buffer⟩
  | some .FIND_BY_TYPE_VALUE_REQ => ⟨.AttPDUMsg, buffer⟩
  | some .FIND_BY_TYPE_VALUE_RSP => ⟨.AttPDUMsg, buffer⟩
  | some .READ_BY_TYPE_REQ => ⟨.AttPDUMsg, buffer⟩
  | some .READ_BY_TYPE_RSP => ⟨.AttReadByTypeRsp, buffer⟩
  | some .READ_REQ => ⟨.AttPDUMsg, buffer⟩
  | some .READ_RSP => ⟨.AttReadRsp, buffer⟩
  | some .READ_BLOB_REQ => ⟨.AttPDUMsg, buffer⟩
  | some .READ_BLOB_RSP => ⟨.AttReadBlobRsp, buffer⟩
  | some .READ_MULTIPLE_REQ => ⟨.AttPDUMsg, buffer⟩
  | some .READ_MULTIPLE_RSP => ⟨.AttPDUMsg, buffer⟩
  | some .READ_BY_GROUP_TYPE_REQ => ⟨.AttPDUMsg, buffer⟩
  | some .READ_BY_GROUP_TYPE_RSP => ⟨.AttReadByGroupTypeRsp, buffer⟩
  | some .WRITE_REQ => ⟨.AttPDUMsg, buffer⟩
  | some .WRITE_RSP => ⟨.AttWriteRsp, buffer⟩
  | some .WRITE_CMD => ⟨.AttPDUMsg, buffer⟩
  | some .PREPARE_WRITE_REQ => ⟨.AttPDUMsg, buffer⟩
  | some .PREPARE_WRITE_RSP => ⟨.AttPDUMsg, buffer⟩
  | some .EXECUTE_WRITE_REQ => ⟨.AttPDUMsg, buffer⟩
  | some .EXECUTE_WRITE_RSP => ⟨.AttPDUMsg, buffer⟩
  | some .READ_MULTIPLE_VARIABLE_REQ => ⟨.AttPDUMsg, buffer⟩
  | some .READ_MULTIPLE_VARIABLE_RSP => ⟨.AttPDUMsg, buffer⟩
  | some .MULTIPLE_HANDLE_VALUE_NTF => ⟨.AttPDUMsg, buffer⟩
  | some .HANDLE_VALUE_NTF => ⟨.AttHandleValueRcv, buffer⟩
  | some .HANDLE_VALUE_IND => ⟨.AttHandleValueRcv, buffer⟩
  | some .HANDLE_VALUE_CFM => ⟨.AttPDUMsg, buffer⟩
  | some .SIGNED_WRITE_CMD => ⟨.AttPDUMsg, buffer⟩
  | none => ⟨.AttPDUMsg, buffer⟩

/-! ## Notions used to state the properties of the reader thread and of the responders -/

namespace ReaderEvent

/-- Whether the event is the invocation of a listener callback. -/
def isCallback : ReaderEvent → Bool
  | notificationReceived _ _ _ _ => true
  | indicationReceived _ _ _ _ _ => true
  | _ => false

/-- Whether the event is the invocation of a callback of the listener at position `i`. -/
def callbackOf (i : Nat) : ReaderEvent → Bool
  | notificationReceived j _ _ _ => j == i
  | indicationReceived j _ _ _ _ => j == i
  | _ => false

/-- Whether the event is a PDU written to the channel. -/
def isWritten : ReaderEvent → Bool
  | written _ => true
  | _ => false

end ReaderEvent

/-- The listeners of a list on which `match(decl)` returns true, each with its position in
the list counted from `i`, in the order of the list. -/
def matchingListeners (decl : BTGattChar) (i : Nat) (ls : List BTGattCharListener) :
    List (Nat × BTGattCharListener) :=
  (ls.enumFrom i).filter (fun il => il.2.match_ decl == some true)

/-- Whether a response PDU with elements is well formed for `usedMTU`: it has at least one
element, every element has the element size of the response (handle, end handle and
properties as the wire format lays them out, plus the width of the UUID), and its length is
at most `usedMTU`. Every other PDU passes. -/
def AttPDUMsg.elementsFit (usedMTU : Nat) : AttPDUMsg → Prop
  | .findInfoRsp esz elems =>
    elems ≠ [] ∧ (∀ e ∈ elems, 2 + e.type.getTypeSizeInt = esz) ∧
      2 + elems.length * esz ≤ usedMTU
  | .readByTypeRsp esz elems =>
    elems ≠ [] ∧ (∀ e ∈ elems, 2 + 1 + 2 + e.value_type.getTypeSizeInt = esz) ∧
      2 + elems.length * esz ≤ usedMTU
  | .readByGroupTypeRsp esz elems =>
    elems ≠ [] ∧ (∀ e ∈ elems, 2 + 2 + e.type.getTypeSizeInt = esz) ∧
      2 + elems.length * esz ≤ usedMTU
  | _ => True

/-- The invariant of the element loops of the three responders on their local variables
`rspElemSize`, `rspSize` and the elements set so far, where `sizeOf` is the size of an
element: before the first element both variables are 0, afterwards every element has the
size `rspElemSize`, which is not 0, and `rspSize` is their total, at most `rspMaxSize`. -/
def LoopInv {α : Type} (sizeOf : α → Nat) (rspMaxSize rspElemSize rspSize : Nat)
    (elems : List α) : Prop :=
  (elems = [] → rspElemSize = 0 ∧ rspSize = 0) ∧ (elems ≠ [] → rspElemSize ≠ 0) ∧
    (∀ e ∈ elems, sizeOf e = rspElemSize) ∧ rspSize = elems.length * rspElemSize ∧
    rspSize ≤ rspMaxSize

/-- What the responders need of the elements they put into a response: there is at least
one, each has the size `rspElemSize`, and together they take at most `rspMaxSize` bytes. -/
def ElemsFit {α : Type} (sizeOf : α → Nat) (rspMaxSize rspElemSize : Nat)
    (elems : List α) : Prop :=
  elems ≠ [] ∧ (∀ e ∈ elems, sizeOf e = rspElemSize) ∧
    elems.length * rspElemSize ≤ rspMaxSize

/-- A discovered characteristic with the value handle 3. -/
def heartRateChar : BTGattChar :=
  { handle := 2, properties := 0x3A, value_handle := 3, value_type := .uuid16 0x2A37,
    descriptorList := [], clientCharConfigIndex := -1, userDescriptionIndex := -1 }

/-- The services a client has discovered: one primary service with `heartRateChar`. -/
def discoveredServices : List BTGattService := [⟨true, 1, 6, .uuid16 0x180D, [heartRateChar]⟩]

/-- A listener that matches every characteristic and whose callbacks return. -/
def anyListener : BTGattCharListener :=
  { match_ := fun _ => some true
    notificationReceived := fun _ _ _ => some ()
    indicationReceived := fun _ _ _ _ => some () }

/-- A listener that matches every characteristic and whose callbacks throw. -/
def throwingListener : BTGattCharListener :=
  { match_ := fun _ => some true
    notificationReceived := fun _ _ _ => none
    indicationReceived := fun _ _ _ _ => none }

/-- A listener for the characteristic with value handle 9 only. -/
def otherListener : BTGattCharListener :=
  { match_ := fun c => some (c.value_handle == 9)
    notificationReceived := fun _ _ _ => some ()
    indicationReceived := fun _ _ _ _ => some () }

/-! ## Lemmas on the handle assignment -/

theorem u16_of_lt {n : Nat} (h : n < 65536) : u16 n = n := Nat.mod_eq_of_lt h

theorem setDescHandles_length (ds : List DBGattDesc) (h : Nat) :
    (setDescHandles ds h).1.length = ds.length := by
  induction ds generalizing h with
  | nil => rfl
  | cons d ds ih => simp [setDescHandles, ih]

theorem setDescHandles_counter (ds : List DBGattDesc) (h : Nat) (hb : h + ds.length ≤ 65535) :
    (setDescHandles ds h).2 = h + ds.length := by
  induction ds generalizing h with
  | nil => rfl
  | cons d ds ih =>
    simp only [List.length_cons] at hb
    have h1 : u16 (h + 1) = h + 1 := u16_of_lt (by omega)
    simp only [setDescHandles, h1, List.length_cons]
    rw [ih (h + 1) (by omega)]
    omega

theorem setDescHandles_handles (ds : List DBGattDesc) (h : Nat) (hb : h + ds.length ≤ 65535) :
    (setDescHandles ds h).1.map DBGattDesc.handle = List.range' h ds.length := by
  induction ds generalizing h with
  | nil => rfl
  | cons d ds ih =>
    simp only [List.length_cons] at hb
    have h1 : u16 (h + 1) = h + 1 := u16_of_lt (by omega)
    simp only [setDescHandles, h1, List.length_cons, List.map_cons, List.range'_succ]
    rw [ih (h + 1) (by omega)]

theorem CharNestedIn.mono {lo hi lo1 hi1 : Nat} {c : DBGattChar} (hc : CharNestedIn lo hi c)
    (h1 : lo1 ≤ lo) (h2 : hi ≤ hi1) : CharNestedIn lo1 hi1 c := by
  obtain ⟨a, b, c1, d, e⟩ := hc
  exact ⟨by omega, b, c1, by omega, e⟩

theorem setCharHandles_counter (cs : List DBGattChar) (h : Nat)
    (hb : h + charsEntityCount cs ≤ 65535) :
    (setCharHandles cs h).2 = h + charsEntityCount cs := by
  induction cs generalizing h with
  | nil => rfl
  | cons c cs ih =>
    simp only [charsEntityCount] at hb
    have h1 : u16 (h + 1) = h + 1 := u16_of_lt (by omega)
    have h2 : u16 (h + 1 + 1) = h + 2 := u16_of_lt (by omega)
    have hd := setDescHandles_counter c.descriptors (h + 2) (by omega)
    simp only [setCharHandles, h1, h2, hd, charsEntityCount]
    rw [ih _ (by omega)]
    omega

theorem setCharHandles_handles (cs : List DBGattChar) (h : Nat)
    (hb : h + charsEntityCount cs ≤ 65535) :
    charsHandles (setCharHandles cs h).1 = List.range' h (charsEntityCount cs) := by
  induction cs generalizing h with
  | nil => rfl
  | cons c cs ih =>
    simp only [charsEntityCount] at hb
    have h1 : u16 (h + 1) = h + 1 := u16_of_lt (by omega)
    have h2 : u16 (h + 1 + 1) = h + 2 := u16_of_lt (by omega)
    have hd := setDescHandles_counter c.descriptors (h + 2) (by omega)
    have hh := setDescHandles_handles c.descriptors (h + 2) (by omega)
    simp only [setCharHandles, h1, h2, hd, charsEntityCount, charsHandles, DBGattChar.handles, hh]
    rw [ih _ (by omega)]
    have e : 2 + c.descriptors.length + charsEntityCount cs
        = (charsEntityCount cs + c.descriptors.length) + 1 + 1 := by omega
    rw [e, List.range'_succ, List.range'_succ, ← List.range'_append_1]
    simp [Nat.add_assoc]

theorem setCharHandles_nested (cs : List DBGattChar) (h : Nat) (h0 : 1 ≤ h)
    (hb : h + charsEntityCount cs ≤ 65535) :
    ∀ c ∈ (setCharHandles cs h).1, CharNestedIn h (h + charsEntityCount cs) c := by
  induction cs generalizing h with
  | nil => intro c hc; simp [setCharHandles] at hc
  | cons c cs ih =>
    simp only [charsEntityCount] at hb
    have h1 : u16 (h + 1) = h + 1 := u16_of_lt (by omega)
    have h2 : u16 (h + 1 + 1) = h + 2 := u16_of_lt (by omega)
    have hd := setDescHandles_counter c.descriptors (h + 2) (by omega)
    have hh := setDescHandles_handles c.descriptors (h + 2) (by omega)
    have he : u16 (h + 2 + c.descriptors.length + 65535) = h + 1 + c.descriptors.length := by
      unfold u16; omega
    intro x hx
    simp only [setCharHandles, h1, h2, hd, he, List.mem_cons] at hx
    rcases hx with rfl | hx
    · refine ⟨Nat.le_refl _, by simp, by simp, by simp [charsEntityCount]; omega, ?_⟩
      intro d hd1
      have hm : d.handle ∈ List.range' (h + 2) c.descriptors.length := by
        rw [← hh]; exact List.mem_map_of_mem _ hd1
      rw [List.mem_range'_1] at hm
      simp only
      omega
    · exact (ih _ (by omega) (by omega) x hx).mono (by omega) (by simp [charsEntityCount]; omega)

/-- What `setHandles` does for a start handle `h >= 1` when the counter does not wrap: the
service takes `h`, its attributes are numbered consecutively from `h`, the stored end handle
is one behind the last attribute and the returned count is the entity count plus one. -/
theorem setHandles_spec (s : DBGattService) (h : Nat) (h0 : 1 ≤ h)
    (hb : h + s.entityCount ≤ 65535) :
    (s.setHandles h).1.handle = h ∧
    (s.setHandles h).1.end_handle = h + s.entityCount ∧
    (s.setHandles h).2 = (s.entityCount : Int) + 1 ∧
    (s.setHandles h).1.handles = List.range' h s.entityCount ∧
    ∀ c ∈ (s.setHandles h).1.characteristics, CharNestedIn (h + 1) (h + s.entityCount) c := by
  have hne : h ≠ 0 := by omega
  simp only [DBGattService.entityCount] at hb
  have h1 : u16 (h + 1) = h + 1 := u16_of_lt (by omega)
  have hc := setCharHandles_counter s.characteristics (h + 1) (by omega)
  have hh := setCharHandles_handles s.characteristics (h + 1) (by omega)
  have hn := setCharHandles_nested s.characteristics (h + 1) (by omega) (by omega)
  simp only [DBGattService.setHandles, hne, if_false, h1, hc, DBGattService.entityCount,
    DBGattService.handles, hh]
  refine ⟨trivial, by omega, by push_cast; omega, ?_, ?_⟩
  · rw [Nat.add_comm 1, List.range'_succ]
  · intro c hcm
    exact (hn c hcm).mono (Nat.le_refl _) (by omega)

theorem handleSpan_pos_of_ne_nil {ss : List DBGattService} (h : ss ≠ []) : 2 ≤ handleSpan ss := by
  cases ss with
  | nil => exact absurd rfl h
  | cons s ss => simp only [handleSpan, DBGattService.entityCount]; omega

theorem setHandles_nested (s : DBGattService) (h : Nat) (h0 : 1 ≤ h)
    (hb : h + s.entityCount ≤ 65535) : ServiceNested (s.setHandles h).1 := by
  obtain ⟨e1, e2, _, _, e5⟩ := setHandles_spec s h h0 hb
  intro c hc
  obtain ⟨a1, a2, a3, a4, a5⟩ := e5 c hc
  rw [e1, e2]
  exact ⟨by omega, a2, a3, by omega, a5⟩

/-- The loop of `setServicesHandles`, started at `h >= 1` with a counter that does not wrap
while a service is numbered: the handles come out strictly increasing in traversal order,
none is below `h`, and every service is nested. -/
theorem setServicesLoop_spec (ss : List DBGattService) (h : Nat) (c : Int)
    (hp : ss ≠ [] → 1 ≤ h ∧ h + handleSpan ss ≤ 65536) :
    List.Pairwise (fun a b => a < b) (servicesHandles (setServicesLoop ss h c).1) ∧
    (∀ x ∈ servicesHandles (setServicesLoop ss h c).1, h ≤ x) ∧
    ∀ s ∈ (setServicesLoop ss h c).1, ServiceNested s := by
  induction ss generalizing h c with
  | nil => simp [setServicesLoop, servicesHandles]
  | cons s ss ih =>
    obtain ⟨h0, hb⟩ := hp (List.cons_ne_nil _ _)
    simp only [handleSpan] at hb
    obtain ⟨e1, e2, e3, e4, e5⟩ := setHandles_spec s h h0 (by omega)
    have hnest := setHandles_nested s h h0 (by omega)
    have hnext : ss ≠ [] →
        (((h : Int) + (s.setHandles h).2) % 65536).toNat = h + s.entityCount + 1 := by
      intro hne
      have := handleSpan_pos_of_ne_nil hne
      rw [e3]
      omega
    have hq : ss ≠ [] → 1 ≤ (((h : Int) + (s.setHandles h).2) % 65536).toNat ∧
        (((h : Int) + (s.setHandles h).2) % 65536).toNat + handleSpan ss ≤ 65536 := by
      intro hne
      rw [hnext hne]
      omega
    obtain ⟨i1, i2, i3⟩ := ih _ (c + (s.setHandles h).2) hq
    simp only [setServicesLoop, servicesHandles, e4]
    refine ⟨?_, ?_, ?_⟩
    · rw [List.pairwise_append]
      refine ⟨List.pairwise_lt_range' _ _, i1, ?_⟩
      intro a ha b hb1
      rw [List.mem_range'_1] at ha
      have hne : ss ≠ [] := by
        rintro rfl
        simp [setServicesLoop, servicesHandles] at hb1
      have := i2 b hb1
      rw [hnext hne] at this
      omega
    · intro x hx
      rw [List.mem_append] at hx
      rcases hx with hx | hx
      · rw [List.mem_range'_1] at hx; omega
      · have hne : ss ≠ [] := by
          rintro rfl
          simp [setServicesLoop, servicesHandles] at hx
        have := i2 x hx
        rw [hnext hne] at this
        omega
    · intro x hx
      rw [List.mem_cons] at hx
      rcases hx with rfl | hx
      · exact hnest
      · exact i3 x hx

/-- The handles the loop of `setServicesHandles` assigns, and the count it returns, when the
counter does not wrap while a service is numbered. -/
theorem setServicesLoop_handles (ss : List DBGattService) (h : Nat) (c : Int)
    (hp : ss ≠ [] → 1 ≤ h ∧ h + handleSpan ss ≤ 65536) :
    servicesHandles (setServicesLoop ss h c).1 = numberedFrom ss h ∧
    (setServicesLoop ss h c).2 = c + (handleSpan ss : Int) := by
  induction ss generalizing h c with
  | nil => simp [setServicesLoop, servicesHandles, numberedFrom, handleSpan]
  | cons s ss ih =>
    obtain ⟨h0, hb⟩ := hp (List.cons_ne_nil _ _)
    simp only [handleSpan] at hb
    obtain ⟨_, _, e3, e4, _⟩ := setHandles_spec s h h0 (by omega)
    simp only [setServicesLoop, servicesHandles, numberedFrom, handleSpan, e4]
    by_cases hne : ss = []
    · subst hne
      simp only [setServicesLoop, servicesHandles, numberedFrom, handleSpan, e3]
      refine ⟨trivial, ?_⟩
      push_cast
      omega
    · have hs := handleSpan_pos_of_ne_nil hne
      have hnext : (((h : Int) + (s.setHandles h).2) % 65536).toNat = h + s.entityCount + 1 := by
        rw [e3]
        omega
      obtain ⟨i1, i2⟩ := ih (h + s.entityCount + 1) (c + (s.setHandles h).2)
        (fun _ => ⟨by omega, by omega⟩)
      rw [hnext, i1, i2, e3]
      refine ⟨rfl, ?_⟩
      push_cast
      omega

/-! ## Lemmas relating `applyWrite` to the attribute lookup -/

theorem applyWriteDescs_eq (ls : List Listener) (s : DBGattService) (c : DBGattChar)
    (handle : Nat) (value : List Nat) (offset : Nat) (dpre ds : List DBGattDesc) :
    (applyWriteDescs ls s c handle value offset ds).map
        (fun r => (⟨r.code, dpre ++ r.target, r.calls⟩ : Applied (List DBGattDesc))) =
      (findDesc handle ds).map (fun r =>
        (⟨(applyWriteDesc ls s c r.2.1 value offset).code,
          dpre ++ (r.1 ++ (applyWriteDesc ls s c r.2.1 value offset).target :: r.2.2),
          (applyWriteDesc ls s c r.2.1 value offset).calls⟩ : Applied (List DBGattDesc))) := by
  induction ds generalizing dpre with
  | nil => simp [applyWriteDescs, findDesc]
  | cons d ds ih =>
    by_cases h : handle = d.handle
    · simp [applyWriteDescs, findDesc, h]
    · have := ih (dpre ++ [d])
      simp only [applyWriteDescs, findDesc, h, if_false, Option.map_map]
      simpa [Function.comp_def] using this

theorem applyWriteDescs_eq_find (ls : List Listener) (s : DBGattService) (c : DBGattChar)
    (handle : Nat) (value : List Nat) (offset : Nat) (ds : List DBGattDesc) :
    applyWriteDescs ls s c handle value offset ds =
      (findDesc handle ds).map (fun r =>
        (⟨(applyWriteDesc ls s c r.2.1 value offset).code,
          r.1 ++ (applyWriteDesc ls s c r.2.1 value offset).target :: r.2.2,
          (applyWriteDesc ls s c r.2.1 value offset).calls⟩ : Applied (List DBGattDesc))) := by
  have h := applyWriteDescs_eq ls s c handle value offset [] ds
  simp only [List.nil_append] at h
  rw [← h]
  cases applyWriteDescs ls s c handle value offset ds <;> rfl

theorem applyWriteChars_eq (ls : List Listener) (s : DBGattService)
    (spre spost : List DBGattService) (handle : Nat) (value : List Nat) (offset : Nat)
    (cpre cs : List DBGattChar) :
    (applyWriteChars ls s handle value offset cs).map
        (fun r => (⟨r.code, spre ++ { s with characteristics := cpre ++ r.target } :: spost,
          r.calls⟩ : Applied (List DBGattService))) =
      (findInChars s spre spost handle cpre cs).map (fun t => t.apply ls value offset) := by
  induction cs generalizing cpre with
  | nil => simp [applyWriteChars, findInChars]
  | cons c cs ih =>
    have hnext := ih (cpre ++ [c])
    simp only [List.append_assoc, List.singleton_append] at hnext
    by_cases hr : c.handle ≤ handle ∧ handle ≤ c.end_handle
    · by_cases hv : handle = c.value_handle
      · simp only [applyWriteChars, findInChars, if_pos hr, if_pos hv]
        simp [Target.apply]
      · simp only [applyWriteChars, findInChars, if_pos hr, if_neg hv, applyWriteDescs_eq_find]
        cases hd : findDesc handle c.descriptors with
        | none =>
          rw [← hnext]
          cases applyWriteChars ls s handle value offset cs <;> rfl
        | some r =>
          simp [Target.apply]
    · simp only [applyWriteChars, findInChars, if_neg hr]
      rw [← hnext]
      cases applyWriteChars ls s handle value offset cs <;> rfl

theorem applyWriteServices_eq (ls : List Listener) (handle : Nat) (value : List Nat)
    (offset : Nat) (spre ss : List DBGattService) :
    (applyWriteServices ls handle value offset ss).map
        (fun r => (⟨r.code, spre ++ r.target, r.calls⟩ : Applied (List DBGattService))) =
      (findInServices handle spre ss).map (fun t => t.apply ls value offset) := by
  induction ss generalizing spre with
  | nil => simp [applyWriteServices, findInServices]
  | cons s ss ih =>
    have hnext := ih (spre ++ [s])
    simp only [List.append_assoc, List.singleton_append] at hnext
    have hc := applyWriteChars_eq ls s spre ss handle value offset [] s.characteristics
    simp only [List.nil_append] at hc
    by_cases hr : s.handle ≤ handle ∧ handle ≤ s.end_handle
    · simp only [applyWriteServices, findInServices, if_pos hr]
      cases ha : applyWriteChars ls s handle value offset s.characteristics with
      | none =>
        rw [ha] at hc
        cases hf : findInChars s spre ss handle [] s.characteristics with
        | none =>
          rw [← hnext]
          cases applyWriteServices ls handle value offset ss <;> rfl
        | some t => rw [hf] at hc; simp at hc
      | some r =>
        rw [ha] at hc
        cases hf : findInChars s spre ss handle [] s.characteristics with
        | none => rw [hf] at hc; simp at hc
        | some t =>
          rw [hf] at hc
          simpa using hc
    · simp only [applyWriteServices, findInServices, if_neg hr]
      rw [← hnext]
      cases applyWriteServices ls handle value offset ss <;> rfl

/-- The traversal of `applyWrite` is the attribute lookup followed by the write block of the
located attribute. -/
theorem applyWriteServices_eq_find (db : DBGattServer) (handle : Nat) (value : List Nat)
    (offset : Nat) :
    applyWriteServices db.listener handle value offset db.services =
      (findTarget db handle).map (fun t => t.apply db.listener value offset) := by
  have h := applyWriteServices_eq db.listener handle value offset [] db.services
  simp only [List.nil_append] at h
  rw [findTarget, ← h]
  cases applyWriteServices db.listener handle value offset db.services <;> rfl

/-! ## Lemmas on the write blocks -/

theorem vetoLoop_foldl (rs : List (Option Bool)) (acc : Bool) :
    rs.foldl (fun allowed r => match r with
      | some b => b && allowed
      | none => allowed) acc = (acc && decide (some false ∉ rs)) := by
  induction rs generalizing acc with
  | nil => simp
  | cons r rs ih =>
    rw [List.foldl_cons, ih]
    cases r with
    | none => simp
    | some b => cases b <;> cases acc <;> simp

/-- The veto loop lets the write pass exactly when no callback returned `false`. -/
theorem vetoLoop_eq (rs : List (Option Bool)) : vetoLoop rs = decide (some false ∉ rs) := by
  rw [vetoLoop, vetoLoop_foldl]; simp

theorem applyWriteChar_code (ls : List Listener) (s : DBGattService) (c : DBGattChar)
    (value : List Nat) (offset : Nat) :
    (applyWriteChar ls s c value offset).code =
      if offset > c.value.size then .INVALID_OFFSET
      else if offset + value.length >
          (if c.variable_length then c.value.capacity else c.value.size) then
        .INVALID_ATTRIBUTE_VALUE_LEN
      else if some false ∈ ls.map (fun l => l.writeCharValue s c value offset) then
        .NO_WRITE_PERM
      else .NO_ERROR := by
  unfold applyWriteChar
  rw [vetoLoop_eq]
  cases c.variable_length <;> simp only [Bool.false_eq_true, if_false, if_true] <;>
    split_ifs <;> first | rfl | simp_all

theorem applyCCCD_code (ls : List Listener) (c : DBGattChar) (d : DBGattDesc)
    (value : List Nat) : (applyCCCD ls c d value).code = .NO_ERROR := by
  simp only [applyCCCD]
  split_ifs <;> rfl

theorem applyWriteDesc_code (ls : List Listener) (s : DBGattService) (c : DBGattChar)
    (d : DBGattDesc) (value : List Nat) (offset : Nat) :
    (applyWriteDesc ls s c d value offset).code =
      if offset > d.value.size then .INVALID_OFFSET
      else if offset + value.length >
          (if d.variable_length then d.value.capacity else d.value.size) then
        .INVALID_ATTRIBUTE_VALUE_LEN
      else if d.isUserDescription then .NO_WRITE_PERM
      else if !d.isClientCharConfig ∧
          some false ∈ ls.map (fun l => l.writeDescValue s c d value offset) then
        .NO_WRITE_PERM
      else .NO_ERROR := by
  unfold applyWriteDesc
  rw [vetoLoop_eq]
  cases d.variable_length <;> cases hc : d.isClientCharConfig <;>
    simp only [Bool.false_eq_true, if_false, if_true] <;>
    split_ifs <;> first | rfl | simp_all [applyCCCD_code]

/-- The result code of the write block of a located attribute is the first failing check of
`writeChecks`. -/
theorem Target.apply_code (ls : List Listener) (t : Target) (value : List Nat) (offset : Nat) :
    (t.apply ls value offset).code = writeChecks ls t value offset := by
  rcases t with ⟨spre, s, spost, cpre, c, cpost, desc⟩
  cases desc with
  | none =>
    simp only [Target.apply, writeChecks, Target.value, Target.variable_length,
      Target.isUserDescription, Target.isClientCharConfig, Target.writeCallbacks,
      applyWriteChar_code]
    simp
  | some r =>
    simp only [Target.apply, writeChecks, Target.value, Target.variable_length,
      Target.isUserDescription, Target.isClientCharConfig, Target.writeCallbacks,
      applyWriteDesc_code]

/-- Method `applyWrite` seen through the attribute lookup: INVALID_HANDLE without a database or
without a located attribute, else the write block of the located attribute. -/
theorem BTGattHandler.applyWrite_eq (st : BTGattHandler) (handle : Nat) (value : List Nat)
    (offset : Nat) :
    st.applyWrite handle value offset =
      match st.gattServerData with
      | none => (st, .INVALID_HANDLE)
      | some db =>
        match findTarget db handle with
        | none => (st, .INVALID_HANDLE)
        | some t =>
          ({ st with gattServerData := some { db with services := (t.apply db.listener value offset).target },
                     calls := st.calls ++ (t.apply db.listener value offset).calls },
            (t.apply db.listener value offset).code) := by
  unfold BTGattHandler.applyWrite
  cases hdb : st.gattServerData with
  | none => rfl
  | some db =>
    simp only [applyWriteServices_eq_find]
    cases findTarget db handle <;> rfl

/-! ## Lemmas on the attribute lookup -/

theorem findDesc_eq_none {handle : Nat} {ds : List DBGattDesc}
    (h : handle ∉ ds.map DBGattDesc.handle) : findDesc handle ds = none := by
  induction ds with
  | nil => rfl
  | cons d ds ih =>
    simp only [List.map_cons, List.mem_cons, not_or] at h
    simp [findDesc, h.1, ih h.2]

theorem findDesc_isSome {handle : Nat} {ds : List DBGattDesc}
    (h : handle ∈ ds.map DBGattDesc.handle) : (findDesc handle ds).isSome := by
  induction ds with
  | nil => simp at h
  | cons d ds ih =>
    by_cases hd : handle = d.handle
    · simp [findDesc, hd]
    · simp only [List.map_cons, List.mem_cons, hd, false_or] at h
      simp [findDesc, hd, ih h]

theorem findDesc_sound {handle : Nat} {ds : List DBGattDesc}
    {r : List DBGattDesc × DBGattDesc × List DBGattDesc} (h : findDesc handle ds = some r) :
    ds = r.1 ++ r.2.1 :: r.2.2 ∧ handle = r.2.1.handle := by
  induction ds generalizing r with
  | nil => simp [findDesc] at h
  | cons d ds ih =>
    by_cases hd : handle = d.handle
    · simp only [findDesc, if_pos hd, Option.some.injEq] at h
      subst h
      exact ⟨rfl, hd⟩
    · simp only [findDesc, if_neg hd, Option.map_eq_some'] at h
      obtain ⟨r1, hr1, rfl⟩ := h
      obtain ⟨e1, e2⟩ := ih hr1
      exact ⟨by simp [← e1], e2⟩

theorem findInChars_eq_none {s : DBGattService} {spre spost : List DBGattService}
    {handle : Nat} {cs : List DBGattChar} (cpre : List DBGattChar)
    (h : handle ∉ charsValueHandles cs) : findInChars s spre spost handle cpre cs = none := by
  induction cs generalizing cpre with
  | nil => rfl
  | cons c cs ih =>
    simp only [charsValueHandles, List.cons_append, List.mem_cons, List.mem_append, not_or] at h
    obtain ⟨h1, h2, h3⟩ := h
    simp only [findInChars, if_neg h1, findDesc_eq_none h2, ih _ h3, ite_self]

theorem findInServices_eq_none {handle : Nat} {ss : List DBGattService}
    (spre : List DBGattService) (h : handle ∉ servicesValueHandles ss) :
    findInServices handle spre ss = none := by
  induction ss generalizing spre with
  | nil => rfl
  | cons s ss ih =>
    simp only [servicesValueHandles, List.mem_append, not_or] at h
    simp only [findInServices, findInChars_eq_none [] h.1, ih _ h.2, ite_self]

theorem findInChars_sound {s : DBGattService} {spre spost : List DBGattService}
    {handle : Nat} {cs cpre : List DBGattChar} {t : Target}
    (h : findInChars s spre spost handle cpre cs = some t) :
    t.spre = spre ∧ t.s = s ∧ t.spost = spost ∧ cpre ++ cs = t.cpre ++ t.c :: t.cpost ∧
    match t.desc with
    | none => handle = t.c.value_handle
    | some r => t.c.descriptors = r.1 ++ r.2.1 :: r.2.2 ∧ handle = r.2.1.handle := by
  induction cs generalizing cpre with
  | nil => simp [findInChars] at h
  | cons c cs ih =>
    have hnext : findInChars s spre spost handle (cpre ++ [c]) cs = some t →
        t.spre = spre ∧ t.s = s ∧ t.spost = spost ∧ cpre ++ c :: cs = t.cpre ++ t.c :: t.cpost ∧
        match t.desc with
        | none => handle = t.c.value_handle
        | some r => t.c.descriptors = r.1 ++ r.2.1 :: r.2.2 ∧ handle = r.2.1.handle := by
      intro h1
      have := ih h1
      simpa using this
    by_cases hr : c.handle ≤ handle ∧ handle ≤ c.end_handle
    · by_cases hv : handle = c.value_handle
      · simp only [findInChars, if_pos hr, if_pos hv, Option.some.injEq] at h
        subst h
        exact ⟨rfl, rfl, rfl, rfl, hv⟩
      · simp only [findInChars, if_pos hr, if_neg hv] at h
        cases hd : findDesc handle c.descriptors with
        | none => rw [hd] at h; exact hnext h
        | some r =>
          rw [hd] at h
          simp only [Option.some.injEq] at h
          subst h
          exact ⟨rfl, rfl, rfl, rfl, findDesc_sound hd⟩
    · simp only [findInChars, if_neg hr] at h
      exact hnext h

theorem findInServices_sound {handle : Nat} {ss spre : List DBGattService} {t : Target}
    (h : findInServices handle spre ss = some t) : t.LocatedIn (spre ++ ss) handle := by
  induction ss generalizing spre with
  | nil => simp [findInServices] at h
  | cons s ss ih =>
    have hnext : findInServices handle (spre ++ [s]) ss = some t →
        t.LocatedIn (spre ++ s :: ss) handle := by
      intro h1
      have := ih h1
      simpa using this
    by_cases hr : s.handle ≤ handle ∧ handle ≤ s.end_handle
    · simp only [findInServices, if_pos hr] at h
      cases hc : findInChars s spre ss handle [] s.characteristics with
      | none => rw [hc] at h; exact hnext h
      | some t1 =>
        rw [hc] at h
        simp only [Option.some.injEq] at h
        subst h
        obtain ⟨e1, e2, e3, e4, e5⟩ := findInChars_sound hc
        refine ⟨by rw [e1, e2, e3], ?_, e5⟩
        rw [e2]
        simpa using e4
    · simp only [findInServices, if_neg hr] at h
      exact hnext h

/-- A located attribute is an attribute of the database with the accessed handle. -/
theorem findTarget_sound {db : DBGattServer} {handle : Nat} {t : Target}
    (h : findTarget db handle = some t) : t.LocatedIn db.services handle := by
  have := findInServices_sound h
  simpa using this

/-- Putting the value of a located attribute back gives the list of services unchanged. -/
theorem Target.withValue_self {t : Target} {services : List DBGattService} {handle : Nat}
    (h : t.LocatedIn services handle) : t.withValue t.value = services := by
  rcases t with ⟨spre, s, spost, cpre, c, cpost, desc⟩
  obtain ⟨e1, e2, e3⟩ := h
  cases desc with
  | none =>
    simp only at e1 e2
    simp only [Target.withValue, Target.value, e1, ← e2]
  | some r =>
    simp only at e1 e2 e3
    simp only [Target.withValue, Target.value, e1, ← e3.1, ← e2]

theorem findInChars_isSome {s : DBGattService} {spre spost : List DBGattService}
    {handle : Nat} {cs : List DBGattChar} (cpre : List DBGattChar)
    (hn : ∀ c ∈ cs, c.handle < c.value_handle ∧ c.value_handle ≤ c.end_handle ∧
      ∀ d ∈ c.descriptors, c.value_handle < d.handle ∧ d.handle ≤ c.end_handle)
    (h : handle ∈ charsValueHandles cs) :
    (findInChars s spre spost handle cpre cs).isSome := by
  induction cs generalizing cpre with
  | nil => simp [charsValueHandles] at h
  | cons c cs ih =>
    have hc := hn c (List.mem_cons_self _ _)
    have hrest : ∀ c1 ∈ cs, c1.handle < c1.value_handle ∧ c1.value_handle ≤ c1.end_handle ∧
        ∀ d ∈ c1.descriptors, c1.value_handle < d.handle ∧ d.handle ≤ c1.end_handle :=
      fun c1 h1 => hn c1 (List.mem_cons_of_mem _ h1)
    simp only [charsValueHandles, List.cons_append, List.mem_cons, List.mem_append] at h
    by_cases hr : c.handle ≤ handle ∧ handle ≤ c.end_handle
    · by_cases hv : handle = c.value_handle
      · simp [findInChars, hr, if_pos hv]
      · simp only [findInChars, if_pos hr, if_neg hv]
        cases hd : findDesc handle c.descriptors with
        | some r => rfl
        | none =>
          have hnd : handle ∉ c.descriptors.map DBGattDesc.handle := by
            intro hm
            have := findDesc_isSome hm
            rw [hd] at this
            exact absurd this (by simp)
          rcases h with h | h | h
          · exact absurd h hv
          · exact absurd h hnd
          · exact ih _ hrest h
    · simp only [findInChars, if_neg hr]
      rcases h with h | h | h
      · exfalso; apply hr; omega
      · exfalso
        apply hr
        obtain ⟨d, hd1, hd2⟩ := List.mem_map.mp h
        have := hc.2.2 d hd1
        omega
      · exact ih _ hrest h

theorem findInServices_isSome {handle : Nat} {ss : List DBGattService}
    (spre : List DBGattService) (hn : ∀ s ∈ ss, ServiceNested s)
    (h : handle ∈ servicesValueHandles ss) : (findInServices handle spre ss).isSome := by
  induction ss generalizing spre with
  | nil => simp [servicesValueHandles] at h
  | cons s ss ih =>
    have hs := hn s (List.mem_cons_self _ _)
    have hrest : ∀ s1 ∈ ss, ServiceNested s1 := fun s1 h1 => hn s1 (List.mem_cons_of_mem _ h1)
    have hcs : ∀ c ∈ s.characteristics, c.handle < c.value_handle ∧
        c.value_handle ≤ c.end_handle ∧
        ∀ d ∈ c.descriptors, c.value_handle < d.handle ∧ d.handle ≤ c.end_handle :=
      fun c hc => ⟨(hs c hc).2.1, (hs c hc).2.2.1, (hs c hc).2.2.2.2⟩
    simp only [servicesValueHandles, List.mem_append] at h
    by_cases hr : s.handle ≤ handle ∧ handle ≤ s.end_handle
    · simp only [findInServices, if_pos hr]
      cases hc : findInChars s spre ss handle [] s.characteristics with
      | some t => rfl
      | none =>
        rcases h with h | h
        · have := @findInChars_isSome s spre ss handle s.characteristics [] hcs h
          rw [hc] at this
          exact absurd this (by simp)
        · exact ih _ hrest h
    · simp only [findInServices, if_neg hr]
      rcases h with h | h
      · exfalso
        apply hr
        have hmem : ∀ cs : List DBGattChar, (∀ c ∈ cs, c ∈ s.characteristics) →
            handle ∈ charsValueHandles cs → s.handle ≤ handle ∧ handle ≤ s.end_handle := by
          intro cs
          induction cs with
          | nil => intro _ hm; simp [charsValueHandles] at hm
          | cons c cs ihc =>
            intro hsub hm
            have hcm := hsub c (List.mem_cons_self _ _)
            obtain ⟨a1, a2, a3, a4, a5⟩ := hs c hcm
            simp only [charsValueHandles, List.cons_append, List.mem_cons,
              List.mem_append] at hm
            rcases hm with hm | hm | hm
            · omega
            · obtain ⟨d, hd1, hd2⟩ := List.mem_map.mp hm
              have := a5 d hd1
              omega
            · exact ihc (fun c1 h1 => hsub c1 (List.mem_cons_of_mem _ h1)) hm
        exact hmem s.characteristics (fun _ hc => hc) h
      · exact ih _ hrest h

/-! ## Lemmas on the buffer after a write -/

theorem resizeForWrite_variable (p : POctets) (n : Nat) (h : n ≤ p.capacity) :
    resizeForWrite p true n = { p with size := n } := by
  unfold resizeForWrite POctets.resize
  simp only [if_true]
  split_ifs with a b
  · exact absurd b (by omega)
  · rfl
  · rcases p with ⟨d, sz⟩
    simp only [ne_eq, Decidable.not_not] at a
    subst a
    rfl

theorem resizeForWrite_fixed (p : POctets) (n : Nat) : resizeForWrite p false n = p := by
  simp [resizeForWrite]

/-- A variable-length buffer after the write of `value` at `offset`: the old bytes before the
offset followed by the written bytes, of length `offset + len(value)`. -/
theorem POctets.written_variable (p : POctets) (value : List Nat) (offset : Nat)
    (h1 : offset ≤ p.size) (h2 : offset + value.length ≤ p.capacity) :
    ((resizeForWrite p true (offset + value.length)).put_octets_nc offset value).bytes =
        p.bytes.take offset ++ value ∧
    ((resizeForWrite p true (offset + value.length)).put_octets_nc offset value).size =
        offset + value.length ∧
    ((resizeForWrite p true (offset + value.length)).put_octets_nc offset value).capacity =
        p.capacity := by
  rw [resizeForWrite_variable p _ h2]
  simp only [POctets.capacity] at h2
  have hl : (List.take offset p.data).length = offset := by
    rw [List.length_take]; omega
  refine ⟨?_, rfl, ?_⟩
  · simp only [POctets.put_octets_nc, POctets.bytes]
    rw [List.take_take, Nat.min_eq_left h1]
    exact List.take_left' (by rw [List.length_append, hl])
  · simp only [POctets.put_octets_nc, POctets.capacity, List.length_append, List.length_take,
      List.length_drop]
    omega

/-- A fixed-length buffer after the write of `value` at `offset`: same length, the written
bytes at `[offset, offset + len(value))` and the old bytes elsewhere. -/
theorem POctets.written_fixed (p : POctets) (value : List Nat) (offset : Nat)
    (h2 : offset + value.length ≤ p.size) (hwf : p.WF) :
    ((resizeForWrite p false (offset + value.length)).put_octets_nc offset value).bytes =
        p.bytes.take offset ++ value ++ p.bytes.drop (offset + value.length) ∧
    ((resizeForWrite p false (offset + value.length)).put_octets_nc offset value).size =
        p.size ∧
    ((resizeForWrite p false (offset + value.length)).put_octets_nc offset value).capacity =
        p.capacity := by
  simp only [POctets.WF, POctets.capacity] at hwf
  rw [resizeForWrite_fixed]
  have hl : (List.take offset p.data ++ value).length = offset + value.length := by
    rw [List.length_append, List.length_take]; omega
  refine ⟨?_, rfl, ?_⟩
  · simp only [POctets.put_octets_nc, POctets.bytes]
    rw [List.take_take, Nat.min_eq_left (by omega), List.drop_take]
    have hsz : p.size = (List.take offset p.data ++ value).length +
        (p.size - (offset + value.length)) := by rw [hl]; omega
    conv_lhs => rw [hsz]
    rw [List.take_append]
  · simp only [POctets.put_octets_nc, POctets.capacity, List.length_append, List.length_take,
      List.length_drop]
    omega

theorem applyWriteChar_ok {ls : List Listener} {s : DBGattService} {c : DBGattChar}
    {value : List Nat} {offset : Nat}
    (h : (applyWriteChar ls s c value offset).code = .NO_ERROR) :
    offset ≤ c.value.size ∧
    offset + value.length ≤ (if c.variable_length then c.value.capacity else c.value.size) ∧
    (applyWriteChar ls s c value offset).target =
      { c with value := (resizeForWrite c.value c.variable_length
          (offset + value.length)).put_octets_nc offset value } := by
  by_cases h1 : c.value.size < offset
  · simp only [applyWriteChar, if_pos h1] at h
    exact absurd h (by simp)
  · by_cases h2 : (if c.variable_length then c.value.capacity < offset + value.length
        else c.value.size < offset + value.length)
    · simp only [applyWriteChar, if_neg h1, if_pos h2] at h
      exact absurd h (by simp)
    · by_cases h3 : (!vetoLoop (ls.map (fun l => l.writeCharValue s c value offset))) = true
      · simp only [applyWriteChar, if_neg h1, if_neg h2, if_pos h3] at h
        exact absurd h (by simp)
      · simp only [applyWriteChar, if_neg h1, if_neg h2, if_neg h3]
        refine ⟨by omega, ?_, trivial⟩
        cases hv : c.variable_length <;> simp [hv] at h2 ⊢ <;> omega

theorem applyWriteDesc_ok {ls : List Listener} {s : DBGattService} {c : DBGattChar}
    {d : DBGattDesc} {value : List Nat} {offset : Nat}
    (hccc : d.isClientCharConfig = false)
    (h : (applyWriteDesc ls s c d value offset).code = .NO_ERROR) :
    offset ≤ d.value.size ∧
    offset + value.length ≤ (if d.variable_length then d.value.capacity else d.value.size) ∧
    (applyWriteDesc ls s c d value offset).target =
      { d with value := (resizeForWrite d.value d.variable_length
          (offset + value.length)).put_octets_nc offset value } := by
  have hc : ¬ (d.isClientCharConfig = true) := by simp [hccc]
  by_cases h1 : d.value.size < offset
  · simp only [applyWriteDesc, if_pos h1] at h
    exact absurd h (by simp)
  · by_cases h2 : (if d.variable_length then d.value.capacity < offset + value.length
        else d.value.size < offset + value.length)
    · simp only [applyWriteDesc, if_neg h1, if_pos h2] at h
      exact absurd h (by simp)
    · by_cases hu : d.isUserDescription = true
      · simp only [applyWriteDesc, if_neg h1, if_neg h2, if_pos hu] at h
        exact absurd h (by simp)
      · by_cases h3 :
            (!vetoLoop (ls.map (fun l => l.writeDescValue s c d value offset))) = true
        · simp only [applyWriteDesc, if_neg h1, if_neg h2, if_neg hu, if_neg hc, if_pos h3] at h
          exact absurd h (by simp)
        · simp only [applyWriteDesc, if_neg h1, if_neg h2, if_neg hu, if_neg hc, if_neg h3]
          refine ⟨by omega, ?_, trivial⟩
          cases hv : d.variable_length <;> simp [hv] at h2 ⊢ <;> omega

/-! ## Lemmas on the CCC descriptor block -/

theorem resizeForWrite_data (p : POctets) (b : Bool) (n : Nat) :
    (resizeForWrite p b n).data = p.data := by
  unfold resizeForWrite POctets.resize
  split_ifs <;> rfl

theorem resizeForWrite_get (p : POctets) (b : Bool) (n : Nat) :
    (resizeForWrite p b n).get_uint8_nc 0 = p.get_uint8_nc 0 := by
  simp only [POctets.get_uint8_nc, resizeForWrite_data]

theorem isUserDescription_of_ccc {d : DBGattDesc} (h : d.isClientCharConfig = true) :
    d.isUserDescription = false := by
  simp only [DBGattDesc.isClientCharConfig, decide_eq_true_eq] at h
  simp only [DBGattDesc.isUserDescription, ← h]
  decide

/-- A write to a CCC descriptor that passes the offset and length checks runs the resize step
and then the CCC block. -/
theorem applyWriteDesc_ccc {ls : List Listener} {s : DBGattService} {c : DBGattChar}
    {d : DBGattDesc} {value : List Nat} {offset : Nat}
    (hccc : d.isClientCharConfig = true) (hoff : offset ≤ d.value.size)
    (hlen : offset + value.length ≤
      (if d.variable_length then d.value.capacity else d.value.size)) :
    applyWriteDesc ls s c d value offset =
      applyCCCD ls c
        { d with value := (resizeForWrite d.value d.variable_length (offset + value.length)) }
        value := by
  have h1 : ¬ d.value.size < offset := by omega
  have h2 : ¬ (if d.variable_length then d.value.capacity < offset + value.length
      else d.value.size < offset + value.length) := by
    cases hv : d.variable_length <;> simp [hv] at hlen ⊢ <;> omega
  have hu : ¬ (d.isUserDescription = true) := by simp [isUserDescription_of_ccc hccc]
  simp only [applyWriteDesc, if_neg h1, if_neg h2, if_neg hu, if_pos hccc]

/-- The CCC block for a non-empty value, in terms of the effective and the stored bits. -/
theorem applyCCCD_eq (ls : List Listener) (c : DBGattChar) (d : DBGattDesc)
    (value : List Nat) (hne : value ≠ []) :
    applyCCCD ls c d value =
      if (storedNotification d.value == cccEnableNotification c value &&
          storedIndication d.value == cccEnableIndication c value) = true then
        ⟨.NO_ERROR, d, []⟩
      else
        ⟨.NO_ERROR, { d with value := (d.value.put_uint8_nc 0
            ((cccEnableNotification c value).toNat |||
              ((cccEnableIndication c value).toNat <<< 1))) },
          (List.range ls.length).map (fun i => ListenerCall.clientCharConfigChanged i d.handle
            (cccEnableNotification c value) (cccEnableIndication c value))⟩ := by
  have h0 : ¬ value.length = 0 := by
    intro h; exact hne (List.length_eq_zero.mp h)
  simp only [applyCCCD, if_neg h0]
  rfl

theorem put_get_config_byte (p : POctets) (en ei : Bool) (h : 0 < p.capacity) :
    (p.put_uint8_nc 0 (en.toNat ||| (ei.toNat <<< 1))).get_uint8_nc 0 =
      (en.toNat ||| (ei.toNat <<< 1)) := by
  rcases p with ⟨data, size⟩
  cases data with
  | nil => simp [POctets.capacity] at h
  | cons a as =>
    cases en <;> cases ei <;> simp [POctets.put_uint8_nc, POctets.get_uint8_nc]

/-! ## Lemmas on `send`, `hasHandle` and the execute loop -/

/-- Method `send` records the message, touches neither database, queue nor callbacks, and
writes the message to the channel exactly when the session accepts it. -/
theorem BTGattHandler.send_spec (st : BTGattHandler) (msg : AttPDUMsg) :
    (st.send msg).1.sent = st.sent ++ [msg] ∧
    (st.send msg).1.writeDataQueue = st.writeDataQueue ∧
    (st.send msg).1.gattServerData = st.gattServerData ∧
    (st.send msg).1.calls = st.calls ∧
    (st.send msg).1.wire = (if st.accepts msg then st.wire ++ [msg] else st.wire) ∧
    ((st.send msg).2 = none ↔ st.accepts msg = true) := by
  unfold BTGattHandler.send BTGattHandler.accepts BTGattHandler.validateConnected
  by_cases h1 : (st.has_ioerror || st.l2cap_ioerror) = true
  · simp [h1]
  · by_cases h2 : (!st.is_connected || !st.l2cap_open) = true
    · simp [h1, h2]
    · by_cases h3 : msg.size ≤ st.usedMTU
      · simp [h1, h2, h3, Nat.not_lt.mpr h3]
      · simp [h1, h2, h3, Nat.lt_of_not_le h3]

theorem BTGattHandler.applyWrite_frame (st : BTGattHandler) (handle : Nat) (value : List Nat)
    (offset : Nat) :
    (st.applyWrite handle value offset).1 =
      { st with gattServerData := (st.applyWrite handle value offset).1.gattServerData,
                calls := (st.applyWrite handle value offset).1.calls } := by
  unfold BTGattHandler.applyWrite
  cases st.gattServerData with
  | none => rfl
  | some db =>
    simp only
    cases applyWriteServices db.listener handle value offset db.services <;> rfl

theorem applyWriteChar_error {ls : List Listener} {s : DBGattService} {c : DBGattChar}
    {value : List Nat} {offset : Nat}
    (h : (applyWriteChar ls s c value offset).code ≠ .NO_ERROR) :
    (applyWriteChar ls s c value offset).target = c := by
  simp only [applyWriteChar] at h ⊢
  split_ifs at h ⊢ <;> first | rfl | exact absurd rfl h

theorem applyWriteDesc_error {ls : List Listener} {s : DBGattService} {c : DBGattChar}
    {d : DBGattDesc} {value : List Nat} {offset : Nat}
    (h : (applyWriteDesc ls s c d value offset).code ≠ .NO_ERROR) :
    (applyWriteDesc ls s c d value offset).target = d := by
  simp only [applyWriteDesc] at h ⊢
  split_ifs at h ⊢ <;> first | rfl | exact absurd rfl h | exact absurd (applyCCCD_code _ _ _ _) h

/-- A write that does not return NO_ERROR leaves the database as it was. -/
theorem BTGattHandler.applyWrite_error_db (st : BTGattHandler) (handle : Nat)
    (value : List Nat) (offset : Nat)
    (h : (st.applyWrite handle value offset).2 ≠ .NO_ERROR) :
    (st.applyWrite handle value offset).1.gattServerData = st.gattServerData := by
  rw [BTGattHandler.applyWrite_eq] at h ⊢
  cases hdb : st.gattServerData with
  | none => simp only [hdb]
  | some db =>
    simp only [hdb] at h ⊢
    cases ht : findTarget db handle with
    | none => simp only [hdb]
    | some t =>
      simp only [ht] at h ⊢
      have hloc := findTarget_sound ht
      have hself := Target.withValue_self hloc
      rcases t with ⟨spre, s, spost, cpre, c, cpost, desc⟩
      cases desc with
      | none =>
        simp only [Target.apply] at h ⊢
        rw [applyWriteChar_error h]
        simp only [Target.withValue, Target.value] at hself
        rw [hself]
      | some r =>
        simp only [Target.apply] at h ⊢
        rw [applyWriteDesc_error h]
        simp only [Target.withValue, Target.value] at hself
        rw [hself]

theorem findDesc_isSome_eq_any (handle : Nat) (ds : List DBGattDesc) :
    (findDesc handle ds).isSome = ds.any (fun d => decide (handle = d.handle)) := by
  induction ds with
  | nil => rfl
  | cons d ds ih =>
    by_cases hd : handle = d.handle
    · simp [findDesc, hd]
    · simp [findDesc, hd, ← ih]

theorem hasHandleChars_eq (s : DBGattService) (spre spost : List DBGattService)
    (handle : Nat) (cpre cs : List DBGattChar) :
    hasHandleChars handle cs = (findInChars s spre spost handle cpre cs).isSome := by
  induction cs generalizing cpre with
  | nil => rfl
  | cons c cs ih =>
    by_cases hr : c.handle ≤ handle ∧ handle ≤ c.end_handle
    · by_cases hv : handle = c.value_handle
      · simp only [hasHandleChars, findInChars, if_pos hr, if_pos hv, Option.isSome_some]
      · simp only [hasHandleChars, findInChars, if_pos hr, if_neg hv,
          ← findDesc_isSome_eq_any]
        cases hd : findDesc handle c.descriptors with
        | none => simp [ih (cpre ++ [c])]
        | some r => simp
    · simp only [hasHandleChars, findInChars, if_neg hr, ih (cpre ++ [c])]

theorem hasHandleServices_eq (handle : Nat) (spre ss : List DBGattService) :
    hasHandleServices handle ss = (findInServices handle spre ss).isSome := by
  induction ss generalizing spre with
  | nil => rfl
  | cons s ss ih =>
    by_cases hr : s.handle ≤ handle ∧ handle ≤ s.end_handle
    · simp only [hasHandleServices, findInServices, if_pos hr,
        hasHandleChars_eq s spre ss handle [] s.characteristics]
      cases hc : findInChars s spre ss handle [] s.characteristics with
      | none => simp [ih (spre ++ [s])]
      | some t => simp
    · simp only [hasHandleServices, findInServices, if_neg hr, ih (spre ++ [s])]

/-- Method `hasHandle` holds exactly when the handle resolves to an attribute value. -/
theorem BTGattHandler.hasHandle_eq (st : BTGattHandler) (handle : Nat) :
    st.hasHandle handle =
      match st.gattServerData with
      | none => false
      | some db => (findTarget db handle).isSome := by
  unfold BTGattHandler.hasHandle
  cases st.gattServerData with
  | none => rfl
  | some db => exact hasHandleServices_eq handle [] db.services

/-- A handle found by `hasHandle` is a value handle or descriptor handle of the database, and
in a database with nested handle ranges every such handle is found. -/
theorem BTGattHandler.hasHandle_iff_mem (st : BTGattHandler) (db : DBGattServer)
    (handle : Nat) (hdb : st.gattServerData = some db) :
    (st.hasHandle handle = true → handle ∈ servicesValueHandles db.services) ∧
    (db.Nested → handle ∈ servicesValueHandles db.services → st.hasHandle handle = true) := by
  rw [BTGattHandler.hasHandle_eq, hdb]
  simp only [findTarget]
  refine ⟨?_, ?_⟩
  · intro h
    by_contra hnot
    rw [findInServices_eq_none [] hnot] at h
    exact absurd h (by simp)
  · intro hn hm
    exact findInServices_isSome [] hn hm

theorem BTGattHandler.executeWriteLoop_error (q : List AttPrepWrite) (st : BTGattHandler)
    (e : ErrorCode) (last : Nat) (he : e ≠ .NO_ERROR) :
    executeWriteLoop q st e last = (st, e, last) := by
  cases q with
  | nil => rfl
  | cons p ps => simp only [executeWriteLoop, if_neg he]

theorem BTGattHandler.executeWriteLoop_ok (q : List AttPrepWrite) (st : BTGattHandler)
    (last : Nat) (h : allSucceed st q) :
    (executeWriteLoop q st .NO_ERROR last).1 = applyAll st q ∧
    (executeWriteLoop q st .NO_ERROR last).2.1 = .NO_ERROR := by
  induction q generalizing st last with
  | nil => exact ⟨rfl, rfl⟩
  | cons p ps ih =>
    simp only [allSucceed, Bool.and_eq_true, decide_eq_true_eq] at h
    obtain ⟨h1, h2⟩ := h
    simp only [executeWriteLoop, if_true, applyAll]
    rw [h1]
    exact ih _ _ h2

theorem BTGattHandler.executeWriteLoop_fail (pre : List AttPrepWrite) (p : AttPrepWrite)
    (post : List AttPrepWrite) (st : BTGattHandler) (last : Nat) (h : allSucceed st pre)
    (he : ((applyAll st pre).applyWrite p.handle p.value p.offset).2 ≠ .NO_ERROR) :
    executeWriteLoop (pre ++ p :: post) st .NO_ERROR last =
      (((applyAll st pre).applyWrite p.handle p.value p.offset).1,
        ((applyAll st pre).applyWrite p.handle p.value p.offset).2, p.handle) := by
  induction pre generalizing st last with
  | nil =>
    simp only [List.nil_append, executeWriteLoop, if_true, applyAll] at he ⊢
    exact BTGattHandler.executeWriteLoop_error _ _ _ _ he
  | cons a as ih =>
    simp only [allSucceed, Bool.and_eq_true, decide_eq_true_eq] at h
    obtain ⟨h1, h2⟩ := h
    simp only [List.cons_append, executeWriteLoop, if_true, applyAll] at he ⊢
    rw [h1]
    exact ih _ _ h2 he

theorem BTGattHandler.applyAll_frame (st : BTGattHandler) (q : List AttPrepWrite) :
    applyAll st q =
      { st with gattServerData := (applyAll st q).gattServerData,
                calls := (applyAll st q).calls } := by
  induction q generalizing st with
  | nil => rfl
  | cons p ps ih =>
    simp only [applyAll]
    rw [ih]
    conv_rhs => rw [BTGattHandler.applyWrite_frame st p.handle p.value p.offset]
    conv_lhs => rw [BTGattHandler.applyWrite_frame st p.handle p.value p.offset]

theorem BTGattHandler.accepts_eq (st : BTGattHandler) (msg : AttPDUMsg) :
    st.accepts msg = (!(st.has_ioerror || st.l2cap_ioerror) &&
      !(!st.is_connected || !st.l2cap_open) && decide (msg.size ≤ st.usedMTU)) := by
  rcases st with ⟨dev, ic, hi, lo, li, db, q, sm, um, sn, wi, ca⟩
  cases ic <;> cases hi <;> cases lo <;> cases li <;>
    simp [BTGattHandler.accepts, BTGattHandler.validateConnected]

/-- Method `applyWrite` leaves the traces of sent PDUs, the queue and the connection state
untouched. -/
theorem BTGattHandler.applyWrite_channel (st : BTGattHandler) (handle : Nat)
    (value : List Nat) (offset : Nat) :
    (st.applyWrite handle value offset).1.sent = st.sent ∧
    (st.applyWrite handle value offset).1.wire = st.wire ∧
    (st.applyWrite handle value offset).1.writeDataQueue = st.writeDataQueue ∧
    (∀ msg, (st.applyWrite handle value offset).1.accepts msg = st.accepts msg) ∧
    ∀ q msg, BTGattHandler.accepts
      { (st.applyWrite handle value offset).1 with writeDataQueue := q } msg =
        st.accepts msg := by
  have hw := BTGattHandler.applyWrite_frame st handle value offset
  refine ⟨by rw [hw], by rw [hw], by rw [hw], fun msg => ?_, fun q msg => ?_⟩
  · simp only [BTGattHandler.accepts_eq]
    rw [hw]
  · simp only [BTGattHandler.accepts_eq]
    rw [hw]

theorem BTGattHandler.applyAll_channel (st : BTGattHandler) (l : List AttPrepWrite) :
    (applyAll st l).sent = st.sent ∧
    (applyAll st l).wire = st.wire ∧
    (applyAll st l).writeDataQueue = st.writeDataQueue ∧
    (∀ msg, (applyAll st l).accepts msg = st.accepts msg) ∧
    ∀ q msg, BTGattHandler.accepts { applyAll st l with writeDataQueue := q } msg =
      st.accepts msg := by
  have hw := BTGattHandler.applyAll_frame st l
  refine ⟨by rw [hw], by rw [hw], by rw [hw], fun msg => ?_, fun q msg => ?_⟩
  · simp only [BTGattHandler.accepts_eq]
    rw [hw]
  · simp only [BTGattHandler.accepts_eq]
    rw [hw]

/-- Method `send` called on a state `x` that has the traces and connection state of `st`. -/
theorem BTGattHandler.send_after (x st : BTGattHandler) (msg : AttPDUMsg)
    (hs : x.sent = st.sent) (hw : x.wire = st.wire) (ha : x.accepts msg = st.accepts msg) :
    (x.send msg).1.sent = st.sent ++ [msg] ∧
    (x.send msg).1.wire = (if st.accepts msg then st.wire ++ [msg] else st.wire) ∧
    (x.send msg).1.writeDataQueue = x.writeDataQueue ∧
    (x.send msg).1.gattServerData = x.gattServerData ∧
    (x.send msg).1.calls = x.calls := by
  obtain ⟨s1, s2, s3, s4, s5, _⟩ := BTGattHandler.send_spec x msg
  rw [s1, s2, s3, s4, s5, hs, hw, ha]
  exact ⟨rfl, rfl, rfl, rfl, rfl⟩

/-! ## Handle assignment: the numbering pass of `setServicesHandles` -/

/-- C1: for every server database whose handle counter does not wrap during the pass (the
counter starts at 1 and takes `handleSpan` steps, so `handleSpan <= 0xFFFF`), after
`setServicesHandles()` the handles of all service declarations, characteristic declarations,
characteristic values and descriptors are pairwise distinct and non-zero. -/
theorem setServicesHandles_distinct_nonzero (db : DBGattServer)
    (hw : handleSpan db.services ≤ 65535) :
    (servicesHandles db.setServicesHandles.1.services).Nodup ∧
    ∀ x ∈ servicesHandles db.setServicesHandles.1.services, x ≠ 0 := by
  obtain ⟨h1, h2, _⟩ := setServicesLoop_spec db.services 1 0 (fun _ => ⟨Nat.le_refl 1, by omega⟩)
  refine ⟨?_, ?_⟩
  · exact h1.imp (fun hab => Nat.ne_of_lt hab)
  · intro x hx
    have := h2 x hx
    simp only [DBGattServer.setServicesHandles] at hx
    omega

/-- Instance of C1 at `exampleServer`. -/
theorem setServicesHandles_distinct_nonzero_witness :
    handleSpan exampleServer.services ≤ 65535 ∧
    ((servicesHandles exampleServer.setServicesHandles.1.services).Nodup ∧
      ∀ x ∈ servicesHandles exampleServer.setServicesHandles.1.services, x ≠ 0) :=
  ⟨by decide, setServicesHandles_distinct_nonzero exampleServer (by decide)⟩

/-- C2: for every server database whose handle counter does not wrap, after
`setServicesHandles()` every service `s` and characteristic `c` of `s` satisfy
`s.handle <= c.handle < c.value_handle <= c.end_handle <= s.end_handle`, and every descriptor
`d` of `c` satisfies `c.value_handle < d.handle <= c.end_handle`. -/
theorem setServicesHandles_nested (db : DBGattServer)
    (hw : handleSpan db.services ≤ 65535) :
    ∀ s ∈ db.setServicesHandles.1.services, ∀ c ∈ s.characteristics,
      s.handle ≤ c.handle ∧ c.handle < c.value_handle ∧ c.value_handle ≤ c.end_handle ∧
        c.end_handle ≤ s.end_handle ∧
        ∀ d ∈ c.descriptors, c.value_handle < d.handle ∧ d.handle ≤ c.end_handle := by
  obtain ⟨_, _, h3⟩ := setServicesLoop_spec db.services 1 0 (fun _ => ⟨Nat.le_refl 1, by omega⟩)
  intro s hs c hc
  exact h3 s hs c hc

/-- Instance of C2 at `exampleServer`. -/
theorem setServicesHandles_nested_witness :
    handleSpan exampleServer.services ≤ 65535 ∧
    ∀ s ∈ exampleServer.setServicesHandles.1.services, ∀ c ∈ s.characteristics,
      s.handle ≤ c.handle ∧ c.handle < c.value_handle ∧ c.value_handle ≤ c.end_handle ∧
        c.end_handle ≤ s.end_handle ∧
        ∀ d ∈ c.descriptors, c.value_handle < d.handle ∧ d.handle ≤ c.end_handle :=
  ⟨by decide, setServicesHandles_nested exampleServer (by decide)⟩

/-- C3, evaluated on `exampleServer` (two services, eight attribute entities): the pass
numbers the entities 1, 2, 3, 4, 5 and then 7, 8, 9, skipping handle 6, which it stores as the
end handle of the first service; it returns 10, not the number 8 of handles set. -/
theorem setServicesHandles_gap_between_services :
    servicesEntityCount exampleServer.services = 8 ∧
    servicesHandles exampleServer.setServicesHandles.1.services = [1, 2, 3, 4, 5, 7, 8, 9] ∧
    exampleServer.setServicesHandles.1.services.map DBGattService.end_handle = [6, 10] ∧
    exampleServer.setServicesHandles.2 = 10 := by
  decide

/-- The numbered example database is what `setServicesHandles` makes of `exampleServer`. -/
theorem numberedServer_services :
    exampleServer.setServicesHandles.1.services = numberedServer.services := by
  decide

/-! ## The write path: `applyWrite` -/

/-- C4: for every session, handle, value and offset, `applyWrite` returns the code of the first
failing check in the order INVALID_HANDLE, INVALID_OFFSET (offset > current length),
INVALID_ATTRIBUTE_VALUE_LEN (offset + len(value) > capacity for a variable-length, > current
length for a fixed-length attribute), NO_WRITE_PERM (user description descriptor),
NO_WRITE_PERM (a write callback of a characteristic value or non-CCC descriptor returned
false), else NO_ERROR, as `applyWriteSpec` computes it. A handle that is neither a value handle
nor a descriptor handle gives INVALID_HANDLE; in a database with nested handle ranges every
value or descriptor handle resolves to an attribute with that handle, on which the remaining
checks `writeChecks` decide. -/
theorem applyWrite_first_failing_check (st : BTGattHandler) (handle : Nat) (value : List Nat)
    (offset : Nat) :
    (st.applyWrite handle value offset).2 =
      applyWriteSpec st.gattServerData handle value offset ∧
    ∀ db, st.gattServerData = some db →
      (handle ∉ servicesValueHandles db.services →
        (st.applyWrite handle value offset).2 = .INVALID_HANDLE) ∧
      (db.Nested → handle ∈ servicesValueHandles db.services →
        ∃ t, findTarget db handle = some t ∧ t.LocatedIn db.services handle ∧
          (st.applyWrite handle value offset).2 = writeChecks db.listener t value offset) := by
  have hmain : (st.applyWrite handle value offset).2 =
      applyWriteSpec st.gattServerData handle value offset := by
    rw [BTGattHandler.applyWrite_eq]
    unfold applyWriteSpec
    cases st.gattServerData with
    | none => rfl
    | some db =>
      simp only
      cases findTarget db handle with
      | none => rfl
      | some t => exact Target.apply_code _ _ _ _
  refine ⟨hmain, ?_⟩
  intro db hdb
  rw [hmain, hdb]
  refine ⟨?_, ?_⟩
  · intro hnot
    simp only [applyWriteSpec, findTarget, findInServices_eq_none [] hnot]
  · intro hn hmem
    have hsome := findInServices_isSome [] hn hmem
    cases ht : findTarget db handle with
    | none =>
      rw [findTarget] at ht
      rw [ht] at hsome
      exact absurd hsome (by simp)
    | some t =>
      exact ⟨t, rfl, findTarget_sound ht, by simp only [applyWriteSpec, ht]⟩

/-- C5: for every `applyWrite` on a characteristic value or non-CCC descriptor that returns
NO_ERROR, the database afterwards is the old one with only the value `v` of the located
attribute replaced (`withValue`), its capacity kept. For a variable-length attribute `v` is the
old bytes before the offset followed by the written bytes, of length `offset + len(value)`; for
a fixed-length attribute the length is unchanged and `v` is the old bytes with the written
bytes at `[offset, offset + len(value))`. -/
theorem applyWrite_stores_value (st : BTGattHandler) (db : DBGattServer) (handle : Nat)
    (value : List Nat) (offset : Nat) (t : Target)
    (hdb : st.gattServerData = some db) (ht : findTarget db handle = some t)
    (hccc : t.isClientCharConfig = false)
    (hok : (st.applyWrite handle value offset).2 = .NO_ERROR) :
    t.withValue t.value = db.services ∧
    ∃ v : POctets,
      (st.applyWrite handle value offset).1.gattServerData =
        some { db with services := t.withValue v } ∧
      (t.variable_length = true →
        v.bytes = t.value.bytes.take offset ++ value ∧ v.size = offset + value.length) ∧
      (t.variable_length = false →
        v.size = t.value.size ∧
        (t.value.WF → v.bytes =
          t.value.bytes.take offset ++ value ++ t.value.bytes.drop (offset + value.length))) := by
  refine ⟨Target.withValue_self (findTarget_sound ht), ?_⟩
  rw [BTGattHandler.applyWrite_eq] at hok ⊢
  simp only [hdb, ht] at hok ⊢
  rcases t with ⟨spre, s, spost, cpre, c, cpost, desc⟩
  cases desc with
  | none =>
    simp only [Target.apply] at hok ⊢
    obtain ⟨h1, h2, h3⟩ := applyWriteChar_ok hok
    refine ⟨(resizeForWrite c.value c.variable_length
      (offset + value.length)).put_octets_nc offset value, ?_, ?_, ?_⟩
    · simp only [Target.withValue, h3]
    · intro hv
      simp only [Target.variable_length] at hv
      simp only [hv, if_true] at h2
      simp only [Target.value, hv]
      exact ⟨(POctets.written_variable c.value value offset h1 h2).1,
        (POctets.written_variable c.value value offset h1 h2).2.1⟩
    · intro hv
      simp only [Target.variable_length] at hv
      simp only [hv, Bool.false_eq_true, if_false] at h2
      simp only [Target.value, hv]
      refine ⟨by rw [resizeForWrite_fixed]; rfl, ?_⟩
      intro hwf
      exact (POctets.written_fixed c.value value offset h2 hwf).1
  | some r =>
    simp only [Target.isClientCharConfig] at hccc
    simp only [Target.apply] at hok ⊢
    obtain ⟨h1, h2, h3⟩ := applyWriteDesc_ok hccc hok
    refine ⟨(resizeForWrite r.2.1.value r.2.1.variable_length
      (offset + value.length)).put_octets_nc offset value, ?_, ?_, ?_⟩
    · simp only [Target.withValue, h3]
    · intro hv
      simp only [Target.variable_length] at hv
      simp only [hv, if_true] at h2
      simp only [Target.value, hv]
      exact ⟨(POctets.written_variable r.2.1.value value offset h1 h2).1,
        (POctets.written_variable r.2.1.value value offset h1 h2).2.1⟩
    · intro hv
      simp only [Target.variable_length] at hv
      simp only [hv, Bool.false_eq_true, if_false] at h2
      simp only [Target.value, hv]
      refine ⟨by rw [resizeForWrite_fixed]; rfl, ?_⟩
      intro hwf
      exact (POctets.written_fixed r.2.1.value value offset h2 hwf).1

/-- C6: for every non-empty write to a CCC descriptor that passes the offset and length checks,
with `en` = bit 0 of `value[0]` and Notify property, `ei` = bit 1 of `value[0]` and Indicate
property: the result is NO_ERROR, the generic descriptor-write callback is not invoked, no
callback at all is invoked when `(en, ei)` equals bits 0 and 1 of the stored byte 0, and
otherwise `clientCharConfigChanged` is invoked once on every registered listener with
`(en, ei)` and the stored byte 0 becomes `en | (ei << 1)`. -/
theorem applyWrite_ccc_config (st : BTGattHandler) (db : DBGattServer) (handle : Nat)
    (value : List Nat) (offset : Nat) (t : Target) (dpre dpost : List DBGattDesc)
    (d : DBGattDesc)
    (hdb : st.gattServerData = some db) (ht : findTarget db handle = some t)
    (hd : t.desc = some (dpre, d, dpost)) (hccc : d.isClientCharConfig = true)
    (hwf : d.value.WF) (hne : value ≠ []) (hoff : offset ≤ d.value.size)
    (hlen : offset + value.length ≤
      (if d.variable_length then d.value.capacity else d.value.size)) :
    (st.applyWrite handle value offset).2 = .NO_ERROR ∧
    ∃ (new : List ListenerCall) (v : POctets),
      (st.applyWrite handle value offset).1.calls = st.calls ++ new ∧
      (st.applyWrite handle value offset).1.gattServerData =
        some { db with services := t.withValue v } ∧
      (∀ i h w o, ListenerCall.writeDescValue i h w o ∉ new) ∧
      ((cccEnableNotification t.c value = storedNotification d.value ∧
          cccEnableIndication t.c value = storedIndication d.value) → new = []) ∧
      (¬ (cccEnableNotification t.c value = storedNotification d.value ∧
          cccEnableIndication t.c value = storedIndication d.value) →
        new = (List.range db.listener.length).map (fun i =>
          ListenerCall.clientCharConfigChanged i d.handle
            (cccEnableNotification t.c value) (cccEnableIndication t.c value)) ∧
        v.get_uint8_nc 0 = ((cccEnableNotification t.c value).toNat |||
          ((cccEnableIndication t.c value).toNat <<< 1))) := by
  rcases t with ⟨spre, s, spost, cpre, c, cpost, desc⟩
  simp only at hd
  subst hd
  have hcap : 0 < (resizeForWrite d.value d.variable_length (offset + value.length)).capacity := by
    have hl : 0 < value.length := List.length_pos.mpr hne
    simp only [POctets.capacity, resizeForWrite_data]
    simp only [POctets.WF, POctets.capacity] at hwf hlen
    cases hv : d.variable_length <;> simp [hv] at hlen <;> omega
  rw [BTGattHandler.applyWrite_eq]
  simp only [hdb, ht, Target.apply, applyWriteDesc_ccc hccc hoff hlen,
    applyCCCD_eq _ _ _ _ hne, storedNotification, storedIndication, resizeForWrite_get]
  by_cases hb : ((d.value.get_uint8_nc 0 &&& 0b001 != 0) == cccEnableNotification c value &&
      (d.value.get_uint8_nc 0 &&& 0b010 != 0) == cccEnableIndication c value) = true
  · rw [if_pos hb]
    refine ⟨rfl, [], _, rfl, rfl, by simp, fun _ => rfl, ?_⟩
    intro hneg
    exfalso
    apply hneg
    simp only [Bool.and_eq_true, beq_iff_eq] at hb
    exact ⟨hb.1.symm, hb.2.symm⟩
  · rw [if_neg hb]
    refine ⟨rfl, _, _, rfl, rfl, by simp, ?_, ?_⟩
    · intro hpos
      exfalso
      apply hb
      simp only [Bool.and_eq_true, beq_iff_eq]
      exact ⟨hpos.1.symm, hpos.2.symm⟩
    · intro _
      exact ⟨rfl, put_get_config_byte _ _ _ hcap⟩

/-- Instance of C6: writing `01 00` to the CCC descriptor (handle 4) of the example
characteristic, which has the Notify property and stores `00 00`, returns NO_ERROR, calls
`clientCharConfigChanged(notify = true, indicate = false)` on the one listener and stores
`01 00`. -/
theorem applyWrite_ccc_config_witness :
    (exampleSession.gattServerData = some numberedServer ∧
      findTarget numberedServer 4 = some cccTarget ∧
      (⟨4, TYPE_CCC_DESC, ⟨[0, 0], 2⟩, false⟩ : DBGattDesc).isClientCharConfig = true) ∧
    (exampleSession.applyWrite 4 [1, 0] 0).2 = .NO_ERROR ∧
    (exampleSession.applyWrite 4 [1, 0] 0).1.calls =
      [.clientCharConfigChanged 0 4 true false] ∧
    ((exampleSession.applyWrite 4 [1, 0] 0).1.valueAt 4).map POctets.bytes = some [1, 0] :=
  ⟨⟨rfl, by decide, by decide⟩,
    (applyWrite_ccc_config exampleSession numberedServer 4 [1, 0] 0 cccTarget []
      [⟨5, TYPE_USER_DESC, ⟨[0x48, 0x52], 2⟩, false⟩] ⟨4, TYPE_CCC_DESC, ⟨[0, 0], 2⟩, false⟩
      rfl (by decide) rfl (by decide) (by decide) (by decide) (by decide) (by decide)).1,
    by decide, by decide⟩

/-- Instance of C5: writing `03 04` at offset 2 of the variable-length value `0A 0B` (handle
3, capacity 4) returns NO_ERROR and leaves `0A 0B 03 04`; the CCC descriptor is untouched. -/
theorem applyWrite_stores_value_witness :
    (exampleSession.gattServerData = some numberedServer ∧
      findTarget numberedServer 3 = some valueTarget ∧
      valueTarget.isClientCharConfig = false ∧
      (exampleSession.applyWrite 3 [3, 4] 2).2 = .NO_ERROR) ∧
    valueTarget.withValue valueTarget.value = numberedServer.services ∧
    ((exampleSession.applyWrite 3 [3, 4] 2).1.valueAt 3).map POctets.bytes =
      some [0x0A, 0x0B, 3, 4] ∧
    ((exampleSession.applyWrite 3 [3, 4] 2).1.valueAt 4).map POctets.bytes = some [0, 0] :=
  ⟨⟨rfl, by decide, rfl, by decide⟩,
    (applyWrite_stores_value exampleSession numberedServer 3 [3, 4] 2 valueTarget
      rfl (by decide) rfl (by decide)).1,
    by decide, by decide⟩

/-- Instances of C4 on the example session: each result code is reached by the check the claim
names. Handle 2 is a characteristic declaration, handle 3 a variable-length value of length 2
and capacity 4, handle 9 a fixed-length value of length 1, handle 5 a user description,
handle 4 a CCC descriptor; the listener vetoes values starting with `FF`. -/
theorem applyWrite_first_failing_check_witness :
    (exampleSession.applyWrite 2 [1] 0).2 = .INVALID_HANDLE ∧
    (exampleSession.applyWrite 3 [1] 3).2 = .INVALID_OFFSET ∧
    (exampleSession.applyWrite 3 [1, 2, 3] 2).2 = .INVALID_ATTRIBUTE_VALUE_LEN ∧
    (exampleSession.applyWrite 9 [1, 2] 0).2 = .INVALID_ATTRIBUTE_VALUE_LEN ∧
    (exampleSession.applyWrite 5 [0x41] 0).2 = .NO_WRITE_PERM ∧
    (exampleSession.applyWrite 3 [0xFF] 0).2 = .NO_WRITE_PERM ∧
    (exampleSession.applyWrite 4 [0xFF, 0] 0).2 = .NO_ERROR ∧
    (exampleSession.applyWrite 3 [5] 2).2 = .NO_ERROR :=
  ⟨(applyWrite_first_failing_check exampleSession 2 [1] 0).1.trans (by decide),
    (applyWrite_first_failing_check exampleSession 3 [1] 3).1.trans (by decide),
    (applyWrite_first_failing_check exampleSession 3 [1, 2, 3] 2).1.trans (by decide),
    (applyWrite_first_failing_check exampleSession 9 [1, 2] 0).1.trans (by decide),
    (applyWrite_first_failing_check exampleSession 5 [0x41] 0).1.trans (by decide),
    (applyWrite_first_failing_check exampleSession 3 [0xFF] 0).1.trans (by decide),
    (applyWrite_first_failing_check exampleSession 4 [0xFF, 0] 0).1.trans (by decide),
    (applyWrite_first_failing_check exampleSession 3 [5] 2).1.trans (by decide)⟩

/-- For a fixed-length CCC descriptor, a write that passes the offset and length checks and is
empty or leaves the effective bits equal to the stored ones returns NO_ERROR and leaves the
whole session state, database and callback trace included, as it was. -/
theorem applyWrite_ccc_fixed_unchanged (st : BTGattHandler) (db : DBGattServer) (handle : Nat)
    (value : List Nat) (offset : Nat) (t : Target) (dpre dpost : List DBGattDesc)
    (d : DBGattDesc)
    (hdb : st.gattServerData = some db) (ht : findTarget db handle = some t)
    (hd : t.desc = some (dpre, d, dpost)) (hccc : d.isClientCharConfig = true)
    (hfix : d.variable_length = false) (hoff : offset ≤ d.value.size)
    (hlen : offset + value.length ≤ d.value.size)
    (hsame : value = [] ∨
      (cccEnableNotification t.c value = storedNotification d.value ∧
        cccEnableIndication t.c value = storedIndication d.value)) :
    st.applyWrite handle value offset = (st, .NO_ERROR) := by
  have hself := Target.withValue_self (findTarget_sound ht)
  rcases t with ⟨spre, s, spost, cpre, c, cpost, desc⟩
  simp only at hd
  subst hd
  have hlen1 : offset + value.length ≤
      (if d.variable_length then d.value.capacity else d.value.size) := by
    simp [hfix, hlen]
  have hres : applyCCCD db.listener c d value = ⟨.NO_ERROR, d, []⟩ := by
    by_cases hv : value = []
    · subst hv
      simp [applyCCCD]
    · rw [applyCCCD_eq _ _ _ _ hv]
      rcases hsame with h | h
      · exact absurd h hv
      · rw [if_pos]
        simp [h.1, h.2]
  have hr : resizeForWrite d.value d.variable_length (offset + value.length) = d.value := by
    rw [hfix]
    exact resizeForWrite_fixed _ _
  have hstep : applyWriteDesc db.listener s c d value offset = ⟨.NO_ERROR, d, []⟩ := by
    rw [applyWriteDesc_ccc hccc hoff hlen1, hr]
    exact hres
  rw [BTGattHandler.applyWrite_eq]
  simp only [hdb, ht, Target.apply, hstep, List.append_nil]
  simp only [Target.withValue, Target.value] at hself
  have hd1 : ({ d with value := d.value } : DBGattDesc) = d := rfl
  rw [hd1] at hself
  rw [hself]
  rcases st with ⟨dev, ic, hi, lo, li, sdb, q, sm, um, sn, wi, ca⟩
  simp only at hdb
  subst hdb
  rfl

/-- C7, evaluated on a variable-length CCC descriptor storing `00 00` (handle 4 of
`varCccSession`): an empty write returns NO_ERROR but shrinks the stored value to length 0,
and a write of `00` at offset 0, which leaves the effective bits unchanged and calls no
callback, shrinks it to length 1; the resize step runs before the early return. -/
theorem applyWrite_ccc_resizes_before_return :
    (varCccSession.valueAt 4).map POctets.bytes = some [0, 0] ∧
    (varCccSession.applyWrite 4 [] 0).2 = .NO_ERROR ∧
    ((varCccSession.applyWrite 4 [] 0).1.valueAt 4).map POctets.bytes = some [] ∧
    (varCccSession.applyWrite 4 [0] 0).2 = .NO_ERROR ∧
    (varCccSession.applyWrite 4 [0] 0).1.calls = [] ∧
    ((varCccSession.applyWrite 4 [0] 0).1.valueAt 4).map POctets.bytes = some [0] := by
  decide

/-! ## The prepared-write queue: `replyWriteReq` -/

/-- C8: for every prepared-write queue, an EXECUTE_WRITE_REQ with flags 0x01 (device present)
applies the queued entries with `applyWrite` in insertion order up to the first entry that
does not return NO_ERROR. If all succeed the reply handed to `send` is EXECUTE_WRITE_RSP and
database and callback trace are those after all entries; if entry `p` is the first to fail,
the reply is ERROR_RSP with that code, opcode EXECUTE_WRITE_REQ and the handle of `p`, the
database is the one after the entries before `p` and the callback trace ends with the attempt
on `p`. The queue is empty afterwards, and the reply is written to the channel when the
session accepts it. -/
theorem replyWriteReq_execute_commit (st : BTGattHandler) (hdev : st.device = true) :
    (allSucceed st st.writeDataQueue →
      (st.replyWriteReq (.exeWriteReq 0x01)).1.sent = st.sent ++ [.exeWriteRsp] ∧
      (st.replyWriteReq (.exeWriteReq 0x01)).1.writeDataQueue = [] ∧
      (st.replyWriteReq (.exeWriteReq 0x01)).1.gattServerData =
        (applyAll st st.writeDataQueue).gattServerData ∧
      (st.replyWriteReq (.exeWriteReq 0x01)).1.calls =
        (applyAll st st.writeDataQueue).calls ∧
      (st.replyWriteReq (.exeWriteReq 0x01)).1.wire =
        (if st.accepts .exeWriteRsp then st.wire ++ [.exeWriteRsp] else st.wire)) ∧
    (∀ pre p post, st.writeDataQueue = pre ++ p :: post → allSucceed st pre →
      ((applyAll st pre).applyWrite p.handle p.value p.offset).2 ≠ .NO_ERROR →
      (st.replyWriteReq (.exeWriteReq 0x01)).1.sent = st.sent ++
        [.errorRsp ((applyAll st pre).applyWrite p.handle p.value p.offset).2
          .EXECUTE_WRITE_REQ p.handle] ∧
      (st.replyWriteReq (.exeWriteReq 0x01)).1.writeDataQueue = [] ∧
      (st.replyWriteReq (.exeWriteReq 0x01)).1.gattServerData =
        (applyAll st pre).gattServerData ∧
      (st.replyWriteReq (.exeWriteReq 0x01)).1.calls =
        ((applyAll st pre).applyWrite p.handle p.value p.offset).1.calls ∧
      (st.replyWriteReq (.exeWriteReq 0x01)).1.wire =
        (if st.accepts (.errorRsp ((applyAll st pre).applyWrite p.handle p.value p.offset).2
            .EXECUTE_WRITE_REQ p.handle)
         then st.wire ++ [.errorRsp ((applyAll st pre).applyWrite p.handle p.value p.offset).2
            .EXECUTE_WRITE_REQ p.handle]
         else st.wire)) := by
  have hd : (!st.device) = false := by simp [hdev]
  refine ⟨?_, ?_⟩
  · intro hall
    obtain ⟨e1, e2⟩ := BTGattHandler.executeWriteLoop_ok st.writeDataQueue st 0 hall
    obtain ⟨c1, c2, _, _, c4⟩ := BTGattHandler.applyAll_channel st st.writeDataQueue
    simp only [BTGattHandler.replyWriteReq, hd, Bool.false_eq_true, if_false, if_true, e2,
      ne_eq, not_true_eq_false, e1]
    obtain ⟨s1, s2, s3, s4, s5⟩ := BTGattHandler.send_after
      { applyAll st st.writeDataQueue with writeDataQueue := [] } st .exeWriteRsp c1 c2
      (c4 [] _)
    exact ⟨s1, s3, s4, s5, s2⟩
  · intro pre p post hq hpre hfail
    have hl := BTGattHandler.executeWriteLoop_fail pre p post st 0 hpre hfail
    obtain ⟨c1, c2, _, c3, _⟩ := BTGattHandler.applyAll_channel st pre
    obtain ⟨w1, w2, _, _, w4⟩ :=
      BTGattHandler.applyWrite_channel (applyAll st pre) p.handle p.value p.offset
    have hdb := BTGattHandler.applyWrite_error_db (applyAll st pre) p.handle p.value p.offset
      hfail
    simp only [BTGattHandler.replyWriteReq, hd, Bool.false_eq_true, if_false, if_true, hq, hl,
      ne_eq, hfail, not_false_eq_true]
    obtain ⟨s1, s2, s3, s4, s5⟩ := BTGattHandler.send_after
      { ((applyAll st pre).applyWrite p.handle p.value p.offset).1 with writeDataQueue := [] }
      st (.errorRsp ((applyAll st pre).applyWrite p.handle p.value p.offset).2
        .EXECUTE_WRITE_REQ p.handle) (w1.trans c1) (w2.trans c2)
      ((w4 [] _).trans (c3 _))
    exact ⟨s1, s3, s4.trans hdb, s5, s2⟩

/-- Instance of C8: the queue `01 02` at offset 0 and `03 04` at offset 2 on the
variable-length value `0A 0B` at handle 3 is committed, the reply is EXECUTE_WRITE_RSP, the
queue is empty and the value is `01 02 03 04`. With an entry in between that fails (offset 5
on the one-byte value at handle 9) the reply is ERROR_RSP(INVALID_OFFSET, EXECUTE_WRITE_REQ,
9), the queue is empty and the value is `01 02`: the first entry stays applied, the third is
not applied. -/
theorem replyWriteReq_execute_commit_witness :
    commitSession.device = true ∧
    allSucceed commitSession commitSession.writeDataQueue = true ∧
    (commitSession.replyWriteReq (.exeWriteReq 0x01)).1.sent = [.exeWriteRsp] ∧
    (commitSession.replyWriteReq (.exeWriteReq 0x01)).1.writeDataQueue = [] ∧
    ((commitSession.replyWriteReq (.exeWriteReq 0x01)).1.valueAt 3).map POctets.bytes =
      some [1, 2, 3, 4] ∧
    (failingSession.replyWriteReq (.exeWriteReq 0x01)).1.sent =
      [.errorRsp .INVALID_OFFSET .EXECUTE_WRITE_REQ 9] ∧
    (failingSession.replyWriteReq (.exeWriteReq 0x01)).1.writeDataQueue = [] ∧
    ((failingSession.replyWriteReq (.exeWriteReq 0x01)).1.valueAt 3).map POctets.bytes =
      some [1, 2] :=
  have hall : allSucceed commitSession commitSession.writeDataQueue = true := by decide
  have hfail := (replyWriteReq_execute_commit failingSession rfl).2
    [⟨false, 3, 0, [1, 2]⟩] ⟨false, 9, 5, [1]⟩ [⟨false, 3, 2, [3, 4]⟩] rfl (by decide)
    (by decide)
  ⟨rfl, hall,
    ((replyWriteReq_execute_commit commitSession rfl).1 hall).1,
    ((replyWriteReq_execute_commit commitSession rfl).1 hall).2.1,
    by decide, hfail.1, hfail.2.1, by decide⟩

/-- C9: for every PREPARE_WRITE_REQ(handle, offset, value) (device present): if `hasHandle`
finds the handle, the entry is appended at the end of the prepared-write queue, the reply
handed to `send` is the PREPARE_WRITE_RSP with the same handle, offset and value, and database
and callbacks are untouched; otherwise the reply is ERROR_RSP(INVALID_HANDLE,
PREPARE_WRITE_REQ, handle) and the queue is unchanged. A handle found is a value or descriptor
handle of the database, and every such handle is found when the handle ranges are nested. The
reply is written to the channel when the session accepts it. -/
theorem replyWriteReq_prepare (st : BTGattHandler) (handle offset : Nat) (value : List Nat)
    (hdev : st.device = true) :
    (st.hasHandle handle = true →
      (st.replyWriteReq (.prepWrite ⟨true, handle, offset, value⟩)).1.writeDataQueue =
        st.writeDataQueue ++ [⟨false, handle, offset, value⟩] ∧
      (st.replyWriteReq (.prepWrite ⟨true, handle, offset, value⟩)).1.sent =
        st.sent ++ [.prepWrite ⟨false, handle, offset, value⟩] ∧
      (st.replyWriteReq (.prepWrite ⟨true, handle, offset, value⟩)).1.gattServerData =
        st.gattServerData ∧
      (st.replyWriteReq (.prepWrite ⟨true, handle, offset, value⟩)).1.calls = st.calls ∧
      (st.replyWriteReq (.prepWrite ⟨true, handle, offset, value⟩)).1.wire =
        (if st.accepts (.prepWrite ⟨false, handle, offset, value⟩)
         then st.wire ++ [.prepWrite ⟨false, handle, offset, value⟩] else st.wire)) ∧
    (st.hasHandle handle = false →
      (st.replyWriteReq (.prepWrite ⟨true, handle, offset, value⟩)).1.sent =
        st.sent ++ [.errorRsp .INVALID_HANDLE .PREPARE_WRITE_REQ handle] ∧
      (st.replyWriteReq (.prepWrite ⟨true, handle, offset, value⟩)).1.writeDataQueue =
        st.writeDataQueue ∧
      (st.replyWriteReq (.prepWrite ⟨true, handle, offset, value⟩)).1.gattServerData =
        st.gattServerData) ∧
    (∀ db, st.gattServerData = some db →
      (st.hasHandle handle = true → handle ∈ servicesValueHandles db.services) ∧
      (db.Nested → handle ∈ servicesValueHandles db.services → st.hasHandle handle = true)) := by
  have hd : (!st.device) = false := by simp [hdev]
  refine ⟨?_, ?_, fun db hdb => BTGattHandler.hasHandle_iff_mem st db handle hdb⟩
  · intro hh
    simp only [BTGattHandler.replyWriteReq, hd, Bool.false_eq_true, if_false, if_true, hh,
      Bool.not_true]
    obtain ⟨s1, s2, s3, s4, s5⟩ := BTGattHandler.send_after
      { st with writeDataQueue := st.writeDataQueue ++ [⟨false, handle, offset, value⟩] } st
      (.prepWrite ⟨false, handle, offset, value⟩) rfl rfl
      (by simp only [BTGattHandler.accepts_eq])
    exact ⟨s3, s1, s4, s5, s2⟩
  · intro hh
    simp only [BTGattHandler.replyWriteReq, hd, Bool.false_eq_true, if_false, if_true, hh,
      Bool.not_false]
    obtain ⟨s1, _, s3, s4, _⟩ := BTGattHandler.send_after st st
      (.errorRsp .INVALID_HANDLE .PREPARE_WRITE_REQ handle) rfl rfl rfl
    exact ⟨s1, s3, s4⟩

/-- Instance of C9: a PREPARE_WRITE_REQ for the value handle 3 is queued and echoed, one for
the characteristic declaration handle 2 is refused. -/
theorem replyWriteReq_prepare_witness :
    exampleSession.device = true ∧ numberedServer.Nested ∧
    exampleSession.hasHandle 3 = true ∧ exampleSession.hasHandle 2 = false ∧
    (exampleSession.replyWriteReq (.prepWrite ⟨true, 3, 2, [3, 4]⟩)).1.writeDataQueue =
      [⟨false, 3, 2, [3, 4]⟩] ∧
    (exampleSession.replyWriteReq (.prepWrite ⟨true, 3, 2, [3, 4]⟩)).1.wire =
      [.prepWrite ⟨false, 3, 2, [3, 4]⟩] ∧
    (exampleSession.replyWriteReq (.prepWrite ⟨true, 2, 0, [1]⟩)).1.sent =
      [.errorRsp .INVALID_HANDLE .PREPARE_WRITE_REQ 2] :=
  ⟨rfl, by decide, by decide, by decide,
    ((replyWriteReq_prepare exampleSession 3 2 [3, 4] rfl).1 (by decide)).1,
    ((replyWriteReq_prepare exampleSession 3 2 [3, 4] rfl).1 (by decide)).2.2.2.2,
    ((replyWriteReq_prepare exampleSession 2 0 [1] rfl).2.1 (by decide)).1⟩

/-- C10: for every prepared-write queue content, an EXECUTE_WRITE_REQ with flags 0x00 (device
present) hands EXECUTE_WRITE_RSP to `send`, leaves the queue empty, leaves the database
unchanged and invokes no callback. The reply is written to the channel when the session
accepts it. -/
theorem replyWriteReq_execute_cancel (st : BTGattHandler) (hdev : st.device = true) :
    (st.replyWriteReq (.exeWriteReq 0x00)).1.sent = st.sent ++ [.exeWriteRsp] ∧
    (st.replyWriteReq (.exeWriteReq 0x00)).1.writeDataQueue = [] ∧
    (st.replyWriteReq (.exeWriteReq 0x00)).1.gattServerData = st.gattServerData ∧
    (st.replyWriteReq (.exeWriteReq 0x00)).1.calls = st.calls ∧
    (st.replyWriteReq (.exeWriteReq 0x00)).1.wire =
      (if st.accepts .exeWriteRsp then st.wire ++ [.exeWriteRsp] else st.wire) := by
  have hd : (!st.device) = false := by simp [hdev]
  have h0 : ¬ ((0 : Nat) = 1) := by decide
  simp only [BTGattHandler.replyWriteReq, hd, Bool.false_eq_true, if_false, h0]
  obtain ⟨s1, s2, s3, s4, s5⟩ := BTGattHandler.send_after
    { st with writeDataQueue := [] } st .exeWriteRsp rfl rfl
    (by simp only [BTGattHandler.accepts_eq])
  exact ⟨s1, s3, s4, s5, s2⟩

/-- Instance of C10: cancelling a queue whose second entry would fail replies
EXECUTE_WRITE_RSP, empties the queue and leaves the value at handle 3 as it was. -/
theorem replyWriteReq_execute_cancel_witness :
    failingSession.device = true ∧
    allSucceed failingSession failingSession.writeDataQueue = false ∧
    (failingSession.replyWriteReq (.exeWriteReq 0x00)).1.sent = [.exeWriteRsp] ∧
    (failingSession.replyWriteReq (.exeWriteReq 0x00)).1.writeDataQueue = [] ∧
    ((failingSession.replyWriteReq (.exeWriteReq 0x00)).1.valueAt 3).map POctets.bytes =
      some [0x0A, 0x0B] :=
  ⟨rfl, by decide,
    (replyWriteReq_execute_cancel failingSession rfl).1,
    (replyWriteReq_execute_cancel failingSession rfl).2.1,
    by decide⟩

/-! ## The read responder and the attribute lookup -/

theorem nsize_sub_one (u : Nat) (h1 : 1 ≤ u) (h2 : u ≤ 65535) : nsize_sub u 1 = u - 1 := by
  unfold nsize_sub; omega

theorem nsize_sub_two (u : Nat) (h1 : 2 ≤ u) (h2 : u ≤ 65535) : nsize_sub u 2 = u - 2 := by
  unfold nsize_sub; omega

theorem replyReadDescs_eq (ls : List Listener) (usedMTU : Nat) (opc : Opcode) (isBlobReq : Bool)
    (handle value_offset : Nat) (s : DBGattService) (c : DBGattChar) (ds : List DBGattDesc) :
    replyReadDescs ls usedMTU opc isBlobReq handle value_offset s c ds =
      (findDesc handle ds).map
        (fun r => replyReadDesc ls usedMTU opc isBlobReq value_offset s c r.2.1) := by
  induction ds with
  | nil => rfl
  | cons d ds ih =>
    by_cases hd : handle = d.handle
    · simp only [replyReadDescs, findDesc, if_pos hd, Option.map_some']
    · simp only [replyReadDescs, findDesc, if_neg hd, ih, Option.map_map]
      rfl

theorem replyReadChars_eq (ls : List Listener) (usedMTU : Nat) (opc : Opcode) (isBlobReq : Bool)
    (handle value_offset : Nat) (s : DBGattService) (spre spost : List DBGattService)
    (cpre cs : List DBGattChar) :
    replyReadChars ls usedMTU opc isBlobReq handle value_offset s cs =
      (findInChars s spre spost handle cpre cs).map
        (fun t => t.readReply ls usedMTU opc isBlobReq value_offset) := by
  induction cs generalizing cpre with
  | nil => rfl
  | cons c cs ih =>
    by_cases hr : c.handle ≤ handle ∧ handle ≤ c.end_handle
    · by_cases hv : handle = c.value_handle
      · simp only [replyReadChars, findInChars, if_pos hr, if_pos hv, Option.map_some',
          Target.readReply]
      · simp only [replyReadChars, findInChars, if_pos hr, if_neg hv, replyReadDescs_eq]
        cases hd : findDesc handle c.descriptors with
        | none => simp only [Option.map_none', ih (cpre ++ [c])]
        | some r => simp only [Option.map_some', Target.readReply]
    · simp only [replyReadChars, findInChars, if_neg hr, ih (cpre ++ [c])]

theorem replyReadServices_eq (ls : List Listener) (usedMTU : Nat) (opc : Opcode)
    (isBlobReq : Bool) (handle value_offset : Nat) (spre ss : List DBGattService) :
    replyReadServices ls usedMTU opc isBlobReq handle value_offset ss =
      (findInServices handle spre ss).map
        (fun t => t.readReply ls usedMTU opc isBlobReq value_offset) := by
  induction ss generalizing spre with
  | nil => rfl
  | cons s ss ih =>
    by_cases hr : s.handle ≤ handle ∧ handle ≤ s.end_handle
    · simp only [replyReadServices, findInServices, if_pos hr,
        replyReadChars_eq ls usedMTU opc isBlobReq handle value_offset s spre ss []]
      cases hc : findInChars s spre ss handle [] s.characteristics with
      | none => simp only [Option.map_none', ih (spre ++ [s])]
      | some t => simp only [Option.map_some']
    · simp only [replyReadServices, findInServices, if_neg hr, ih (spre ++ [s])]

/-- The reply to a read of a located attribute, by the checks in their order: the not-long
check of a blob request, the veto of a read callback, the response with the value. -/
theorem Target.readReply_eq (t : Target) (ls : List Listener) (usedMTU : Nat) (opc : Opcode)
    (isBlobReq : Bool) (value_offset : Nat) :
    t.readReply ls usedMTU opc isBlobReq value_offset =
      if isBlobReq = true ∧ t.value.size ≤ nsize_sub usedMTU 1 then
        ⟨.returned (.errorRsp .ATTRIBUTE_NOT_LONG opc 0), []⟩
      else if some false ∈ t.readCallbacks ls then
        ⟨.returned (.errorRsp .NO_READ_PERM opc 0), t.readCalls ls⟩
      else ⟨readRsp usedMTU isBlobReq t.value value_offset, t.readCalls ls⟩ := by
  rcases t with ⟨spre, s, spost, cpre, c, cpost, desc⟩
  cases desc with
  | none =>
    simp only [Target.readReply, replyReadChar, Target.value, Target.readCallbacks,
      Target.readCalls, vetoLoop_eq]
    split_ifs <;> simp_all
  | some r =>
    simp only [Target.readReply, replyReadDesc, Target.value, Target.readCallbacks,
      Target.readCalls, vetoLoop_eq]
    split_ifs <;> simp_all

/-- The read responder on a non-zero handle that the lookup resolves. -/
theorem BTGattHandler.replyRead_found (st : BTGattHandler) (db : DBGattServer) (opc : Opcode)
    (handle value_offset : Nat) (isBlobReq : Bool) (t : Target) (h0 : handle ≠ 0)
    (hdb : st.gattServerData = some db) (ht : findTarget db handle = some t) :
    st.replyRead opc handle value_offset isBlobReq =
      match (t.readReply db.listener st.usedMTU opc isBlobReq value_offset).reply with
      | .returned msg => BTGattHandler.send { st with calls := st.calls ++
          (t.readReply db.listener st.usedMTU opc isBlobReq value_offset).calls } msg
      | .thrown e => ({ st with calls := st.calls ++
          (t.readReply db.listener st.usedMTU opc isBlobReq value_offset).calls }, some e) := by
  have hs : replyReadServices db.listener st.usedMTU opc isBlobReq handle value_offset
      db.services = some (t.readReply db.listener st.usedMTU opc isBlobReq value_offset) := by
    rw [replyReadServices_eq db.listener st.usedMTU opc isBlobReq handle value_offset []]
    unfold findTarget at ht
    rw [ht]
    rfl
  unfold BTGattHandler.replyRead
  rw [if_neg h0]
  simp only [hdb, hs]

/-- The read responder on a non-zero handle that the lookup does not resolve. -/
theorem BTGattHandler.replyRead_unknown (st : BTGattHandler) (opc : Opcode)
    (handle value_offset : Nat) (isBlobReq : Bool) (h0 : handle ≠ 0)
    (hnone : ∀ db, st.gattServerData = some db → findTarget db handle = none) :
    st.replyRead opc handle value_offset isBlobReq =
      st.send (.errorRsp .ATTRIBUTE_NOT_FOUND opc 0) := by
  unfold BTGattHandler.replyRead
  rw [if_neg h0]
  cases hdb : st.gattServerData with
  | none => rfl
  | some db =>
    have hs : replyReadServices db.listener st.usedMTU opc isBlobReq handle value_offset
        db.services = none := by
      rw [replyReadServices_eq db.listener st.usedMTU opc isBlobReq handle value_offset []]
      have := hnone db hdb
      unfold findTarget at this
      rw [this]
      rfl
    simp only [hs]

/-- The response built from a well-formed value at an offset within it carries
`value[offset ..]` cut to `usedMTU - 1` bytes. -/
theorem readRsp_value (usedMTU : Nat) (isBlobReq : Bool) (value : POctets) (value_offset : Nat)
    (h1 : 1 ≤ usedMTU) (h2 : usedMTU ≤ 65535) (hwf : value.WF)
    (hoff : value_offset ≤ value.size) :
    readRsp usedMTU isBlobReq value value_offset =
      .returned (.readNRsp isBlobReq ((value.bytes.drop value_offset).take (usedMTU - 1))) := by
  have hlen : value.bytes.length = value.size := by
    unfold POctets.WF POctets.capacity at hwf
    simp only [POctets.bytes, List.length_take]
    omega
  simp only [readRsp, AttReadNRsp, if_neg (Nat.not_lt.mpr hoff), AttPDUMsg.getPDUValueSize,
    AttPDUMsg.size, nsize_sub_one usedMTU h1 h2, AttPDUMsg.resize]
  split_ifs with h
  · rfl
  · simp only [List.length_drop, Nat.add_sub_cancel_left, not_lt] at h
    rw [List.take_of_length_le]
    simp only [List.length_drop]
    exact h

theorem readRsp_cases (usedMTU : Nat) (isBlobReq : Bool) (value : POctets) (value_offset : Nat) :
    readRsp usedMTU isBlobReq value value_offset = .thrown .IllegalArgumentException ∨
    ∃ v, readRsp usedMTU isBlobReq value value_offset = .returned (.readNRsp isBlobReq v) := by
  by_cases h1 : value_offset > value.size
  · left
    simp only [readRsp, AttReadNRsp, if_pos h1]
  · right
    simp only [readRsp, AttReadNRsp, if_neg h1, AttPDUMsg.resize]
    split_ifs
    · exact ⟨_, rfl⟩
    · exact ⟨_, rfl⟩

theorem readRequest_reply (st : BTGattHandler) (isBlobReq : Bool) (handle value_offset : Nat)
    (hdev : st.device = true) (hreq : isBlobReq = false → value_offset = 0) :
    st.replyReadReq (readRequest isBlobReq handle value_offset) =
      st.replyRead (readRequest isBlobReq handle value_offset).getOpcode handle value_offset
        isBlobReq := by
  have hd : (!st.device) = false := by simp [hdev]
  cases isBlobReq with
  | false =>
    rw [hreq rfl]
    simp only [readRequest, BTGattHandler.replyReadReq, hd, Bool.false_eq_true, if_false,
      AttPDUMsg.getOpcode]
  | true =>
    simp only [readRequest, BTGattHandler.replyReadReq, hd, Bool.false_eq_true, if_false,
      if_true, AttPDUMsg.getOpcode]

theorem take_drop_slice (l : List Nat) (o m : Nat) :
    (l.take (min l.length (o + m))).drop o = (l.drop o).take m := by
  rw [List.drop_take]
  apply List.ext_getElem?
  intro i
  simp only [List.getElem?_take, List.getElem?_drop]
  by_cases h : i < m
  · by_cases h2 : o + i < l.length
    · rw [if_pos (by omega), if_pos h]
    · rw [if_pos h]
      split_ifs
      · rfl
      · rw [List.getElem?_eq_none (by omega)]
  · rw [if_neg h, if_neg (by omega)]

theorem POctets.bytes_length {p : POctets} (h : p.WF) : p.bytes.length = p.size := by
  unfold POctets.WF POctets.capacity at h
  simp only [POctets.bytes, List.length_take]
  omega

/-- The state after `send` on a session that differs from `st` in its callback trace only. -/
theorem BTGattHandler.send_with_calls (st : BTGattHandler) (cs : List ListenerCall)
    (msg : AttPDUMsg) :
    (BTGattHandler.send { st with calls := cs } msg).1.sent = st.sent ++ [msg] ∧
    (BTGattHandler.send { st with calls := cs } msg).1.wire =
      (if st.accepts msg then st.wire ++ [msg] else st.wire) ∧
    (BTGattHandler.send { st with calls := cs } msg).1.gattServerData = st.gattServerData ∧
    (BTGattHandler.send { st with calls := cs } msg).1.calls = cs ∧
    (BTGattHandler.send { st with calls := cs } msg).1.writeDataQueue = st.writeDataQueue := by
  obtain ⟨s1, s2, s3, s4, s5⟩ := BTGattHandler.send_after { st with calls := cs } st msg rfl rfl
    (by simp only [BTGattHandler.accepts_eq])
  exact ⟨s1, s2, s4, s5, s3⟩

theorem readRequest_reply_any (st : BTGattHandler) (isBlobReq : Bool)
    (handle value_offset : Nat) (hdev : st.device = true) :
    st.replyReadReq (readRequest isBlobReq handle value_offset) =
      st.replyRead (readRequest isBlobReq handle value_offset).getOpcode handle
        (if isBlobReq then value_offset else 0) isBlobReq := by
  have hd : (!st.device) = false := by simp [hdev]
  cases isBlobReq with
  | false =>
    simp only [readRequest, BTGattHandler.replyReadReq, hd, Bool.false_eq_true, if_false,
      AttPDUMsg.getOpcode]
  | true =>
    simp only [readRequest, BTGattHandler.replyReadReq, hd, Bool.false_eq_true, if_false,
      if_true, AttPDUMsg.getOpcode]

theorem Target.readCalls_eq {t : Target} {services : List DBGattService} {handle : Nat}
    (h : t.LocatedIn services handle) (ls : List Listener) :
    t.readCalls ls = (List.range ls.length).map (fun i =>
      if t.desc.isNone then ListenerCall.readCharValue i handle
      else ListenerCall.readDescValue i handle) := by
  rcases t with ⟨spre, s, spost, cpre, c, cpost, desc⟩
  cases desc with
  | none =>
    obtain ⟨_, _, h3⟩ := h
    simp only [Target.readCalls, Option.isNone_none, if_true]
    rw [h3]
  | some r =>
    obtain ⟨_, _, _, h3⟩ := h
    simp only [Target.readCalls, Option.isNone_some, Bool.false_eq_true, if_false]
    rw [h3]

/-! ## The client side on a connected session -/

/-- On a connected session `send` rejects exactly the PDUs longer than `usedMTU`, with
IllegalArgumentException, and writes every other PDU to the channel. -/
theorem BTGattHandler.send_connected (st : BTGattHandler) (msg : AttPDUMsg)
    (h : st.validateConnected.2 = true) :
    st.send msg =
      if msg.size > st.usedMTU then
        ({ st with sent := st.sent ++ [msg] }, some .IllegalArgumentException)
      else (st.written msg, none) := by
  rcases st with ⟨dev, ic, hi, lo, li, db, q, sm, um, sn, wi, ca⟩
  cases ic <;> cases hi <;> cases lo <;> cases li <;>
    first
    | (simp [BTGattHandler.validateConnected] at h; done)
    | (simp only [BTGattHandler.send, BTGattHandler.validateConnected,
        BTGattHandler.written]; split_ifs <;> simp_all)

theorem BTGattHandler.written_fields (st : BTGattHandler) (msg : AttPDUMsg) :
    (st.written msg).validateConnected.2 = st.validateConnected.2 ∧
    (st.written msg).usedMTU = st.usedMTU ∧
    (st.written msg).wire = st.wire ++ [msg] ∧
    (st.written msg).sent = st.sent ++ [msg] := by
  refine ⟨?_, rfl, rfl, rfl⟩
  simp only [BTGattHandler.validateConnected, BTGattHandler.written]
  split_ifs <;> rfl

/-- What `sendWithReply` does on a connected session with a PDU that fits: the PDU is written
and the outcome is the reply of the peer, or BTException after a timeout. -/
theorem BTGattHandler.sendWithReply_connected {σ : Type} (peer : Peer σ) (st : BTGattHandler)
    (p : σ) (msg : AttPDUMsg) (h : st.validateConnected.2 = true)
    (hsize : msg.size ≤ st.usedMTU) :
    st.sendWithReply peer p msg =
      match (peer p msg).2 with
      | none => ((BTGattHandler.disconnect { st.written msg with has_ioerror := true }
          true true).1, (peer p msg).1, .thrown .BTException)
      | some res => (st.written msg, (peer p msg).1, .returned res) := by
  have hs := BTGattHandler.send_connected st msg h
  rw [if_neg (Nat.not_lt.mpr hsize)] at hs
  simp only [BTGattHandler.sendWithReply, hs]

/-- Whatever the peer does, a PDU that fits is written to the channel of a connected session
by `sendWithReply`, and nothing else is. -/
theorem BTGattHandler.sendWithReply_wire {σ : Type} (peer : Peer σ) (st : BTGattHandler)
    (p : σ) (msg : AttPDUMsg) (h : st.validateConnected.2 = true)
    (hsize : msg.size ≤ st.usedMTU) :
    (st.sendWithReply peer p msg).1.wire = st.wire ++ [msg] := by
  rw [BTGattHandler.sendWithReply_connected peer st p msg h hsize]
  cases (peer p msg).2 with
  | none =>
    simp only [BTGattHandler.disconnect, BTGattHandler.written]
    split_ifs <;> rfl
  | some res => rfl

/-- What `sendWithReply` does on a connected session with a PDU longer than `usedMTU`: nothing
is written, the peer is not asked and IllegalArgumentException is thrown. -/
theorem BTGattHandler.sendWithReply_too_large {σ : Type} (peer : Peer σ) (st : BTGattHandler)
    (p : σ) (msg : AttPDUMsg) (h : st.validateConnected.2 = true)
    (hsize : msg.size > st.usedMTU) :
    st.sendWithReply peer p msg =
      ({ st with sent := st.sent ++ [msg] }, p, .thrown .IllegalArgumentException) := by
  have hs := BTGattHandler.send_connected st msg h
  rw [if_pos hsize] at hs
  simp only [BTGattHandler.sendWithReply, hs]

/-- The MTU `exchangeMTUImpl` takes from a reply. -/
theorem BTGattHandler.exchangeMTUImpl_reply {σ : Type} (peer : Peer σ) (st : BTGattHandler)
    (p : σ) (r : AttPDUMsg) (hconn : st.validateConnected.2 = true) (hmtu : 3 ≤ st.usedMTU)
    (hpeer : (peer p (.exchangeMTU true 513)).2 = some r) :
    st.exchangeMTUImpl peer p MAX_ATT_MTU =
      (st.written (.exchangeMTU true 513), (peer p (.exchangeMTU true 513)).1,
        .returned (replyMTU r)) := by
  have hs := BTGattHandler.sendWithReply_connected peer st p (.exchangeMTU true 513) hconn
    (by simp only [AttPDUMsg.size]; omega)
  rw [hpeer] at hs
  have h513 : MAX_ATT_MTU = 513 := rfl
  simp only [BTGattHandler.exchangeMTUImpl, h513, gt_iff_lt, lt_self_iff_false, if_false, hs]
  cases r with
  | exchangeMTU isReq mtu => cases isReq <;> rfl
  | errorRsp code op h => by_cases hc : code = .UNSUPPORTED_REQUEST <;> simp [hc, replyMTU]
  | _ => rfl

/-- The client session the constructor leaves when the peer has answered the MTU request. -/
theorem BTGattHandler.ctor_client_reply {σ : Type} (peer : Peer σ) (p : σ) (r : AttPDUMsg)
    (serverData : Option DBGattServer)
    (hpeer : (peer p (.exchangeMTU true 513)).2 = some r) :
    (BTGattHandler.ctor peer p .Client true false serverData).1 =
      if replyMTU r = 0 then
        (BTGattHandler.disconnect ((BTGattHandler.initial .Client true false serverData).written
          (.exchangeMTU true 513)) true false).1
      else
        { (BTGattHandler.initial .Client true false serverData).written
            (.exchangeMTU true 513) with
          serverMTU := replyMTU r, usedMTU := min MAX_ATT_MTU (replyMTU r) } := by
  have hv : (BTGattHandler.initial .Client true false serverData).validateConnected =
      (BTGattHandler.initial .Client true false serverData, true) := rfl
  have he := BTGattHandler.exchangeMTUImpl_reply peer
    (BTGattHandler.initial .Client true false serverData) p r (by rw [hv])
    (by show 3 ≤ 23; omega) hpeer
  simp only [BTGattHandler.ctor, hv, Bool.not_true, Bool.false_eq_true, if_false, if_true,
    BTGattHandler.clientMTUSetup, he]
  split_ifs <;> rfl

/-! ## The group-type responder and the matching services -/

theorem DBGattService.elemSize_bounds (s : DBGattService) :
    6 ≤ s.elemSize ∧ s.elemSize ≤ 20 := by
  unfold DBGattService.elemSize uuid_t.getTypeSizeInt
  cases s.type <;> simp

/-- The condition of the loop on a service, for the group type of a primary or secondary
request. -/
theorem groupType_cond (g : Nat) (primary : Bool)
    (hg : (g = PRIMARY_SERVICE ∧ primary = true) ∨ (g = SECONDARY_SERVICE ∧ primary = false))
    (start_handle end_handle : Nat) (s : DBGattService) :
    (((PRIMARY_SERVICE = g ∧ s.primary = true) ∨ (SECONDARY_SERVICE = g ∧ s.primary = false)) ∧
      start_handle ≤ s.handle ∧ s.handle ≤ end_handle) ↔
    (s.primary = primary ∧ start_handle ≤ s.handle ∧ s.handle ≤ end_handle) := by
  rcases hg with ⟨h1, h2⟩ | ⟨h1, h2⟩ <;> subst h1 <;> subst h2 <;>
    cases s.primary <;> simp [PRIMARY_SERVICE, SECONDARY_SERVICE]

/-- The loop skips the services that do not match the request. -/
theorem groupTypeLoop_filter (g : Nat) (primary : Bool)
    (hg : (g = PRIMARY_SERVICE ∧ primary = true) ∨ (g = SECONDARY_SERVICE ∧ primary = false))
    (start_handle end_handle rspMaxSize : Nat)
    (ss : List DBGattService) (rspElemSize rspSize : Nat) (elems : List GroupElem) :
    groupTypeLoop g start_handle end_handle rspMaxSize ss rspElemSize rspSize elems =
      groupTypeLoop g start_handle end_handle rspMaxSize
        (matchingServices primary start_handle end_handle ss) rspElemSize rspSize elems := by
  induction ss generalizing rspElemSize rspSize elems with
  | nil => rfl
  | cons s ss ih =>
    have hcond := groupType_cond g primary hg start_handle end_handle s
    by_cases hm : s.primary = primary ∧ start_handle ≤ s.handle ∧ s.handle ≤ end_handle
    · have hf : matchingServices primary start_handle end_handle (s :: ss) =
          s :: matchingServices primary start_handle end_handle ss := by
        simp only [matchingServices, List.filter_cons, decide_eq_true hm, if_true]
      rw [hf]
      simp only [groupTypeLoop, if_pos (hcond.mpr hm)]
      by_cases hstop : rspSize + (2 + 2 + s.type.getTypeSizeInt) > rspMaxSize ∨
          (if rspElemSize = 0 then 2 + 2 + s.type.getTypeSizeInt else rspElemSize) ≠
            2 + 2 + s.type.getTypeSizeInt
      · rw [if_pos hstop, if_pos hstop]
      · rw [if_neg hstop, if_neg hstop]
        exact ih _ _ _
    · have hf : matchingServices primary start_handle end_handle (s :: ss) =
          matchingServices primary start_handle end_handle ss := by
        simp only [matchingServices, List.filter_cons, decide_eq_false hm,
          Bool.false_eq_true, if_false]
      rw [hf]
      simp only [groupTypeLoop, if_neg (fun h => hm (hcond.mp h))]
      exact ih _ _ _

/-- On a list of matching services the loop with a set element size takes `groupPrefix`: it
is left early exactly when a service remains. -/
theorem groupTypeLoop_matching (g : Nat) (primary : Bool)
    (hg : (g = PRIMARY_SERVICE ∧ primary = true) ∨ (g = SECONDARY_SERVICE ∧ primary = false))
    (start_handle end_handle rspMaxSize : Nat)
    (ms : List DBGattService) (esz rspSize : Nat) (elems : List GroupElem) (hesz : esz ≠ 0)
    (hall : ∀ s ∈ ms, s.primary = primary ∧ start_handle ≤ s.handle ∧ s.handle ≤ end_handle) :
    groupTypeLoop g start_handle end_handle rspMaxSize ms esz rspSize elems =
      (decide ((groupPrefix esz rspMaxSize rspSize ms).length < ms.length), esz,
        elems ++ (groupPrefix esz rspMaxSize rspSize ms).map DBGattService.toElem) := by
  induction ms generalizing rspSize elems with
  | nil => simp [groupTypeLoop, groupPrefix]
  | cons s ms ih =>
    have hm := hall s (List.mem_cons_self _ _)
    have hcond := (groupType_cond g primary hg start_handle end_handle s).mpr hm
    have hsz : 2 + 2 + s.type.getTypeSizeInt = s.elemSize := by
      unfold DBGattService.elemSize; omega
    by_cases hstop : rspSize + s.elemSize > rspMaxSize ∨ esz ≠ s.elemSize
    · simp [groupTypeLoop, if_pos hcond, if_neg hesz, hsz, groupPrefix, if_pos hstop]
    · simp only [groupTypeLoop, if_pos hcond, if_neg hesz, hsz, groupPrefix, if_neg hstop,
        ih (rspSize + s.elemSize) (elems ++ [⟨s.handle, s.end_handle, s.type⟩])
          (fun x hx => hall x (List.mem_cons_of_mem _ hx))]
      simp [DBGattService.toElem]

/-- What `groupPrefix` takes: a prefix whose elements have the given size and fit, and no
prefix with these properties is longer. -/
theorem groupPrefix_spec (esz maxSize : Nat) (ms : List DBGattService) (used : Nat) :
    groupPrefix esz maxSize used ms <+: ms ∧
    (∀ s ∈ groupPrefix esz maxSize used ms, s.elemSize = esz) ∧
    (used ≤ maxSize →
      used + ((groupPrefix esz maxSize used ms).map DBGattService.elemSize).sum ≤ maxSize) ∧
    ∀ q : List DBGattService, q <+: ms → (∀ s ∈ q, s.elemSize = esz) →
      used + (q.map DBGattService.elemSize).sum ≤ maxSize →
      q.length ≤ (groupPrefix esz maxSize used ms).length := by
  induction ms generalizing used with
  | nil =>
    refine ⟨List.prefix_refl _, fun s hs => (by cases hs),
      fun h => (by simpa [groupPrefix] using h), fun q hq _ _ => ?_⟩
    rw [List.prefix_nil.mp hq]
    exact Nat.le_refl _
  | cons s ms ih =>
    by_cases hstop : used + s.elemSize > maxSize ∨ esz ≠ s.elemSize
    · simp only [groupPrefix, if_pos hstop]
      refine ⟨List.nil_prefix, fun x hx => (by cases hx), fun h => (by simpa using h),
        fun q hq hsz hsum => ?_⟩
      cases q with
      | nil => exact Nat.le_refl _
      | cons a q =>
        exfalso
        have ha : a = s := (List.cons_prefix_cons.mp hq).1
        subst ha
        have h1 := hsz a (List.mem_cons_self _ _)
        simp only [List.map_cons, List.sum_cons] at hsum
        rcases hstop with h | h
        · omega
        · exact h h1.symm
    · simp only [groupPrefix, if_neg hstop]
      obtain ⟨i1, i2, i3, i4⟩ := ih (used + s.elemSize)
      have hfit : used + s.elemSize ≤ maxSize := by
        by_contra hc
        exact hstop (Or.inl (by omega))
      have hes : s.elemSize = esz := by
        by_contra hc
        exact hstop (Or.inr (fun h => hc h.symm))
      refine ⟨List.cons_prefix_cons.mpr ⟨rfl, i1⟩, ?_, ?_, ?_⟩
      · intro x hx
        rcases List.mem_cons.mp hx with h | h
        · rw [h]; exact hes
        · exact i2 x h
      · intro _
        have := i3 hfit
        simp only [List.map_cons, List.sum_cons]
        omega
      · intro q hq hsz hsum
        cases q with
        | nil => simp
        | cons a q =>
          obtain ⟨ha, hq2⟩ := List.cons_prefix_cons.mp hq
          subst ha
          simp only [List.map_cons, List.sum_cons] at hsum
          have := i4 q hq2 (fun x hx => hsz x (List.mem_cons_of_mem _ hx)) (by omega)
          simp only [List.length_cons]
          omega

theorem uuid_secondary_not_primary (type : uuid_t)
    (h : type.equivalent (.uuid16 SECONDARY_SERVICE) = true) :
    type.equivalent (.uuid16 PRIMARY_SERVICE) = false := by
  simp only [uuid_t.equivalent, beq_iff_eq, uuid_t.toUUID128, SECONDARY_SERVICE,
    PRIMARY_SERVICE, beq_eq_false_iff_ne, ne_eq] at h ⊢
  rw [h]
  decide

/-- The group type the responder derives from a request type equivalent to PRIMARY_SERVICE
or SECONDARY_SERVICE. -/
theorem req_group_type_eq (type : uuid_t) (primary : Bool)
    (htype : type.equivalent
      (.uuid16 (if primary then PRIMARY_SERVICE else SECONDARY_SERVICE)) = true) :
    ((if type.equivalent (.uuid16 PRIMARY_SERVICE) then PRIMARY_SERVICE
      else if type.equivalent (.uuid16 SECONDARY_SERVICE) then SECONDARY_SERVICE
      else 0) = PRIMARY_SERVICE ∧ primary = true) ∨
    ((if type.equivalent (.uuid16 PRIMARY_SERVICE) then PRIMARY_SERVICE
      else if type.equivalent (.uuid16 SECONDARY_SERVICE) then SECONDARY_SERVICE
      else 0) = SECONDARY_SERVICE ∧ primary = false) := by
  cases primary with
  | true =>
    simp only [if_true] at htype
    left
    simp only [htype, if_true, and_self]
  | false =>
    simp only [Bool.false_eq_true, if_false] at htype
    right
    simp only [uuid_secondary_not_primary type htype, Bool.false_eq_true, if_false, htype,
      if_true, and_self]

/-- The reply of `replyReadByGroupTypeReq` to a request with `1 ≤ start ≤ end` and a primary
or secondary group type, stated on the matching services. -/
theorem BTGattHandler.replyReadByGroupTypeReq_eq (st : BTGattHandler) (db : DBGattServer)
    (primary : Bool) (startHandle endHandle : Nat) (type : uuid_t)
    (hdb : st.gattServerData = some db) (hs : 1 ≤ startHandle) (hse : startHandle ≤ endHandle)
    (htype : type.equivalent
      (.uuid16 (if primary then PRIMARY_SERVICE else SECONDARY_SERVICE)) = true)
    (hmtu : 23 ≤ st.usedMTU) (hmtu2 : st.usedMTU ≤ 65535) :
    st.replyReadByGroupTypeReq true startHandle endHandle type =
      match matchingServices primary startHandle endHandle db.services with
      | [] => st.send (.errorRsp .ATTRIBUTE_NOT_FOUND .READ_BY_GROUP_TYPE_REQ 0)
      | s0 :: rest => st.send (.readByGroupTypeRsp s0.elemSize
          ((groupPrefix s0.elemSize (min 255 (st.usedMTU - 2)) 0 (s0 :: rest)).map
            DBGattService.toElem)) := by
  have hg := req_group_type_eq type primary htype
  have hne : (if type.equivalent (.uuid16 PRIMARY_SERVICE) then PRIMARY_SERVICE
      else if type.equivalent (.uuid16 SECONDARY_SERVICE) then SECONDARY_SERVICE
      else 0) ≠ 0 := by
    rcases hg with ⟨h, _⟩ | ⟨h, _⟩ <;> rw [h] <;> decide
  have h0 : ¬ startHandle = 0 := by omega
  have h1 : ¬ startHandle > endHandle := by omega
  simp only [BTGattHandler.replyReadByGroupTypeReq, if_neg h0, if_neg h1, hne, ne_eq,
    not_false_eq_true, if_true, hdb, AttPDUMsg.getOpcode,
    nsize_sub_two st.usedMTU (by omega) hmtu2]
  rw [groupTypeLoop_filter _ primary hg]
  have hall : ∀ s ∈ matchingServices primary startHandle endHandle db.services,
      s.primary = primary ∧ startHandle ≤ s.handle ∧ s.handle ≤ endHandle := by
    intro s hs
    have := (List.mem_filter.mp hs).2
    simpa using this
  cases hM : matchingServices primary startHandle endHandle db.services with
  | nil => simp [groupTypeLoop]
  | cons s0 rest =>
    rw [hM] at hall
    have hm := hall s0 (List.mem_cons_self _ _)
    have hcond := (groupType_cond _ primary hg startHandle endHandle s0).mpr hm
    have hsz : 2 + 2 + s0.type.getTypeSizeInt = s0.elemSize := by
      unfold DBGattService.elemSize; omega
    obtain ⟨hlo, hhi⟩ := s0.elemSize_bounds
    have hstop : ¬ (0 + s0.elemSize > min 255 (st.usedMTU - 2) ∨ s0.elemSize ≠ s0.elemSize) := by
      intro h
      rcases h with h | h
      · have : 21 ≤ min 255 (st.usedMTU - 2) := by
          simp only [le_min_iff]
          omega
        omega
      · exact h rfl
    simp only [groupTypeLoop, if_pos hcond, hsz, if_true, if_neg hstop, groupPrefix,
      groupTypeLoop_matching _ primary hg startHandle endHandle _ rest s0.elemSize _ _
        (by omega) (fun x hx => hall x (List.mem_cons_of_mem _ hx))]
    simp only [List.nil_append, List.length_append, List.length_cons, List.length_nil,
      List.length_map, List.map_cons, DBGattService.toElem]
    split_ifs with ha hb
    · rfl
    · rfl
    · omega

/-! ## The read responder as the peer of `readValue` -/

/-- A responder step that ends in `send` of a PDU that fits, on a connected session: the PDU
is the one written, and the session keeps its device, connection, MTU and database. -/
theorem respond_send (srv : BTGattHandler) (cs : List ListenerCall) (msg : AttPDUMsg)
    (hdev : srv.device = true) (hconn : srv.validateConnected.2 = true)
    (hsize : msg.size ≤ srv.usedMTU) :
    writtenBy srv (BTGattHandler.send { srv with calls := cs } msg).1 = some msg ∧
    (BTGattHandler.send { srv with calls := cs } msg).1.device = true ∧
    (BTGattHandler.send { srv with calls := cs } msg).1.validateConnected.2 = true ∧
    (BTGattHandler.send { srv with calls := cs } msg).1.usedMTU = srv.usedMTU ∧
    (BTGattHandler.send { srv with calls := cs } msg).1.gattServerData = srv.gattServerData := by
  have hc : (BTGattHandler.validateConnected { srv with calls := cs }).2 = true := by
    rw [← hconn]
    simp only [BTGattHandler.validateConnected]
    split_ifs <;> rfl
  have hs := BTGattHandler.send_connected { srv with calls := cs } msg hc
  rw [if_neg (Nat.not_lt.mpr hsize)] at hs
  rw [hs]
  obtain ⟨w1, w2, w3, _⟩ := BTGattHandler.written_fields { srv with calls := cs } msg
  refine ⟨?_, hdev, w1.trans hc, rfl, rfl⟩
  simp only [writtenBy, w3, List.drop_left, List.head?_cons]

/-- The reply of the read responder to a read request for a located attribute without a veto,
on a connected server session. -/
theorem readResponder_step (srv : BTGattHandler) (db : DBGattServer) (handle : Nat)
    (t : Target) (isBlobReq : Bool) (value_offset : Nat)
    (hdev : srv.device = true) (hconn : srv.validateConnected.2 = true)
    (hmtu : 5 ≤ srv.usedMTU ∧ srv.usedMTU ≤ 65535)
    (hdb : srv.gattServerData = some db) (h0 : handle ≠ 0)
    (ht : findTarget db handle = some t) (hwf : t.value.WF)
    (hveto : some false ∉ t.readCallbacks db.listener)
    (hreq : isBlobReq = false → value_offset = 0)
    (hoff : value_offset ≤ t.value.size) :
    (readResponder srv (readRequest isBlobReq handle value_offset)).2 =
      some (if isBlobReq = true ∧ t.value.size ≤ srv.usedMTU - 1 then
          .errorRsp .ATTRIBUTE_NOT_LONG .READ_BLOB_REQ 0
        else .readNRsp isBlobReq ((t.value.bytes.drop value_offset).take (srv.usedMTU - 1))) ∧
    (readResponder srv (readRequest isBlobReq handle value_offset)).1.device = true ∧
    (readResponder srv (readRequest isBlobReq handle value_offset)).1.validateConnected.2 =
      true ∧
    (readResponder srv (readRequest isBlobReq handle value_offset)).1.usedMTU = srv.usedMTU ∧
    (readResponder srv (readRequest isBlobReq handle value_offset)).1.gattServerData =
      some db := by
  have hlen := POctets.bytes_length hwf
  simp only [readResponder]
  rw [readRequest_reply srv isBlobReq handle value_offset hdev hreq,
    BTGattHandler.replyRead_found srv db _ handle value_offset isBlobReq t h0 hdb ht,
    Target.readReply_eq, nsize_sub_one srv.usedMTU (by omega) hmtu.2]
  by_cases hnl : isBlobReq = true ∧ t.value.size ≤ srv.usedMTU - 1
  · rw [if_pos hnl, if_pos hnl]
    have hb : isBlobReq = true := hnl.1
    subst hb
    simp only [readRequest, if_true, AttPDUMsg.getOpcode]
    obtain ⟨r1, r2, r3, r4, r5⟩ := respond_send srv (srv.calls ++ [])
      (.errorRsp .ATTRIBUTE_NOT_LONG .READ_BLOB_REQ 0) hdev hconn
      (by simp only [AttPDUMsg.size]; omega)
    exact ⟨r1, r2, r3, r4, r5.trans hdb⟩
  · rw [if_neg hnl, if_neg hnl]
    simp only [if_neg hveto,
      readRsp_value srv.usedMTU isBlobReq t.value value_offset (by omega) hmtu.2 hwf hoff]
    obtain ⟨r1, r2, r3, r4, r5⟩ := respond_send srv (srv.calls ++ t.readCalls db.listener)
      (.readNRsp isBlobReq ((t.value.bytes.drop value_offset).take (srv.usedMTU - 1)))
      hdev hconn
      (by simp only [AttPDUMsg.size, List.length_take, List.length_drop]; omega)
    exact ⟨r1, r2, r3, r4, r5.trans hdb⟩

/-- The reply of the read responder to a READ_REQ. -/
theorem readResponder_readReq (srv : BTGattHandler) (db : DBGattServer) (handle : Nat)
    (t : Target) (hdev : srv.device = true) (hconn : srv.validateConnected.2 = true)
    (hmtu : 5 ≤ srv.usedMTU ∧ srv.usedMTU ≤ 65535)
    (hdb : srv.gattServerData = some db) (h0 : handle ≠ 0)
    (ht : findTarget db handle = some t) (hwf : t.value.WF)
    (hveto : some false ∉ t.readCallbacks db.listener) :
    (readResponder srv (.readReq handle)).2 =
      some (.readNRsp false (t.value.bytes.take (srv.usedMTU - 1))) ∧
    (readResponder srv (.readReq handle)).1.device = true ∧
    (readResponder srv (.readReq handle)).1.validateConnected.2 = true ∧
    (readResponder srv (.readReq handle)).1.usedMTU = srv.usedMTU ∧
    (readResponder srv (.readReq handle)).1.gattServerData = some db := by
  have h := readResponder_step srv db handle t false 0 hdev hconn hmtu hdb h0 ht hwf hveto
    (fun _ => rfl) (Nat.zero_le _)
  have hc : ¬ (false = true ∧ t.value.size ≤ srv.usedMTU - 1) := fun h => by cases h.1
  rw [if_neg hc] at h
  exact h

/-- The reply of the read responder to a READ_BLOB_REQ for a value longer than
`usedMTU - 1`. -/
theorem readResponder_blob_long (srv : BTGattHandler) (db : DBGattServer) (handle : Nat)
    (t : Target) (o : Nat) (hdev : srv.device = true) (hconn : srv.validateConnected.2 = true)
    (hmtu : 5 ≤ srv.usedMTU ∧ srv.usedMTU ≤ 65535)
    (hdb : srv.gattServerData = some db) (h0 : handle ≠ 0)
    (ht : findTarget db handle = some t) (hwf : t.value.WF)
    (hveto : some false ∉ t.readCallbacks db.listener)
    (hoff : o ≤ t.value.size) (hlong : srv.usedMTU - 1 < t.value.size) :
    (readResponder srv (.readBlobReq handle o)).2 =
      some (.readNRsp true ((t.value.bytes.drop o).take (srv.usedMTU - 1))) ∧
    (readResponder srv (.readBlobReq handle o)).1.device = true ∧
    (readResponder srv (.readBlobReq handle o)).1.validateConnected.2 = true ∧
    (readResponder srv (.readBlobReq handle o)).1.usedMTU = srv.usedMTU ∧
    (readResponder srv (.readBlobReq handle o)).1.gattServerData = some db := by
  have h := readResponder_step srv db handle t true o hdev hconn hmtu hdb h0 ht hwf hveto
    (fun h => by cases h) hoff
  have hc : ¬ (true = true ∧ t.value.size ≤ srv.usedMTU - 1) := fun h => by omega
  rw [if_neg hc] at h
  exact h

/-- The reply of the read responder to a READ_BLOB_REQ for a value of at most `usedMTU - 1`
bytes. -/
theorem readResponder_blob_short (srv : BTGattHandler) (db : DBGattServer) (handle : Nat)
    (t : Target) (o : Nat) (hdev : srv.device = true) (hconn : srv.validateConnected.2 = true)
    (hmtu : 5 ≤ srv.usedMTU ∧ srv.usedMTU ≤ 65535)
    (hdb : srv.gattServerData = some db) (h0 : handle ≠ 0)
    (ht : findTarget db handle = some t) (hwf : t.value.WF)
    (hveto : some false ∉ t.readCallbacks db.listener)
    (hoff : o ≤ t.value.size) (hshort : t.value.size ≤ srv.usedMTU - 1) :
    (readResponder srv (.readBlobReq handle o)).2 =
      some (.errorRsp .ATTRIBUTE_NOT_LONG .READ_BLOB_REQ 0) ∧
    (readResponder srv (.readBlobReq handle o)).1.device = true ∧
    (readResponder srv (.readBlobReq handle o)).1.validateConnected.2 = true ∧
    (readResponder srv (.readBlobReq handle o)).1.usedMTU = srv.usedMTU ∧
    (readResponder srv (.readBlobReq handle o)).1.gattServerData = some db := by
  have h := readResponder_step srv db handle t true o hdev hconn hmtu hdb h0 ht hwf hveto
    (fun h => by cases h) hoff
  have hc : (true = true ∧ t.value.size ≤ srv.usedMTU - 1) := ⟨rfl, hshort⟩
  rw [if_pos hc] at h
  exact h

/-- On a connected session `sendWithReply` of a PDU that fits returns the reply of the peer
and leaves the session with the PDU written. -/
theorem BTGattHandler.sendWithReply_reply {σ : Type} (peer : Peer σ) (st : BTGattHandler)
    (p : σ) (msg res : AttPDUMsg) (h : st.validateConnected.2 = true)
    (hsize : msg.size ≤ st.usedMTU) (hres : (peer p msg).2 = some res) :
    st.sendWithReply peer p msg = (st.written msg, (peer p msg).1, .returned res) := by
  rw [BTGattHandler.sendWithReply_connected peer st p msg h hsize, hres]

theorem range_map_shift {α : Type} (f : Nat → α) (n : Nat) :
    (List.range (n + 1)).map f = f 0 :: (List.range n).map (fun i => f (i + 1)) := by
  rw [List.range_succ_eq_map, List.map_cons, List.map_map]
  rfl

theorem take_append_drop_take (v : List Nat) (o k : Nat) :
    v.take o ++ (v.drop o).take k = v.take (o + k) := by
  rw [List.take_add]

theorem getMaxPDUValueSize_eq (m : Nat) (h1 : 1 ≤ m) (h2 : m ≤ 65535) :
    BTGattHandler.getMaxPDUValueSize m = m - 1 := by
  unfold BTGattHandler.getMaxPDUValueSize
  exact nsize_sub_one m h1 h2

/-- The blob phase of `readValue` against the read responder: from a non-zero offset `o` that
is at least `m - 1`, with `n` further full chunks to come, the loop ends after `n + 1`
READ_BLOB_REQ with the whole value and returns true. -/
theorem readValueLoop_blob (db : DBGattServer) (handle : Nat) (t : Target) (m : Nat)
    (hm : 23 ≤ m ∧ m ≤ 513) (h0 : handle ≠ 0) (ht : findTarget db handle = some t)
    (hwf : t.value.WF) (hL : t.value.size ≤ 512)
    (hveto : some false ∉ t.readCallbacks db.listener) (n : Nat) :
    ∀ (fuel o : Nat) (cli srv : BTGattHandler),
      cli.validateConnected.2 = true → cli.usedMTU = m →
      srv.device = true → srv.validateConnected.2 = true → srv.usedMTU = m →
      srv.gattServerData = some db →
      m - 1 ≤ o → o + n * (m - 1) ≤ t.value.size → t.value.size < o + (n + 1) * (m - 1) →
      n + 1 ≤ fuel →
      ∃ r : ClientRun BTGattHandler (List Nat),
        BTGattHandler.readValueLoop readResponder handle (-1) fuel cli srv
          (t.value.bytes.take o) o = some r ∧
        r.out = t.value.bytes ∧ r.ret = .returned true ∧
        r.st.wire = cli.wire ++
          (List.range (n + 1)).map (fun i => AttPDUMsg.readBlobReq handle (o + i * (m - 1))) ∧
        r.st.validateConnected.2 = true := by
  have hlen := POctets.bytes_length hwf
  induction n with
  | zero =>
    intro fuel o cli srv hc hcm hdev hsc hsm hdb hmo hlo hhi hfuel
    obtain ⟨f, rfl⟩ : ∃ f, fuel = f + 1 := ⟨fuel - 1, by omega⟩
    simp only [zero_add, one_mul, zero_mul, add_zero] at hhi hlo
    have ho0 : ¬ o = 0 := by omega
    have hu : u16 o = o := by unfold u16; omega
    obtain ⟨w1, w2, w3, _⟩ := BTGattHandler.written_fields cli (.readBlobReq handle o)
    have hwire : (cli.written (.readBlobReq handle o)).wire = cli.wire ++
        (List.range (0 + 1)).map (fun i => AttPDUMsg.readBlobReq handle (o + i * (m - 1))) := by
      rw [w3, range_map_shift]
      simp only [zero_mul, add_zero, List.range_zero, List.map_nil]
    by_cases hnl : t.value.size ≤ m - 1
    · obtain ⟨s1, _⟩ := readResponder_blob_short srv db handle t o hdev hsc
        (by omega) hdb h0 ht hwf hveto (by omega) (by omega)
      have hs := BTGattHandler.sendWithReply_reply readResponder cli srv
        (.readBlobReq handle o) _ hc (by simp only [AttPDUMsg.size]; omega) s1
      refine ⟨⟨cli.written (.readBlobReq handle o),
        (readResponder srv (.readBlobReq handle o)).1, t.value.bytes.take o,
        .returned (decide (o > 0))⟩, ?_, ?_, ?_, hwire, w1.trans hc⟩
      · simp only [BTGattHandler.readValueLoop, if_neg ho0, hu, hs]
        simp only [Int.reduceNeg, Int.reduceLT, false_and, if_false, Int.reduceEq]
      · exact List.take_of_length_le (by omega)
      · simp only [decide_eq_true_eq, Outcome.returned.injEq]
        omega
    · obtain ⟨s1, _⟩ := readResponder_blob_long srv db handle t o hdev hsc
        (by omega) hdb h0 ht hwf hveto (by omega) (by omega)
      have hs := BTGattHandler.sendWithReply_reply readResponder cli srv
        (.readBlobReq handle o) _ hc (by simp only [AttPDUMsg.size]; omega) s1
      have hvl : ((t.value.bytes.drop o).take (srv.usedMTU - 1)).length = t.value.size - o := by
        simp only [List.length_take, List.length_drop, hlen, hsm]
        omega
      have hmax : BTGattHandler.getMaxPDUValueSize (cli.written (.readBlobReq handle o)).usedMTU
          = m - 1 := by
        rw [w2, hcm]
        exact getMaxPDUValueSize_eq m (by omega) (by omega)
      by_cases hz : t.value.size - o = 0
      · refine ⟨⟨cli.written (.readBlobReq handle o),
          (readResponder srv (.readBlobReq handle o)).1, t.value.bytes.take o,
          .returned (decide (o > 0))⟩, ?_, ?_, ?_, hwire, w1.trans hc⟩
        · simp only [BTGattHandler.readValueLoop, if_neg ho0, hu, hs]
          simp only [Int.reduceNeg, Int.reduceLT, false_and, if_false, Int.reduceEq, hvl, hz,
            if_true]
        · exact List.take_of_length_le (by omega)
        · simp only [decide_eq_true_eq, Outcome.returned.injEq]
          omega
      · have hlt : t.value.size - o < m - 1 := by omega
        refine ⟨⟨cli.written (.readBlobReq handle o),
          (readResponder srv (.readBlobReq handle o)).1,
          t.value.bytes.take o ++ (t.value.bytes.drop o).take (srv.usedMTU - 1),
          .returned (decide (o + ((t.value.bytes.drop o).take (srv.usedMTU - 1)).length > 0))⟩,
          ?_, ?_, ?_, hwire, w1.trans hc⟩
        · simp only [BTGattHandler.readValueLoop, if_neg ho0, hu, hs]
          simp only [Int.reduceNeg, Int.reduceLT, false_and, if_false, Int.reduceEq, hvl,
            if_neg hz, hmax, if_pos hlt]
        · simp only [hsm]
          rw [take_append_drop_take, List.take_of_length_le]
          omega
        · simp only [decide_eq_true_eq, Outcome.returned.injEq]
          omega
  | succ n ih =>
    intro fuel o cli srv hc hcm hdev hsc hsm hdb hmo hlo hhi hfuel
    obtain ⟨f, rfl⟩ : ∃ f, fuel = f + 1 := ⟨fuel - 1, by omega⟩
    have hsplit : (n + 1) * (m - 1) = n * (m - 1) + (m - 1) := Nat.succ_mul _ _
    have hsplit2 : (n + 1 + 1) * (m - 1) = (n + 1) * (m - 1) + (m - 1) := Nat.succ_mul _ _
    have ho0 : ¬ o = 0 := by omega
    have hu : u16 o = o := by
      unfold u16
      omega
    obtain ⟨w1, w2, w3, _⟩ := BTGattHandler.written_fields cli (.readBlobReq handle o)
    obtain ⟨s1, s2, s3, s4, s5⟩ := readResponder_blob_long srv db handle t o hdev hsc
      (by omega) hdb h0 ht hwf hveto (by omega) (by omega)
    have hs := BTGattHandler.sendWithReply_reply readResponder cli srv
      (.readBlobReq handle o) _ hc (by simp only [AttPDUMsg.size]; omega) s1
    have hvl : ((t.value.bytes.drop o).take (srv.usedMTU - 1)).length = m - 1 := by
      simp only [List.length_take, List.length_drop, hlen, hsm]
      omega
    have hmax : BTGattHandler.getMaxPDUValueSize (cli.written (.readBlobReq handle o)).usedMTU
        = m - 1 := by
      rw [w2, hcm]
      exact getMaxPDUValueSize_eq m (by omega) (by omega)
    have hnz : ¬ m - 1 = 0 := by omega
    obtain ⟨r, hr, r1, r2, r3, r4⟩ := ih f (o + (m - 1)) (cli.written (.readBlobReq handle o))
      (readResponder srv (.readBlobReq handle o)).1 (w1.trans hc) (w2.trans hcm) s2 s3
      (s4.trans hsm) s5 (by omega) (by omega) (by omega) (by omega)
    refine ⟨r, ?_, r1, r2, ?_, r4⟩
    · simp only [BTGattHandler.readValueLoop, if_neg ho0, hu, hs]
      simp only [Int.reduceNeg, Int.reduceLT, false_and, if_false, Int.reduceEq, hvl,
        if_neg hnz, hmax, lt_self_iff_false]
      rw [hsm, take_append_drop_take]
      exact hr
    · rw [r3, w3, List.append_assoc, range_map_shift _ (n + 1)]
      simp only [zero_mul, add_zero, List.singleton_append, List.cons.injEq, true_and,
        List.append_cancel_left_eq]
      apply List.map_congr_left
      intro i _
      have hi : (i + 1) * (m - 1) = i * (m - 1) + (m - 1) := Nat.succ_mul _ _
      rw [hi, Nat.add_assoc, Nat.add_comm (m - 1) (i * (m - 1))]

/-! ## The group-type responder as the peer of `discoverPrimaryServices` -/

/-- The loop of `setServicesHandles`, started at `h >= 1` with a counter that does not wrap:
every service gets a handle of at least `h` that is at most its end handle, the end handles
stay below `h + handleSpan`, and each service ends before the next one starts. -/
theorem setServicesLoop_groups (ss : List DBGattService) (h : Nat) (c : Int)
    (hp : ss ≠ [] → 1 ≤ h ∧ h + handleSpan ss ≤ 65536) :
    List.Pairwise (fun a b : DBGattService => a.end_handle < b.handle)
      (setServicesLoop ss h c).1 ∧
    ∀ s ∈ (setServicesLoop ss h c).1,
      h ≤ s.handle ∧ s.handle ≤ s.end_handle ∧ s.end_handle + 1 ≤ h + handleSpan ss := by
  induction ss generalizing h c with
  | nil => simp [setServicesLoop]
  | cons s ss ih =>
    obtain ⟨h0, hb⟩ := hp (List.cons_ne_nil _ _)
    simp only [handleSpan] at hb
    obtain ⟨e1, e2, e3, _, _⟩ := setHandles_spec s h h0 (by omega)
    have hnext : ss ≠ [] →
        (((h : Int) + (s.setHandles h).2) % 65536).toNat = h + s.entityCount + 1 := by
      intro hne
      have := handleSpan_pos_of_ne_nil hne
      rw [e3]
      omega
    have hq : ss ≠ [] → 1 ≤ (((h : Int) + (s.setHandles h).2) % 65536).toNat ∧
        (((h : Int) + (s.setHandles h).2) % 65536).toNat + handleSpan ss ≤ 65536 := by
      intro hne
      rw [hnext hne]
      omega
    obtain ⟨i1, i2⟩ := ih _ (c + (s.setHandles h).2) hq
    simp only [setServicesLoop, handleSpan]
    refine ⟨?_, ?_⟩
    · rw [List.pairwise_cons]
      refine ⟨?_, i1⟩
      intro b hb1
      have hne : ss ≠ [] := by
        rintro rfl
        simp [setServicesLoop] at hb1
      have := (i2 b hb1).1
      rw [hnext hne] at this
      rw [e2]
      omega
    · intro x hx
      rw [List.mem_cons] at hx
      rcases hx with rfl | hx
      · rw [e1, e2]
        omega
      · have hne : ss ≠ [] := by
          rintro rfl
          simp [setServicesLoop] at hx
        obtain ⟨a1, a2, a3⟩ := i2 x hx
        rw [hnext hne] at a1 a3
        omega

/-- The primary services of a database numbered by `setServicesHandles` without a wrap of
the counter: handles from 1 on, end handles up to 0xFFFF, each service ending before the
next one starts. -/
theorem setServicesHandles_primary (db : DBGattServer) (hspan : handleSpan db.services ≤ 65535) :
    List.Pairwise (fun a b : DBGattService => a.end_handle < b.handle)
      db.setServicesHandles.1.primaryServices ∧
    ∀ s ∈ db.setServicesHandles.1.primaryServices,
      1 ≤ s.handle ∧ s.handle ≤ s.end_handle ∧ s.end_handle ≤ 65535 := by
  obtain ⟨g1, g2⟩ := setServicesLoop_groups db.services 1 0 (fun _ => ⟨Nat.le_refl _, by omega⟩)
  simp only [DBGattServer.setServicesHandles, DBGattServer.primaryServices]
  refine ⟨g1.sublist (List.filter_sublist _), fun s hs => ?_⟩
  obtain ⟨a1, a2, a3⟩ := g2 s (List.mem_filter.mp hs).1
  omega

/-- The services a primary request from `start` to 0xFFFF matches, when the primary services
split into those below `start` and those from `start` on. -/
theorem matchingServices_suffix (db : DBGattServer) (pre q : List DBGattService) (start : Nat)
    (hP : db.primaryServices = pre ++ q)
    (hpre : ∀ y ∈ pre, y.handle < start)
    (hq : ∀ y ∈ q, start ≤ y.handle ∧ y.handle ≤ 65535) :
    matchingServices true start 0xffff db.services = q := by
  have hf : matchingServices true start 0xffff db.services =
      db.primaryServices.filter (fun s => decide (start ≤ s.handle ∧ s.handle ≤ 0xffff)) := by
    simp only [matchingServices, DBGattServer.primaryServices, List.filter_filter]
    congr 1
    funext s
    cases s.primary <;> simp
  rw [hf, hP, List.filter_append]
  have h1 : pre.filter (fun s => decide (start ≤ s.handle ∧ s.handle ≤ 0xffff)) = [] := by
    rw [List.filter_eq_nil_iff]
    intro a ha
    have := hpre a ha
    simp only [decide_eq_true_eq, not_and, not_le]
    intro h
    omega
  have h2 : q.filter (fun s => decide (start ≤ s.handle ∧ s.handle ≤ 0xffff)) = q := by
    rw [List.filter_eq_self]
    intro a ha
    have := hq a ha
    simp only [decide_eq_true_eq]
    omega
  rw [h1, h2, List.nil_append]

/-- A response with the elements of `groupPrefix` fits into `usedMTU` bytes. -/
theorem groupRsp_size (esz usedMTU : Nat) (ms : List DBGattService) (h : 2 ≤ usedMTU) :
    (AttPDUMsg.readByGroupTypeRsp esz
      ((groupPrefix esz (min 255 (usedMTU - 2)) 0 ms).map DBGattService.toElem)).size ≤
        usedMTU := by
  obtain ⟨_, p2, p3, _⟩ := groupPrefix_spec esz (min 255 (usedMTU - 2)) ms 0
  have hsum := p3 (Nat.zero_le _)
  have hconst : ∀ l : List DBGattService, (∀ s ∈ l, s.elemSize = esz) →
      (l.map DBGattService.elemSize).sum = l.length * esz := by
    intro l hl
    induction l with
    | nil => simp
    | cons a l ih =>
      simp only [List.map_cons, List.sum_cons, List.length_cons,
        hl a (List.mem_cons_self _ _),
        ih (fun x hx => hl x (List.mem_cons_of_mem _ hx))]
      ring
  rw [hconst _ p2] at hsum
  simp only [AttPDUMsg.size, List.length_map]
  have : min 255 (usedMTU - 2) ≤ usedMTU - 2 := min_le_right _ _
  omega

/-- On a connected session a responder step that is a `send` of a PDU that fits writes this
PDU. -/
theorem respond_written (srv : BTGattHandler) (msg : AttPDUMsg)
    (hconn : srv.validateConnected.2 = true) (hsize : msg.size ≤ srv.usedMTU) :
    (srv.send msg).1 = srv.written msg ∧ writtenBy srv (srv.send msg).1 = some msg := by
  have hs := BTGattHandler.send_connected srv msg hconn
  rw [if_neg (Nat.not_lt.mpr hsize)] at hs
  rw [hs]
  refine ⟨rfl, ?_⟩
  simp only [writtenBy, (BTGattHandler.written_fields srv msg).2.2.1, List.drop_left,
    List.head?_cons]

/-- The reply of the group-type responder to a primary request that matches no service. -/
theorem groupTypeResponder_none (srv : BTGattHandler) (db : DBGattServer) (start : Nat)
    (hconn : srv.validateConnected.2 = true) (hmtu : 23 ≤ srv.usedMTU ∧ srv.usedMTU ≤ 65535)
    (hdb : srv.gattServerData = some db) (hs : 1 ≤ start) (hse : start ≤ 65535)
    (hM : matchingServices true start 0xffff db.services = []) :
    groupTypeResponder srv (.readByNTypeReq true start 0xffff (.uuid16 PRIMARY_SERVICE)) =
      (srv.written (.errorRsp .ATTRIBUTE_NOT_FOUND .READ_BY_GROUP_TYPE_REQ 0),
        some (.errorRsp .ATTRIBUTE_NOT_FOUND .READ_BY_GROUP_TYPE_REQ 0)) := by
  have he := BTGattHandler.replyReadByGroupTypeReq_eq srv db true start 0xffff
    (.uuid16 PRIMARY_SERVICE) hdb hs hse (by decide) hmtu.1 hmtu.2
  rw [hM] at he
  obtain ⟨r1, r2⟩ := respond_written srv (.errorRsp .ATTRIBUTE_NOT_FOUND
    .READ_BY_GROUP_TYPE_REQ 0) hconn (by simp only [AttPDUMsg.size]; omega)
  simp only [groupTypeResponder]
  rw [he, r1] at *
  rw [r2]

/-- The reply of the group-type responder to a primary request that matches services. -/
theorem groupTypeResponder_some (srv : BTGattHandler) (db : DBGattServer) (start : Nat)
    (s0 : DBGattService) (rest : List DBGattService)
    (hconn : srv.validateConnected.2 = true) (hmtu : 23 ≤ srv.usedMTU ∧ srv.usedMTU ≤ 65535)
    (hdb : srv.gattServerData = some db) (hs : 1 ≤ start) (hse : start ≤ 65535)
    (hM : matchingServices true start 0xffff db.services = s0 :: rest) :
    groupTypeResponder srv (.readByNTypeReq true start 0xffff (.uuid16 PRIMARY_SERVICE)) =
      (srv.written (.readByGroupTypeRsp s0.elemSize
          ((groupPrefix s0.elemSize (min 255 (srv.usedMTU - 2)) 0 (s0 :: rest)).map
            DBGattService.toElem)),
        some (.readByGroupTypeRsp s0.elemSize
          ((groupPrefix s0.elemSize (min 255 (srv.usedMTU - 2)) 0 (s0 :: rest)).map
            DBGattService.toElem))) := by
  have he := BTGattHandler.replyReadByGroupTypeReq_eq srv db true start 0xffff
    (.uuid16 PRIMARY_SERVICE) hdb hs hse (by decide) hmtu.1 hmtu.2
  rw [hM] at he
  obtain ⟨r1, r2⟩ := respond_written srv (.readByGroupTypeRsp s0.elemSize
      ((groupPrefix s0.elemSize (min 255 (srv.usedMTU - 2)) 0 (s0 :: rest)).map
        DBGattService.toElem)) hconn (groupRsp_size _ _ _ (by omega))
  simp only [groupTypeResponder]
  rw [he, r1] at *
  rw [r2]

theorem groupPrefix_ne_nil (s0 : DBGattService) (rest : List DBGattService) (usedMTU : Nat)
    (h : 23 ≤ usedMTU) :
    groupPrefix s0.elemSize (min 255 (usedMTU - 2)) 0 (s0 :: rest) ≠ [] := by
  obtain ⟨hlo, hhi⟩ := s0.elemSize_bounds
  have h21 : 21 ≤ min 255 (usedMTU - 2) := by
    simp only [le_min_iff]
    omega
  have hstop : ¬ (0 + s0.elemSize > min 255 (usedMTU - 2) ∨ s0.elemSize ≠ s0.elemSize) := by
    intro h
    rcases h with h | h
    · omega
    · exact h rfl
  unfold groupPrefix
  rw [if_neg hstop]
  exact List.cons_ne_nil _ _

theorem map_toElem_toClient (l : List DBGattService) :
    (l.map DBGattService.toElem).map
        (fun e => (⟨true, e.handle, e.end_handle, e.type, []⟩ : BTGattService)) =
      l.map DBGattService.toClient := by
  rw [List.map_map]
  rfl

/-- The discovery loop against the group-type responder, started at `start` when the primary
services below `start` have been collected: it ends with all primary services collected, and
requests and replies have the shape of `discoveryTranscript`. -/
theorem discoverLoop_from (db : DBGattServer)
    (hpair : db.primaryServices.Pairwise (fun a b => a.end_handle < b.handle))
    (hbnd : ∀ s ∈ db.primaryServices, s.handle ≤ s.end_handle ∧ s.end_handle ≤ 65535)
    (k : Nat) :
    ∀ (q pre : List DBGattService) (fuel start : Nat) (cli srv : BTGattHandler),
      q.length ≤ k → db.primaryServices = pre ++ q →
      (∀ y ∈ pre, y.handle < start) → (∀ y ∈ q, start ≤ y.handle) →
      1 ≤ start → start ≤ 65535 → q.length + 1 ≤ fuel →
      cli.validateConnected.2 = true → 7 ≤ cli.usedMTU →
      srv.validateConnected.2 = true → 23 ≤ srv.usedMTU → srv.usedMTU ≤ 65535 →
      srv.gattServerData = some db →
      ∃ r : ClientRun BTGattHandler (List BTGattService),
        BTGattHandler.discoverPrimaryServicesLoop groupTypeResponder fuel cli srv
          (pre.map DBGattService.toClient) start = some r ∧
        r.out = db.primaryServices.map DBGattService.toClient ∧
        r.ret = .returned (decide (db.primaryServices.length > 0)) ∧
        ∃ reqs rsps, r.st.wire = cli.wire ++ reqs ∧ r.peer.wire = srv.wire ++ rsps ∧
          discoveryTranscript start reqs rsps = true := by
  induction k with
  | zero =>
    intro q pre fuel start cli srv hk hP hpre hq hs1 hs2 hfuel hc hcm hsc hsm1 hsm2 hdb
    have hq0 : q = [] := List.length_eq_zero.mp (by omega)
    subst hq0
    obtain ⟨f, rfl⟩ : ∃ f, fuel = f + 1 := ⟨fuel - 1, by omega⟩
    have hM := matchingServices_suffix db pre [] start hP hpre (fun y hy => by cases hy)
    have hstep := groupTypeResponder_none srv db start hsc ⟨hsm1, hsm2⟩ hdb hs1 hs2 hM
    have hsw := BTGattHandler.sendWithReply_reply groupTypeResponder cli srv
      (.readByNTypeReq true start 0xffff (.uuid16 PRIMARY_SERVICE))
      (.errorRsp .ATTRIBUTE_NOT_FOUND .READ_BY_GROUP_TYPE_REQ 0) hc
      (by simp only [AttPDUMsg.size, uuid_t.getTypeSizeInt]; omega) (by rw [hstep])
    rw [hstep] at hsw
    refine ⟨⟨cli.written (.readByNTypeReq true start 0xffff (.uuid16 PRIMARY_SERVICE)),
      srv.written (.errorRsp .ATTRIBUTE_NOT_FOUND .READ_BY_GROUP_TYPE_REQ 0),
      pre.map DBGattService.toClient,
      .returned (decide ((pre.map DBGattService.toClient).length > 0))⟩, ?_, ?_, ?_,
      [.readByNTypeReq true start 0xffff (.uuid16 PRIMARY_SERVICE)],
      [.errorRsp .ATTRIBUTE_NOT_FOUND .READ_BY_GROUP_TYPE_REQ 0], rfl, rfl, ?_⟩
    · simp only [BTGattHandler.discoverPrimaryServicesLoop, hsw]
    · simp only [hP, List.append_nil]
    · simp only [hP, List.append_nil, List.length_map]
    · simp [discoveryTranscript]
  | succ k ih =>
    intro q pre fuel start cli srv hk hP hpre hq hs1 hs2 hfuel hc hcm hsc hsm1 hsm2 hdb
    cases q with
    | nil =>
      exact ih [] pre fuel start cli srv (Nat.zero_le _) hP hpre hq hs1 hs2 hfuel hc hcm hsc
        hsm1 hsm2 hdb
    | cons s0 rest =>
      obtain ⟨f, rfl⟩ : ∃ f, fuel = f + 1 := ⟨fuel - 1, by omega⟩
      have hqb : ∀ y ∈ s0 :: rest, start ≤ y.handle ∧ y.handle ≤ 65535 := by
        intro y hy
        have hyP : y ∈ db.primaryServices := by
          rw [hP]
          exact List.mem_append_right _ hy
        have := hbnd y hyP
        exact ⟨hq y hy, by omega⟩
      have hM := matchingServices_suffix db pre (s0 :: rest) start hP hpre hqb
      have hstep := groupTypeResponder_some srv db start s0 rest hsc ⟨hsm1, hsm2⟩ hdb hs1 hs2
        hM
      obtain ⟨p1, _, _, _⟩ := groupPrefix_spec s0.elemSize (min 255 (srv.usedMTU - 2))
        (s0 :: rest) 0
      have hne := groupPrefix_ne_nil s0 rest srv.usedMTU hsm1
      obtain ⟨q1, hq1⟩ := p1
      rcases List.eq_nil_or_concat
        (groupPrefix s0.elemSize (min 255 (srv.usedMTU - 2)) 0 (s0 :: rest)) with hnil | hcat
      · exact absurd hnil hne
      obtain ⟨init, x, hB⟩ := hcat
      rw [List.concat_eq_append] at hB
      rw [hB] at hstep hq1
      have hlast : ((init ++ [x]).map DBGattService.toElem).getLast? =
          some x.toElem := by
        simp only [List.map_append, List.map_cons, List.map_nil, List.getLast?_append,
          List.getLast?_singleton]
        rfl
      have hsw := BTGattHandler.sendWithReply_reply groupTypeResponder cli srv
        (.readByNTypeReq true start 0xffff (.uuid16 PRIMARY_SERVICE)) _ hc
        (by simp only [AttPDUMsg.size, uuid_t.getTypeSizeInt]; omega)
        (by rw [hstep])
      rw [hstep] at hsw
      have hP2 : db.primaryServices = (pre ++ init) ++ (x :: q1) := by
        rw [hP, ← hq1]
        simp only [List.append_assoc, List.singleton_append]
      have hpair2 := hpair
      rw [hP2, List.pairwise_append, List.pairwise_cons] at hpair2
      obtain ⟨_, ⟨hxq, _⟩, hbefore⟩ := hpair2
      have hxP : x ∈ db.primaryServices := by
        rw [hP2]
        exact List.mem_append_right _ (List.mem_cons_self _ _)
      have hxb := hbnd x hxP
      have hpre2 : ∀ y ∈ pre ++ (init ++ [x]), y.handle < x.end_handle + 1 := by
        intro y hy
        rw [← List.append_assoc, List.mem_append, List.mem_singleton] at hy
        rcases hy with hy | hy
        · have h1 := hbefore y hy x (List.mem_cons_self _ _)
          have h2 := hbnd y (by rw [hP2]; exact List.mem_append_left _ hy)
          omega
        · rw [hy]
          omega
      have hres : pre.map DBGattService.toClient ++
          ((init ++ [x]).map DBGattService.toElem).map
            (fun e => (⟨true, e.handle, e.end_handle, e.type, []⟩ : BTGattService)) =
          (pre ++ (init ++ [x])).map DBGattService.toClient := by
        rw [map_toElem_toClient]
        simp only [List.map_append]
      by_cases hend : x.end_handle < 0xffff
      · have hlen : q1.length ≤ k := by
          have := congrArg List.length hq1
          simp only [List.length_append, List.length_cons, List.length_nil] at this
          simp only [List.length_cons] at hk
          omega
        have hfuel2 : q1.length + 1 ≤ f := by
          have := congrArg List.length hq1
          simp only [List.length_append, List.length_cons, List.length_nil] at this
          simp only [List.length_cons] at hfuel
          omega
        obtain ⟨w1, w2, w3, _⟩ := BTGattHandler.written_fields cli
          (.readByNTypeReq true start 0xffff (.uuid16 PRIMARY_SERVICE))
        obtain ⟨v1, v2, v3, _⟩ := BTGattHandler.written_fields srv
          (.readByGroupTypeRsp s0.elemSize ((init ++ [x]).map DBGattService.toElem))
        obtain ⟨r, hr, r1, r2, reqs, rsps, r3, r4, r5⟩ := ih q1 (pre ++ (init ++ [x])) f
          (x.end_handle + 1)
          (cli.written (.readByNTypeReq true start 0xffff (.uuid16 PRIMARY_SERVICE)))
          (srv.written (.readByGroupTypeRsp s0.elemSize
            ((init ++ [x]).map DBGattService.toElem)))
          hlen (by rw [hP, ← hq1]; simp only [List.append_assoc]) hpre2
          (fun y hy => by have := hxq y hy; omega) (by omega) (by omega) hfuel2
          (w1.trans hc) (by rw [w2]; exact hcm) (v1.trans hsc) (by rw [v2]; exact hsm1)
          (by rw [v2]; exact hsm2) hdb
        refine ⟨r, ?_, r1, r2,
          .readByNTypeReq true start 0xffff (.uuid16 PRIMARY_SERVICE) :: reqs,
          .readByGroupTypeRsp s0.elemSize ((init ++ [x]).map DBGattService.toElem) :: rsps,
          ?_, ?_, ?_⟩
        · simp only [BTGattHandler.discoverPrimaryServicesLoop, hsw, hlast, hres]
          have hx : x.toElem.end_handle < 0xffff := hend
          rw [if_pos hx]
          exact hr
        · rw [r3, w3, List.append_assoc, List.singleton_append]
        · rw [r4, v3, List.append_assoc, List.singleton_append]
        · simp only [discoveryTranscript, beq_self_eq_true, Bool.true_and, hlast]
          have hx : x.toElem.end_handle < 0xffff := hend
          rw [if_pos hx]
          exact r5
      · have hq1nil : q1 = [] := by
          cases q1 with
          | nil => rfl
          | cons y ys =>
            exfalso
            have h1 := hxq y (List.mem_cons_self _ _)
            have h2 := hbnd y (by
              rw [hP2]
              exact List.mem_append_right _
                (List.mem_cons_of_mem _ (List.mem_cons_self _ _)))
            omega
        subst hq1nil
        refine ⟨⟨cli.written (.readByNTypeReq true start 0xffff (.uuid16 PRIMARY_SERVICE)),
          srv.written (.readByGroupTypeRsp s0.elemSize
            ((init ++ [x]).map DBGattService.toElem)),
          (pre ++ (init ++ [x])).map DBGattService.toClient,
          .returned (decide (((pre ++ (init ++ [x])).map DBGattService.toClient).length > 0))⟩,
          ?_, ?_, ?_,
          [.readByNTypeReq true start 0xffff (.uuid16 PRIMARY_SERVICE)],
          [.readByGroupTypeRsp s0.elemSize ((init ++ [x]).map DBGattService.toElem)],
          rfl, rfl, ?_⟩
        · simp only [BTGattHandler.discoverPrimaryServicesLoop, hsw, hlast, hres]
          have hx : ¬ x.toElem.end_handle < 0xffff := hend
          rw [if_neg hx]
        · simp only [hP, ← hq1, List.append_nil]
        · simp only [hP, ← hq1, List.append_nil, List.length_map, List.length_append,
            List.length_cons, List.length_nil, decide_eq_true_eq, Outcome.returned.injEq,
            decide_eq_decide]
        · simp only [discoveryTranscript, beq_self_eq_true, Bool.true_and, hlast]
          have hx : ¬ x.toElem.end_handle < 0xffff := hend
          rw [if_neg hx]
          rfl

/-! ## Write without response: `replyWriteReq` on WRITE_CMD -/

/-- C11: a WRITE_CMD handled by `replyWriteReq` while the device is present sends nothing,
neither on success nor on failure, and leaves database, callback trace and prepared-write queue
as the WRITE_REQ with the same handle and value does (`applyWrite` at offset 0). Without a
device, however, the first branch of `replyWriteReq` answers every PDU, the WRITE_CMD included,
with ERROR_RSP(UNLIKELY_ERROR, WRITE_CMD, 0): on the connected session `orphanSession` this PDU
is written to the channel. -/
theorem replyWriteReq_cmd_null_device :
    (∀ (st : BTGattHandler) (handle : Nat) (value : List Nat), st.device = true →
      (st.replyWriteReq (.writeCmd handle value)).1.sent = st.sent ∧
      (st.replyWriteReq (.writeCmd handle value)).1.wire = st.wire ∧
      (st.replyWriteReq (.writeCmd handle value)).2 = none ∧
      (st.replyWriteReq (.writeCmd handle value)).1.gattServerData =
        (st.applyWrite handle value 0).1.gattServerData ∧
      (st.replyWriteReq (.writeCmd handle value)).1.gattServerData =
        (st.replyWriteReq (.writeReq handle value)).1.gattServerData ∧
      (st.replyWriteReq (.writeCmd handle value)).1.calls =
        (st.replyWriteReq (.writeReq handle value)).1.calls ∧
      (st.replyWriteReq (.writeCmd handle value)).1.writeDataQueue =
        (st.replyWriteReq (.writeReq handle value)).1.writeDataQueue) ∧
    (∀ (st : BTGattHandler) (handle : Nat) (value : List Nat), st.device = false →
      (st.replyWriteReq (.writeCmd handle value)).1.sent =
        st.sent ++ [.errorRsp .UNLIKELY_ERROR .WRITE_CMD 0]) ∧
    (orphanSession.replyWriteReq (.writeCmd 3 [1, 2])).1.wire =
      [.errorRsp .UNLIKELY_ERROR .WRITE_CMD 0] ∧
    (exampleSession.replyWriteReq (.writeCmd 3 [1, 2])).1.wire = [] ∧
    ((exampleSession.replyWriteReq (.writeCmd 3 [1, 2])).1.valueAt 3).map POctets.bytes =
      some [1, 2] := by
  refine ⟨?_, ?_, by decide, by decide, by decide⟩
  · intro st handle value hdev
    have hd : (!st.device) = false := by simp [hdev]
    obtain ⟨w1, w2, w3, _, _⟩ := BTGattHandler.applyWrite_channel st handle value 0
    by_cases he : (st.applyWrite handle value 0).2 = .NO_ERROR
    · simp only [BTGattHandler.replyWriteReq, hd, Bool.false_eq_true, if_false, he, ne_eq,
        not_true_eq_false]
      obtain ⟨_, s2, s3, s4, _⟩ := BTGattHandler.send_spec (st.applyWrite handle value 0).1
        .writeRsp
      exact ⟨w1, w2, trivial, trivial, s3.symm, s4.symm, s2.symm⟩
    · simp only [BTGattHandler.replyWriteReq, hd, Bool.false_eq_true, if_false, ne_eq, he,
        not_false_eq_true, if_true]
      obtain ⟨_, s2, s3, s4, _⟩ := BTGattHandler.send_spec
        { (st.applyWrite handle value 0).1 with writeDataQueue := [] }
        (.errorRsp (st.applyWrite handle value 0).2 .WRITE_REQ handle)
      exact ⟨w1, w2, trivial, trivial, s3.symm, s4.symm, s2.symm⟩
  · intro st handle value hdev
    have hd : (!st.device) = true := by simp [hdev]
    simp only [BTGattHandler.replyWriteReq, hd, if_true]
    exact (BTGattHandler.send_spec st _).1

/-! ## Reads: `replyReadReq` -/

/-- C12: for every READ_REQ (offset 0) or READ_BLOB_REQ(offset) with a non-zero handle that
resolves to a characteristic value or descriptor (device present, `usedMTU` a non-zero
`uint16_t`), when no read callback vetoes, the offset is within the value and, for a blob
request, the value is longer than `usedMTU - 1`, the reply handed to `send` is the READ_RSP
respectively READ_BLOB_RSP whose value is `value[offset .. min(len(value), offset + usedMTU -
1))`; the PDU is at most `usedMTU` bytes long, it is written to the channel when the session
is connected, and the database is untouched. -/
theorem replyReadReq_value_slice (st : BTGattHandler) (db : DBGattServer) (isBlobReq : Bool)
    (handle value_offset : Nat) (t : Target)
    (hdev : st.device = true) (hdb : st.gattServerData = some db) (h0 : handle ≠ 0)
    (ht : findTarget db handle = some t) (hwf : t.value.WF)
    (hmtu : 1 ≤ st.usedMTU ∧ st.usedMTU ≤ 65535)
    (hveto : some false ∉ t.readCallbacks db.listener)
    (hreq : isBlobReq = false → value_offset = 0)
    (hoff : value_offset ≤ t.value.size)
    (hlong : isBlobReq = true → t.value.size > st.usedMTU - 1) :
    ∃ rsp : AttPDUMsg,
      rsp = .readNRsp isBlobReq ((t.value.bytes.take
        (min t.value.size (value_offset + (st.usedMTU - 1)))).drop value_offset) ∧
      rsp.getOpcode = (if isBlobReq then .READ_BLOB_RSP else .READ_RSP) ∧
      rsp.size ≤ st.usedMTU ∧
      (st.replyReadReq (readRequest isBlobReq handle value_offset)).1.sent = st.sent ++ [rsp] ∧
      (st.replyReadReq (readRequest isBlobReq handle value_offset)).1.wire =
        (if st.accepts rsp then st.wire ++ [rsp] else st.wire) ∧
      (st.replyReadReq (readRequest isBlobReq handle value_offset)).1.gattServerData =
        some db := by
  have hlen := POctets.bytes_length hwf
  have hslice := take_drop_slice t.value.bytes value_offset (st.usedMTU - 1)
  rw [hlen] at hslice
  refine ⟨_, rfl, rfl, ?_, ?_⟩
  · simp only [AttPDUMsg.size, hslice, List.length_take, List.length_drop]
    omega
  · rw [readRequest_reply st isBlobReq handle value_offset hdev hreq,
      BTGattHandler.replyRead_found st db _ handle value_offset isBlobReq t h0 hdb ht,
      Target.readReply_eq, nsize_sub_one st.usedMTU hmtu.1 hmtu.2]
    have hnl : ¬ (isBlobReq = true ∧ t.value.size ≤ st.usedMTU - 1) := by
      intro h
      have := hlong h.1
      omega
    simp only [if_neg hnl, if_neg hveto,
      readRsp_value st.usedMTU isBlobReq t.value value_offset hmtu.1 hmtu.2 hwf hoff, hslice]
    obtain ⟨s1, s2, s3, _, _⟩ := BTGattHandler.send_with_calls st
      (st.calls ++ t.readCalls db.listener)
      (.readNRsp isBlobReq ((t.value.bytes.drop value_offset).take (st.usedMTU - 1)))
    exact ⟨s1, s2, s3.trans hdb⟩

/-- Instance of C12: on the 85-byte value `0, .., 84` at handle 3 and `usedMTU` 23, the
READ_REQ is answered with the bytes `0, .., 21` and the READ_BLOB_REQ at offset 66 with the
last 19 bytes `66, .., 84`. -/
theorem replyReadReq_value_slice_witness :
    (longSession.replyReadReq (.readReq 3)).1.wire = [.readNRsp false (List.range 22)] ∧
    (longSession.replyReadReq (.readBlobReq 3 66)).1.wire =
      [.readNRsp true ((List.range 85).drop 66)] := by
  obtain ⟨r1, e1, _, _, _, w1, _⟩ := replyReadReq_value_slice longSession longServer false 3 0
    longTarget rfl rfl (by decide) (by decide) (by decide) (by decide) (by decide)
    (fun _ => rfl) (by decide) (by decide)
  obtain ⟨r2, e2, _, _, _, w2, _⟩ := replyReadReq_value_slice longSession longServer true 3 66
    longTarget rfl rfl (by decide) (by decide) (by decide) (by decide) (by decide)
    (by decide) (by decide) (by decide)
  subst e1 e2
  exact ⟨w1.trans (by decide), w2.trans (by decide)⟩

/-- C13, the case that fails: handle 0 is no characteristic value or descriptor handle of the
example database, and both the READ_REQ and the READ_BLOB_REQ for it are answered with
ERROR_RSP(INVALID_HANDLE), not with ATTRIBUTE_NOT_FOUND. -/
theorem replyReadReq_handle_zero :
    0 ∉ servicesValueHandles numberedServer.services ∧
    (exampleSession.replyReadReq (.readReq 0)).1.wire =
      [.errorRsp .INVALID_HANDLE .READ_REQ 0] ∧
    (exampleSession.replyReadReq (.readBlobReq 0 0)).1.wire =
      [.errorRsp .INVALID_HANDLE .READ_BLOB_REQ 0] := by
  decide

/-- C13, amended: for every READ_REQ or READ_BLOB_REQ (device present) whose handle is not
zero and is neither a characteristic value handle nor a descriptor handle of the database, the
reply handed to `send` is ERROR_RSP(ATTRIBUTE_NOT_FOUND, request opcode, 0) and no callback is
invoked; for handle 0 the reply is ERROR_RSP(INVALID_HANDLE, request opcode, 0). The reply is
written to the channel when the session accepts it. -/
theorem replyReadReq_unknown_handle (st : BTGattHandler) (isBlobReq : Bool)
    (handle value_offset : Nat) (hdev : st.device = true) :
    (handle ≠ 0 →
      (∀ db, st.gattServerData = some db → handle ∉ servicesValueHandles db.services) →
      (st.replyReadReq (readRequest isBlobReq handle value_offset)).1.sent = st.sent ++
        [.errorRsp .ATTRIBUTE_NOT_FOUND (if isBlobReq then .READ_BLOB_REQ else .READ_REQ) 0] ∧
      (st.replyReadReq (readRequest isBlobReq handle value_offset)).1.wire =
        (if st.accepts (.errorRsp .ATTRIBUTE_NOT_FOUND
            (if isBlobReq then .READ_BLOB_REQ else .READ_REQ) 0)
         then st.wire ++ [.errorRsp .ATTRIBUTE_NOT_FOUND
            (if isBlobReq then .READ_BLOB_REQ else .READ_REQ) 0]
         else st.wire) ∧
      (st.replyReadReq (readRequest isBlobReq handle value_offset)).1.calls = st.calls) ∧
    (handle = 0 →
      (st.replyReadReq (readRequest isBlobReq handle value_offset)).1.sent = st.sent ++
        [.errorRsp .INVALID_HANDLE (if isBlobReq then .READ_BLOB_REQ else .READ_REQ) 0]) := by
  have hopc : (readRequest isBlobReq handle value_offset).getOpcode =
      (if isBlobReq then .READ_BLOB_REQ else .READ_REQ) := by
    cases isBlobReq <;> rfl
  rw [readRequest_reply_any st isBlobReq handle value_offset hdev, hopc]
  refine ⟨?_, ?_⟩
  · intro h0 hnot
    rw [BTGattHandler.replyRead_unknown st _ handle _ isBlobReq h0
      (fun db hdb => findInServices_eq_none [] (hnot db hdb))]
    obtain ⟨s1, _, _, s4, s5, _⟩ := BTGattHandler.send_spec st
      (.errorRsp .ATTRIBUTE_NOT_FOUND (if isBlobReq then .READ_BLOB_REQ else .READ_REQ) 0)
    exact ⟨s1, s5, s4⟩
  · intro h0
    simp only [BTGattHandler.replyRead, h0, if_true]
    exact (BTGattHandler.send_spec st _).1

/-- Instance of the amended C13: handle 2, a characteristic declaration, and handle 11, past
the last service, are answered with ATTRIBUTE_NOT_FOUND. -/
theorem replyReadReq_unknown_handle_witness :
    exampleSession.device = true ∧
    (exampleSession.replyReadReq (.readReq 2)).1.sent =
      [.errorRsp .ATTRIBUTE_NOT_FOUND .READ_REQ 0] ∧
    (exampleSession.replyReadReq (.readBlobReq 11 4)).1.sent =
      [.errorRsp .ATTRIBUTE_NOT_FOUND .READ_BLOB_REQ 0] :=
  ⟨rfl,
    ((replyReadReq_unknown_handle exampleSession false 2 0 rfl).1 (by decide)
      (fun db hdb => by
        have : db = numberedServer := (Option.some.inj hdb).symm
        subst this
        decide)).1,
    ((replyReadReq_unknown_handle exampleSession true 11 4 rfl).1 (by decide)
      (fun db hdb => by
        have : db = numberedServer := (Option.some.inj hdb).symm
        subst this
        decide)).1⟩

/-- C14: for every READ_REQ or READ_BLOB_REQ with a non-zero handle that resolves to a
characteristic value or descriptor and passes the not-long check (device present), the read
callback of every registered listener is invoked exactly once, in registration order and
whatever the earlier ones returned; the reply handed to `send` is ERROR_RSP(NO_READ_PERM,
request opcode, 0) if and only if at least one callback returned false; otherwise, for an
offset within the value, it is the response carrying the value from the offset on, cut to
`usedMTU - 1` bytes. -/
theorem replyReadReq_callbacks (st : BTGattHandler) (db : DBGattServer) (isBlobReq : Bool)
    (handle value_offset : Nat) (t : Target)
    (hdev : st.device = true) (hdb : st.gattServerData = some db) (h0 : handle ≠ 0)
    (ht : findTarget db handle = some t)
    (hreq : isBlobReq = false → value_offset = 0)
    (hlong : isBlobReq = true → t.value.size > nsize_sub st.usedMTU 1) :
    (st.replyReadReq (readRequest isBlobReq handle value_offset)).1.calls = st.calls ++
      (List.range db.listener.length).map (fun i =>
        if t.desc.isNone then ListenerCall.readCharValue i handle
        else ListenerCall.readDescValue i handle) ∧
    ((st.replyReadReq (readRequest isBlobReq handle value_offset)).1.sent = st.sent ++
        [.errorRsp .NO_READ_PERM (if isBlobReq then .READ_BLOB_REQ else .READ_REQ) 0] ↔
      some false ∈ t.readCallbacks db.listener) ∧
    (some false ∉ t.readCallbacks db.listener → value_offset ≤ t.value.size → t.value.WF →
      1 ≤ st.usedMTU → st.usedMTU ≤ 65535 →
      (st.replyReadReq (readRequest isBlobReq handle value_offset)).1.sent = st.sent ++
        [.readNRsp isBlobReq ((t.value.bytes.drop value_offset).take (st.usedMTU - 1))]) := by
  have hopc : (readRequest isBlobReq handle value_offset).getOpcode =
      (if isBlobReq then .READ_BLOB_REQ else .READ_REQ) := by
    cases isBlobReq <;> rfl
  have hnl : ¬ (isBlobReq = true ∧ t.value.size ≤ nsize_sub st.usedMTU 1) := by
    intro h
    have := hlong h.1
    omega
  rw [readRequest_reply st isBlobReq handle value_offset hdev hreq, hopc,
    BTGattHandler.replyRead_found st db _ handle value_offset isBlobReq t h0 hdb ht,
    Target.readReply_eq, if_neg hnl, ← Target.readCalls_eq (findTarget_sound ht) db.listener]
  by_cases hv : some false ∈ t.readCallbacks db.listener
  · simp only [if_pos hv]
    obtain ⟨s1, _, _, s4, _⟩ := BTGattHandler.send_with_calls st
      (st.calls ++ t.readCalls db.listener)
      (.errorRsp .NO_READ_PERM (if isBlobReq then .READ_BLOB_REQ else .READ_REQ) 0)
    exact ⟨s4, ⟨fun _ => hv, fun _ => s1⟩, fun h => absurd hv h⟩
  · simp only [if_neg hv]
    refine ⟨?_, ⟨?_, fun h => absurd h hv⟩, ?_⟩
    · rcases readRsp_cases st.usedMTU isBlobReq t.value value_offset with h | ⟨v, h⟩
      · rw [h]
      · rw [h]
        exact (BTGattHandler.send_with_calls st _ _).2.2.2.1
    · intro hs
      exfalso
      rcases readRsp_cases st.usedMTU isBlobReq t.value value_offset with h | ⟨v, h⟩
      · rw [h] at hs
        have := congrArg List.length hs
        simp at this
      · rw [h] at hs
        rw [(BTGattHandler.send_with_calls st _ _).1] at hs
        have := List.append_cancel_left hs
        simp at this
    · intro _ hoff hwf h1 h2
      rw [readRsp_value st.usedMTU isBlobReq t.value value_offset h1 h2 hwf hoff]
      exact (BTGattHandler.send_with_calls st _ _).1

/-- Instance of C14: with three listeners of which the second vetoes, a READ_REQ for the value
at handle 3 invokes all three callbacks and is answered with NO_READ_PERM; without a veto the
value `0A 0B` is returned. -/
theorem replyReadReq_callbacks_witness :
    (vetoSession.replyReadReq (.readReq 3)).1.calls =
      [.readCharValue 0 3, .readCharValue 1 3, .readCharValue 2 3] ∧
    (vetoSession.replyReadReq (.readReq 3)).1.sent = [.errorRsp .NO_READ_PERM .READ_REQ 0] ∧
    (exampleSession.replyReadReq (.readReq 3)).1.calls = [.readCharValue 0 3] ∧
    (exampleSession.replyReadReq (.readReq 3)).1.sent = [.readNRsp false [0x0A, 0x0B]] :=
  have hv := replyReadReq_callbacks vetoSession
    { numberedServer with listener := [exampleListener, vetoListener, exampleListener] }
    false 3 0 valueTarget rfl rfl (by decide) (by decide) (fun _ => rfl) (by decide)
  have he := replyReadReq_callbacks exampleSession numberedServer false 3 0 valueTarget rfl rfl
    (by decide) (by decide) (fun _ => rfl) (by decide)
  ⟨hv.1, hv.2.1.2 (by decide), he.1,
    he.2.2 (by decide) (by decide) (by decide) (by decide) (by decide)⟩

/-! ## The client side: `send` on a connected session, `writeValue`, the MTU exchange -/

/-- C19: for every connected client session and every value of length `n ≥ 1`, `writeValue`,
with or without response, throws IllegalArgumentException and writes nothing to the channel
if `n > usedMTU - 3`; if `n ≤ usedMTU - 3` it writes exactly one PDU, the WRITE_REQ
respectively WRITE_CMD with the handle and the value. -/
theorem writeValue_size_guard {σ : Type} (peer : Peer σ) (st : BTGattHandler) (p : σ)
    (handle : Nat) (value : List Nat) (withResponse : Bool)
    (hconn : st.validateConnected.2 = true) (hn : 1 ≤ value.length) :
    (value.length > st.usedMTU - 3 →
      (st.writeValue peer p handle value withResponse).ret = .thrown .IllegalArgumentException ∧
      (st.writeValue peer p handle value withResponse).st.wire = st.wire) ∧
    (value.length ≤ st.usedMTU - 3 →
      (st.writeValue peer p handle value withResponse).st.wire = st.wire ++
        [if withResponse then .writeReq handle value else .writeCmd handle value]) := by
  have hpos : ¬ value.length ≤ 0 := by omega
  cases withResponse with
  | false =>
    have hs := BTGattHandler.send_connected st (.writeCmd handle value) hconn
    simp only [AttPDUMsg.size] at hs
    refine ⟨fun hbig => ?_, fun hfit => ?_⟩
    · rw [if_pos (by omega)] at hs
      simp only [BTGattHandler.writeValue, if_neg hpos, Bool.not_false, if_true, hs]
      exact ⟨trivial, trivial⟩
    · rw [if_neg (by omega)] at hs
      simp only [BTGattHandler.writeValue, if_neg hpos, Bool.not_false, if_true, hs,
        Bool.false_eq_true, if_false, BTGattHandler.written]
  | true =>
    refine ⟨fun hbig => ?_, fun hfit => ?_⟩
    · have hs := BTGattHandler.sendWithReply_too_large peer st p (.writeReq handle value) hconn
        (by simp only [AttPDUMsg.size]; omega)
      simp only [BTGattHandler.writeValue, if_neg hpos, Bool.not_true, Bool.false_eq_true,
        if_false, hs]
      exact ⟨trivial, trivial⟩
    · have hw := BTGattHandler.sendWithReply_wire peer st p
        (.writeReq handle value) hconn (by simp only [AttPDUMsg.size]; omega)
      simp only [BTGattHandler.writeValue, if_neg hpos, Bool.not_true, Bool.false_eq_true,
        if_false, if_true]
      cases hr : (st.sendWithReply peer p (.writeReq handle value)).2.2 with
      | thrown e => simp only [← hw]
      | returned pdu => simp only [← hw]

/-- Instance of C19 at `usedMTU` 23: a value of 20 bytes goes out as one WRITE_REQ or
WRITE_CMD of 23 bytes, a value of 21 bytes is refused and nothing is written. -/
theorem writeValue_size_guard_witness :
    (clientSession.validateConnected.2 = true ∧ 1 ≤ (List.replicate 20 7).length) ∧
    (clientSession.writeValue scriptedPeer [.writeRsp] 3 (List.replicate 20 7) true).st.wire =
      [.writeReq 3 (List.replicate 20 7)] ∧
    (clientSession.writeValue scriptedPeer [] 3 (List.replicate 20 7) false).st.wire =
      [.writeCmd 3 (List.replicate 20 7)] ∧
    (clientSession.writeValue scriptedPeer [] 3 (List.replicate 21 7) false).ret =
      .thrown .IllegalArgumentException ∧
    (clientSession.writeValue scriptedPeer [] 3 (List.replicate 21 7) false).st.wire = [] :=
  ⟨⟨by decide, by decide⟩,
    (writeValue_size_guard scriptedPeer clientSession [.writeRsp] 3 (List.replicate 20 7) true
      (by decide) (by decide)).2 (by decide),
    (writeValue_size_guard scriptedPeer clientSession [] 3 (List.replicate 20 7) false
      (by decide) (by decide)).2 (by decide),
    ((writeValue_size_guard scriptedPeer clientSession [] 3 (List.replicate 21 7) false
      (by decide) (by decide)).1 (by decide)).1,
    ((writeValue_size_guard scriptedPeer clientSession [] 3 (List.replicate 21 7) false
      (by decide) (by decide)).1 (by decide)).2⟩

/-- C18, the case that fails: the client session constructed against a peer that answers the
MTU request with ERROR_RSP(UNSUPPORTED_REQUEST) is connected with `usedMTU` 23; its
`writeValue` of a 21-byte value with response builds a WRITE_REQ of 24 bytes, which `send`
rejects with IllegalArgumentException: only the MTU request has been written, and the
WRITE_RSP the peer holds ready is never asked for. -/
theorem writeValue_21_bytes_rejected :
    fallbackClient.1.validateConnected.2 = true ∧ fallbackClient.1.usedMTU = 23 ∧
    (AttPDUMsg.writeReq 3 (List.replicate 21 7)).size = 24 ∧
    (fallbackClient.1.writeValue scriptedPeer fallbackClient.2 3 (List.replicate 21 7) true).ret
      = .thrown .IllegalArgumentException ∧
    (fallbackClient.1.writeValue scriptedPeer fallbackClient.2 3
      (List.replicate 21 7) true).st.wire = [.exchangeMTU true 513] ∧
    (fallbackClient.1.writeValue scriptedPeer fallbackClient.2 3
      (List.replicate 21 7) true).peer = [.writeRsp] := by
  decide

/-- C18, amended: with a connected client session whose `usedMTU` is 23, `writeValue` with
response of a value of 1 to 20 bytes writes the WRITE_REQ to the channel and returns true
when the peer answers WRITE_RSP; for a value of 21 bytes `send` rejects the WRITE_REQ with
IllegalArgumentException and nothing is written. -/
theorem writeValue_min_mtu {σ : Type} (peer : Peer σ) (st : BTGattHandler) (p : σ)
    (handle : Nat) (value : List Nat)
    (hconn : st.validateConnected.2 = true) (hmtu : st.usedMTU = 23) :
    (1 ≤ value.length → value.length ≤ 20 →
      (peer p (.writeReq handle value)).2 = some .writeRsp →
      (st.writeValue peer p handle value true).ret = .returned true ∧
      (st.writeValue peer p handle value true).st.wire =
        st.wire ++ [.writeReq handle value]) ∧
    (value.length = 21 →
      (st.writeValue peer p handle value true).ret = .thrown .IllegalArgumentException ∧
      (st.writeValue peer p handle value true).st.wire = st.wire) := by
  refine ⟨fun h1 h20 hrsp => ?_, fun h21 => ?_⟩
  · have hpos : ¬ value.length ≤ 0 := by omega
    have hs := BTGattHandler.sendWithReply_connected peer st p (.writeReq handle value) hconn
      (by simp only [AttPDUMsg.size]; omega)
    rw [hrsp] at hs
    simp only [BTGattHandler.writeValue, if_neg hpos, Bool.not_true, Bool.false_eq_true,
      if_false, hs, AttPDUMsg.getOpcode, beq_self_eq_true, BTGattHandler.written]
    exact ⟨trivial, trivial⟩
  · have hpos : ¬ value.length ≤ 0 := by omega
    have hs := BTGattHandler.sendWithReply_too_large peer st p (.writeReq handle value) hconn
      (by simp only [AttPDUMsg.size]; omega)
    simp only [BTGattHandler.writeValue, if_neg hpos, Bool.not_true, Bool.false_eq_true,
      if_false, hs]
    exact ⟨trivial, trivial⟩

/-- Instance of the amended C18: after the MTU fallback a 20-byte value is written and
acknowledged. -/
theorem writeValue_min_mtu_witness :
    (fallbackClient.1.validateConnected.2 = true ∧ fallbackClient.1.usedMTU = 23) ∧
    (fallbackClient.1.writeValue scriptedPeer fallbackClient.2 3 (List.replicate 20 7) true).ret
      = .returned true ∧
    (fallbackClient.1.writeValue scriptedPeer fallbackClient.2 3
      (List.replicate 20 7) true).st.wire =
        fallbackClient.1.wire ++ [.writeReq 3 (List.replicate 20 7)] :=
  ⟨⟨by decide, by decide⟩,
    (writeValue_min_mtu scriptedPeer fallbackClient.1 fallbackClient.2 3 (List.replicate 20 7)
      (by decide) (by decide)).1 (by decide) (by decide) (by decide)⟩

/-- C20: for every construction of a client session over an open transport in which the peer
answers EXCHANGE_MTU_REQ(513) with the reply `r`: if `r` is EXCHANGE_MTU_RSP(m) with `m ≠ 0`
then `serverMTU = m`, `usedMTU = min(513, m)` and the session stays connected; if `r` is
ERROR_RSP(UNSUPPORTED_REQUEST) then `serverMTU` and `usedMTU` are 23 and the session stays
connected with its transport open; for any other reply `usedMTU` stays 23 (and the session is
disconnected). The only PDU written is the request. -/
theorem ctor_client_mtu {σ : Type} (peer : Peer σ) (p : σ) (r : AttPDUMsg)
    (serverData : Option DBGattServer)
    (hpeer : (peer p (.exchangeMTU true 513)).2 = some r) :
    (BTGattHandler.ctor peer p .Client true false serverData).1.wire =
      [.exchangeMTU true 513] ∧
    (∀ m, r = .exchangeMTU false m → m ≠ 0 →
      (BTGattHandler.ctor peer p .Client true false serverData).1.serverMTU = m ∧
      (BTGattHandler.ctor peer p .Client true false serverData).1.usedMTU = min 513 m ∧
      (BTGattHandler.ctor peer p .Client true false serverData).1.validateConnected.2 = true) ∧
    (∀ opc h, r = .errorRsp .UNSUPPORTED_REQUEST opc h →
      (BTGattHandler.ctor peer p .Client true false serverData).1.serverMTU = 23 ∧
      (BTGattHandler.ctor peer p .Client true false serverData).1.usedMTU = 23 ∧
      (BTGattHandler.ctor peer p .Client true false serverData).1.is_connected = true ∧
      (BTGattHandler.ctor peer p .Client true false serverData).1.l2cap_open = true ∧
      (BTGattHandler.ctor peer p .Client true false serverData).1.validateConnected.2 = true) ∧
    ((∀ m, m ≠ 0 → r ≠ .exchangeMTU false m) →
      (∀ opc h, r ≠ .errorRsp .UNSUPPORTED_REQUEST opc h) →
      (BTGattHandler.ctor peer p .Client true false serverData).1.usedMTU = 23 ∧
      (BTGattHandler.ctor peer p .Client true false serverData).1.is_connected = false) := by
  rw [BTGattHandler.ctor_client_reply peer p r serverData hpeer]
  refine ⟨?_, ?_, ?_, ?_⟩
  · split_ifs <;> rfl
  · intro m hr hm
    subst hr
    have hm2 : replyMTU (.exchangeMTU false m) = m := rfl
    rw [hm2, if_neg hm]
    exact ⟨rfl, rfl, rfl⟩
  · intro opc h hr
    subst hr
    have hm2 : replyMTU (.errorRsp .UNSUPPORTED_REQUEST opc h) = 23 := rfl
    rw [hm2, if_neg (by decide)]
    exact ⟨rfl, rfl, rfl, rfl, rfl⟩
  · intro h1 h2
    have hz : replyMTU r = 0 := by
      cases r with
      | exchangeMTU isReq mtu =>
        cases isReq with
        | true => rfl
        | false =>
          by_contra hne
          exact h1 mtu hne rfl
      | errorRsp code op h =>
        by_cases hcode : code = .UNSUPPORTED_REQUEST
        · exact absurd (by rw [hcode]) (h2 op h)
        · simp [replyMTU, hcode]
      | _ => rfl
    rw [if_pos hz]
    exact ⟨rfl, rfl⟩

/-- Instances of C20: a peer answering EXCHANGE_MTU_RSP(100) gives `usedMTU` 100, one
answering EXCHANGE_MTU_RSP(600) gives `serverMTU` 600 and `usedMTU` 513, one answering
ERROR_RSP(UNSUPPORTED_REQUEST) leaves a connected session with `usedMTU` 23, and one answering
ERROR_RSP(INVALID_PDU) leaves a disconnected session with `usedMTU` 23. -/
theorem ctor_client_mtu_witness :
    (scriptedPeer [.exchangeMTU false 100] (.exchangeMTU true 513)).2 =
      some (.exchangeMTU false 100) ∧
    (BTGattHandler.ctor scriptedPeer [.exchangeMTU false 100] .Client true false none).1.usedMTU
      = 100 ∧
    (BTGattHandler.ctor scriptedPeer [.exchangeMTU false 600] .Client true false none).1.serverMTU
      = 600 ∧
    (BTGattHandler.ctor scriptedPeer [.exchangeMTU false 600] .Client true false none).1.usedMTU
      = 513 ∧
    fallbackClient.1.usedMTU = 23 ∧ fallbackClient.1.is_connected = true ∧
    (BTGattHandler.ctor scriptedPeer [.errorRsp .INVALID_PDU .EXCHANGE_MTU_REQ 0] .Client true
      false none).1.usedMTU = 23 ∧
    (BTGattHandler.ctor scriptedPeer [.errorRsp .INVALID_PDU .EXCHANGE_MTU_REQ 0] .Client true
      false none).1.is_connected = false :=
  have h100 := (ctor_client_mtu scriptedPeer [.exchangeMTU false 100] (.exchangeMTU false 100)
    none rfl).2.1 100 rfl (by decide)
  have h600 := (ctor_client_mtu scriptedPeer [.exchangeMTU false 600] (.exchangeMTU false 600)
    none rfl).2.1 600 rfl (by decide)
  have hfb := (ctor_client_mtu scriptedPeer
    [.errorRsp .UNSUPPORTED_REQUEST .EXCHANGE_MTU_REQ 0, .writeRsp]
    (.errorRsp .UNSUPPORTED_REQUEST .EXCHANGE_MTU_REQ 0) none rfl).2.2.1 .EXCHANGE_MTU_REQ 0 rfl
  have hbad := (ctor_client_mtu scriptedPeer [.errorRsp .INVALID_PDU .EXCHANGE_MTU_REQ 0]
    (.errorRsp .INVALID_PDU .EXCHANGE_MTU_REQ 0) none rfl).2.2.2
    (fun m _ h => by cases h) (fun opc h he => by cases he)
  ⟨rfl, h100.2.1, h600.1, h600.2.1, hfb.2.1, hfb.2.2.1, hbad.1, hbad.2⟩

/-! ## Service groups: `replyReadByGroupTypeReq` -/

/-- C16: for every READ_BY_GROUP_TYPE_REQ(start, end, type) with `1 ≤ start ≤ end`, a type
equivalent to PRIMARY_SERVICE or SECONDARY_SERVICE and `23 ≤ usedMTU`, let `M` be the services
of the database, in database order, whose primary flag matches the type and whose handle lies
in `[start, end]`. If `M` is empty the reply handed to `send` is ERROR_RSP(ATTRIBUTE_NOT_FOUND,
READ_BY_GROUP_TYPE_REQ, 0). Otherwise it is the READ_BY_GROUP_TYPE_RSP whose element size is
that of the first service of `M` (4 + UUID width) and whose elements `{handle, end_handle,
uuid}` are those of a non-empty prefix `P` of `M` in which every element has this size and
whose summed sizes do not exceed `min(255, usedMTU - 2)`, and no prefix of `M` with these two
properties is longer than `P`. The PDU fits into `usedMTU` bytes. -/
theorem replyReadByGroupTypeReq_elements (st : BTGattHandler) (db : DBGattServer)
    (primary : Bool) (startHandle endHandle : Nat) (type : uuid_t)
    (hdb : st.gattServerData = some db) (hs : 1 ≤ startHandle) (hse : startHandle ≤ endHandle)
    (htype : type.equivalent
      (.uuid16 (if primary then PRIMARY_SERVICE else SECONDARY_SERVICE)) = true)
    (hmtu : 23 ≤ st.usedMTU) (hmtu2 : st.usedMTU ≤ 65535) :
    (matchingServices primary startHandle endHandle db.services = [] →
      (st.replyReadByGroupTypeReq true startHandle endHandle type).1.sent =
        st.sent ++ [.errorRsp .ATTRIBUTE_NOT_FOUND .READ_BY_GROUP_TYPE_REQ 0]) ∧
    (∀ s0 rest, matchingServices primary startHandle endHandle db.services = s0 :: rest →
      ∃ P : List DBGattService,
        P <+: s0 :: rest ∧ P ≠ [] ∧
        (∀ s ∈ P, s.elemSize = s0.elemSize) ∧
        (P.map DBGattService.elemSize).sum ≤ min 255 (st.usedMTU - 2) ∧
        (∀ Q : List DBGattService, Q <+: s0 :: rest → (∀ s ∈ Q, s.elemSize = s0.elemSize) →
          (Q.map DBGattService.elemSize).sum ≤ min 255 (st.usedMTU - 2) →
          Q.length ≤ P.length) ∧
        s0.elemSize = 4 + s0.type.getTypeSizeInt ∧
        (AttPDUMsg.readByGroupTypeRsp s0.elemSize (P.map DBGattService.toElem)).size ≤
          st.usedMTU ∧
        (st.replyReadByGroupTypeReq true startHandle endHandle type).1.sent =
          st.sent ++ [.readByGroupTypeRsp s0.elemSize (P.map DBGattService.toElem)] ∧
        (st.replyReadByGroupTypeReq true startHandle endHandle type).1.wire =
          (if st.accepts (.readByGroupTypeRsp s0.elemSize (P.map DBGattService.toElem))
           then st.wire ++ [.readByGroupTypeRsp s0.elemSize (P.map DBGattService.toElem)]
           else st.wire)) := by
  have he := BTGattHandler.replyReadByGroupTypeReq_eq st db primary startHandle endHandle type
    hdb hs hse htype hmtu hmtu2
  refine ⟨fun hM => ?_, fun s0 rest hM => ?_⟩
  · rw [he, hM]
    exact (BTGattHandler.send_spec st _).1
  · rw [he, hM]
    obtain ⟨p1, p2, p3, p4⟩ := groupPrefix_spec s0.elemSize (min 255 (st.usedMTU - 2))
      (s0 :: rest) 0
    obtain ⟨hlo, hhi⟩ := s0.elemSize_bounds
    have hne : groupPrefix s0.elemSize (min 255 (st.usedMTU - 2)) 0 (s0 :: rest) ≠ [] := by
      have h21 : 21 ≤ min 255 (st.usedMTU - 2) := by
        simp only [le_min_iff]
        omega
      have hstop : ¬ (0 + s0.elemSize > min 255 (st.usedMTU - 2) ∨
          s0.elemSize ≠ s0.elemSize) := by
        intro h
        rcases h with h | h
        · omega
        · exact h rfl
      unfold groupPrefix
      rw [if_neg hstop]
      exact List.cons_ne_nil _ _
    have hsum := p3 (Nat.zero_le _)
    simp only [Nat.zero_add] at hsum
    have hsize : (AttPDUMsg.readByGroupTypeRsp s0.elemSize
        ((groupPrefix s0.elemSize (min 255 (st.usedMTU - 2)) 0 (s0 :: rest)).map
          DBGattService.toElem)).size ≤ st.usedMTU := by
      have hconst : ∀ l : List DBGattService, (∀ s ∈ l, s.elemSize = s0.elemSize) →
          (l.map DBGattService.elemSize).sum = l.length * s0.elemSize := by
        intro l hl
        induction l with
        | nil => simp
        | cons a l ih =>
          simp only [List.map_cons, List.sum_cons, List.length_cons,
            hl a (List.mem_cons_self _ _),
            ih (fun x hx => hl x (List.mem_cons_of_mem _ hx))]
          ring
      rw [hconst _ p2] at hsum
      simp only [AttPDUMsg.size, List.length_map]
      have : min 255 (st.usedMTU - 2) ≤ st.usedMTU - 2 := min_le_right _ _
      omega
    obtain ⟨s1, _, _, _, s5, _⟩ := BTGattHandler.send_spec st
      (.readByGroupTypeRsp s0.elemSize
        ((groupPrefix s0.elemSize (min 255 (st.usedMTU - 2)) 0 (s0 :: rest)).map
          DBGattService.toElem))
    exact ⟨_, p1, hne, p2, hsum, fun Q hq hsz hs => p4 Q hq hsz (by omega), rfl, hsize, s1, s5⟩

/-- Instance of C16 on `groupServer` (primary services at handles 1, 7, 9, 13 with 16 bit
UUIDs and at 15 with a 128 bit UUID, a secondary one at 5) with `usedMTU` 23: the request from
handle 1 is answered with the first three primary services (a fourth element would exceed 21
bytes), the request from handle 13 with the service at 13 alone (the next element has another
size), the secondary request with the service at 5, and the request from handle 17 with
ATTRIBUTE_NOT_FOUND. -/
theorem replyReadByGroupTypeReq_elements_witness :
    (groupSession.replyReadByGroupTypeReq true 1 0xffff (.uuid16 PRIMARY_SERVICE)).1.wire =
      [.readByGroupTypeRsp 6 [⟨1, 4, .uuid16 0x1800⟩, ⟨7, 8, .uuid16 0x180A⟩,
        ⟨9, 12, .uuid16 0x180D⟩]] ∧
    (groupSession.replyReadByGroupTypeReq true 13 0xffff (.uuid16 PRIMARY_SERVICE)).1.wire =
      [.readByGroupTypeRsp 6 [⟨13, 14, .uuid16 0x180F⟩]] ∧
    (groupSession.replyReadByGroupTypeReq true 1 0xffff (.uuid16 SECONDARY_SERVICE)).1.wire =
      [.readByGroupTypeRsp 6 [⟨5, 6, .uuid16 0x1801⟩]] ∧
    (groupSession.replyReadByGroupTypeReq true 17 0xffff (.uuid16 PRIMARY_SERVICE)).1.sent =
      [.errorRsp .ATTRIBUTE_NOT_FOUND .READ_BY_GROUP_TYPE_REQ 0] :=
  ⟨by decide, by decide, by decide,
    (replyReadByGroupTypeReq_elements groupSession groupServer true 17 0xffff
      (.uuid16 PRIMARY_SERVICE) rfl (by decide) (by decide) (by decide) (by decide)
      (by decide)).1 (by decide)⟩

/-! ## A long read: `readValue` against `replyReadReq` -/

/-- C15: for every attribute value of length 1..512 and every `usedMTU` in 23..513 shared by
a connected client and a connected server session (device present, non-zero handle that
resolves to the value, no read veto), `readValue(handle, res, -1)` on an empty buffer, run
against the read responder of the server, ends for every fuel of at least `len / (usedMTU -
1) + 1` iterations (25 always suffice), returns true and leaves `res` equal to the value. The
PDUs it writes are READ_REQ first and then one READ_BLOB_REQ for each of the offsets
`usedMTU - 1`, `2 (usedMTU - 1)`, .., `(len / (usedMTU - 1)) (usedMTU - 1)`. -/
theorem readValue_long_read (cli srv : BTGattHandler) (db : DBGattServer) (handle : Nat)
    (t : Target) (m fuel : Nat) (hm : 23 ≤ m ∧ m ≤ 513)
    (hc : cli.validateConnected.2 = true) (hcm : cli.usedMTU = m)
    (hdev : srv.device = true) (hsc : srv.validateConnected.2 = true) (hsm : srv.usedMTU = m)
    (hdb : srv.gattServerData = some db) (h0 : handle ≠ 0)
    (ht : findTarget db handle = some t) (hwf : t.value.WF)
    (hL : 1 ≤ t.value.size ∧ t.value.size ≤ 512)
    (hveto : some false ∉ t.readCallbacks db.listener)
    (hfuel : t.value.size / (m - 1) + 1 ≤ fuel) :
    t.value.size / (m - 1) + 1 ≤ 25 ∧
    ∃ r : ClientRun BTGattHandler (List Nat),
      cli.readValue readResponder fuel srv handle [] (-1) = some r ∧
      r.out = t.value.bytes ∧ r.ret = .returned true ∧
      r.st.wire = cli.wire ++ AttPDUMsg.readReq handle ::
        (List.range (t.value.size / (m - 1))).map
          (fun i => AttPDUMsg.readBlobReq handle ((i + 1) * (m - 1))) := by
  have hlen := POctets.bytes_length hwf
  have hpos : 0 < m - 1 := by omega
  refine ⟨?_, ?_⟩
  · have h1 : t.value.size / (m - 1) ≤ 512 / (m - 1) := Nat.div_le_div_right hL.2
    have h2 : 512 / (m - 1) ≤ 512 / 22 := Nat.div_le_div_left (by omega) (by omega)
    omega
  have hf1 : 1 ≤ fuel := le_trans (Nat.le_add_left 1 _) hfuel
  obtain ⟨f, rfl⟩ : ∃ f, fuel = f + 1 := ⟨fuel - 1, by omega⟩
  obtain ⟨w1, w2, w3, _⟩ := BTGattHandler.written_fields cli (.readReq handle)
  obtain ⟨s1, s2, s3, s4, s5⟩ := readResponder_readReq srv db handle t hdev hsc
    (by omega) hdb h0 ht hwf hveto
  have hs := BTGattHandler.sendWithReply_reply readResponder cli srv
    (.readReq handle) _ hc (by simp only [AttPDUMsg.size]; omega) s1
  have hmax : BTGattHandler.getMaxPDUValueSize (cli.written (.readReq handle)).usedMTU
      = m - 1 := by
    rw [w2, hcm]
    exact getMaxPDUValueSize_eq m (by omega) (by omega)
  by_cases hshort : t.value.size < m - 1
  · have hvl : (t.value.bytes.take (srv.usedMTU - 1)).length < m - 1 := by
      simp only [List.length_take, hlen, hsm]
      omega
    have hq : t.value.size / (m - 1) = 0 := Nat.div_eq_of_lt hshort
    refine ⟨⟨cli.written (.readReq handle), (readResponder srv (.readReq handle)).1,
      [] ++ t.value.bytes.take (srv.usedMTU - 1),
      .returned (decide (0 + (t.value.bytes.take (srv.usedMTU - 1)).length > 0))⟩,
      ?_, ?_, ?_, ?_⟩
    · simp only [BTGattHandler.readValue, BTGattHandler.readValueLoop, if_true, hs]
      simp only [Int.reduceNeg, Int.reduceLT, false_and, if_false, Int.reduceEq, hmax,
        if_pos hvl, Nat.cast_zero]
    · simp only [List.nil_append, hsm]
      exact List.take_of_length_le (by omega)
    · simp only [List.length_take, hlen, hsm, decide_eq_true_eq, Outcome.returned.injEq]
      omega
    · simp only [w3, hq, List.range_zero, List.map_nil]
  · have hvl : (t.value.bytes.take (srv.usedMTU - 1)).length = m - 1 := by
      simp only [List.length_take, hlen, hsm]
      omega
    have hq1 : 1 ≤ t.value.size / (m - 1) := Nat.div_pos (by omega) hpos
    have hq2 : t.value.size / (m - 1) * (m - 1) ≤ t.value.size := Nat.div_mul_le_self _ _
    have hq3 : t.value.size < (m - 1) * (t.value.size / (m - 1) + 1) :=
      Nat.lt_mul_div_succ _ hpos
    obtain ⟨n, hn⟩ : ∃ n, t.value.size / (m - 1) = n + 1 :=
      ⟨t.value.size / (m - 1) - 1, by omega⟩
    rw [hn] at hq2 hq3 hfuel
    have hn1 : (n + 1) * (m - 1) = n * (m - 1) + (m - 1) := Nat.succ_mul _ _
    have hn2 : (m - 1) * (n + 1 + 1) = (n + 1) * (m - 1) + (m - 1) := by
      rw [Nat.mul_comm]
      exact Nat.succ_mul _ _
    obtain ⟨r, hr, r1, r2, r3, _⟩ := readValueLoop_blob db handle t m hm h0 ht hwf hL.2 hveto n
      f (m - 1) (cli.written (.readReq handle)) (readResponder srv (.readReq handle)).1
      (w1.trans hc) (w2.trans hcm) s2 s3 (s4.trans hsm) s5 (Nat.le_refl _) (by omega)
      (by omega) (by omega)
    refine ⟨r, ?_, r1, r2, ?_⟩
    · simp only [BTGattHandler.readValue, BTGattHandler.readValueLoop, if_true, hs]
      simp only [Int.reduceNeg, Int.reduceLT, false_and, if_false, Int.reduceEq, hmax, hvl,
        lt_self_iff_false, Nat.cast_zero, List.nil_append, zero_add]
      rw [hsm]
      exact hr
    · rw [r3, w3, hn, List.append_assoc]
      simp only [List.singleton_append, List.append_cancel_left_eq, List.cons.injEq, true_and]
      apply List.map_congr_left
      intro i _
      have hi : (i + 1) * (m - 1) = i * (m - 1) + (m - 1) := Nat.succ_mul _ _
      rw [hi, Nat.add_comm]

/-- Instance of C15 (the long read of 85 bytes at `usedMTU` 23): the client issues READ_REQ
and then READ_BLOB_REQ at the offsets 22, 44 and 66, the last reply carries the 19 bytes from
offset 66 on, and the buffer ends up equal to the 85 bytes. -/
theorem readValue_long_read_witness :
    ∃ r : ClientRun BTGattHandler (List Nat),
      clientSession.readValue readResponder 4 longSession 3 [] (-1) = some r ∧
      r.out = List.range 85 ∧ r.ret = .returned true ∧
      r.st.wire = [.readReq 3, .readBlobReq 3 22, .readBlobReq 3 44, .readBlobReq 3 66] ∧
      (readResponder longSession (.readBlobReq 3 66)).2 =
        some (.readNRsp true ((List.range 85).drop 66)) ∧
      ((List.range 85).drop 66).length = 19 := by
  obtain ⟨_, r, h1, h2, h3, h4⟩ := readValue_long_read clientSession longSession longServer 3
    longTarget 23 4 (by decide) (by decide) rfl rfl (by decide) rfl rfl (by decide)
    (by decide) (by decide) (by decide) (by decide) (by decide)
  exact ⟨r, h1, h2.trans (by decide), h3, h4.trans (by decide), by decide, by decide⟩

/-! ## Service discovery: `discoverPrimaryServices` against `replyReadByGroupTypeReq` -/

/-- C17: for every database numbered by `setServicesHandles` without a wrap of the handle
counter and every `usedMTU ≥ 23` on both sides, `discoverPrimaryServices` of a connected
client, run against the group-type responder of a connected server session over that
database, ends for every fuel of at least the number of primary services plus one; `result`
then holds exactly the primary services of the database, in database order, each with its
handle, end handle and type UUID, and the call returns whether there is one. The first request
starts at handle 1, each further request at the end handle of the last element received plus
one, and the exchange ends with an ERROR_RSP or with a response whose last element ends at
0xFFFF. -/
theorem discoverPrimaryServices_complete (cli srv : BTGattHandler) (db : DBGattServer)
    (fuel : Nat) (hspan : handleSpan db.services ≤ 65535)
    (hdb : srv.gattServerData = some db.setServicesHandles.1)
    (hc : cli.validateConnected.2 = true) (hcm : 23 ≤ cli.usedMTU)
    (hsc : srv.validateConnected.2 = true) (hsm : 23 ≤ srv.usedMTU ∧ srv.usedMTU ≤ 65535)
    (hfuel : db.setServicesHandles.1.primaryServices.length + 1 ≤ fuel) :
    ∃ r : ClientRun BTGattHandler (List BTGattService),
      cli.discoverPrimaryServices groupTypeResponder fuel srv = some r ∧
      r.out = db.setServicesHandles.1.primaryServices.map DBGattService.toClient ∧
      r.ret = .returned (decide (db.setServicesHandles.1.primaryServices.length > 0)) ∧
      discoveryTranscript 1 (r.st.wire.drop cli.wire.length)
        (r.peer.wire.drop srv.wire.length) = true := by
  obtain ⟨g1, g2⟩ := setServicesHandles_primary db hspan
  obtain ⟨r, hr, r1, r2, reqs, rsps, r3, r4, r5⟩ := discoverLoop_from db.setServicesHandles.1
    g1 (fun s hs => (g2 s hs).2) db.setServicesHandles.1.primaryServices.length
    db.setServicesHandles.1.primaryServices [] fuel 1 cli srv (Nat.le_refl _) rfl
    (fun y hy => by cases hy) (fun y hy => (g2 y hy).1) (Nat.le_refl _) (by omega) hfuel hc
    (by omega) hsc hsm.1 hsm.2 hdb
  refine ⟨r, hr, r1, r2, ?_⟩
  rw [r3, r4, List.drop_left, List.drop_left]
  exact r5

/-- Instance of C17 on `groupServer` (primary services at handles 1, 7, 9, 13 and 15, a
secondary one at 5) with `usedMTU` 23: the client asks four times, from the handles 1, 13, 15
and 17, and ends up with the five primary services. -/
theorem discoverPrimaryServices_complete_witness :
    ∃ r : ClientRun BTGattHandler (List BTGattService),
      clientSession.discoverPrimaryServices groupTypeResponder 6 groupSession = some r ∧
      r.out = [⟨true, 1, 4, .uuid16 0x1800, []⟩, ⟨true, 7, 8, .uuid16 0x180A, []⟩,
        ⟨true, 9, 12, .uuid16 0x180D, []⟩, ⟨true, 13, 14, .uuid16 0x180F, []⟩,
        ⟨true, 15, 16, .uuid128 0x12345678123456781234567812345678, []⟩] ∧
      r.ret = .returned true ∧
      r.st.wire = [.readByNTypeReq true 1 0xffff (.uuid16 PRIMARY_SERVICE),
        .readByNTypeReq true 13 0xffff (.uuid16 PRIMARY_SERVICE),
        .readByNTypeReq true 15 0xffff (.uuid16 PRIMARY_SERVICE),
        .readByNTypeReq true 17 0xffff (.uuid16 PRIMARY_SERVICE)] := by
  obtain ⟨r, h1, h2, h3, _⟩ := discoverPrimaryServices_complete clientSession groupSession
    groupServerRaw 6 (by decide) rfl (by decide) (by decide) (by decide) (by decide)
    (by decide)
  have hw : (clientSession.discoverPrimaryServices groupTypeResponder 6 groupSession).map
      (fun r => r.st.wire) = some [.readByNTypeReq true 1 0xffff (.uuid16 PRIMARY_SERVICE),
        .readByNTypeReq true 13 0xffff (.uuid16 PRIMARY_SERVICE),
        .readByNTypeReq true 15 0xffff (.uuid16 PRIMARY_SERVICE),
        .readByNTypeReq true 17 0xffff (.uuid16 PRIMARY_SERVICE)] := by
    decide
  rw [h1] at hw
  exact ⟨r, h1, h2.trans (by decide), h3.trans (by decide), Option.some.inj hw⟩

/-! ## The session after `disconnect` -/

/-- On a session that is marked disconnected, `send` throws IllegalStateException, writes
nothing to the channel and leaves the session marked disconnected. -/
theorem BTGattHandler.send_disconnected (st : BTGattHandler) (msg : AttPDUMsg)
    (h : st.is_connected = false) :
    (st.send msg).2 = some .IllegalStateException ∧ (st.send msg).1.wire = st.wire ∧
      (st.send msg).1.is_connected = false := by
  unfold BTGattHandler.send BTGattHandler.validateConnected
  by_cases hio : (st.has_ioerror || st.l2cap_ioerror) = true
  · simp [hio, h]
  · simp [hio, h]

/-- A sequence of `send` calls on a session that is marked disconnected changes neither the
channel nor the mark. -/
theorem BTGattHandler.sends_disconnected (msgs : List AttPDUMsg) (st : BTGattHandler)
    (h : st.is_connected = false) :
    (msgs.foldl (fun s m => (s.send m).1) st).wire = st.wire ∧
      (msgs.foldl (fun s m => (s.send m).1) st).is_connected = false := by
  induction msgs generalizing st with
  | nil => exact ⟨rfl, h⟩
  | cons m ms ih =>
    obtain ⟨_, h2, h3⟩ := st.send_disconnected m h
    have := ih (st.send m).1 h3
    simp only [List.foldl_cons]
    exact ⟨this.1.trans h2, this.2⟩

/-- The session after `disconnect` is marked disconnected. -/
theorem BTGattHandler.disconnect_mark (st : BTGattHandler) (a b : Bool) :
    (st.disconnect a b).1.is_connected = false := by
  unfold BTGattHandler.disconnect
  cases h : st.is_connected <;> simp [h]

/-! ## The fan-out of the reader thread -/

/-- The callbacks invoked by the notification loop are those of the matching listeners, one
each, in the order of the list. -/
theorem notificationLoop_callbacks (decl : BTGattChar) (v : List Nat) (ts : Nat)
    (ls : List BTGattCharListener) (i : Nat) :
    (notificationLoop decl v ts i ls).filter ReaderEvent.isCallback =
      (matchingListeners decl i ls).map
        (fun il => ReaderEvent.notificationReceived il.1 decl v ts) := by
  induction ls generalizing i with
  | nil => rfl
  | cons l ls ih =>
    simp only [notificationLoop, matchingListeners, List.enumFrom_cons, List.filter_append]
    have ih2 := ih (i + 1)
    simp only [matchingListeners] at ih2
    rw [ih2]
    cases hm : l.match_ decl with
    | none => simp [List.filter, ReaderEvent.isCallback, hm]
    | some b =>
      cases b with
      | false => simp [List.filter, hm]
      | true =>
        cases hc : l.notificationReceived decl v ts <;>
          simp [List.filter, ReaderEvent.isCallback, hm]

/-- The notification loop writes nothing to the channel. -/
theorem notificationLoop_not_written (decl : BTGattChar) (v : List Nat) (ts : Nat)
    (ls : List BTGattCharListener) (i : Nat) :
    ∀ e ∈ notificationLoop decl v ts i ls, e.isWritten = false := by
  induction ls generalizing i with
  | nil => intro e he; cases he
  | cons l ls ih =>
    intro e he
    simp only [notificationLoop, List.mem_append] at he
    rcases he with he | he
    · cases hm : l.match_ decl with
      | none =>
        rw [hm] at he
        simp only [List.mem_singleton] at he
        subst he; rfl
      | some b =>
        rw [hm] at he
        cases b with
        | false => cases he
        | true =>
          cases hc : l.notificationReceived decl v ts <;> rw [hc] at he <;>
            simp only [List.mem_cons, List.mem_singleton, List.not_mem_nil, or_false] at he
          · rcases he with he | he <;> subst he <;> rfl
          · subst he; rfl
    · exact ih (i + 1) e he

/-- The notification loop started at position `i` invokes no callback of a listener at an
earlier position. -/
theorem notificationLoop_before (decl : BTGattChar) (v : List Nat) (ts : Nat)
    (ls : List BTGattCharListener) (i j : Nat) (hj : j < i) :
    (notificationLoop decl v ts i ls).filter (ReaderEvent.callbackOf j) = [] := by
  induction ls generalizing i with
  | nil => rfl
  | cons l ls ih =>
    have hne : (i == j) = false := by simp; omega
    simp only [notificationLoop, List.filter_append, ih (i + 1) (by omega), List.append_nil]
    cases hm : l.match_ decl with
    | none => simp [List.filter, ReaderEvent.callbackOf]
    | some b =>
      cases b with
      | false => simp
      | true =>
        cases hc : l.notificationReceived decl v ts <;>
          simp [List.filter, ReaderEvent.callbackOf, hne]

/-- The listener at position `k` of the list is called once by the notification loop if it
matches, and not at all otherwise. -/
theorem notificationLoop_count (decl : BTGattChar) (v : List Nat) (ts : Nat)
    (ls : List BTGattCharListener) (i k : Nat) (l : BTGattCharListener)
    (hl : ls[k]? = some l) :
    ((notificationLoop decl v ts i ls).filter (ReaderEvent.callbackOf (i + k))).length =
      if l.match_ decl = some true then 1 else 0 := by
  induction ls generalizing i k with
  | nil => cases hl
  | cons l0 ls ih =>
    cases k with
    | zero =>
      simp only [List.getElem?_cons_zero, Option.some.injEq] at hl
      subst hl
      simp only [notificationLoop, List.filter_append, Nat.add_zero,
        notificationLoop_before decl v ts ls (i + 1) i (by omega), List.append_nil]
      cases hm : l0.match_ decl with
      | none => simp [List.filter, ReaderEvent.callbackOf]
      | some b =>
        cases b with
        | false => simp
        | true =>
          cases hc : l0.notificationReceived decl v ts <;>
            simp [List.filter, ReaderEvent.callbackOf]
    | succ k =>
      simp only [List.getElem?_cons_succ] at hl
      have h1 := ih (i + 1) k hl
      have e : i + 1 + k = i + (k + 1) := by omega
      rw [e] at h1
      have hne : (i == i + (k + 1)) = false := by simp
      simp only [notificationLoop, List.filter_append, List.length_append, h1]
      cases hm : l0.match_ decl with
      | none => simp [List.filter, ReaderEvent.callbackOf]
      | some b =>
        cases b with
        | false => simp
        | true =>
          cases hc : l0.notificationReceived decl v ts <;>
            simp [List.filter, ReaderEvent.callbackOf, hne]

/-- The callbacks invoked by the indication loop are those of the matching listeners, one
each, in the order of the list. -/
theorem indicationLoop_callbacks (decl : BTGattChar) (v : List Nat) (ts : Nat) (cfm : Bool)
    (ls : List BTGattCharListener) (i : Nat) :
    (indicationLoop decl v ts cfm i ls).filter ReaderEvent.isCallback =
      (matchingListeners decl i ls).map
        (fun il => ReaderEvent.indicationReceived il.1 decl v ts cfm) := by
  induction ls generalizing i with
  | nil => rfl
  | cons l ls ih =>
    simp only [indicationLoop, matchingListeners, List.enumFrom_cons, List.filter_append]
    have ih2 := ih (i + 1)
    simp only [matchingListeners] at ih2
    rw [ih2]
    cases hm : l.match_ decl with
    | none => simp [List.filter, ReaderEvent.isCallback, hm]
    | some b =>
      cases b with
      | false => simp [List.filter, hm]
      | true =>
        cases hc : l.indicationReceived decl v ts cfm <;>
          simp [List.filter, ReaderEvent.isCallback, hm]

/-- The indication loop writes nothing to the channel. -/
theorem indicationLoop_not_written (decl : BTGattChar) (v : List Nat) (ts : Nat) (cfm : Bool)
    (ls : List BTGattCharListener) (i : Nat) :
    ∀ e ∈ indicationLoop decl v ts cfm i ls, e.isWritten = false := by
  induction ls generalizing i with
  | nil => intro e he; cases he
  | cons l ls ih =>
    intro e he
    simp only [indicationLoop, List.mem_append] at he
    rcases he with he | he
    · cases hm : l.match_ decl with
      | none =>
        rw [hm] at he
        simp only [List.mem_singleton] at he
        subst he; rfl
      | some b =>
        rw [hm] at he
        cases b with
        | false => cases he
        | true =>
          cases hc : l.indicationReceived decl v ts cfm <;> rw [hc] at he <;>
            simp only [List.mem_cons, List.mem_singleton, List.not_mem_nil, or_false] at he
          · rcases he with he | he <;> subst he <;> rfl
          · subst he; rfl
    · exact ih (i + 1) e he

/-- The indication loop started at position `i` invokes no callback of a listener at an
earlier position. -/
theorem indicationLoop_before (decl : BTGattChar) (v : List Nat) (ts : Nat) (cfm : Bool)
    (ls : List BTGattCharListener) (i j : Nat) (hj : j < i) :
    (indicationLoop decl v ts cfm i ls).filter (ReaderEvent.callbackOf j) = [] := by
  induction ls generalizing i with
  | nil => rfl
  | cons l ls ih =>
    have hne : (i == j) = false := by simp; omega
    simp only [indicationLoop, List.filter_append, ih (i + 1) (by omega), List.append_nil]
    cases hm : l.match_ decl with
    | none => simp [List.filter, ReaderEvent.callbackOf]
    | some b =>
      cases b with
      | false => simp
      | true =>
        cases hc : l.indicationReceived decl v ts cfm <;>
          simp [List.filter, ReaderEvent.callbackOf, hne]

/-- The listener at position `k` of the list is called once by the indication loop if it
matches, and not at all otherwise. -/
theorem indicationLoop_count (decl : BTGattChar) (v : List Nat) (ts : Nat) (cfm : Bool)
    (ls : List BTGattCharListener) (i k : Nat) (l : BTGattCharListener)
    (hl : ls[k]? = some l) :
    ((indicationLoop decl v ts cfm i ls).filter (ReaderEvent.callbackOf (i + k))).length =
      if l.match_ decl = some true then 1 else 0 := by
  induction ls generalizing i k with
  | nil => cases hl
  | cons l0 ls ih =>
    cases k with
    | zero =>
      simp only [List.getElem?_cons_zero, Option.some.injEq] at hl
      subst hl
      simp only [indicationLoop, List.filter_append, Nat.add_zero,
        indicationLoop_before decl v ts cfm ls (i + 1) i (by omega), List.append_nil]
      cases hm : l0.match_ decl with
      | none => simp [List.filter, ReaderEvent.callbackOf]
      | some b =>
        cases b with
        | false => simp
        | true =>
          cases hc : l0.indicationReceived decl v ts cfm <;>
            simp [List.filter, ReaderEvent.callbackOf]
    | succ k =>
      simp only [List.getElem?_cons_succ] at hl
      have h1 := ih (i + 1) k hl
      have e : i + 1 + k = i + (k + 1) := by omega
      rw [e] at h1
      have hne : (i == i + (k + 1)) = false := by simp
      simp only [indicationLoop, List.filter_append, List.length_append, h1]
      cases hm : l0.match_ decl with
      | none => simp [List.filter, ReaderEvent.callbackOf]
      | some b =>
        cases b with
        | false => simp
        | true =>
          cases hc : l0.indicationReceived decl v ts cfm <;>
            simp [List.filter, ReaderEvent.callbackOf, hne]

/-! ## The element loops of the responders -/

theorem uuid_t.getTypeSizeInt_bounds (t : uuid_t) :
    2 ≤ t.getTypeSizeInt ∧ t.getTypeSizeInt ≤ 16 := by
  unfold uuid_t.getTypeSizeInt
  cases t <;> simp

/-- One pass through the body of an element loop: with an element of 1 to 21 bytes and room
for 21 bytes, the `send(rsp); return` is taken only after an element has been set, and
otherwise the invariant holds with the element added. -/
theorem LoopInv.step {α : Type} (sizeOf : α → Nat) (rspMaxSize esz sz : Nat)
    (elems : List α) (x : α) (size : Nat) (hx : sizeOf x = size) (hmax : 21 ≤ rspMaxSize)
    (h1 : 1 ≤ size) (h21 : size ≤ 21) (hinv : LoopInv sizeOf rspMaxSize esz sz elems) :
    ((sz + size > rspMaxSize ∨ (if esz = 0 then size else esz) ≠ size) →
      ElemsFit sizeOf rspMaxSize (if esz = 0 then size else esz) elems) ∧
    (¬ (sz + size > rspMaxSize ∨ (if esz = 0 then size else esz) ≠ size) →
      LoopInv sizeOf rspMaxSize (if esz = 0 then size else esz) (sz + size)
        (elems ++ [x])) := by
  obtain ⟨i1, i2, i3, i4, i5⟩ := hinv
  by_cases hnil : elems = []
  · obtain ⟨e0, s0⟩ := i1 hnil
    subst e0 s0 hnil
    simp only [if_true]
    refine ⟨fun h => ?_, fun _ => ⟨fun h => ?_, fun _ => by omega, ?_, ?_, by omega⟩⟩
    · rcases h with h | h
      · omega
      · exact absurd rfl h
    · simp at h
    · intro e he
      simp only [List.nil_append, List.mem_singleton] at he
      subst he; exact hx
    · simp
  · have hesz := i2 hnil
    simp only [if_neg hesz]
    refine ⟨fun _ => ⟨hnil, i3, by omega⟩, fun h => ?_⟩
    have hle : sz + size ≤ rspMaxSize := by
      by_contra hc
      exact h (Or.inl (by omega))
    have heq : esz = size := by
      by_contra hc
      exact h (Or.inr hc)
    refine ⟨fun h => ?_, fun _ => hesz, ?_, ?_, hle⟩
    · simp at h
    · intro e he
      simp only [List.mem_append, List.mem_singleton] at he
      rcases he with he | he
      · exact i3 e he
      · subst he; rw [hx, heq]
    · rw [List.length_append, List.length_singleton, Nat.succ_mul, ← i4, heq]

/-- The invariant at the start of a responder: no element, both variables 0. -/
theorem LoopInv.init {α : Type} (sizeOf : α → Nat) (rspMaxSize : Nat) :
    LoopInv sizeOf rspMaxSize 0 0 ([] : List α) :=
  ⟨fun _ => ⟨rfl, rfl⟩, fun h => absurd rfl h, fun e he => (by cases he), (Nat.mul_zero _).symm,
    Nat.zero_le _⟩

/-- A loop that has run to its end with at least one element set has elements that fit. -/
theorem LoopInv.fit {α : Type} (sizeOf : α → Nat) (rspMaxSize esz sz : Nat)
    (elems : List α) (hinv : LoopInv sizeOf rspMaxSize esz sz elems) (h : 0 < elems.length) :
    ElemsFit sizeOf rspMaxSize esz elems := by
  obtain ⟨_, _, i3, i4, i5⟩ := hinv
  refine ⟨fun hn => ?_, i3, by omega⟩
  rw [hn] at h
  exact absurd h (by simp)

theorem findInfoDescs_inv (start_handle end_handle rspMaxSize : Nat) (hmax : 21 ≤ rspMaxSize)
    (ds : List DBGattDesc) (esz sz : Nat) (elems : List InfoElem)
    (hinv : LoopInv (fun e : InfoElem => 2 + e.type.getTypeSizeInt) rspMaxSize esz sz elems) :
    ((findInfoDescs start_handle end_handle rspMaxSize ds esz sz elems).1 = true →
      ElemsFit (fun e : InfoElem => 2 + e.type.getTypeSizeInt) rspMaxSize
        (findInfoDescs start_handle end_handle rspMaxSize ds esz sz elems).2.1
        (findInfoDescs start_handle end_handle rspMaxSize ds esz sz elems).2.2.2) ∧
    ((findInfoDescs start_handle end_handle rspMaxSize ds esz sz elems).1 = false →
      LoopInv (fun e : InfoElem => 2 + e.type.getTypeSizeInt) rspMaxSize
        (findInfoDescs start_handle end_handle rspMaxSize ds esz sz elems).2.1
        (findInfoDescs start_handle end_handle rspMaxSize ds esz sz elems).2.2.1
        (findInfoDescs start_handle end_handle rspMaxSize ds esz sz elems).2.2.2) := by
  induction ds generalizing esz sz elems with
  | nil => exact ⟨fun h => (by cases h), fun _ => hinv⟩
  | cons d ds ih =>
    unfold findInfoDescs
    by_cases hr : start_handle ≤ d.handle ∧ d.handle ≤ end_handle
    · rw [if_pos hr]
      obtain ⟨b1, b2⟩ := d.type.getTypeSizeInt_bounds
      obtain ⟨s1, s2⟩ := LoopInv.step (fun e : InfoElem => 2 + e.type.getTypeSizeInt)
        rspMaxSize esz sz elems ⟨d.handle, d.type⟩ (2 + d.type.getTypeSizeInt) rfl hmax
        (by omega) (by omega) hinv
      by_cases hc : sz + (2 + d.type.getTypeSizeInt) > rspMaxSize ∨
          (if esz = 0 then 2 + d.type.getTypeSizeInt else esz) ≠ 2 + d.type.getTypeSizeInt
      · simp only [if_pos hc]
        exact ⟨fun _ => s1 hc, fun h => by cases h⟩
      · simp only [if_neg hc]
        exact ih _ _ _ (s2 hc)
    · rw [if_neg hr]
      exact ih _ _ _ hinv

theorem findInfoChars_inv (start_handle end_handle rspMaxSize : Nat) (hmax : 21 ≤ rspMaxSize)
    (cs : List DBGattChar) (esz sz : Nat) (elems : List InfoElem)
    (hinv : LoopInv (fun e : InfoElem => 2 + e.type.getTypeSizeInt) rspMaxSize esz sz elems) :
    ((findInfoChars start_handle end_handle rspMaxSize cs esz sz elems).1 = true →
      ElemsFit (fun e : InfoElem => 2 + e.type.getTypeSizeInt) rspMaxSize
        (findInfoChars start_handle end_handle rspMaxSize cs esz sz elems).2.1
        (findInfoChars start_handle end_handle rspMaxSize cs esz sz elems).2.2.2) ∧
    ((findInfoChars start_handle end_handle rspMaxSize cs esz sz elems).1 = false →
      LoopInv (fun e : InfoElem => 2 + e.type.getTypeSizeInt) rspMaxSize
        (findInfoChars start_handle end_handle rspMaxSize cs esz sz elems).2.1
        (findInfoChars start_handle end_handle rspMaxSize cs esz sz elems).2.2.1
        (findInfoChars start_handle end_handle rspMaxSize cs esz sz elems).2.2.2) := by
  induction cs generalizing esz sz elems with
  | nil => exact ⟨fun h => (by cases h), fun _ => hinv⟩
  | cons c cs ih =>
    unfold findInfoChars
    obtain ⟨d1, d2⟩ := findInfoDescs_inv start_handle end_handle rspMaxSize hmax c.descriptors
      esz sz elems hinv
    cases hb : (findInfoDescs start_handle end_handle rspMaxSize c.descriptors esz sz elems).1
    · simp only [hb, Bool.false_eq_true, if_false]
      exact ih _ _ _ (d2 hb)
    · simp only [hb, if_true]
      exact ⟨fun _ => d1 hb, fun h => by cases h⟩

theorem findInfoServices_inv (start_handle end_handle rspMaxSize : Nat)
    (hmax : 21 ≤ rspMaxSize) (ss : List DBGattService) (esz sz : Nat) (elems : List InfoElem)
    (hinv : LoopInv (fun e : InfoElem => 2 + e.type.getTypeSizeInt) rspMaxSize esz sz elems) :
    ((findInfoServices start_handle end_handle rspMaxSize ss esz sz elems).1 = true →
      ElemsFit (fun e : InfoElem => 2 + e.type.getTypeSizeInt) rspMaxSize
        (findInfoServices start_handle end_handle rspMaxSize ss esz sz elems).2.1
        (findInfoServices start_handle end_handle rspMaxSize ss esz sz elems).2.2.2) ∧
    ((findInfoServices start_handle end_handle rspMaxSize ss esz sz elems).1 = false →
      LoopInv (fun e : InfoElem => 2 + e.type.getTypeSizeInt) rspMaxSize
        (findInfoServices start_handle end_handle rspMaxSize ss esz sz elems).2.1
        (findInfoServices start_handle end_handle rspMaxSize ss esz sz elems).2.2.1
        (findInfoServices start_handle end_handle rspMaxSize ss esz sz elems).2.2.2) := by
  induction ss generalizing esz sz elems with
  | nil => exact ⟨fun h => (by cases h), fun _ => hinv⟩
  | cons s ss ih =>
    unfold findInfoServices
    obtain ⟨d1, d2⟩ := findInfoChars_inv start_handle end_handle rspMaxSize hmax
      s.characteristics esz sz elems hinv
    cases hb : (findInfoChars start_handle end_handle rspMaxSize s.characteristics esz sz
      elems).1
    · simp only [hb, Bool.false_eq_true, if_false]
      exact ih _ _ _ (d2 hb)
    · simp only [hb, if_true]
      exact ⟨fun _ => d1 hb, fun h => by cases h⟩

theorem readByTypeChars_inv (start_handle end_handle rspMaxSize : Nat) (hmax : 21 ≤ rspMaxSize)
    (cs : List DBGattChar) (esz sz : Nat) (elems : List CharElem)
    (hinv : LoopInv (fun e : CharElem => 2 + 1 + 2 + e.value_type.getTypeSizeInt) rspMaxSize
      esz sz elems) :
    ((readByTypeChars start_handle end_handle rspMaxSize cs esz sz elems).1 = true →
      ElemsFit (fun e : CharElem => 2 + 1 + 2 + e.value_type.getTypeSizeInt) rspMaxSize
        (readByTypeChars start_handle end_handle rspMaxSize cs esz sz elems).2.1
        (readByTypeChars start_handle end_handle rspMaxSize cs esz sz elems).2.2.2) ∧
    ((readByTypeChars start_handle end_handle rspMaxSize cs esz sz elems).1 = false →
      LoopInv (fun e : CharElem => 2 + 1 + 2 + e.value_type.getTypeSizeInt) rspMaxSize
        (readByTypeChars start_handle end_handle rspMaxSize cs esz sz elems).2.1
        (readByTypeChars start_handle end_handle rspMaxSize cs esz sz elems).2.2.1
        (readByTypeChars start_handle end_handle rspMaxSize cs esz sz elems).2.2.2) := by
  induction cs generalizing esz sz elems with
  | nil => exact ⟨fun h => (by cases h), fun _ => hinv⟩
  | cons c cs ih =>
    unfold readByTypeChars
    by_cases hr : start_handle ≤ c.handle ∧ c.handle ≤ end_handle
    · rw [if_pos hr]
      obtain ⟨b1, b2⟩ := c.value_type.getTypeSizeInt_bounds
      obtain ⟨s1, s2⟩ := LoopInv.step
        (fun e : CharElem => 2 + 1 + 2 + e.value_type.getTypeSizeInt)
        rspMaxSize esz sz elems ⟨c.handle, c.properties, c.value_handle, c.value_type⟩
        (2 + 1 + 2 + c.value_type.getTypeSizeInt) rfl hmax (by omega) (by omega) hinv
      by_cases hc : sz + (2 + 1 + 2 + c.value_type.getTypeSizeInt) > rspMaxSize ∨
          (if esz = 0 then 2 + 1 + 2 + c.value_type.getTypeSizeInt else esz) ≠
            2 + 1 + 2 + c.value_type.getTypeSizeInt
      · simp only [if_pos hc]
        exact ⟨fun _ => s1 hc, fun h => by cases h⟩
      · simp only [if_neg hc]
        exact ih _ _ _ (s2 hc)
    · rw [if_neg hr]
      exact ih _ _ _ hinv

theorem readByTypeServices_inv (start_handle end_handle rspMaxSize : Nat)
    (hmax : 21 ≤ rspMaxSize) (ss : List DBGattService) (esz sz : Nat) (elems : List CharElem)
    (hinv : LoopInv (fun e : CharElem => 2 + 1 + 2 + e.value_type.getTypeSizeInt) rspMaxSize
      esz sz elems) :
    ((readByTypeServices start_handle end_handle rspMaxSize ss esz sz elems).1 = true →
      ElemsFit (fun e : CharElem => 2 + 1 + 2 + e.value_type.getTypeSizeInt) rspMaxSize
        (readByTypeServices start_handle end_handle rspMaxSize ss esz sz elems).2.1
        (readByTypeServices start_handle end_handle rspMaxSize ss esz sz elems).2.2.2) ∧
    ((readByTypeServices start_handle end_handle rspMaxSize ss esz sz elems).1 = false →
      LoopInv (fun e : CharElem => 2 + 1 + 2 + e.value_type.getTypeSizeInt) rspMaxSize
        (readByTypeServices start_handle end_handle rspMaxSize ss esz sz elems).2.1
        (readByTypeServices start_handle end_handle rspMaxSize ss esz sz elems).2.2.1
        (readByTypeServices start_handle end_handle rspMaxSize ss esz sz elems).2.2.2) := by
  induction ss generalizing esz sz elems with
  | nil => exact ⟨fun h => (by cases h), fun _ => hinv⟩
  | cons s ss ih =>
    unfold readByTypeServices
    obtain ⟨d1, d2⟩ := readByTypeChars_inv start_handle end_handle rspMaxSize hmax
      s.characteristics esz sz elems hinv
    cases hb : (readByTypeChars start_handle end_handle rspMaxSize s.characteristics esz sz
      elems).1
    · simp only [hb, Bool.false_eq_true, if_false]
      exact ih _ _ _ (d2 hb)
    · simp only [hb, if_true]
      exact ⟨fun _ => d1 hb, fun h => by cases h⟩

/-- The loop of `replyReadByGroupTypeReq`: when it is left by `send(rsp); return`, or runs to
its end with an element set, the elements fit. -/
theorem groupTypeLoop_inv (g start_handle end_handle rspMaxSize : Nat) (hmax : 21 ≤ rspMaxSize)
    (ss : List DBGattService) (esz sz : Nat) (elems : List GroupElem)
    (hinv : LoopInv (fun e : GroupElem => 2 + 2 + e.type.getTypeSizeInt) rspMaxSize
      esz sz elems) :
    ((groupTypeLoop g start_handle end_handle rspMaxSize ss esz sz elems).1 = true ∨
        0 < (groupTypeLoop g start_handle end_handle rspMaxSize ss esz sz elems).2.2.length) →
      ElemsFit (fun e : GroupElem => 2 + 2 + e.type.getTypeSizeInt) rspMaxSize
        (groupTypeLoop g start_handle end_handle rspMaxSize ss esz sz elems).2.1
        (groupTypeLoop g start_handle end_handle rspMaxSize ss esz sz elems).2.2 := by
  induction ss generalizing esz sz elems with
  | nil =>
    intro h
    rcases h with h | h
    · cases h
    · exact LoopInv.fit _ _ _ _ _ hinv h
  | cons s ss ih =>
    unfold groupTypeLoop
    by_cases hr : ((PRIMARY_SERVICE = g ∧ s.primary = true) ∨
        (SECONDARY_SERVICE = g ∧ s.primary = false)) ∧
        start_handle ≤ s.handle ∧ s.handle ≤ end_handle
    · rw [if_pos hr]
      obtain ⟨b1, b2⟩ := s.type.getTypeSizeInt_bounds
      obtain ⟨s1, s2⟩ := LoopInv.step (fun e : GroupElem => 2 + 2 + e.type.getTypeSizeInt)
        rspMaxSize esz sz elems ⟨s.handle, s.end_handle, s.type⟩
        (2 + 2 + s.type.getTypeSizeInt) rfl hmax (by omega) (by omega) hinv
      by_cases hc : sz + (2 + 2 + s.type.getTypeSizeInt) > rspMaxSize ∨
          (if esz = 0 then 2 + 2 + s.type.getTypeSizeInt else esz) ≠
            2 + 2 + s.type.getTypeSizeInt
      · simp only [if_pos hc]
        exact fun _ => s1 hc
      · simp only [if_neg hc]
        exact ih _ _ _ (s2 hc)
    · rw [if_neg hr]
      exact ih _ _ _ hinv

/-- A PDU handed to `send` is the one PDU added to the trace of sent PDUs. -/
theorem BTGattHandler.send_fit (st : BTGattHandler) (msg : AttPDUMsg)
    (h : msg.elementsFit st.usedMTU) :
    ∃ m : AttPDUMsg, (st.send msg).1.sent = st.sent ++ [m] ∧ m.elementsFit st.usedMTU :=
  ⟨msg, (BTGattHandler.send_spec st msg).1, h⟩

theorem rspMaxSize_bounds (usedMTU : Nat) (hmtu : 23 ≤ usedMTU) (hmtu2 : usedMTU ≤ 65535) :
    21 ≤ min 255 (nsize_sub usedMTU 2) ∧ 2 + min 255 (nsize_sub usedMTU 2) ≤ usedMTU := by
  rw [nsize_sub_two usedMTU (by omega) hmtu2]
  constructor
  · simp only [le_min_iff]; omega
  · have := Nat.min_le_right 255 (usedMTU - 2)
    omega

/-! ## The client against a scripted peer -/

/-- A reply that `sendWithReply` returns from a scripted peer is the first of the script, and
the rest of the script remains. -/
theorem BTGattHandler.sendWithReply_scripted (st : BTGattHandler) (replies : List AttPDUMsg)
    (msg pdu : AttPDUMsg)
    (h : (st.sendWithReply scriptedPeer replies msg).2.2 = .returned pdu) :
    replies = pdu :: (st.sendWithReply scriptedPeer replies msg).2.1 := by
  unfold BTGattHandler.sendWithReply at h ⊢
  cases hs : (st.send msg).2 with
  | some e => simp only [hs] at h; cases h
  | none =>
    simp only [hs] at h ⊢
    cases replies with
    | nil => simp only [scriptedPeer, List.head?_nil] at h; cases h
    | cons r rs =>
      simp only [scriptedPeer, List.head?_cons, List.tail_cons] at h ⊢
      cases h
      rfl

/-- Against a scripted peer the loop of `readValue` ends within one iteration more than
there are replies, and when it returns, it returns true exactly if the buffer has grown. -/
theorem BTGattHandler.readValueLoop_scripted (handle : Nat) (expectedLength : Int)
    (base : Nat) (fuel : Nat) :
    ∀ (st : BTGattHandler) (replies : List AttPDUMsg) (res : List Nat) (offset : Nat),
      replies.length < fuel → res.length = base + offset →
      ∃ run : ClientRun (List AttPDUMsg) (List Nat),
        BTGattHandler.readValueLoop scriptedPeer handle expectedLength fuel st replies res
          offset = some run ∧
        ∀ b : Bool, run.ret = .returned b → (b = true ↔ base < run.out.length) := by
  induction fuel with
  | zero => intro st replies res offset h; exact absurd h (Nat.not_lt_zero _)
  | succ fuel ih =>
    intro st replies res offset hfuel hlen
    have hret : ∀ (s : BTGattHandler) (q : List AttPDUMsg) (b : Bool),
        (⟨s, q, res, .returned (decide (offset > 0))⟩ :
          ClientRun (List AttPDUMsg) (List Nat)).ret = .returned b →
        (b = true ↔ base < res.length) := by
      intro s q b hb
      simp only [Outcome.returned.injEq] at hb
      subst hb
      simp only [decide_eq_true_eq]
      omega
    have hret2 : ∀ (s : BTGattHandler) (q : List AttPDUMsg) (v : List Nat) (b : Bool),
        (⟨s, q, res ++ v, .returned (decide (offset + v.length > 0))⟩ :
          ClientRun (List AttPDUMsg) (List Nat)).ret = .returned b →
        (b = true ↔ base < (res ++ v).length) := by
      intro s q v b hb
      simp only [Outcome.returned.injEq] at hb
      subst hb
      simp only [decide_eq_true_eq, List.length_append]
      omega
    unfold BTGattHandler.readValueLoop
    by_cases c1 : 0 < expectedLength ∧ expectedLength ≤ (offset : Int)
    · rw [if_pos c1]
      exact ⟨_, rfl, hret _ _⟩
    rw [if_neg c1]
    by_cases c2 : expectedLength = 0 ∧ 0 < offset
    · rw [if_pos c2]
      exact ⟨_, rfl, hret _ _⟩
    rw [if_neg c2]
    simp only []
    cases hr : (st.sendWithReply scriptedPeer replies
      (if offset = 0 then AttPDUMsg.readReq handle
        else AttPDUMsg.readBlobReq handle (u16 offset))).2.2 with
    | thrown e =>
      refine ⟨_, rfl, ?_⟩
      intro b hb
      cases hb
    | returned pdu =>
      have hscr := BTGattHandler.sendWithReply_scripted st replies _ pdu hr
      have hshort : (st.sendWithReply scriptedPeer replies
          (if offset = 0 then AttPDUMsg.readReq handle
            else AttPDUMsg.readBlobReq handle (u16 offset))).2.1.length < fuel := by
        have := congrArg List.length hscr
        simp only [List.length_cons] at this
        omega
      cases pdu with
      | readNRsp blob v =>
        cases blob with
        | false =>
          simp only []
          by_cases c3 : v.length < getMaxPDUValueSize (st.sendWithReply scriptedPeer replies
              (if offset = 0 then AttPDUMsg.readReq handle
                else AttPDUMsg.readBlobReq handle (u16 offset))).1.usedMTU
          · rw [if_pos c3]
            exact ⟨_, rfl, hret2 _ _ _⟩
          · rw [if_neg c3]
            exact ih _ _ _ _ hshort (by rw [List.length_append]; omega)
        | true =>
          simp only []
          by_cases c4 : v.length = 0
          · rw [if_pos c4]
            exact ⟨_, rfl, hret _ _⟩
          rw [if_neg c4]
          by_cases c3 : v.length < getMaxPDUValueSize (st.sendWithReply scriptedPeer replies
              (if offset = 0 then AttPDUMsg.readReq handle
                else AttPDUMsg.readBlobReq handle (u16 offset))).1.usedMTU
          · rw [if_pos c3]
            exact ⟨_, rfl, hret2 _ _ _⟩
          · rw [if_neg c3]
            exact ih _ _ _ _ hshort (by rw [List.length_append]; omega)
      | _ => exact ⟨_, rfl, hret _ _⟩

/-- A READ_RSP without value bytes as the first reply ends `readValue` after its single
READ_REQ: nothing is accumulated and false is returned. -/
theorem BTGattHandler.readValue_empty_rsp (st : BTGattHandler) (more : List AttPDUMsg)
    (handle : Nat) (res : List Nat) (expectedLength : Int) (fuel : Nat)
    (hconn : st.validateConnected.2 = true) (h3 : 3 ≤ st.usedMTU) (hu : st.usedMTU ≤ 65535) :
    st.readValue scriptedPeer (fuel + 1) (.readNRsp false [] :: more) handle res
        expectedLength =
      some ⟨st.written (.readReq handle), more, res, .returned false⟩ := by
  have hs := BTGattHandler.sendWithReply_connected scriptedPeer st
    (.readNRsp false [] :: more) (.readReq handle) hconn (by simp only [AttPDUMsg.size]; omega)
  simp only [scriptedPeer, List.head?_cons, List.tail_cons] at hs
  have c1 : ¬ (0 < expectedLength ∧ expectedLength ≤ ((0 : Nat) : Int)) := by
    simp only [Nat.cast_zero]; omega
  have c2 : ¬ (expectedLength = 0 ∧ 0 < (0 : Nat)) := by omega
  have hmax : ([] : List Nat).length <
      BTGattHandler.getMaxPDUValueSize (st.written (.readReq handle)).usedMTU := by
    rw [(BTGattHandler.written_fields st _).2.1, getMaxPDUValueSize_eq _ (by omega) hu]
    simp only [List.length_nil]; omega
  unfold BTGattHandler.readValue BTGattHandler.readValueLoop
  rw [if_neg c1, if_neg c2]
  simp only [List.length_nil] at hmax
  simp only [if_true, hs, List.append_nil, List.length_nil, Nat.add_zero,
    gt_iff_lt, Nat.lt_irrefl, decide_False]
  rw [if_pos hmax]

/-- The same for `readDescriptorValue`: the descriptor keeps its value and false is
returned. -/
theorem BTGattHandler.readDescriptorValue_empty_rsp (st : BTGattHandler)
    (more : List AttPDUMsg) (desc : BTGattDesc) (expectedLength : Int) (fuel : Nat)
    (hconn : st.validateConnected.2 = true) (h3 : 3 ≤ st.usedMTU) (hu : st.usedMTU ≤ 65535) :
    st.readDescriptorValue scriptedPeer (fuel + 1) (.readNRsp false [] :: more) desc
        expectedLength =
      some ⟨st.written (.readReq desc.handle), more, desc, .returned false⟩ := by
  unfold BTGattHandler.readDescriptorValue
  rw [BTGattHandler.readValue_empty_rsp st more desc.handle desc.value expectedLength fuel
    hconn h3 hu]
  rfl

/-- A descriptor whose read yields a READ_RSP without value bytes ends the descriptor scan
of its characteristic: after the FIND_INFORMATION_REQ and the READ_REQ of the descriptor
nothing more is asked, and the characteristic has the descriptors it had. -/
theorem BTGattHandler.discoverDescriptorsLoop_empty_value (st : BTGattHandler)
    (more : List AttPDUMsg) (charDecl : BTGattChar) (cd_handle_iter cd_handle_end : Nat)
    (esz : Nat) (e : InfoElem) (es : List InfoElem) (rfuel fuel : Nat)
    (hconn : st.validateConnected.2 = true) (h5 : 5 ≤ st.usedMTU) (hu : st.usedMTU ≤ 65535)
    (hiter : cd_handle_iter ≤ cd_handle_end)
    (hlo : charDecl.value_handle < e.handle) (hhi : e.handle ≤ cd_handle_end) :
    BTGattHandler.discoverDescriptorsLoop scriptedPeer (rfuel + 1) cd_handle_end (fuel + 1) st
        (.findInfoRsp esz (e :: es) :: .readNRsp false [] :: more) charDecl cd_handle_iter =
      some ⟨(st.written (.findInfoReq cd_handle_iter cd_handle_end)).written
          (.readReq e.handle), more, charDecl, true, none⟩ := by
  have hs := BTGattHandler.sendWithReply_connected scriptedPeer st
    (.findInfoRsp esz (e :: es) :: .readNRsp false [] :: more)
    (.findInfoReq cd_handle_iter cd_handle_end) hconn (by simp only [AttPDUMsg.size]; omega)
  simp only [scriptedPeer, List.head?_cons, List.tail_cons] at hs
  obtain ⟨w1, w2, _, _⟩ := BTGattHandler.written_fields st
    (.findInfoReq cd_handle_iter cd_handle_end)
  have hrd := BTGattHandler.readDescriptorValue_empty_rsp
    (st.written (.findInfoReq cd_handle_iter cd_handle_end)) more ⟨e.type, e.handle, []⟩ 0
    rfuel (by rw [w1]; exact hconn) (by rw [w2]; omega) (by rw [w2]; exact hu)
  have hrange : ¬ (e.handle ≤ charDecl.value_handle ∨ e.handle > cd_handle_end) := by omega
  have helems : BTGattHandler.discoverDescriptorsElems scriptedPeer (rfuel + 1) cd_handle_end
      (e :: es) (st.written (.findInfoReq cd_handle_iter cd_handle_end))
      (.readNRsp false [] :: more) charDecl =
      some ⟨(st.written (.findInfoReq cd_handle_iter cd_handle_end)).written
          (.readReq e.handle), more, charDecl, true, none⟩ := by
    unfold BTGattHandler.discoverDescriptorsElems
    rw [if_neg hrange, hrd]
  unfold BTGattHandler.discoverDescriptorsLoop
  rw [if_neg (not_not.mpr hiter)]
  simp only [hs, helems]
  rfl

/-! ## The MTU range and the disconnected session -/

/-- C21, the case that fails: the example server session (`serverMTU` 23, `usedMTU` 23,
connected) answers EXCHANGE_MTU_REQ(5) with EXCHANGE_MTU_RSP(5) and continues with `usedMTU`
5, below MIN_ATT_MTU; on EXCHANGE_MTU_REQ(0) its `usedMTU` becomes 0 and the response itself
is rejected by `send`. A client constructed against a peer that answers EXCHANGE_MTU_RSP(5)
has `usedMTU` 5 as well. -/
theorem replyAttPDUReq_mtu_below_minimum :
    exampleSession.validateConnected.2 = true ∧ exampleSession.usedMTU = MIN_ATT_MTU ∧
    (exampleSession.replyAttPDUReq (.exchangeMTU true 5)).1.usedMTU = 5 ∧
    (exampleSession.replyAttPDUReq (.exchangeMTU true 5)).1.wire = [.exchangeMTU false 5] ∧
    (exampleSession.replyAttPDUReq (.exchangeMTU true 5)).2 = none ∧
    5 < MIN_ATT_MTU ∧
    (exampleSession.replyAttPDUReq (.exchangeMTU true 0)).1.usedMTU = 0 ∧
    (exampleSession.replyAttPDUReq (.exchangeMTU true 0)).2 = some .IllegalArgumentException ∧
    (BTGattHandler.ctor scriptedPeer [.exchangeMTU false 5] .Client true false none).1.usedMTU
      = 5 ∧
    (BTGattHandler.ctor scriptedPeer [.exchangeMTU false 5] .Client true false
      none).1.validateConnected.2 = true := by
  decide

/-- C24: after `disconnect()` has returned, `isConnected()` is false; every later `send`,
whatever was sent in between, and every `sendWithReply` throws IllegalStateException without
writing to the channel (and without asking the peer); a further `disconnect()` returns false
and leaves the state as it is. -/
theorem disconnect_then_not_connected (st : BTGattHandler) (disconnectDevice ioErrorCause : Bool) :
    (st.disconnect disconnectDevice ioErrorCause).1.is_connected = false ∧
    (∀ (msgs : List AttPDUMsg) (msg : AttPDUMsg),
      ((msgs.foldl (fun s m => (s.send m).1)
          (st.disconnect disconnectDevice ioErrorCause).1).send msg).2 =
        some .IllegalStateException ∧
      ((msgs.foldl (fun s m => (s.send m).1)
          (st.disconnect disconnectDevice ioErrorCause).1).send msg).1.wire =
        (st.disconnect disconnectDevice ioErrorCause).1.wire) ∧
    (∀ (σ : Type) (peer : Peer σ) (p : σ) (msg : AttPDUMsg),
      ((st.disconnect disconnectDevice ioErrorCause).1.sendWithReply peer p msg).2.2 =
        .thrown .IllegalStateException ∧
      ((st.disconnect disconnectDevice ioErrorCause).1.sendWithReply peer p msg).2.1 = p ∧
      ((st.disconnect disconnectDevice ioErrorCause).1.sendWithReply peer p msg).1.wire =
        (st.disconnect disconnectDevice ioErrorCause).1.wire) ∧
    (∀ d2 c2 : Bool,
      (st.disconnect disconnectDevice ioErrorCause).1.disconnect d2 c2 =
        ((st.disconnect disconnectDevice ioErrorCause).1, false)) := by
  have hm := st.disconnect_mark disconnectDevice ioErrorCause
  refine ⟨hm, ?_, ?_, ?_⟩
  · intro msgs msg
    obtain ⟨w, c⟩ := BTGattHandler.sends_disconnected msgs _ hm
    obtain ⟨s1, s2, _⟩ := BTGattHandler.send_disconnected _ msg c
    exact ⟨s1, s2.trans w⟩
  · intro σ peer p msg
    obtain ⟨s1, s2, _⟩ := BTGattHandler.send_disconnected _ msg hm
    have e : (st.disconnect disconnectDevice ioErrorCause).1.sendWithReply peer p msg =
        (((st.disconnect disconnectDevice ioErrorCause).1.send msg).1, p,
          .thrown .IllegalStateException) := by
      simp only [BTGattHandler.sendWithReply, s1]
    rw [e]
    exact ⟨rfl, rfl, s2⟩
  · intro d2 c2
    unfold BTGattHandler.disconnect
    cases h : st.is_connected <;> simp [h]

/-! ## Notifications and indications: the reader thread -/

/-- C22: when a HANDLE_VALUE_NTF arrives whose handle resolves to the discovered
characteristic `decl`, the reader thread calls `notificationReceived` once on every listener
with `match(decl) = true`, in the order of registration, with `decl`, the value bytes and the
creation timestamp of the PDU, and on no other listener, whether or not a callback throws;
nothing is written to the channel and the session is unchanged. -/
theorem l2capReaderReceived_notification (get_type : Opcode → OpcodeType) (st : BTGattHandler)
    (services : List BTGattService) (listeners : List BTGattCharListener)
    (sendIndicationConfirmation : Bool) (handle : Nat) (value : List Nat) (ts : Nat)
    (decl : BTGattChar) (hres : findCharacterisicsByValueHandle handle services = some decl) :
    (st.l2capReaderReceived get_type services listeners sendIndicationConfirmation
      (.handleValueRcv false handle value ts)).exit = .completed ∧
    (st.l2capReaderReceived get_type services listeners sendIndicationConfirmation
      (.handleValueRcv false handle value ts)).st = st ∧
    (st.l2capReaderReceived get_type services listeners sendIndicationConfirmation
      (.handleValueRcv false handle value ts)).events.filter ReaderEvent.isCallback =
      (matchingListeners decl 0 listeners).map
        (fun il => ReaderEvent.notificationReceived il.1 decl value ts) ∧
    (∀ (k : Nat) (l : BTGattCharListener), listeners[k]? = some l →
      ((st.l2capReaderReceived get_type services listeners sendIndicationConfirmation
        (.handleValueRcv false handle value ts)).events.filter
          (ReaderEvent.callbackOf k)).length = if l.match_ decl = some true then 1 else 0) ∧
    (∀ e ∈ (st.l2capReaderReceived get_type services listeners sendIndicationConfirmation
      (.handleValueRcv false handle value ts)).events, e.isWritten = false) := by
  have e : st.l2capReaderReceived get_type services listeners sendIndicationConfirmation
      (.handleValueRcv false handle value ts) =
      ⟨st, notificationLoop decl value ts 0 listeners, .completed⟩ := by
    simp only [BTGattHandler.l2capReaderReceived, AttPDUMsg.getOpcode, hres]
    rfl
  rw [e]
  refine ⟨rfl, rfl, notificationLoop_callbacks decl value ts listeners 0, ?_,
    notificationLoop_not_written decl value ts listeners 0⟩
  intro k l hl
  have := notificationLoop_count decl value ts listeners 0 k l hl
  rwa [Nat.zero_add] at this

/-- Instance of C22: three listeners are registered, one that matches and returns, one that
matches and throws and one for another characteristic; a HANDLE_VALUE_NTF for handle 3 with
the value `AA BB` created at time 7 reaches the first two, in this order, and the exception
of the second is caught. -/
theorem l2capReaderReceived_notification_witness :
    findCharacterisicsByValueHandle 3 discoveredServices = some heartRateChar ∧
    (clientSession.l2capReaderReceived (fun _ => .REQUEST) discoveredServices
      [throwingListener, otherListener, anyListener] true
      (.handleValueRcv false 3 [0xAA, 0xBB] 7)).events.filter ReaderEvent.isCallback =
      [.notificationReceived 0 heartRateChar [0xAA, 0xBB] 7,
        .notificationReceived 2 heartRateChar [0xAA, 0xBB] 7] :=
  ⟨by decide,
    (l2capReaderReceived_notification (fun _ => .REQUEST) clientSession discoveredServices
      [throwingListener, otherListener, anyListener] true 3 [0xAA, 0xBB] 7 heartRateChar
      (by decide)).2.2.1.trans (by decide)⟩

/-- C23: when a HANDLE_VALUE_IND arrives whose handle resolves to the discovered
characteristic `decl` (on a connected session with `usedMTU` at least 1 if a confirmation is
to be sent): with `sendIndicationConfirmation` set, the first thing the reader thread does
is to write one HANDLE_VALUE_CFM to the channel, nothing else is written, and every matching
listener is then called once with `cfmSent = true`; with the flag cleared nothing is written
and every matching listener is called once with `cfmSent = false`. -/
theorem l2capReaderReceived_indication (get_type : Opcode → OpcodeType) (st : BTGattHandler)
    (services : List BTGattService) (listeners : List BTGattCharListener)
    (sendIndicationConfirmation : Bool) (handle : Nat) (value : List Nat) (ts : Nat)
    (decl : BTGattChar)
    (hconn : sendIndicationConfirmation = true → st.validateConnected.2 = true)
    (hmtu : sendIndicationConfirmation = true → 1 ≤ st.usedMTU)
    (hres : findCharacterisicsByValueHandle handle services = some decl) :
    ∃ calls : List ReaderEvent,
      (st.l2capReaderReceived get_type services listeners sendIndicationConfirmation
        (.handleValueRcv true handle value ts)).events =
        (if sendIndicationConfirmation then [ReaderEvent.written .handleValueCfm] else []) ++
          calls ∧
      (st.l2capReaderReceived get_type services listeners sendIndicationConfirmation
        (.handleValueRcv true handle value ts)).exit = .completed ∧
      (st.l2capReaderReceived get_type services listeners sendIndicationConfirmation
        (.handleValueRcv true handle value ts)).st.wire =
        st.wire ++ (if sendIndicationConfirmation then [.handleValueCfm] else []) ∧
      (∀ e ∈ calls, e.isWritten = false) ∧
      calls.filter ReaderEvent.isCallback =
        (matchingListeners decl 0 listeners).map
          (fun il => ReaderEvent.indicationReceived il.1 decl value ts
            sendIndicationConfirmation) ∧
      (∀ (k : Nat) (l : BTGattCharListener), listeners[k]? = some l →
        (calls.filter (ReaderEvent.callbackOf k)).length =
          if l.match_ decl = some true then 1 else 0) := by
  refine ⟨indicationLoop decl value ts sendIndicationConfirmation 0 listeners, ?_⟩
  have hcount : ∀ (k : Nat) (l : BTGattCharListener), listeners[k]? = some l →
      ((indicationLoop decl value ts sendIndicationConfirmation 0 listeners).filter
        (ReaderEvent.callbackOf k)).length = if l.match_ decl = some true then 1 else 0 := by
    intro k l hl
    have := indicationLoop_count decl value ts sendIndicationConfirmation listeners 0 k l hl
    rwa [Nat.zero_add] at this
  cases hc : sendIndicationConfirmation with
  | false =>
    subst hc
    have e : st.l2capReaderReceived get_type services listeners false
        (.handleValueRcv true handle value ts) =
        ⟨st, writtenEvents st st ++ indicationLoop decl value ts false 0 listeners,
          .completed⟩ := by
      simp only [BTGattHandler.l2capReaderReceived, AttPDUMsg.getOpcode, hres]
      rfl
    have w : writtenEvents st st = [] := by simp [writtenEvents]
    rw [e, w]
    exact ⟨rfl, rfl, by simp, indicationLoop_not_written decl value ts false listeners 0,
      indicationLoop_callbacks decl value ts false listeners 0, hcount⟩
  | true =>
    subst hc
    have hs := BTGattHandler.send_connected st .handleValueCfm (hconn rfl)
    have hsz : ¬ AttPDUMsg.handleValueCfm.size > st.usedMTU := by
      have := hmtu rfl
      simp only [AttPDUMsg.size]; omega
    rw [if_neg hsz] at hs
    have e : st.l2capReaderReceived get_type services listeners true
        (.handleValueRcv true handle value ts) =
        ⟨st.written .handleValueCfm, writtenEvents st (st.written .handleValueCfm) ++
          indicationLoop decl value ts true 0 listeners, .completed⟩ := by
      simp only [BTGattHandler.l2capReaderReceived, AttPDUMsg.getOpcode, hres, hs]
      rfl
    have w : writtenEvents st (st.written .handleValueCfm) =
        [ReaderEvent.written .handleValueCfm] := by
      simp [writtenEvents, BTGattHandler.written]
    rw [e, w]
    exact ⟨rfl, rfl, rfl, indicationLoop_not_written decl value ts true listeners 0,
      indicationLoop_callbacks decl value ts true listeners 0, hcount⟩

/-- Instance of C23 on the connected client session with `usedMTU` 23 and the three
listeners of the instance of C22, with the confirmation switched on: the first event is the
HANDLE_VALUE_CFM written, it is the only PDU on the channel, and the calls that follow reach
the listeners 0 and 2 with `cfmSent = true`. -/
theorem l2capReaderReceived_indication_witness :
    (clientSession.validateConnected.2 = true ∧ 1 ≤ clientSession.usedMTU ∧
      findCharacterisicsByValueHandle 3 discoveredServices = some heartRateChar) ∧
    ∃ calls : List ReaderEvent,
      (clientSession.l2capReaderReceived (fun _ => .REQUEST) discoveredServices
        [throwingListener, otherListener, anyListener] true
        (.handleValueRcv true 3 [0xAA, 0xBB] 7)).events =
        [ReaderEvent.written .handleValueCfm] ++ calls ∧
      (clientSession.l2capReaderReceived (fun _ => .REQUEST) discoveredServices
        [throwingListener, otherListener, anyListener] true
        (.handleValueRcv true 3 [0xAA, 0xBB] 7)).st.wire = [.handleValueCfm] ∧
      calls.filter ReaderEvent.isCallback =
        [.indicationReceived 0 heartRateChar [0xAA, 0xBB] 7 true,
          .indicationReceived 2 heartRateChar [0xAA, 0xBB] 7 true] :=
  ⟨⟨by decide, by decide, by decide⟩, by
    obtain ⟨calls, h1, _, h3, _, h5, _⟩ := l2capReaderReceived_indication (fun _ => .REQUEST)
      clientSession discoveredServices [throwingListener, otherListener, anyListener] true 3
      [0xAA, 0xBB] 7 heartRateChar (fun _ => by decide) (fun _ => by decide) (by decide)
    exact ⟨calls, h1, h3, h5.trans (by decide)⟩⟩

/-! ## Equality, the PDU codec, the environment and failed writes -/

/-- C25: two descriptors and two characteristics are equal exactly when their handles are
equal; two services are equal exactly when their handles and their end handles are equal. No
other field is compared. -/
theorem operator_eq_fields :
    (∀ a b : DBGattDesc, a.operator_eq b = true ↔ a.handle = b.handle) ∧
    (∀ a b : DBGattChar, a.operator_eq b = true ↔ a.handle = b.handle) ∧
    (∀ a b : DBGattService,
      a.operator_eq b = true ↔ a.handle = b.handle ∧ a.end_handle = b.end_handle) := by
  refine ⟨fun a b => ?_, fun a b => ?_, fun a b => ?_⟩
  · simp [DBGattDesc.operator_eq]
  · simp [DBGattChar.operator_eq]
  · simp [DBGattService.operator_eq]

/-- C25, the case that fails: the first service of the example database (handles 1 to 6) and
the same service with the end handle 7 have the same handle, and `operator==` returns false
on them. -/
theorem operator_eq_service_end_handle :
    numberedService1.handle = ({ numberedService1 with end_handle := 7 }).handle ∧
    numberedService1.operator_eq { numberedService1 with end_handle := 7 } = false := by
  decide

/-- C26: for a frame whose first byte is not the number of an ATT opcode, `getSpecialized`
returns an object of the base class `AttPDUMsg`, not of `AttPDUUndefined`, that holds all
bytes of the frame unchanged; its opcode is the unknown first byte, not PDU_UNDEFINED. The
PDU tagged PDU_UNDEFINED is the one made of a frame whose first byte is 0. -/
theorem getSpecialized_unknown_opcode (byte : Nat) (rest : List Nat)
    (h : Opcode.ofNumber byte = none) :
    getSpecialized (byte :: rest) = ⟨.AttPDUMsg, byte :: rest⟩ ∧
    (getSpecialized (byte :: rest)).pdu = byte :: rest ∧
    (getSpecialized (byte :: rest)).cls ≠ .AttPDUUndefined ∧
    (getSpecialized (byte :: rest)).getOpcode = none ∧
    getSpecialized (0 :: rest) = ⟨.AttPDUUndefined, 0 :: rest⟩ ∧
    (getSpecialized (0 :: rest)).getOpcode = some .PDU_UNDEFINED := by
  have e : getSpecialized (byte :: rest) = ⟨.AttPDUMsg, byte :: rest⟩ := by
    simp only [getSpecialized, List.headD_cons, h]
  refine ⟨e, ?_, ?_, ?_, rfl, rfl⟩
  · rw [e]
  · rw [e]; intro hc; cases hc
  · rw [e]; exact h

/-- Instance of C26: 0x7F is not the number of an opcode, and the frame `7F 01 02` becomes a
base-class PDU holding `7F 01 02`. -/
theorem getSpecialized_unknown_opcode_witness :
    Opcode.ofNumber 0x7F = none ∧
    getSpecialized [0x7F, 1, 2] = ⟨.AttPDUMsg, [0x7F, 1, 2]⟩ :=
  ⟨by decide, (getSpecialized_unknown_opcode 0x7F [1, 2] (by decide)).1⟩

/-- C26, the case that fails: the frame `7F 01 02` starts with a byte that is no ATT opcode,
and the PDU made of it is neither of the class `AttPDUUndefined` nor tagged with the opcode
PDU_UNDEFINED. -/
theorem getSpecialized_7F_not_undefined :
    Opcode.all.all (fun opc => opc.number != 0x7F) = true ∧
    (getSpecialized [0x7F, 1, 2]).cls ≠ .AttPDUUndefined ∧
    (getSpecialized [0x7F, 1, 2]).getOpcode ≠ some .PDU_UNDEFINED ∧
    (getSpecialized [0x7F, 1, 2]).pdu = [0x7F, 1, 2] := by
  decide

/-- C27: with no property set the constructor of `BTGattEnv` yields 500 ms for the read and
the write reply timeout (not 550), 2500 ms for the initial reply timeout and 128 for the
ring capacity. -/
theorem BTGattEnv_unconfigured :
    BTGattEnv.ctor unconfigured = ⟨500, 500, 2500, 128⟩ ∧
    (BTGattEnv.ctor unconfigured).GATT_READ_COMMAND_REPLY_TIMEOUT ≠ 550 ∧
    (BTGattEnv.ctor unconfigured).GATT_WRITE_COMMAND_REPLY_TIMEOUT ≠ 550 := by
  refine ⟨rfl, ?_, ?_⟩ <;> decide

/-- C28: if `applyWrite` returns a code other than NO_ERROR, the attribute database of the
session is the one before the call, so no value and no value length at any handle
differs. -/
theorem applyWrite_error_unchanged (st : BTGattHandler) (handle : Nat) (value : List Nat)
    (value_offset : Nat) (h : (st.applyWrite handle value value_offset).2 ≠ .NO_ERROR) :
    (st.applyWrite handle value value_offset).1.gattServerData = st.gattServerData ∧
    ∀ h2 : Nat, (st.applyWrite handle value value_offset).1.valueAt h2 = st.valueAt h2 := by
  have hdb := BTGattHandler.applyWrite_error_db st handle value value_offset h
  refine ⟨hdb, fun h2 => ?_⟩
  unfold BTGattHandler.valueAt
  rw [hdb]

/-- Instance of C28 on the example session: writing five bytes to the value at handle 3
(capacity 4) returns INVALID_ATTRIBUTE_VALUE_LEN and the database is `numberedServer` as
before. -/
theorem applyWrite_error_unchanged_witness :
    (exampleSession.applyWrite 3 [1, 2, 3, 4, 5] 0).2 = .INVALID_ATTRIBUTE_VALUE_LEN ∧
    (exampleSession.applyWrite 3 [1, 2, 3, 4, 5] 0).1.gattServerData = some numberedServer :=
  ⟨by decide,
    (applyWrite_error_unchanged exampleSession 3 [1, 2, 3, 4, 5] 0 (by decide)).1⟩

/-! ## Responses with elements: the three responders -/

/-- C29: on a session with `usedMTU` from 23 up (a `uint16_t`), each of `replyFindInfoReq`,
`replyReadByTypeReq` and `replyReadByGroupTypeReq` hands exactly one PDU to `send`, whatever
the database and the request (start and end handle, attribute type), and if that PDU is a
FIND_INFORMATION_RSP, READ_BY_TYPE_RSP or READ_BY_GROUP_TYPE_RSP it has at least one element,
all its elements have the element size of the response, and its length
`2 + count * element size` is at most `usedMTU`. -/
theorem responders_elements_fit (st : BTGattHandler) (group : Bool)
    (startHandle endHandle : Nat) (type : uuid_t)
    (hmtu : 23 ≤ st.usedMTU) (hmtu2 : st.usedMTU ≤ 65535) :
    (∃ m : AttPDUMsg, (st.replyFindInfoReq startHandle endHandle).1.sent = st.sent ++ [m] ∧
      m.elementsFit st.usedMTU) ∧
    (∃ m : AttPDUMsg,
      (st.replyReadByTypeReq group startHandle endHandle type).1.sent = st.sent ++ [m] ∧
      m.elementsFit st.usedMTU) ∧
    (∃ m : AttPDUMsg,
      (st.replyReadByGroupTypeReq group startHandle endHandle type).1.sent = st.sent ++ [m] ∧
      m.elementsFit st.usedMTU) := by
  obtain ⟨hmax, hlen⟩ := rspMaxSize_bounds st.usedMTU hmtu hmtu2
  refine ⟨?_, ?_, ?_⟩
  · unfold BTGattHandler.replyFindInfoReq
    simp only []
    by_cases h0 : startHandle = 0
    · rw [if_pos h0]; exact st.send_fit _ trivial
    rw [if_neg h0]
    by_cases h1 : startHandle > endHandle
    · rw [if_pos h1]; exact st.send_fit _ trivial
    rw [if_neg h1]
    cases hdb : st.gattServerData with
    | none => exact st.send_fit _ trivial
    | some db =>
      simp only []
      obtain ⟨i1, i2⟩ := findInfoServices_inv startHandle endHandle
        (min 255 (nsize_sub st.usedMTU 2)) hmax db.services 0 0 [] (LoopInv.init _ _)
      have hfit : ∀ (esz : Nat) (elems : List InfoElem),
          ElemsFit (fun e : InfoElem => 2 + e.type.getTypeSizeInt)
            (min 255 (nsize_sub st.usedMTU 2)) esz elems →
          (AttPDUMsg.findInfoRsp esz elems).elementsFit st.usedMTU := by
        intro esz elems ⟨f1, f2, f3⟩
        exact ⟨f1, f2, by omega⟩
      cases hb : (findInfoServices startHandle endHandle (min 255 (nsize_sub st.usedMTU 2))
        db.services 0 0 []).1
      · simp only [Bool.false_eq_true, if_false]
        by_cases hl : 0 < (findInfoServices startHandle endHandle
          (min 255 (nsize_sub st.usedMTU 2)) db.services 0 0 []).2.2.2.length
        · rw [if_pos hl]
          exact st.send_fit _ (hfit _ _ (LoopInv.fit _ _ _ _ _ (i2 hb) hl))
        · rw [if_neg hl]; exact st.send_fit _ trivial
      · simp only [if_true]
        exact st.send_fit _ (hfit _ _ (i1 hb))
  · unfold BTGattHandler.replyReadByTypeReq
    simp only []
    by_cases h0 : startHandle = 0
    · rw [if_pos h0]; exact st.send_fit _ trivial
    rw [if_neg h0]
    by_cases h1 : startHandle > endHandle
    · rw [if_pos h1]; exact st.send_fit _ trivial
    rw [if_neg h1]
    by_cases ht : CHARACTERISTIC =
        (if type.equivalent (.uuid16 CHARACTERISTIC) then CHARACTERISTIC
          else if type.equivalent (.uuid16 INCLUDE_DECLARATION) then INCLUDE_DECLARATION
          else 0)
    · rw [if_pos ht]
      cases hdb : st.gattServerData with
      | none => exact st.send_fit _ trivial
      | some db =>
        simp only []
        obtain ⟨i1, i2⟩ := readByTypeServices_inv startHandle endHandle
          (min 255 (nsize_sub st.usedMTU 2)) hmax db.services 0 0 [] (LoopInv.init _ _)
        have hfit : ∀ (esz : Nat) (elems : List CharElem),
            ElemsFit (fun e : CharElem => 2 + 1 + 2 + e.value_type.getTypeSizeInt)
              (min 255 (nsize_sub st.usedMTU 2)) esz elems →
            (AttPDUMsg.readByTypeRsp esz elems).elementsFit st.usedMTU := by
          intro esz elems ⟨f1, f2, f3⟩
          exact ⟨f1, f2, by omega⟩
        cases hb : (readByTypeServices startHandle endHandle
          (min 255 (nsize_sub st.usedMTU 2)) db.services 0 0 []).1
        · simp only [Bool.false_eq_true, if_false]
          by_cases hl : 0 < (readByTypeServices startHandle endHandle
            (min 255 (nsize_sub st.usedMTU 2)) db.services 0 0 []).2.2.2.length
          · rw [if_pos hl]
            exact st.send_fit _ (hfit _ _ (LoopInv.fit _ _ _ _ _ (i2 hb) hl))
          · rw [if_neg hl]; exact st.send_fit _ trivial
        · simp only [if_true]
          exact st.send_fit _ (hfit _ _ (i1 hb))
    · rw [if_neg ht]
      by_cases hi : INCLUDE_DECLARATION =
          (if type.equivalent (.uuid16 CHARACTERISTIC) then CHARACTERISTIC
            else if type.equivalent (.uuid16 INCLUDE_DECLARATION) then INCLUDE_DECLARATION
            else 0)
      · rw [if_pos hi]; exact st.send_fit _ trivial
      · rw [if_neg hi]; exact st.send_fit _ trivial
  · unfold BTGattHandler.replyReadByGroupTypeReq
    simp only []
    by_cases h0 : startHandle = 0
    · rw [if_pos h0]; exact st.send_fit _ trivial
    rw [if_neg h0]
    by_cases h1 : startHandle > endHandle
    · rw [if_pos h1]; exact st.send_fit _ trivial
    rw [if_neg h1]
    by_cases ht : (if type.equivalent (.uuid16 PRIMARY_SERVICE) then PRIMARY_SERVICE
          else if type.equivalent (.uuid16 SECONDARY_SERVICE) then SECONDARY_SERVICE
          else 0) ≠ 0
    · rw [if_pos ht]
      cases hdb : st.gattServerData with
      | none => exact st.send_fit _ trivial
      | some db =>
        simp only []
        have i1 := groupTypeLoop_inv
          (if type.equivalent (.uuid16 PRIMARY_SERVICE) then PRIMARY_SERVICE
            else if type.equivalent (.uuid16 SECONDARY_SERVICE) then SECONDARY_SERVICE
            else 0) startHandle endHandle
          (min 255 (nsize_sub st.usedMTU 2)) hmax db.services 0 0 [] (LoopInv.init _ _)
        have hfit : ∀ (esz : Nat) (elems : List GroupElem),
            ElemsFit (fun e : GroupElem => 2 + 2 + e.type.getTypeSizeInt)
              (min 255 (nsize_sub st.usedMTU 2)) esz elems →
            (AttPDUMsg.readByGroupTypeRsp esz elems).elementsFit st.usedMTU := by
          intro esz elems ⟨f1, f2, f3⟩
          exact ⟨f1, f2, by omega⟩
        by_cases hb : (groupTypeLoop
          (if type.equivalent (.uuid16 PRIMARY_SERVICE) then PRIMARY_SERVICE
            else if type.equivalent (.uuid16 SECONDARY_SERVICE) then SECONDARY_SERVICE
            else 0) startHandle endHandle
          (min 255 (nsize_sub st.usedMTU 2)) db.services 0 0 []).1 = true
        · rw [if_pos hb]
          exact st.send_fit _ (hfit _ _ (i1 (Or.inl hb)))
        · rw [if_neg hb]
          by_cases hl : 0 < (groupTypeLoop
            (if type.equivalent (.uuid16 PRIMARY_SERVICE) then PRIMARY_SERVICE
              else if type.equivalent (.uuid16 SECONDARY_SERVICE) then SECONDARY_SERVICE
              else 0) startHandle endHandle
            (min 255 (nsize_sub st.usedMTU 2)) db.services 0 0 []).2.2.length
          · rw [if_pos hl]
            exact st.send_fit _ (hfit _ _ (i1 (Or.inr hl)))
          · rw [if_neg hl]; exact st.send_fit _ trivial
    · rw [if_neg ht]; exact st.send_fit _ trivial

/-- Instance of C29 on the example session (`usedMTU` 23): the FIND_INFORMATION_REQ for the
handles 1 to 0xFFFF is answered with the two descriptors of the database as elements of 4
bytes, a PDU of 10 bytes. -/
theorem responders_elements_fit_witness :
    (23 ≤ exampleSession.usedMTU ∧ exampleSession.usedMTU ≤ 65535) ∧
    (exampleSession.replyFindInfoReq 1 0xffff).1.sent =
      [.findInfoRsp 4 [⟨4, TYPE_CCC_DESC⟩, ⟨5, TYPE_USER_DESC⟩]] ∧
    (AttPDUMsg.findInfoRsp 4 [⟨4, TYPE_CCC_DESC⟩, ⟨5, TYPE_USER_DESC⟩]).elementsFit 23 :=
  ⟨⟨by decide, by decide⟩, by decide, by
    obtain ⟨m, h1, h2⟩ := (responders_elements_fit exampleSession false 1 0xffff
      (.uuid16 CHARACTERISTIC) (by decide) (by decide)).1
    have e : (exampleSession.replyFindInfoReq 1 0xffff).1.sent =
        [.findInfoRsp 4 [⟨4, TYPE_CCC_DESC⟩, ⟨5, TYPE_USER_DESC⟩]] := by decide
    rw [e] at h1
    have hm : m = .findInfoRsp 4 [⟨4, TYPE_CCC_DESC⟩, ⟨5, TYPE_USER_DESC⟩] := by
      have := List.singleton_inj.mp (h1.trans (List.nil_append _))
      exact this.symm
    rw [hm] at h2
    exact h2⟩

/-! ## The result of `readValue` and the descriptor scan -/

/-- C30: against every sequence of replies `readValue` ends, and when it returns, it returns
true exactly if value bytes have been added to the buffer. On a connected session (with
`usedMTU` from 5 up, a `uint16_t`) a READ_RSP without value bytes as the first reply makes
`readValue` return false after its single READ_REQ, so `readDescriptorValue` returns false
for that descriptor, and the descriptor scan of `discoverDescriptors` that found it as the
first element of a FIND_INFORMATION_RSP ends there: the descriptor is not added and no
further request is sent for the characteristic. -/
theorem readValue_true_iff_bytes (st : BTGattHandler)
    (hconn : st.validateConnected.2 = true) (h5 : 5 ≤ st.usedMTU) (hu : st.usedMTU ≤ 65535) :
    (∀ (s : BTGattHandler) (replies : List AttPDUMsg) (handle : Nat) (res : List Nat)
        (expectedLength : Int),
      ∃ run : ClientRun (List AttPDUMsg) (List Nat),
        s.readValue scriptedPeer (replies.length + 1) replies handle res expectedLength =
          some run ∧
        ∀ b : Bool, run.ret = .returned b → (b = true ↔ res.length < run.out.length)) ∧
    (∀ (more : List AttPDUMsg) (handle : Nat) (res : List Nat) (expectedLength : Int)
        (fuel : Nat),
      st.readValue scriptedPeer (fuel + 1) (.readNRsp false [] :: more) handle res
          expectedLength =
        some ⟨st.written (.readReq handle), more, res, .returned false⟩) ∧
    (∀ (more : List AttPDUMsg) (desc : BTGattDesc) (fuel : Nat),
      st.readDescriptorValue scriptedPeer (fuel + 1) (.readNRsp false [] :: more) desc 0 =
        some ⟨st.written (.readReq desc.handle), more, desc, .returned false⟩) ∧
    (∀ (more : List AttPDUMsg) (charDecl : BTGattChar) (cd_handle_iter cd_handle_end : Nat)
        (esz : Nat) (e : InfoElem) (es : List InfoElem) (rfuel fuel : Nat),
      cd_handle_iter ≤ cd_handle_end → charDecl.value_handle < e.handle →
      e.handle ≤ cd_handle_end →
      BTGattHandler.discoverDescriptorsLoop scriptedPeer (rfuel + 1) cd_handle_end (fuel + 1)
          st (.findInfoRsp esz (e :: es) :: .readNRsp false [] :: more) charDecl
          cd_handle_iter =
        some ⟨(st.written (.findInfoReq cd_handle_iter cd_handle_end)).written
          (.readReq e.handle), more, charDecl, true, none⟩) := by
  refine ⟨?_, ?_, ?_, ?_⟩
  · intro s replies handle res expectedLength
    exact BTGattHandler.readValueLoop_scripted handle expectedLength res.length
      (replies.length + 1) s replies res 0 (Nat.lt_succ_self _) rfl
  · intro more handle res expectedLength fuel
    exact BTGattHandler.readValue_empty_rsp st more handle res expectedLength fuel hconn
      (by omega) hu
  · intro more desc fuel
    exact BTGattHandler.readDescriptorValue_empty_rsp st more desc 0 fuel hconn (by omega) hu
  · intro more charDecl cd_handle_iter cd_handle_end esz e es rfuel fuel hiter hlo hhi
    exact BTGattHandler.discoverDescriptorsLoop_empty_value st more charDecl cd_handle_iter
      cd_handle_end esz e es rfuel fuel hconn h5 hu hiter hlo hhi

/-- Instance of C30 on the connected client session with `usedMTU` 23: the scan of the
characteristic with value handle 3 in a service that ends at handle 6 learns of the
descriptors 4 and 5, reads an empty value for descriptor 4 and stops; the two requests
written are FIND_INFORMATION_REQ(4..6) and READ_REQ(4), the reply the peer holds ready for
descriptor 5 is never asked for, and `discoverDescriptors` leaves the characteristic
without descriptors. -/
theorem readValue_true_iff_bytes_witness :
    (clientSession.validateConnected.2 = true ∧ 5 ≤ clientSession.usedMTU ∧
      clientSession.usedMTU ≤ 65535) ∧
    (BTGattHandler.discoverDescriptorsLoop scriptedPeer 1 6 1 clientSession
        [.findInfoRsp 4 [⟨4, TYPE_CCC_DESC⟩, ⟨5, TYPE_USER_DESC⟩], .readNRsp false [],
          .readNRsp false [0x48]] heartRateChar 4).map
        (fun s => (s.charDecl.descriptorList, s.done, s.st.wire, s.peer)) =
      some ([], true, [.findInfoReq 4 6, .readReq 4], [.readNRsp false [0x48]]) ∧
    (clientSession.discoverDescriptors scriptedPeer 2 2
        [.findInfoRsp 4 [⟨4, TYPE_CCC_DESC⟩, ⟨5, TYPE_USER_DESC⟩], .readNRsp false [],
          .readNRsp false [0x48]] ⟨true, 1, 6, .uuid16 0x180D, [heartRateChar]⟩).map
        (fun r => (r.out.characteristicList.map BTGattChar.descriptorList, r.st.wire,
          r.peer)) =
      some ([[]], [.findInfoReq 4 6, .readReq 4], [.readNRsp false [0x48]]) :=
  ⟨⟨by decide, by decide, by decide⟩, by
    rw [(readValue_true_iff_bytes clientSession (by decide) (by decide) (by decide)).2.2.2
      [.readNRsp false [0x48]] heartRateChar 4 6 4 ⟨4, TYPE_CCC_DESC⟩ [⟨5, TYPE_USER_DESC⟩]
      0 0 (by decide) (by decide) (by decide)]
    rfl, by decide⟩

end direct_bt
